import Mathlib

/-!
# Per-kind snapshot codecs of `runtime/vm/raw_object_snapshot.cc`

A shallow embedding of the `WriteTo` / `ReadFrom` pairs of the Dart VM snapshot
file.  The `SnapshotWriter` and `SnapshotReader` classes, the class-id table,
the object allocator and the finalizer registry live in other files of the
runtime; they appear here as explicit state:

* the output stream is the list of items the writer calls append, one item per
  call (`WriteInlinedObjectHeader`, `WriteIndexedObject`, `WriteTags`,
  `Write<T>`, `Align`, `WriteObjectImpl`, ...), `WriteBytes` appending one
  `uint8_t` item per byte;
* machine integers are `Int` / `Nat` with explicit wrap-around at 64 bits;
* `ASSERT` is the release-mode no-op, `UNREACHABLE()` aborts (`none`).
-/

set_option autoImplicit false

namespace Dart

/-! ## Class ids, tags, snapshot kinds -/

/-- Class ids named in `raw_object_snapshot.cc` (declared in `vm/class_id.h`).
    `kDynamicType` is the predefined VM-isolate object id the type-argument
    encoder substitutes; it shares the id space of `WriteVMIsolateObject`. -/
inductive ClassId
  | kIllegalCid | kNullCid | kSmiCid | kClassCid | kTypeCid | kTypeRefCid
  | kTypeParameterCid | kTypeParametersCid | kTypeArgumentsCid | kFunctionCid
  | kContextCid | kContextScopeCid | kApiErrorCid | kLanguageErrorCid
  | kUnhandledExceptionCid | kInstanceCid | kMintCid | kDoubleCid
  | kOneByteStringCid | kTwoByteStringCid | kArrayCid | kImmutableArrayCid
  | kGrowableObjectArrayCid | kLinkedHashMapCid | kFloat32x4Cid | kInt32x4Cid
  | kFloat64x2Cid | kCapabilityCid | kSendPortCid | kTransferableTypedDataCid
  | kRegExpCid | kWeakPropertyCid | kDynamicType | kByteDataViewCid
  | kTypedDataInt8ArrayViewCid | kTypedDataUint8ArrayViewCid
  | kTypedDataUint8ClampedArrayViewCid | kTypedDataInt16ArrayViewCid
  | kTypedDataUint16ArrayViewCid | kTypedDataInt32ArrayViewCid
  | kTypedDataUint32ArrayViewCid | kTypedDataInt64ArrayViewCid
  | kTypedDataUint64ArrayViewCid | kTypedDataFloat32ArrayViewCid
  | kTypedDataFloat64ArrayViewCid | kTypedDataInt32x4ArrayViewCid
  | kTypedDataFloat32x4ArrayViewCid | kTypedDataFloat64x2ArrayViewCid
  | kTypedDataInt8ArrayCid | kTypedDataUint8ArrayCid
  | kTypedDataUint8ClampedArrayCid | kTypedDataInt16ArrayCid
  | kTypedDataUint16ArrayCid | kTypedDataInt32ArrayCid
  | kTypedDataUint32ArrayCid | kTypedDataInt64ArrayCid
  | kTypedDataUint64ArrayCid | kTypedDataFloat32ArrayCid
  | kTypedDataFloat64ArrayCid | kTypedDataInt32x4ArrayCid
  | kTypedDataFloat32x4ArrayCid | kTypedDataFloat64x2ArrayCid
  | kExternalTypedDataInt8ArrayCid | kExternalTypedDataUint8ArrayCid
  | kExternalTypedDataUint8ClampedArrayCid | kExternalTypedDataInt16ArrayCid
  | kExternalTypedDataUint16ArrayCid | kExternalTypedDataInt32ArrayCid
  | kExternalTypedDataUint32ArrayCid | kExternalTypedDataInt64ArrayCid
  | kExternalTypedDataUint64ArrayCid | kExternalTypedDataFloat32ArrayCid
  | kExternalTypedDataFloat64ArrayCid | kExternalTypedDataInt32x4ArrayCid
  | kExternalTypedDataFloat32x4ArrayCid | kExternalTypedDataFloat64x2ArrayCid
  deriving DecidableEq, Repr

open ClassId

/-- Modelled from the spec: the header word of an object (`tags_`, declared in
    `vm/raw_object.h`) as the two fields this file decodes from it, the class
    id (`ClassIdTag::decode`) and the canonical flag (`IsCanonical`). -/
structure Tags where
  class_id : ClassId
  canonical : Bool
  deriving DecidableEq, Repr

/-- `UntaggedObject::IsCanonical(tags)`. -/
def UntaggedObject.IsCanonical (tags : Tags) : Bool := tags.canonical

/-- `UntaggedObject::ClassIdTag::decode(tags)`. -/
def UntaggedObject.ClassIdTag.decode (tags : Tags) : ClassId := tags.class_id

/-- `UntaggedObject::ClassIdTag::update(cid, tags)`. -/
def UntaggedObject.ClassIdTag.update (cid : ClassId) (tags : Tags) : Tags :=
  { tags with class_id := cid }

/-- Modelled from the spec: `Snapshot::Kind` (declared in `vm/snapshot.h`):
    the persisted-snapshot kinds and the inter-isolate message kind. -/
inductive Snapshot.Kind
  | kFull | kFullCore | kFullJIT | kFullAOT | kMessage | kNone | kInvalid
  deriving DecidableEq, Repr

/-- `Snapshot::IsFull(kind)`. -/
def Snapshot.IsFull (kind : Snapshot.Kind) : Bool :=
  kind == .kFull || kind == .kFullCore || kind == .kFullJIT || kind == .kFullAOT

/-- An object pointer: an immediate small integer or a heap address. -/
inductive ObjectPtr
  | smi (value : Int)
  | heap (addr : Nat)
  deriving DecidableEq, Repr

/-- `Object::null()`. -/
def Object.null : ObjectPtr := .heap 0

/-- The dynamic type, the predefined object behind `kDynamicType`. -/
def Object.dynamic_type : ObjectPtr := .heap 1

/-- `Symbols::This()`. -/
def Symbols.This : ObjectPtr := .heap 2

/-- `Object::zero_array()`. -/
def Object.zero_array : ObjectPtr := .heap 3

/-- `ptr->IsHeapObject()`. -/
def ObjectPtr.IsHeapObject : ObjectPtr → Bool
  | .smi _ => false
  | .heap _ => true

/-! ## Machine arithmetic -/

/-- Number of bits of `intptr_t` / `uintptr_t` (64-bit target). -/
def kBitsPerWord : Nat := 64

/-- Conversion of a mathematical integer to `intptr_t` (two's complement). -/
def toIntptr (x : Int) : Int :=
  (x + 2 ^ (kBitsPerWord - 1)) % 2 ^ kBitsPerWord - 2 ^ (kBitsPerWord - 1)

/-- Conversion `static_cast<uint64_t>(x)`. -/
def toUint64 (x : Int) : Nat := (x % 2 ^ 64).toNat

/-- `kMaxUint64`. -/
def kMaxUint64 : Nat := 2 ^ 64 - 1

/-- Default of `FLAG_externalize_typed_data_threshold` (`DEFINE_FLAG` at the
    top of the file). -/
def FLAG_externalize_typed_data_threshold_default : Nat := kMaxUint64

/-- Modelled from the spec: `Smi::IsValid(value)` (declared in `vm/object.h`):
    membership in the small-integer range.  The width of that range depends on
    the target (`kSmiBits` value bits plus sign) and is a parameter. -/
def Smi.IsValid (kSmiBits : Nat) (value : Int) : Bool :=
  decide (-(2 : Int) ^ kSmiBits ≤ value) && decide (value < (2 : Int) ^ kSmiBits)

/-! ## Stream items -/

/-- C types used as the template argument of `Write<T>` / `Read<T>`.
    `ObjectPtr` is the raw small-integer pointer written by
    `Write<ObjectPtr>(length())` and read back by `ReadSmiValue()`. -/
inductive ScalarType
  | bool_t | int8_t | uint8_t | uint16_t | int32_t | uint32_t | int64_t
  | uint64_t | float_t | double_t | ObjectPtr
  deriving DecidableEq, Repr

/-- One call on the writer's stream. Floating-point payloads are carried as
    their bit patterns. -/
inductive Item
  | InlinedObjectHeader (object_id : Int)
  | IndexedObject (cid : ClassId)
  | VMIsolateObject (cid : ClassId)
  | WriteTags (tags : Tags)
  | Write (type : ScalarType) (value : Int)
  | Align (alignment : Nat)
  | ObjectImpl (obj : ObjectPtr) (as_reference : Bool)
  | ClassIdOf (cls : ObjectPtr)
  | StaticImplicitClosure (object_id : Int) (func : ObjectPtr) (tags : Tags)
      (delayed_type_arguments : ObjectPtr)
  deriving DecidableEq, Repr

/-- `kAsReference`. -/
def kAsReference : Bool := true

/-- `kAsInlinedObject`. -/
def kAsInlinedObject : Bool := false

/-- `Zone::kAlignment` (declared in `vm/zone.h`). -/
def Zone.kAlignment : Nat := 8

/-- The items `WriteBytes(data, len)` appends: the first `len` bytes at `data`,
    one raw `uint8_t` each. -/
def bytesItems (data : List Nat) (len : Int) : List Item :=
  (data.take len.toNat).map (fun (b : Nat) => Item.Write .uint8_t (b : Int))

/-! ## Native memory, peers and the finalizer registry -/

/-- A `void*`: null, a block of native memory, or the transfer peer attached to
    a heap object. -/
inductive VoidPtr
  | nullptr
  | block (addr : Nat)
  | tpeer (owner : ObjectPtr)
  deriving DecidableEq, Repr

/-- Native (malloc) memory: the live blocks by address and the next unused
    address. -/
structure NativeMemory where
  blocks : List (Nat × List Nat)
  next : Nat
  deriving DecidableEq, Repr

/-- Contents of the block at `addr` (empty when there is none). -/
def NativeMemory.read (m : NativeMemory) (addr : Nat) : List Nat :=
  match m.blocks.find? (fun b => b.1 == addr) with
  | some b => b.2
  | none => []

/-- Whether `addr` is the address of a live block. -/
def NativeMemory.isLive (m : NativeMemory) (addr : Nat) : Bool :=
  m.blocks.any (fun b => b.1 == addr)

/-- `malloc(bytes)`: a zero-filled block at an address used by no live block. -/
def NativeMemory.malloc (m : NativeMemory) (bytes : Int) : Nat × NativeMemory :=
  let addr := (m.blocks.foldl (fun a b => max a b.1) m.next) + 1
  (addr, { blocks := (addr, List.replicate bytes.toNat 0) :: m.blocks, next := addr })

/-- `memmove(dst, src, bytes)` with the source given by its bytes. -/
def NativeMemory.memmove (m : NativeMemory) (dst : Nat) (src : List Nat) (bytes : Int) :
    NativeMemory :=
  { m with blocks := m.blocks.map (fun b =>
      if b.1 == dst then (b.1, src.take bytes.toNat ++ b.2.drop bytes.toNat) else b) }

/-- `free(buffer)`. -/
def NativeMemory.free (m : NativeMemory) (addr : Nat) : NativeMemory :=
  { m with blocks := m.blocks.filter (fun b => b.1 != addr) }

/-- `TransferableTypedDataPeer` (declared in `vm/object.h`): the external block
    of a transferable buffer; `data_ = nullptr` once transferred, `handle_`
    tells whether a finalizable handle is attached. -/
structure TransferableTypedDataPeer where
  data_ : VoidPtr
  length_ : Int
  handle_ : Bool
  deriving DecidableEq, Repr

/-- Modelled from the spec: `TransferableTypedDataPeer::ClearData()` (declared
    in `vm/object.h`): "invalidate the source-side peer", leaving no data, length
    zero and no handle. -/
def TransferableTypedDataPeer.ClearData (_p : TransferableTypedDataPeer) :
    TransferableTypedDataPeer :=
  { data_ := .nullptr, length_ := 0, handle_ := false }

/-- The part of the sender's heap the encoders of this file touch: native
    memory and the peer table behind `heap()->GetPeer(obj)`. -/
structure Heap where
  memory : NativeMemory
  peers : List (ObjectPtr × TransferableTypedDataPeer)
  deriving DecidableEq, Repr

/-- `heap()->GetPeer(obj)`. -/
def Heap.GetPeer (h : Heap) (obj : ObjectPtr) : Option TransferableTypedDataPeer :=
  (h.peers.find? (fun p => p.1 == obj)).map (fun p => p.2)

/-- Store through a peer pointer. -/
def Heap.setPeer (h : Heap) (obj : ObjectPtr) (p : TransferableTypedDataPeer) : Heap :=
  { h with peers := h.peers.map (fun q => if q.1 == obj then (q.1, p) else q) }

/-- The finalizer functions this file hands to the registry. -/
inductive Callback
  | IsolateMessageTypedDataFinalizer
  | TransferableNoop
  | TransferableSuccess
  deriving DecidableEq, Repr

/-- Run a finalizer on `(data, peer)`.
    * `IsolateMessageTypedDataFinalizer(isolate_callback_data, buffer)` frees
      `buffer` (the registry passes the record's peer as `buffer`);
    * the first lambda of `UntaggedTransferableTypedData::WriteTo` does nothing;
    * the second calls `EnsureFreedExternal` on the peer's handle (external-size
      accounting of the collector, no effect on this state) and `ClearData()`. -/
def Callback.run (c : Callback) (_data : VoidPtr) (peer : VoidPtr) (h : Heap) : Heap :=
  match c with
  | .IsolateMessageTypedDataFinalizer =>
    match peer with
    | .block addr => { h with memory := h.memory.free addr }
    | _ => h
  | .TransferableNoop => h
  | .TransferableSuccess =>
    match peer with
    | .tpeer owner =>
      match h.GetPeer owner with
      | some p => h.setPeer owner p.ClearData
      | none => h
    | _ => h

/-- `FinalizableData` (declared in `vm/dart_api_state.h`). -/
structure FinalizableData where
  data : VoidPtr
  peer : VoidPtr
  callback : Callback
  successful_transfer_callback : Option Callback
  deriving DecidableEq, Repr

/-- Modelled from the spec: the finalizer registry `MessageFinalizableData`
    (declared in `vm/dart_api_state.h`): `Put(length,data,peer,onFailure,
    onSuccess)` appends a record, `Take()` hands the records out in the order
    they were put. -/
structure MessageFinalizableData where
  records : List FinalizableData
  take_position : Nat
  external_size : Int
  deriving DecidableEq, Repr

/-- `Put(external_size, data, peer, callback, successful_transfer_callback)`. -/
def MessageFinalizableData.Put (r : MessageFinalizableData) (external_size : Int)
    (data peer : VoidPtr) (callback : Callback)
    (successful_transfer_callback : Option Callback) : MessageFinalizableData :=
  { r with
    records := r.records ++ [⟨data, peer, callback, successful_transfer_callback⟩],
    external_size := r.external_size + external_size }

/-- `Take()`: the next record not yet taken. -/
def MessageFinalizableData.Take (r : MessageFinalizableData) :
    Option (FinalizableData × MessageFinalizableData) :=
  match r.records.get? r.take_position with
  | some d => some (d, { r with take_position := r.take_position + 1 })
  | none => none

/-! ## The writer -/

/-- `Exceptions::ExceptionType` (declared in `vm/exceptions.h`). -/
inductive Exceptions.ExceptionType
  | kNone | kRange | kArgument | kUnsupported
  deriving DecidableEq, Repr

/-- State of a `SnapshotWriter` (a `MessageWriter` owns `finalizable_data`). -/
structure SnapshotWriter where
  stream : List Item
  finalizable_data : MessageFinalizableData
  exception_type : Exceptions.ExceptionType
  exception_msg : Option String
  can_send_any_object : Bool
  heap : Heap
  deriving DecidableEq, Repr

/-- Append one item to the stream. -/
def SnapshotWriter.emit (w : SnapshotWriter) (i : Item) : SnapshotWriter :=
  { w with stream := w.stream ++ [i] }

/-- `writer->WriteInlinedObjectHeader(object_id)`. -/
def SnapshotWriter.WriteInlinedObjectHeader (w : SnapshotWriter) (object_id : Int) :
    SnapshotWriter :=
  w.emit (.InlinedObjectHeader object_id)

/-- `writer->WriteIndexedObject(cid)`. -/
def SnapshotWriter.WriteIndexedObject (w : SnapshotWriter) (cid : ClassId) : SnapshotWriter :=
  w.emit (.IndexedObject cid)

/-- `writer->WriteVMIsolateObject(cid)`. -/
def SnapshotWriter.WriteVMIsolateObject (w : SnapshotWriter) (cid : ClassId) : SnapshotWriter :=
  w.emit (.VMIsolateObject cid)

/-- `writer->WriteTags(tags)`. -/
def SnapshotWriter.WriteTags (w : SnapshotWriter) (tags : Tags) : SnapshotWriter :=
  w.emit (.WriteTags tags)

/-- `writer->Write<T>(value)`. -/
def SnapshotWriter.Write (w : SnapshotWriter) (type : ScalarType) (value : Int) :
    SnapshotWriter :=
  w.emit (.Write type value)

/-- `writer->WriteDouble(value)`. -/
def SnapshotWriter.WriteDouble (w : SnapshotWriter) (value : Int) : SnapshotWriter :=
  w.emit (.Write .double_t value)

/-- `writer->Align(alignment)`. -/
def SnapshotWriter.Align (w : SnapshotWriter) (alignment : Nat) : SnapshotWriter :=
  w.emit (.Align alignment)

/-- `writer->WriteBytes(data, len)`. -/
def SnapshotWriter.WriteBytes (w : SnapshotWriter) (data : List Nat) (len : Int) :
    SnapshotWriter :=
  { w with stream := w.stream ++ bytesItems data len }

/-- `writer->WriteObjectImpl(obj, as_reference)`. -/
def SnapshotWriter.WriteObjectImpl (w : SnapshotWriter) (obj : ObjectPtr)
    (as_reference : Bool) : SnapshotWriter :=
  w.emit (.ObjectImpl obj as_reference)

/-- `writer->SetWriteException(type, msg)`. -/
def SnapshotWriter.SetWriteException (w : SnapshotWriter)
    (type : Exceptions.ExceptionType) (msg : String) : SnapshotWriter :=
  { w with exception_type := type, exception_msg := some msg }

/-- `static_cast<MessageWriter*>(writer)->finalizable_data()->Put(...)`. -/
def SnapshotWriter.Put (w : SnapshotWriter) (external_size : Int) (data peer : VoidPtr)
    (callback : Callback) (successful_transfer_callback : Option Callback) :
    SnapshotWriter :=
  { w with finalizable_data :=
      w.finalizable_data.Put external_size data peer callback successful_transfer_callback }

/-- `malloc(bytes)` on the writer's native memory. -/
def SnapshotWriter.malloc (w : SnapshotWriter) (bytes : Int) : Nat × SnapshotWriter :=
  let r := w.heap.memory.malloc bytes
  (r.1, { w with heap := { w.heap with memory := r.2 } })

/-- `memmove(dst, src, bytes)` on the writer's native memory. -/
def SnapshotWriter.memmove (w : SnapshotWriter) (dst : Nat) (src : List Nat) (bytes : Int) :
    SnapshotWriter :=
  { w with heap := { w.heap with memory := w.heap.memory.memmove dst src bytes } }

/-- The bytes a `uint8_t*` points at. -/
def Heap.bytesAt (h : Heap) : VoidPtr → List Nat
  | .block addr => h.memory.read addr
  | _ => []

/-! ## Sizes of the C element types -/

/-- `sizeof(int8_t)`. -/
def sizeof_int8_t : Int := 1
/-- `sizeof(uint8_t)`. -/
def sizeof_uint8_t : Int := 1
/-- `sizeof(int16_t)`. -/
def sizeof_int16_t : Int := 2
/-- `sizeof(uint16_t)`. -/
def sizeof_uint16_t : Int := 2
/-- `sizeof(int32_t)`. -/
def sizeof_int32_t : Int := 4
/-- `sizeof(uint32_t)`. -/
def sizeof_uint32_t : Int := 4
/-- `sizeof(int64_t)`. -/
def sizeof_int64_t : Int := 8
/-- `sizeof(uint64_t)`. -/
def sizeof_uint64_t : Int := 8
/-- `sizeof(float)`. -/
def sizeof_float : Int := 4
/-- `sizeof(double)`. -/
def sizeof_double : Int := 8

/-! ## Boxed integers and typed buffers: the objects -/

/-- `UntaggedMint`: a boxed 64-bit integer. -/
structure UntaggedMint where
  tags : Tags
  value_ : Int
  deriving DecidableEq, Repr

/-- `UntaggedTypedData`: an internal typed buffer; `length_` counts elements,
    `data` is the payload the object carries inline. -/
structure UntaggedTypedData where
  tags : Tags
  length_ : Int
  data : List Nat
  deriving DecidableEq, Repr

/-- `UntaggedExternalTypedData`: a typed buffer over a native block. -/
structure UntaggedExternalTypedData where
  tags : Tags
  length_ : Int
  data_ : VoidPtr
  deriving DecidableEq, Repr

/-- `UntaggedTransferableTypedData`: `self` is the object's own pointer, the
    key of its peer in the heap's peer table. -/
structure UntaggedTransferableTypedData where
  tags : Tags
  self : ObjectPtr
  deriving DecidableEq, Repr

/-- `UntaggedMint::WriteTo`. -/
def UntaggedMint.WriteTo (this : UntaggedMint) (writer : SnapshotWriter) (object_id : Int)
    (_kind : Snapshot.Kind) (_as_reference : Bool) : Option SnapshotWriter :=
  -- Write out the serialization header value for this object.
  let writer := writer.WriteInlinedObjectHeader object_id
  -- Write out the class and tags information.
  let writer := writer.WriteIndexedObject kMintCid
  let writer := writer.WriteTags this.tags
  -- Write out the 64 bit value.
  some (writer.Write .int64_t this.value_)

/-- The `switch (cid)` of `UntaggedTypedData::WriteTo`: `(external_cid, bytes)`;
    `none` is the `default:` branch, which is `UNREACHABLE()`. -/
def UntaggedTypedData.switchCid (cid : ClassId) (length : Int) : Option (ClassId × Int) :=
  match cid with
  | kTypedDataInt8ArrayCid =>
    some (kExternalTypedDataInt8ArrayCid, toIntptr (length * sizeof_int8_t))
  | kTypedDataUint8ArrayCid =>
    some (kExternalTypedDataUint8ArrayCid, toIntptr (length * sizeof_uint8_t))
  | kTypedDataUint8ClampedArrayCid =>
    some (kExternalTypedDataUint8ClampedArrayCid, toIntptr (length * sizeof_uint8_t))
  | kTypedDataInt16ArrayCid =>
    some (kExternalTypedDataInt16ArrayCid, toIntptr (length * sizeof_int16_t))
  | kTypedDataUint16ArrayCid =>
    some (kExternalTypedDataUint16ArrayCid, toIntptr (length * sizeof_uint16_t))
  | kTypedDataInt32ArrayCid =>
    some (kExternalTypedDataInt32ArrayCid, toIntptr (length * sizeof_int32_t))
  | kTypedDataUint32ArrayCid =>
    some (kExternalTypedDataUint32ArrayCid, toIntptr (length * sizeof_uint32_t))
  | kTypedDataInt64ArrayCid =>
    some (kExternalTypedDataInt64ArrayCid, toIntptr (length * sizeof_int64_t))
  | kTypedDataUint64ArrayCid =>
    some (kExternalTypedDataUint64ArrayCid, toIntptr (length * sizeof_uint64_t))
  | kTypedDataFloat32ArrayCid =>
    some (kExternalTypedDataFloat32ArrayCid, toIntptr (length * sizeof_float))
  | kTypedDataFloat64ArrayCid =>
    some (kExternalTypedDataFloat64ArrayCid, toIntptr (length * sizeof_double))
  | kTypedDataInt32x4ArrayCid =>
    some (kExternalTypedDataInt32x4ArrayCid, toIntptr (length * sizeof_int32_t * 4))
  | kTypedDataFloat32x4ArrayCid =>
    some (kExternalTypedDataFloat32x4ArrayCid, toIntptr (length * sizeof_float * 4))
  | kTypedDataFloat64x2ArrayCid =>
    some (kExternalTypedDataFloat64x2ArrayCid, toIntptr (length * sizeof_double * 2))
  | _ => none

/-- `UntaggedTypedData::WriteTo`; the flag `externalize_typed_data_threshold`
    is the first argument. -/
def UntaggedTypedData.WriteTo (FLAG_externalize_typed_data_threshold : Nat)
    (this : UntaggedTypedData) (writer : SnapshotWriter) (object_id : Int)
    (kind : Snapshot.Kind) (_as_reference : Bool) : Option SnapshotWriter :=
  let cid := this.tags.class_id
  let length := this.length_  -- In elements.
  match UntaggedTypedData.switchCid cid length with
  | none => none
  | some (external_cid, bytes) =>
    -- Write out the serialization header value for this object.
    let writer := writer.WriteInlinedObjectHeader object_id
    if kind = .kMessage ∧ toUint64 bytes ≥ FLAG_externalize_typed_data_threshold then
      -- Write as external.
      let writer := writer.WriteIndexedObject external_cid
      let writer := writer.WriteTags this.tags
      let writer := writer.Write .ObjectPtr this.length_
      let data := this.data
      let (passed_data, writer) := writer.malloc bytes
      let writer := writer.memmove passed_data data bytes
      some (writer.Put bytes (.block passed_data) (.block passed_data)
        .IsolateMessageTypedDataFinalizer none)
    else
      -- Write as internal.
      let writer := writer.WriteIndexedObject cid
      let writer := writer.WriteTags this.tags
      let writer := writer.Write .ObjectPtr this.length_
      let data := this.data
      let writer := writer.Align Zone.kAlignment
      some (writer.WriteBytes data bytes)

/-- The `switch (cid)` of `UntaggedExternalTypedData::WriteTo`: `bytes`;
    `none` is the `default:` branch, which is `UNREACHABLE()`. -/
def UntaggedExternalTypedData.switchCid (cid : ClassId) (length : Int) : Option Int :=
  match cid with
  | kExternalTypedDataInt8ArrayCid => some (toIntptr (length * sizeof_int8_t))
  | kExternalTypedDataUint8ArrayCid => some (toIntptr (length * sizeof_uint8_t))
  | kExternalTypedDataUint8ClampedArrayCid => some (toIntptr (length * sizeof_uint8_t))
  | kExternalTypedDataInt16ArrayCid => some (toIntptr (length * sizeof_int16_t))
  | kExternalTypedDataUint16ArrayCid => some (toIntptr (length * sizeof_uint16_t))
  | kExternalTypedDataInt32ArrayCid => some (toIntptr (length * sizeof_int32_t))
  | kExternalTypedDataUint32ArrayCid => some (toIntptr (length * sizeof_uint32_t))
  | kExternalTypedDataInt64ArrayCid => some (toIntptr (length * sizeof_int64_t))
  | kExternalTypedDataUint64ArrayCid => some (toIntptr (length * sizeof_uint64_t))
  | kExternalTypedDataFloat32ArrayCid => some (toIntptr (length * sizeof_float))
  | kExternalTypedDataFloat64ArrayCid => some (toIntptr (length * sizeof_double))
  | kExternalTypedDataInt32x4ArrayCid => some (toIntptr (length * sizeof_int32_t * 4))
  | kExternalTypedDataFloat32x4ArrayCid => some (toIntptr (length * sizeof_float * 4))
  | kExternalTypedDataFloat64x2ArrayCid => some (toIntptr (length * sizeof_double * 2))
  | _ => none

/-- `UntaggedExternalTypedData::WriteTo`. -/
def UntaggedExternalTypedData.WriteTo (this : UntaggedExternalTypedData)
    (writer : SnapshotWriter) (object_id : Int) (_kind : Snapshot.Kind)
    (_as_reference : Bool) : Option SnapshotWriter :=
  let cid := this.tags.class_id
  let length := this.length_  -- In elements.
  match UntaggedExternalTypedData.switchCid cid length with
  | none => none
  | some bytes =>
    -- Write out the serialization header value for this object.
    let writer := writer.WriteInlinedObjectHeader object_id
    -- Write as external.
    let writer := writer.WriteIndexedObject cid
    let writer := writer.WriteTags this.tags
    let writer := writer.Write .ObjectPtr this.length_
    let data := writer.heap.bytesAt this.data_
    let (passed_data, writer) := writer.malloc bytes
    let writer := writer.memmove passed_data data bytes
    some (writer.Put bytes (.block passed_data) (.block passed_data)
      .IsolateMessageTypedDataFinalizer none)

/-- The message of the re-transfer error. -/
def kTransferredAlreadyMsg : String :=
  "Illegal argument in isolate message" ++
  " : (TransferableTypedData has been transferred already)"

/-- `UntaggedTransferableTypedData::WriteTo`.  A missing peer is a null
    dereference (`none`). -/
def UntaggedTransferableTypedData.WriteTo (this : UntaggedTransferableTypedData)
    (writer : SnapshotWriter) (object_id : Int) (_kind : Snapshot.Kind)
    (_as_reference : Bool) : Option SnapshotWriter :=
  match writer.heap.GetPeer this.self with
  | none => none
  | some tpeer =>
    let length := tpeer.length_  -- In bytes.
    let data := tpeer.data_
    if data = .nullptr then
      some (writer.SetWriteException .kArgument kTransferredAlreadyMsg)
    else
      -- Write out the serialization header value for this object.
      let writer := writer.WriteInlinedObjectHeader object_id
      let writer := writer.WriteIndexedObject this.tags.class_id
      let writer := writer.WriteTags this.tags
      let writer := writer.Write .int64_t length
      some (writer.Put length data (.tpeer this.self)
        -- Finalizer does nothing - in case of failure to serialize,
        -- [data] remains wrapped in sender's [TransferableTypedData].
        .TransferableNoop
        -- This is invoked on successful serialization of the message
        (some .TransferableSuccess))

/-- The registry running the failure finalizer of record `d`. -/
def FinalizableData.runCallback (d : FinalizableData) (h : Heap) : Heap :=
  d.callback.run d.data d.peer h

/-- The registry running the successful-transfer callback of record `d`
    (nothing when the record has none). -/
def FinalizableData.runSuccessfulTransferCallback (d : FinalizableData) (h : Heap) : Heap :=
  match d.successful_transfer_callback with
  | some c => c.run d.data d.peer h
  | none => h

/-! ## The other object kinds -/

/-- `UntaggedClass`: `self` is the class pointer handed to `WriteClassId`. -/
structure UntaggedClass where
  tags : Tags
  self : ObjectPtr
  library : ObjectPtr
  deriving DecidableEq, Repr

/-- `UntaggedType`; `fields` are the pointer slots `from() .. to()`. -/
structure UntaggedType where
  tags : Tags
  type_state_ : Int
  nullability_ : Int
  type_class_id : ObjectPtr
  fields : List ObjectPtr
  deriving DecidableEq, Repr

/-- `UntaggedTypeRef`. -/
structure UntaggedTypeRef where
  tags : Tags
  fields : List ObjectPtr
  deriving DecidableEq, Repr

/-- `UntaggedTypeParameter`. -/
structure UntaggedTypeParameter where
  tags : Tags
  base_ : Int
  index_ : Int
  flags_ : Int
  nullability_ : Int
  parameterized_class_id_ : Int
  fields : List ObjectPtr
  deriving DecidableEq, Repr

/-- `UntaggedTypeParameters`. -/
structure UntaggedTypeParameters where
  tags : Tags
  fields : List ObjectPtr
  deriving DecidableEq, Repr

/-- `UntaggedTypeArguments`; `types` are `element(0) .. element(length - 1)`. -/
structure UntaggedTypeArguments where
  tags : Tags
  length_ : Int
  instantiations : ObjectPtr
  types : List ObjectPtr
  deriving DecidableEq, Repr

/-- `UntaggedClosure`. -/
structure UntaggedClosure where
  tags : Tags
  self : ObjectPtr
  delayed_type_arguments : ObjectPtr
  deriving DecidableEq, Repr

/-- `UntaggedContext`; `fields` are the slots `from() .. to(num_variables_)`:
    the parent followed by the variables. -/
structure UntaggedContext where
  tags : Tags
  num_variables_ : Int
  fields : List ObjectPtr
  deriving DecidableEq, Repr

/-- `UntaggedContextScope::VariableDesc`. -/
structure VariableDesc where
  declaration_token_pos : Int
  token_pos : Int
  name : ObjectPtr
  is_final : Bool
  is_const : Bool
  type : ObjectPtr
  context_index : Int
  context_level : Int
  deriving DecidableEq, Repr

/-- `UntaggedContextScope`. -/
structure UntaggedContextScope where
  tags : Tags
  num_variables_ : Int
  is_implicit_ : Bool
  vars : List VariableDesc
  deriving DecidableEq, Repr

/-- `UntaggedApiError`. -/
structure UntaggedApiError where
  tags : Tags
  fields : List ObjectPtr
  deriving DecidableEq, Repr

/-- `UntaggedLanguageError`. -/
structure UntaggedLanguageError where
  tags : Tags
  token_pos_ : Int
  report_after_token_ : Bool
  kind_ : Int
  fields : List ObjectPtr
  deriving DecidableEq, Repr

/-- `UntaggedUnhandledException`. -/
structure UntaggedUnhandledException where
  tags : Tags
  fields : List ObjectPtr
  deriving DecidableEq, Repr

/-- `UntaggedInstance`. -/
structure UntaggedInstance where
  tags : Tags
  deriving DecidableEq, Repr

/-- `UntaggedDouble`; `value_` is the bit pattern. -/
structure UntaggedDouble where
  tags : Tags
  value_ : Int
  deriving DecidableEq, Repr

/-- `UntaggedOneByteString`, `UntaggedTwoByteString` and their external
    variants: `length_` code units at `data` (`external_data_`). -/
structure UntaggedString where
  tags : Tags
  length_ : Int
  data : List Nat
  deriving DecidableEq, Repr

/-- `UntaggedArray` / `UntaggedImmutableArray`. -/
structure UntaggedArray where
  tags : Tags
  length_ : Int
  type_arguments : ObjectPtr
  data : List ObjectPtr
  deriving DecidableEq, Repr

/-- `UntaggedGrowableObjectArray`. -/
structure UntaggedGrowableObjectArray where
  tags : Tags
  type_arguments : ObjectPtr
  length_ : Int
  data : ObjectPtr
  deriving DecidableEq, Repr

/-- `UntaggedLinkedHashMap`; `data` points at the backing array, whose
    length and elements are `data_length` and `data_elements`. -/
structure UntaggedLinkedHashMap where
  tags : Tags
  type_arguments : ObjectPtr
  hash_mask : Int
  data : ObjectPtr
  data_length : Int
  data_elements : List ObjectPtr
  used_data : Int
  deleted_keys : Int
  deriving DecidableEq, Repr

/-- `UntaggedFloat32x4`; the lanes are bit patterns. -/
structure UntaggedFloat32x4 where
  tags : Tags
  value_0 : Int
  value_1 : Int
  value_2 : Int
  value_3 : Int
  deriving DecidableEq, Repr

/-- `UntaggedInt32x4`. -/
structure UntaggedInt32x4 where
  tags : Tags
  value_0 : Int
  value_1 : Int
  value_2 : Int
  value_3 : Int
  deriving DecidableEq, Repr

/-- `UntaggedFloat64x2`; the lanes are bit patterns. -/
structure UntaggedFloat64x2 where
  tags : Tags
  value_0 : Int
  value_1 : Int
  deriving DecidableEq, Repr

/-- `UntaggedTypedDataView`. -/
structure UntaggedTypedDataView where
  tags : Tags
  offset_in_bytes : Int
  length : Int
  typed_data : ObjectPtr
  deriving DecidableEq, Repr

/-- `UntaggedCapability`. -/
structure UntaggedCapability where
  tags : Tags
  id_ : Int
  deriving DecidableEq, Repr

/-- `UntaggedSendPort`. -/
structure UntaggedSendPort where
  tags : Tags
  id_ : Int
  origin_id_ : Int
  deriving DecidableEq, Repr

/-- `UntaggedRegExp`: the fields this file encodes. -/
structure UntaggedRegExp where
  tags : Tags
  capture_name_map : ObjectPtr
  pattern : ObjectPtr
  num_bracket_expressions_ : Int
  num_one_byte_registers_ : Int
  num_two_byte_registers_ : Int
  type_flags_ : Int
  deriving DecidableEq, Repr

/-- `UntaggedWeakProperty`. -/
structure UntaggedWeakProperty where
  tags : Tags
  fields : List ObjectPtr
  deriving DecidableEq, Repr

/-- A decoded object, by value: what a `ReadFrom` of this file returns.  A
    decoded transferable buffer is given with the peer `New(data, length)`
    attaches to it. -/
inductive Obj
  | Null
  | Smi (value : Int)
  | Class (cls : ObjectPtr)
  | Type (o : UntaggedType)
  | TypeRef (o : UntaggedTypeRef)
  | TypeParameter (o : UntaggedTypeParameter)
  | TypeParameters (o : UntaggedTypeParameters)
  | TypeArguments (o : UntaggedTypeArguments)
  | Context (o : UntaggedContext)
  | ContextScope (o : UntaggedContextScope)
  | ApiError (o : UntaggedApiError)
  | LanguageError (o : UntaggedLanguageError)
  | UnhandledException (o : UntaggedUnhandledException)
  | Instance (o : UntaggedInstance)
  | Mint (o : UntaggedMint)
  | Double (o : UntaggedDouble)
  | String (o : UntaggedString)
  | Array (o : UntaggedArray)
  | GrowableObjectArray (o : UntaggedGrowableObjectArray)
  | LinkedHashMap (o : UntaggedLinkedHashMap)
  | Float32x4 (o : UntaggedFloat32x4)
  | Int32x4 (o : UntaggedInt32x4)
  | Float64x2 (o : UntaggedFloat64x2)
  | TypedData (o : UntaggedTypedData)
  | ExternalTypedData (o : UntaggedExternalTypedData)
  | TypedDataView (o : UntaggedTypedDataView)
  | Capability (o : UntaggedCapability)
  | SendPort (o : UntaggedSendPort)
  | TransferableTypedData (tags : Tags) (peer : TransferableTypedDataPeer)
  | RegExp (o : UntaggedRegExp)
  | WeakProperty (o : UntaggedWeakProperty)
  deriving DecidableEq, Repr

/-! ## The reader -/

/-- `DeserializeState`. -/
inductive DeserializeState
  | kIsDeserialized | kIsNotDeserialized
  deriving DecidableEq, Repr

/-- What a decoder did, in program order. -/
inductive ReaderEvent
  | Read (type : ScalarType) (value : Int)
  | Align (alignment : Nat)
  | ReadObjectImpl (as_reference : Bool) (obj : ObjectPtr)
  | ReadClassId (cls : ObjectPtr)
  | New (cid : ClassId)
  | NewCanonical (cid : ClassId)
  | NewSymbol (cid : ClassId)
  | AddBackRef (object_id : Int) (state : DeserializeState)
  | GetBackRef (object_id : Int)
  | EnqueueTypePostprocessing (object_id : Int)
  | EnqueueRehashingOfMap (object_id : Int)
  | DefaultCodeForType (object_id : Int)
  | InitializeTypeTestingStubNonAtomic (object_id : Int)
  | Canonicalize (object_id : Int)
  | Take
  | AddFinalizer (peer : VoidPtr) (callback : Callback) (external_size : Int)
  | SetHash (value : Int)
  | NoSafepointScope
  deriving DecidableEq, Repr

/-- One entry of the reader's back-reference table. -/
structure BackRef where
  object_id : Int
  obj : Obj
  state : DeserializeState
  deriving DecidableEq, Repr

/-- State of a `SnapshotReader` (a `MessageSnapshotReader` owns
    `finalizable_data`): the unread items, the back-reference table, the two
    deferred-postprocessing queues, the log of what the decoders did and the
    next unused heap address. -/
structure SnapshotReader where
  stream : List Item
  backrefs : List BackRef
  finalizable_data : MessageFinalizableData
  types_to_postprocess : List Int
  maps_to_rehash : List Int
  events : List ReaderEvent
  next_addr : Nat
  deriving DecidableEq, Repr

/-- A decoder step: it fails (`none`) on a stream that is out of step and on
    `UNREACHABLE()`. -/
abbrev Rd (α : Type) : Type := StateT SnapshotReader Option α

/-- Append an event to the log. -/
def SnapshotReader.log (e : ReaderEvent) : Rd Unit :=
  fun r => some ((), { r with events := r.events ++ [e] })

/-- `reader->Read<T>()`. -/
def SnapshotReader.Read (type : ScalarType) : Rd Int :=
  fun r =>
    match r.stream with
    | .Write t v :: rest =>
      if t = type then
        some (v, { r with stream := rest, events := r.events ++ [.Read type v] })
      else none
    | _ => none

/-- `reader->ReadSmiValue()`. -/
def SnapshotReader.ReadSmiValue : Rd Int := SnapshotReader.Read .ObjectPtr

/-- `reader->ReadDouble()`. -/
def SnapshotReader.ReadDouble : Rd Int := SnapshotReader.Read .double_t

/-- `reader->Align(alignment)`. -/
def SnapshotReader.Align (alignment : Nat) : Rd Unit :=
  fun r =>
    match r.stream with
    | .Align a :: rest =>
      if a = alignment then
        some ((), { r with stream := rest, events := r.events ++ [.Align alignment] })
      else none
    | _ => none

/-- The loop of `n` calls `reader->Read<T>()`. -/
def SnapshotReader.ReadN (type : ScalarType) : Nat → Rd (List Int)
  | 0 => pure []
  | n + 1 => do
    let v ← SnapshotReader.Read type
    let vs ← SnapshotReader.ReadN type n
    pure (v :: vs)

/-- `reader->ReadBytes(data, len)`. -/
def SnapshotReader.ReadBytes (len : Int) : Rd (List Nat) := do
  let vs ← SnapshotReader.ReadN .uint8_t len.toNat
  pure (vs.map Int.toNat)

/-- Modelled from the spec: `reader->ReadObjectImpl(as_reference)` (defined in
    `vm/snapshot.cc`): decodes the next child of the stream, inlined or as a
    back-reference, and returns it. -/
def SnapshotReader.ReadObjectImpl (as_reference : Bool) : Rd ObjectPtr :=
  fun r =>
    match r.stream with
    | .ObjectImpl p _ :: rest =>
      some (p, { r with stream := rest,
                        events := r.events ++ [.ReadObjectImpl as_reference p] })
    | .VMIsolateObject kDynamicType :: rest =>
      some (Object.dynamic_type,
        { r with stream := rest,
                 events := r.events ++ [.ReadObjectImpl as_reference Object.dynamic_type] })
    | _ => none

/-- The loop of `n` calls `reader->ReadObjectImpl(as_reference)`. -/
def SnapshotReader.ReadObjects (as_reference : Bool) : Nat → Rd (List ObjectPtr)
  | 0 => pure []
  | n + 1 => do
    let p ← SnapshotReader.ReadObjectImpl as_reference
    let ps ← SnapshotReader.ReadObjects as_reference n
    pure (p :: ps)

/-- `READ_OBJECT_FIELDS` / `READ_COMPRESSED_OBJECT_FIELDS(object, from, to,
    as_reference)` with `num_flds = to - from`: the loop runs for
    `i = 0 .. num_flds` inclusive. -/
def READ_OBJECT_FIELDS (num_flds : Int) (as_reference : Bool) : Rd (List ObjectPtr) :=
  SnapshotReader.ReadObjects as_reference (num_flds + 1).toNat

/-- `reader->AddBackRef(object_id, &handle, state)`. -/
def SnapshotReader.AddBackRef (object_id : Int) (obj : Obj) (state : DeserializeState) :
    Rd Unit :=
  fun r => some ((), { r with backrefs := r.backrefs ++ [⟨object_id, obj, state⟩],
                              events := r.events ++ [.AddBackRef object_id state] })

/-- The object currently bound to `object_id`. -/
def SnapshotReader.lookup (r : SnapshotReader) (object_id : Int) : Option Obj :=
  (r.backrefs.find? (fun b => b.object_id == object_id)).map (fun b => b.obj)

/-- `reader->GetBackRef(object_id)`. -/
def SnapshotReader.GetBackRef (object_id : Int) : Rd (Option Obj) :=
  fun r => some (r.lookup object_id,
    { r with events := r.events ++ [.GetBackRef object_id] })

/-- A store through the handle that `AddBackRef` bound to `object_id`: the
    table holds the handle, so the binding sees the new value. -/
def SnapshotReader.StoreHandle (object_id : Int) (obj : Obj) : Rd Unit :=
  fun r => some ((), { r with backrefs := r.backrefs.map (fun b =>
    if b.object_id == object_id then { b with obj := obj } else b) })

/-- `static_cast<MessageSnapshotReader*>(reader)->finalizable_data()->Take()`. -/
def SnapshotReader.Take : Rd FinalizableData :=
  fun r =>
    match r.finalizable_data.Take with
    | some (d, fd) =>
      some (d, { r with finalizable_data := fd, events := r.events ++ [.Take] })
    | none => none

/-- `reader->EnqueueTypePostprocessing(type)`. -/
def SnapshotReader.EnqueueTypePostprocessing (object_id : Int) : Rd Unit :=
  fun r => some ((), { r with types_to_postprocess := r.types_to_postprocess ++ [object_id],
                              events := r.events ++ [.EnqueueTypePostprocessing object_id] })

/-- `reader->EnqueueRehashingOfMap(map)`. -/
def SnapshotReader.EnqueueRehashingOfMap (object_id : Int) : Rd Unit :=
  fun r => some ((), { r with maps_to_rehash := r.maps_to_rehash ++ [object_id],
                              events := r.events ++ [.EnqueueRehashingOfMap object_id] })

/-- `UNREACHABLE()` in a decoder. -/
def UNREACHABLE {α : Type} : Rd α := fun _ => none

/-- Constants and layout facts the decoders take from other files of the
    runtime: the number of value bits of a small integer (`kSmiBits`),
    `TypedDataBase::ElementSizeInBytes(cid)`, `LinkedHashMap::kInitialIndexSize`,
    the slot distance `to() - from()` of each fixed-shape kind and
    `to(num_vars) - from()` of a context, `cls.id()` of a class object and the
    numeric value of `kFunctionCid`. -/
structure Target where
  kSmiBits : Nat
  ElementSizeInBytes : ClassId → Int
  kInitialIndexSize : Nat
  to_minus_from : ClassId → Int
  context_to_minus_from : Int → Int
  class_id_of : ObjectPtr → Int
  kFunctionCid : Int

/-- The first of `p, 2 p, 4 p, ...` that is at least `x`, giving up after
    `fuel` doublings. -/
def Utils.RoundUpToPowerOfTwo.loop : Nat → Nat → Nat → Nat
  | 0, p, _ => p
  | fuel + 1, p, x => if x ≤ p then p else Utils.RoundUpToPowerOfTwo.loop fuel (2 * p) x

/-- `Utils::RoundUpToPowerOfTwo(x)` on `uintptr_t` (declared in `vm/utils.h`):
    the least power of two that is at least `x`, modulo the word size; `0` for
    `0`. -/
def Utils.RoundUpToPowerOfTwo (x : Nat) : Nat :=
  if x = 0 then 0 else Utils.RoundUpToPowerOfTwo.loop kBitsPerWord 1 x % 2 ^ kBitsPerWord

/-- `TokenPosition::kMinSource` (declared in `vm/token_position.h`). -/
def TokenPosition.kMinSource : Int := 0

/-- An allocation `X::New(...)`, recorded in the log. -/
def SnapshotReader.New (cid : ClassId) : Rd Unit := SnapshotReader.log (.New cid)

/-- A call `obj.Canonicalize(thread)` / `X::NewCanonical`, recorded in the log. -/
def SnapshotReader.Canonicalize (object_id : Int) : Rd Unit :=
  SnapshotReader.log (.Canonicalize object_id)

/-! ## Decoders -/

/-- `Class::ReadFrom`: `reader->ReadClassId(object_id)`. -/
def Class.ReadFrom (_object_id : Int) (_tags : Tags) (_kind : Snapshot.Kind)
    (_as_reference : Bool) : Rd Obj :=
  fun r =>
    match r.stream with
    | .ClassIdOf cls :: rest =>
      some (.Class cls, { r with stream := rest, events := r.events ++ [.ReadClassId cls] })
    | _ => none

/-- `Mint::New(value)`. -/
def Mint.New (value : Int) : Rd Obj := do
  SnapshotReader.log (.New kMintCid)
  pure (Obj.Mint { tags := ⟨kMintCid, false⟩, value_ := value })

/-- `Mint::NewCanonical(value)`. -/
def Mint.NewCanonical (value : Int) : Rd Obj := do
  SnapshotReader.log (.NewCanonical kMintCid)
  pure (Obj.Mint { tags := ⟨kMintCid, true⟩, value_ := value })

/-- `Mint::ReadFrom`. -/
def Mint.ReadFrom (t : Target) (object_id : Int) (tags : Tags) (_kind : Snapshot.Kind)
    (_as_reference : Bool) : Rd Obj := do
  -- Read the 64 bit value for the object.
  let value ← SnapshotReader.Read .int64_t
  -- Check if the value could potentially fit in a Smi in our current
  -- architecture, if so return the object as a Smi.
  if Smi.IsValid t.kSmiBits value then
    let smi := Obj.Smi (toIntptr value)
    SnapshotReader.AddBackRef object_id smi .kIsDeserialized
    pure smi
  else
    -- Create a Mint object or get canonical one if it is a canonical constant.
    let mint ← if UntaggedObject.IsCanonical tags then Mint.NewCanonical value
               else Mint.New value
    SnapshotReader.AddBackRef object_id mint .kIsDeserialized
    pure mint

/-- `Double::New(value)`. -/
def Double.New (value : Int) : Rd Obj := do
  SnapshotReader.log (.New kDoubleCid)
  pure (Obj.Double { tags := ⟨kDoubleCid, false⟩, value_ := value })

/-- `Double::NewCanonical(value)`. -/
def Double.NewCanonical (value : Int) : Rd Obj := do
  SnapshotReader.log (.NewCanonical kDoubleCid)
  pure (Obj.Double { tags := ⟨kDoubleCid, true⟩, value_ := value })

/-- `Double::ReadFrom`. -/
def Double.ReadFrom (object_id : Int) (tags : Tags) (_kind : Snapshot.Kind)
    (_as_reference : Bool) : Rd Obj := do
  -- Read the double value for the object.
  let value ← SnapshotReader.ReadDouble
  -- Create a Double object or get canonical one if it is a canonical constant.
  let dbl ← if UntaggedObject.IsCanonical tags then Double.NewCanonical value
            else Double.New value
  SnapshotReader.AddBackRef object_id dbl .kIsDeserialized
  pure dbl

/-- `String::ReadFromImpl<StringType, CharacterType>`: `cid` is the class id of
    `StringType`, `char_type` is `CharacterType`; the canonical branch returns
    the symbol `new_symbol` yields for the characters read. -/
def String.ReadFromImpl (cid : ClassId) (char_type : ScalarType) (len : Int) (tags : Tags)
    (_kind : Snapshot.Kind) : Rd Obj := do
  if UntaggedObject.IsCanonical tags then
    -- Set up canonical string object.
    let ptr ← SnapshotReader.ReadN char_type len.toNat
    SnapshotReader.log (.NewSymbol cid)
    pure (Obj.String { tags := ⟨cid, true⟩, length_ := len, data := ptr.map Int.toNat })
  else
    -- Set up the string object.
    SnapshotReader.New cid
    SnapshotReader.log (.SetHash 0)  -- Will get computed when needed.
    if len = 0 then
      pure (Obj.String { tags := ⟨cid, false⟩, length_ := len, data := [] })
    else
      SnapshotReader.log .NoSafepointScope
      let chars ← SnapshotReader.ReadN char_type len.toNat
      pure (Obj.String { tags := ⟨cid, false⟩, length_ := len, data := chars.map Int.toNat })

/-- `OneByteString::ReadFrom`. -/
def OneByteString.ReadFrom (object_id : Int) (tags : Tags) (kind : Snapshot.Kind)
    (_as_reference : Bool) : Rd Obj := do
  -- Read the length so that we can determine instance size to allocate.
  let len ← SnapshotReader.ReadSmiValue
  let str_obj ← String.ReadFromImpl kOneByteStringCid .uint8_t len tags kind
  SnapshotReader.AddBackRef object_id str_obj .kIsDeserialized
  pure str_obj

/-- `TwoByteString::ReadFrom`. -/
def TwoByteString.ReadFrom (object_id : Int) (tags : Tags) (kind : Snapshot.Kind)
    (_as_reference : Bool) : Rd Obj := do
  -- Read the length so that we can determine instance size to allocate.
  let len ← SnapshotReader.ReadSmiValue
  let str_obj ← String.ReadFromImpl kTwoByteStringCid .uint16_t len tags kind
  SnapshotReader.AddBackRef object_id str_obj .kIsDeserialized
  pure str_obj

/-- `Array::New(len)` / `ImmutableArray::New(len)`: `len` null slots. -/
def Array.New (cid : ClassId) (len : Int) : Rd UntaggedArray := do
  SnapshotReader.New cid
  pure { tags := ⟨cid, false⟩, length_ := len, type_arguments := Object.null,
         data := List.replicate len.toNat Object.null }

/-- Modelled from the spec: `reader->ArrayReadFrom(object_id, result, len,
    tags)` (defined in `vm/snapshot.cc`): the type arguments, inline, then the
    `len` elements in order, in reference mode unless the array is canonical. -/
def SnapshotReader.ArrayReadFrom (_object_id : Int) (result : UntaggedArray) (len : Int)
    (tags : Tags) : Rd UntaggedArray := do
  let type_arguments ← SnapshotReader.ReadObjectImpl kAsInlinedObject
  let as_reference := if UntaggedObject.IsCanonical tags then false else true
  let elements ← SnapshotReader.ReadObjects as_reference len.toNat
  pure { result with type_arguments := type_arguments, data := elements }

/-- The common body of `Array::ReadFrom` and `ImmutableArray::ReadFrom` up to
    the element loop: the array to fill, reused from the back-reference table in
    inline mode when the id is already bound. -/
def Array.ReadFrom.prepare (cid : ClassId) (object_id : Int) (as_reference : Bool) (len : Int) :
    Rd UntaggedArray := do
  let bound ← if !as_reference then SnapshotReader.GetBackRef object_id else pure none
  let state := if !as_reference then DeserializeState.kIsDeserialized
               else DeserializeState.kIsNotDeserialized
  match bound with
  | some (.Array a) => pure a
  | some _ => UNREACHABLE
  | none =>
    let array ← Array.New cid len
    SnapshotReader.AddBackRef object_id (.Array array) state
    pure array

/-- `Array::ReadFrom`. -/
def Array.ReadFrom (object_id : Int) (tags : Tags) (_kind : Snapshot.Kind)
    (as_reference : Bool) : Rd Obj := do
  -- Read the length so that we can determine instance size to allocate.
  let len ← SnapshotReader.ReadSmiValue
  let array ← Array.ReadFrom.prepare kArrayCid object_id as_reference len
  if !as_reference then
    -- Read all the individual elements for inlined objects.
    let array ← SnapshotReader.ArrayReadFrom object_id array len tags
    SnapshotReader.StoreHandle object_id (.Array array)
    pure (.Array array)
  else
    pure (.Array array)

/-- `ImmutableArray::ReadFrom`. -/
def ImmutableArray.ReadFrom (object_id : Int) (tags : Tags) (_kind : Snapshot.Kind)
    (as_reference : Bool) : Rd Obj := do
  -- Read the length so that we can determine instance size to allocate.
  let len ← SnapshotReader.ReadSmiValue
  let array ← Array.ReadFrom.prepare kImmutableArrayCid object_id as_reference len
  if !as_reference then
    -- Read all the individual elements for inlined objects.
    let array ← SnapshotReader.ArrayReadFrom object_id array len tags
    if UntaggedObject.IsCanonical tags then
      SnapshotReader.Canonicalize object_id
      let array := { array with tags := { array.tags with canonical := true } }
      SnapshotReader.StoreHandle object_id (.Array array)
      pure (.Array array)
    else
      SnapshotReader.StoreHandle object_id (.Array array)
      pure (.Array array)
  else
    pure (.Array array)

/-- `GrowableObjectArray::ReadFrom`. -/
def GrowableObjectArray.ReadFrom (object_id : Int) (_tags : Tags) (_kind : Snapshot.Kind)
    (_as_reference : Bool) : Rd Obj := do
  SnapshotReader.New kGrowableObjectArrayCid
  let array : UntaggedGrowableObjectArray :=
    { tags := ⟨kGrowableObjectArrayCid, false⟩, type_arguments := Object.null,
      length_ := 0, data := Object.null }
  SnapshotReader.AddBackRef object_id (.GrowableObjectArray array) .kIsDeserialized
  -- Read type arguments of growable array object.
  let type_arguments ← SnapshotReader.ReadObjectImpl kAsInlinedObject
  let array := { array with type_arguments := type_arguments }
  -- Read length of growable array object.
  let length ← SnapshotReader.ReadSmiValue
  let array := { array with length_ := length }
  -- Read the backing array of growable array object.
  let data ← SnapshotReader.ReadObjectImpl kAsReference
  let array := { array with data := data }
  SnapshotReader.StoreHandle object_id (.GrowableObjectArray array)
  pure (.GrowableObjectArray array)

/-- The loop `for (i = 0; i < used_data; i++) data.SetAt(i, ReadObjectImpl(..))`
    of `LinkedHashMap::ReadFrom`, from index `i` with `n` iterations left. -/
def LinkedHashMap.ReadFrom.loop (read_as_reference : Bool) :
    Nat → Nat → List ObjectPtr → Rd (List ObjectPtr)
  | 0, _, data => pure data
  | n + 1, i, data => do
    let p ← SnapshotReader.ReadObjectImpl read_as_reference
    LinkedHashMap.ReadFrom.loop read_as_reference n (i + 1) (data.set i p)

/-- A fresh heap address for an array allocated by a decoder. -/
def SnapshotReader.freshAddr : Rd ObjectPtr :=
  fun r => some (.heap r.next_addr, { r with next_addr := r.next_addr + 1 })

/-- `LinkedHashMap::ReadFrom`. -/
def LinkedHashMap.ReadFrom (t : Target) (object_id : Int) (tags : Tags)
    (_kind : Snapshot.Kind) (_as_reference : Bool) : Rd Obj := do
  -- Since the map might contain itself as a key or value, allocate first.
  SnapshotReader.New kLinkedHashMapCid
  let map : UntaggedLinkedHashMap :=
    { tags := ⟨kLinkedHashMapCid, false⟩, type_arguments := Object.null, hash_mask := 0,
      data := Object.null, data_length := 0, data_elements := [], used_data := 0,
      deleted_keys := 0 }
  SnapshotReader.AddBackRef object_id (.LinkedHashMap map) .kIsDeserialized
  -- Read the type arguments.
  let type_arguments ← SnapshotReader.ReadObjectImpl kAsInlinedObject
  let map := { map with type_arguments := type_arguments }
  -- Read the number of key/value pairs.
  let len ← SnapshotReader.ReadSmiValue
  let used_data := toIntptr (len * 2)
  let map := { map with used_data := used_data }
  -- Allocate the data array.
  let data_size := toIntptr
    (max (Utils.RoundUpToPowerOfTwo (toUint64 used_data)) t.kInitialIndexSize : Nat)
  SnapshotReader.New kArrayCid
  let data_ptr ← SnapshotReader.freshAddr
  let data := List.replicate data_size.toNat Object.null
  let map := { map with data := data_ptr, data_length := data_size, deleted_keys := 0 }
  -- The index and hashMask is regenerated by the maps themselves on demand.
  let map := { map with hash_mask := 0 }
  SnapshotReader.EnqueueRehashingOfMap object_id
  -- Read the keys and values.
  let read_as_reference := if UntaggedObject.IsCanonical tags then false else true
  let data ← LinkedHashMap.ReadFrom.loop read_as_reference used_data.toNat 0 data
  let map := { map with data_elements := data }
  SnapshotReader.StoreHandle object_id (.LinkedHashMap map)
  pure (.LinkedHashMap map)

/-- `Float32x4::ReadFrom`. -/
def Float32x4.ReadFrom (object_id : Int) (_tags : Tags) (_kind : Snapshot.Kind)
    (_as_reference : Bool) : Rd Obj := do
  -- Read the values.
  let value0 ← SnapshotReader.Read .float_t
  let value1 ← SnapshotReader.Read .float_t
  let value2 ← SnapshotReader.Read .float_t
  let value3 ← SnapshotReader.Read .float_t
  -- Create a Float32x4 object.
  SnapshotReader.New kFloat32x4Cid
  let simd := Obj.Float32x4 ⟨⟨kFloat32x4Cid, false⟩, value0, value1, value2, value3⟩
  SnapshotReader.AddBackRef object_id simd .kIsDeserialized
  pure simd

/-- `Int32x4::ReadFrom`. -/
def Int32x4.ReadFrom (object_id : Int) (_tags : Tags) (_kind : Snapshot.Kind)
    (_as_reference : Bool) : Rd Obj := do
  -- Read the values.
  let value0 ← SnapshotReader.Read .uint32_t
  let value1 ← SnapshotReader.Read .uint32_t
  let value2 ← SnapshotReader.Read .uint32_t
  let value3 ← SnapshotReader.Read .uint32_t
  -- Create a Float32x4 object.
  SnapshotReader.New kInt32x4Cid
  let simd := Obj.Int32x4 ⟨⟨kInt32x4Cid, false⟩, value0, value1, value2, value3⟩
  SnapshotReader.AddBackRef object_id simd .kIsDeserialized
  pure simd

/-- `Float64x2::ReadFrom`. -/
def Float64x2.ReadFrom (object_id : Int) (_tags : Tags) (_kind : Snapshot.Kind)
    (_as_reference : Bool) : Rd Obj := do
  -- Read the values.
  let value0 ← SnapshotReader.Read .double_t
  let value1 ← SnapshotReader.Read .double_t
  -- Create a Float64x2 object.
  SnapshotReader.New kFloat64x2Cid
  let simd := Obj.Float64x2 ⟨⟨kFloat64x2Cid, false⟩, value0, value1⟩
  SnapshotReader.AddBackRef object_id simd .kIsDeserialized
  pure simd

/-- `TypedData::ReadFrom`. -/
def TypedData.ReadFrom (t : Target) (object_id : Int) (tags : Tags) (_kind : Snapshot.Kind)
    (_as_reference : Bool) : Rd Obj := do
  let cid := UntaggedObject.ClassIdTag.decode tags
  let len ← SnapshotReader.ReadSmiValue
  SnapshotReader.New cid
  let result : UntaggedTypedData := { tags := ⟨cid, false⟩, length_ := len, data := [] }
  SnapshotReader.AddBackRef object_id (.TypedData result) .kIsDeserialized
  -- Setup the array elements.
  let element_size := t.ElementSizeInBytes cid
  let length_in_bytes := toIntptr (len * element_size)
  SnapshotReader.log .NoSafepointScope
  SnapshotReader.Align Zone.kAlignment
  let data ← SnapshotReader.ReadBytes length_in_bytes
  let result := { result with data := data }
  -- If it is a canonical constant make it one.
  if UntaggedObject.IsCanonical tags then
    SnapshotReader.Canonicalize object_id
    let result := { result with tags := { result.tags with canonical := true } }
    SnapshotReader.StoreHandle object_id (.TypedData result)
    pure (.TypedData result)
  else
    SnapshotReader.StoreHandle object_id (.TypedData result)
    pure (.TypedData result)

/-- `ExternalTypedData::ReadFrom`. -/
def ExternalTypedData.ReadFrom (t : Target) (object_id : Int) (tags : Tags)
    (_kind : Snapshot.Kind) (_as_reference : Bool) : Rd Obj := do
  let cid := UntaggedObject.ClassIdTag.decode tags
  let length ← SnapshotReader.ReadSmiValue
  let finalizable_data ← SnapshotReader.Take
  let data := finalizable_data.data
  SnapshotReader.New cid
  let obj := Obj.ExternalTypedData { tags := ⟨cid, false⟩, length_ := length, data_ := data }
  SnapshotReader.AddBackRef object_id obj .kIsDeserialized
  let external_size := toIntptr (length * t.ElementSizeInBytes cid)
  SnapshotReader.log
    (.AddFinalizer finalizable_data.peer finalizable_data.callback external_size)
  pure obj

/-- `TypedDataView::ReadFrom`. -/
def TypedDataView.ReadFrom (object_id : Int) (tags : Tags) (_kind : Snapshot.Kind)
    (as_reference : Bool) : Rd Obj := do
  let cid := UntaggedObject.ClassIdTag.decode tags
  SnapshotReader.New cid
  let view : UntaggedTypedDataView :=
    { tags := ⟨cid, false⟩, offset_in_bytes := 0, length := 0, typed_data := Object.null }
  SnapshotReader.AddBackRef object_id (.TypedDataView view) .kIsDeserialized
  let offset_in_bytes ← SnapshotReader.ReadSmiValue
  let length ← SnapshotReader.ReadSmiValue
  let typed_data ← SnapshotReader.ReadObjectImpl as_reference
  let view := { view with typed_data := typed_data, offset_in_bytes := offset_in_bytes,
                          length := length }
  SnapshotReader.StoreHandle object_id (.TypedDataView view)
  pure (.TypedDataView view)

/-- `Capability::ReadFrom`. -/
def Capability.ReadFrom (object_id : Int) (_tags : Tags) (_kind : Snapshot.Kind)
    (_as_reference : Bool) : Rd Obj := do
  let id ← SnapshotReader.Read .uint64_t
  SnapshotReader.New kCapabilityCid
  let result := Obj.Capability { tags := ⟨kCapabilityCid, false⟩, id_ := id }
  SnapshotReader.AddBackRef object_id result .kIsDeserialized
  pure result

/-- `SendPort::ReadFrom`. -/
def SendPort.ReadFrom (object_id : Int) (_tags : Tags) (_kind : Snapshot.Kind)
    (_as_reference : Bool) : Rd Obj := do
  let id ← SnapshotReader.Read .uint64_t
  let origin_id ← SnapshotReader.Read .uint64_t
  SnapshotReader.New kSendPortCid
  let result := Obj.SendPort { tags := ⟨kSendPortCid, false⟩, id_ := id,
                               origin_id_ := origin_id }
  SnapshotReader.AddBackRef object_id result .kIsDeserialized
  pure result

/-- `TransferableTypedData::ReadFrom`. -/
def TransferableTypedData.ReadFrom (object_id : Int) (_tags : Tags) (_kind : Snapshot.Kind)
    (_as_reference : Bool) : Rd Obj := do
  let length ← SnapshotReader.Read .int64_t
  let length := toIntptr length
  let finalizable_data ← SnapshotReader.Take
  let data := finalizable_data.data
  SnapshotReader.New kTransferableTypedDataCid
  let transferableTypedData := Obj.TransferableTypedData ⟨kTransferableTypedDataCid, false⟩
    { data_ := data, length_ := length, handle_ := true }
  SnapshotReader.AddBackRef object_id transferableTypedData .kIsDeserialized
  pure transferableTypedData

/-- `RegExp::ReadFrom`. -/
def RegExp.ReadFrom (object_id : Int) (_tags : Tags) (_kind : Snapshot.Kind)
    (_as_reference : Bool) : Rd Obj := do
  -- Allocate RegExp object.
  SnapshotReader.New kRegExpCid
  let regex : UntaggedRegExp :=
    { tags := ⟨kRegExpCid, false⟩, capture_name_map := Object.null, pattern := Object.null,
      num_bracket_expressions_ := 0, num_one_byte_registers_ := 0,
      num_two_byte_registers_ := 0, type_flags_ := 0 }
  SnapshotReader.AddBackRef object_id (.RegExp regex) .kIsDeserialized
  -- Read and Set all the other fields.
  let capture_name_map ← SnapshotReader.ReadObjectImpl kAsInlinedObject
  let regex := { regex with capture_name_map := capture_name_map }
  let pattern ← SnapshotReader.ReadObjectImpl kAsInlinedObject
  let regex := { regex with pattern := pattern }
  let v ← SnapshotReader.Read .int32_t
  let regex := { regex with num_bracket_expressions_ := v }
  let v ← SnapshotReader.Read .int32_t
  let regex := { regex with num_one_byte_registers_ := v }
  let v ← SnapshotReader.Read .int32_t
  let regex := { regex with num_two_byte_registers_ := v }
  let v ← SnapshotReader.Read .int8_t
  let regex := { regex with type_flags_ := v }
  SnapshotReader.StoreHandle object_id (.RegExp regex)
  pure (.RegExp regex)

/-- `WeakProperty::ReadFrom`. -/
def WeakProperty.ReadFrom (t : Target) (object_id : Int) (_tags : Tags)
    (_kind : Snapshot.Kind) (_as_reference : Bool) : Rd Obj := do
  -- Allocate the weak property object.
  SnapshotReader.New kWeakPropertyCid
  let weak_property : UntaggedWeakProperty := { tags := ⟨kWeakPropertyCid, false⟩, fields := [] }
  SnapshotReader.AddBackRef object_id (.WeakProperty weak_property) .kIsDeserialized
  -- Set all the object fields.
  let fields ← READ_OBJECT_FIELDS (t.to_minus_from kWeakPropertyCid) kAsReference
  let weak_property := { weak_property with fields := fields }
  SnapshotReader.StoreHandle object_id (.WeakProperty weak_property)
  pure (.WeakProperty weak_property)

/-- `Context::ReadFrom`. -/
def Context.ReadFrom (t : Target) (object_id : Int) (_tags : Tags) (_kind : Snapshot.Kind)
    (_as_reference : Bool) : Rd Obj := do
  -- Allocate context object.
  let num_vars ← SnapshotReader.Read .int32_t
  SnapshotReader.AddBackRef object_id .Null .kIsDeserialized
  if num_vars ≠ 0 then
    SnapshotReader.New kContextCid
    -- Set all the object fields.
    let num_flds := t.context_to_minus_from num_vars
    let fields ← SnapshotReader.ReadObjects kAsReference (num_flds + 1).toNat
    let context := Obj.Context { tags := ⟨kContextCid, false⟩, num_variables_ := num_vars,
                                 fields := fields }
    SnapshotReader.StoreHandle object_id context
    pure context
  else
    pure .Null

/-- `ContextScope::ReadFrom`. -/
def ContextScope.ReadFrom (object_id : Int) (_tags : Tags) (_kind : Snapshot.Kind)
    (_as_reference : Bool) : Rd Obj := do
  -- Allocate context object.
  let is_implicit ← SnapshotReader.Read .bool_t
  if is_implicit ≠ 0 then
    SnapshotReader.New kContextScopeCid
    let context_scope : UntaggedContextScope :=
      { tags := ⟨kContextScopeCid, false⟩, num_variables_ := 1, is_implicit_ := true,
        vars := [] }
    SnapshotReader.AddBackRef object_id (.ContextScope context_scope) .kIsDeserialized
    let type ← SnapshotReader.ReadObjectImpl kAsInlinedObject
    -- Create a descriptor for 'this' variable.
    let var : VariableDesc :=
      { token_pos := TokenPosition.kMinSource,
        declaration_token_pos := TokenPosition.kMinSource,
        name := Symbols.This, is_final := true, is_const := false, type := type,
        context_index := 0, context_level := 0 }
    let context_scope := { context_scope with vars := [var] }
    SnapshotReader.StoreHandle object_id (.ContextScope context_scope)
    pure (.ContextScope context_scope)
  else
    UNREACHABLE

/-- `ApiError::ReadFrom`. -/
def ApiError.ReadFrom (t : Target) (object_id : Int) (_tags : Tags) (_kind : Snapshot.Kind)
    (_as_reference : Bool) : Rd Obj := do
  -- Allocate ApiError object.
  SnapshotReader.New kApiErrorCid
  let api_error : UntaggedApiError := { tags := ⟨kApiErrorCid, false⟩, fields := [] }
  SnapshotReader.AddBackRef object_id (.ApiError api_error) .kIsDeserialized
  -- Set all the object fields.
  let fields ← READ_OBJECT_FIELDS (t.to_minus_from kApiErrorCid) kAsReference
  let api_error := { api_error with fields := fields }
  SnapshotReader.StoreHandle object_id (.ApiError api_error)
  pure (.ApiError api_error)

/-- `LanguageError::ReadFrom`. -/
def LanguageError.ReadFrom (t : Target) (object_id : Int) (_tags : Tags)
    (_kind : Snapshot.Kind) (_as_reference : Bool) : Rd Obj := do
  -- Allocate LanguageError object.
  SnapshotReader.New kLanguageErrorCid
  let language_error : UntaggedLanguageError :=
    { tags := ⟨kLanguageErrorCid, false⟩, token_pos_ := 0, report_after_token_ := false,
      kind_ := 0, fields := [] }
  SnapshotReader.AddBackRef object_id (.LanguageError language_error) .kIsDeserialized
  -- Set all non object fields.
  let token_pos ← SnapshotReader.Read .int32_t
  let language_error := { language_error with token_pos_ := token_pos }
  let report_after_token ← SnapshotReader.Read .bool_t
  let language_error :=
    { language_error with report_after_token_ := decide (report_after_token ≠ 0) }
  let kind ← SnapshotReader.Read .uint8_t
  let language_error := { language_error with kind_ := kind }
  -- Set all the object fields.
  let fields ← READ_OBJECT_FIELDS (t.to_minus_from kLanguageErrorCid) kAsReference
  let language_error := { language_error with fields := fields }
  SnapshotReader.StoreHandle object_id (.LanguageError language_error)
  pure (.LanguageError language_error)

/-- `UnhandledException::ReadFrom`. -/
def UnhandledException.ReadFrom (t : Target) (object_id : Int) (_tags : Tags)
    (_kind : Snapshot.Kind) (_as_reference : Bool) : Rd Obj := do
  SnapshotReader.New kUnhandledExceptionCid
  let result : UntaggedUnhandledException :=
    { tags := ⟨kUnhandledExceptionCid, false⟩, fields := [] }
  SnapshotReader.AddBackRef object_id (.UnhandledException result) .kIsDeserialized
  -- Set all the object fields.
  let fields ← READ_OBJECT_FIELDS (t.to_minus_from kUnhandledExceptionCid) kAsReference
  let result := { result with fields := fields }
  SnapshotReader.StoreHandle object_id (.UnhandledException result)
  pure (.UnhandledException result)

/-- `Instance::ReadFrom`. -/
def Instance.ReadFrom (object_id : Int) (tags : Tags) (_kind : Snapshot.Kind)
    (_as_reference : Bool) : Rd Obj := do
  -- Create an Instance object or get canonical one if it is a canonical
  -- constant.
  SnapshotReader.New kInstanceCid
  let obj : UntaggedInstance := { tags := ⟨kInstanceCid, false⟩ }
  if UntaggedObject.IsCanonical tags then
    SnapshotReader.Canonicalize object_id
    let obj := Obj.Instance { obj with tags := { obj.tags with canonical := true } }
    SnapshotReader.AddBackRef object_id obj .kIsDeserialized
    pure obj
  else
    SnapshotReader.AddBackRef object_id (.Instance obj) .kIsDeserialized
    pure (.Instance obj)

/-- The tail shared by the type decoders: `DefaultCodeForType`, then
    `InitializeTypeTestingStubNonAtomic`. -/
def FillInTypeTestingStub (object_id : Int) : Rd Unit := do
  SnapshotReader.log (.DefaultCodeForType object_id)
  SnapshotReader.log (.InitializeTypeTestingStubNonAtomic object_id)

/-- `Type::ReadFrom`. `set_type_class(cls)` stores the id of `cls`. -/
def Type.ReadFrom (t : Target) (object_id : Int) (tags : Tags) (_kind : Snapshot.Kind)
    (as_reference : Bool) : Rd Obj := do
  -- Determine if the type class of this type is in the full snapshot.
  let _ ← SnapshotReader.Read .bool_t
  -- Allocate type object.
  SnapshotReader.New kTypeCid
  let type : UntaggedType :=
    { tags := ⟨kTypeCid, false⟩, type_state_ := 0, nullability_ := 0,
      type_class_id := Object.null, fields := [] }
  let is_canonical := UntaggedObject.IsCanonical tags
  SnapshotReader.AddBackRef object_id (.Type type) .kIsDeserialized
  -- Set all non object fields.
  let combined ← SnapshotReader.Read .uint8_t
  let type := { type with type_state_ := combined / 16 }
  let type := { type with nullability_ := combined % 16 }
  -- Read the code object for the type testing stub and set its entrypoint.
  SnapshotReader.EnqueueTypePostprocessing object_id
  -- Set all the object fields.
  let fields ← READ_OBJECT_FIELDS (t.to_minus_from kTypeCid) as_reference
  let type := { type with fields := fields }
  -- Read in the type class.
  let cls ← SnapshotReader.ReadObjectImpl as_reference
  let type := { type with type_class_id := .smi (t.class_id_of cls) }
  -- Fill in the type testing stub.
  FillInTypeTestingStub object_id
  if is_canonical then
    SnapshotReader.Canonicalize object_id
    let type := { type with tags := { type.tags with canonical := true } }
    SnapshotReader.StoreHandle object_id (.Type type)
    pure (.Type type)
  else
    SnapshotReader.StoreHandle object_id (.Type type)
    pure (.Type type)

/-- `TypeRef::ReadFrom`. -/
def TypeRef.ReadFrom (t : Target) (object_id : Int) (_tags : Tags) (_kind : Snapshot.Kind)
    (_as_reference : Bool) : Rd Obj := do
  -- Allocate type ref object.
  SnapshotReader.New kTypeRefCid
  let type_ref : UntaggedTypeRef := { tags := ⟨kTypeRefCid, false⟩, fields := [] }
  SnapshotReader.AddBackRef object_id (.TypeRef type_ref) .kIsDeserialized
  -- Read the code object for the type testing stub and set its entrypoint.
  SnapshotReader.EnqueueTypePostprocessing object_id
  -- Set all the object fields.
  let fields ← READ_OBJECT_FIELDS (t.to_minus_from kTypeRefCid) kAsReference
  let type_ref := { type_ref with fields := fields }
  -- Fill in the type testing stub.
  FillInTypeTestingStub object_id
  SnapshotReader.StoreHandle object_id (.TypeRef type_ref)
  pure (.TypeRef type_ref)

/-- `TypeParameter::ReadFrom`. `set_parameterized_class(cls)` stores the id of
    `cls`, and `kFunctionCid` for the null class. -/
def TypeParameter.ReadFrom (t : Target) (object_id : Int) (tags : Tags)
    (_kind : Snapshot.Kind) (_as_reference : Bool) : Rd Obj := do
  -- Allocate type parameter object.
  SnapshotReader.New kTypeParameterCid
  let type_parameter : UntaggedTypeParameter :=
    { tags := ⟨kTypeParameterCid, false⟩, base_ := 0, index_ := 0, flags_ := 0,
      nullability_ := 0, parameterized_class_id_ := 0, fields := [] }
  let is_canonical := UntaggedObject.IsCanonical tags
  SnapshotReader.AddBackRef object_id (.TypeParameter type_parameter) .kIsDeserialized
  -- Set all non object fields.
  let base ← SnapshotReader.Read .uint8_t
  let type_parameter := { type_parameter with base_ := base }
  let index ← SnapshotReader.Read .uint8_t
  let type_parameter := { type_parameter with index_ := index }
  let combined ← SnapshotReader.Read .uint8_t
  let type_parameter := { type_parameter with flags_ := combined / 16 }
  let type_parameter := { type_parameter with nullability_ := combined % 16 }
  -- Read the code object for the type testing stub and set its entrypoint.
  SnapshotReader.EnqueueTypePostprocessing object_id
  -- Set all the object fields.
  let fields ← READ_OBJECT_FIELDS (t.to_minus_from kTypeParameterCid) kAsReference
  let type_parameter := { type_parameter with fields := fields }
  -- Read in the parameterized class.
  let cls ← SnapshotReader.ReadObjectImpl kAsReference
  let cls := if t.class_id_of cls = t.kFunctionCid then Object.null else cls
  let type_parameter := { type_parameter with
    parameterized_class_id_ := if cls = Object.null then t.kFunctionCid else t.class_id_of cls }
  -- Fill in the type testing stub.
  FillInTypeTestingStub object_id
  if is_canonical then
    SnapshotReader.Canonicalize object_id
    let type_parameter :=
      { type_parameter with tags := { type_parameter.tags with canonical := true } }
    SnapshotReader.StoreHandle object_id (.TypeParameter type_parameter)
    pure (.TypeParameter type_parameter)
  else
    SnapshotReader.StoreHandle object_id (.TypeParameter type_parameter)
    pure (.TypeParameter type_parameter)

/-- `TypeParameters::ReadFrom`. -/
def TypeParameters.ReadFrom (t : Target) (object_id : Int) (_tags : Tags)
    (_kind : Snapshot.Kind) (_as_reference : Bool) : Rd Obj := do
  SnapshotReader.New kTypeParametersCid
  let type_parameters : UntaggedTypeParameters :=
    { tags := ⟨kTypeParametersCid, false⟩, fields := [] }
  SnapshotReader.AddBackRef object_id (.TypeParameters type_parameters) .kIsDeserialized
  -- Set all the object fields.
  let fields ← READ_OBJECT_FIELDS (t.to_minus_from kTypeParametersCid) kAsReference
  let type_parameters := { type_parameters with fields := fields }
  SnapshotReader.StoreHandle object_id (.TypeParameters type_parameters)
  pure (.TypeParameters type_parameters)

/-- `TypeArguments::ReadFrom`. -/
def TypeArguments.ReadFrom (object_id : Int) (tags : Tags) (_kind : Snapshot.Kind)
    (as_reference : Bool) : Rd Obj := do
  -- Read the length so that we can determine instance size to allocate.
  let len ← SnapshotReader.ReadSmiValue
  SnapshotReader.New kTypeArgumentsCid
  let type_arguments : UntaggedTypeArguments :=
    { tags := ⟨kTypeArgumentsCid, false⟩, length_ := len, instantiations := Object.null,
      types := List.replicate len.toNat Object.null }
  let is_canonical := UntaggedObject.IsCanonical tags
  SnapshotReader.AddBackRef object_id (.TypeArguments type_arguments) .kIsDeserialized
  -- Set the instantiations field, which is only read from a full snapshot.
  let type_arguments := { type_arguments with instantiations := Object.zero_array }
  -- Now set all the type fields.
  let types ← SnapshotReader.ReadObjects as_reference len.toNat
  let type_arguments := { type_arguments with types := types }
  -- Set the canonical bit.
  if is_canonical then
    SnapshotReader.Canonicalize object_id
    let type_arguments :=
      { type_arguments with tags := { type_arguments.tags with canonical := true } }
    SnapshotReader.StoreHandle object_id (.TypeArguments type_arguments)
    pure (.TypeArguments type_arguments)
  else
    SnapshotReader.StoreHandle object_id (.TypeArguments type_arguments)
    pure (.TypeArguments type_arguments)

/-- `Closure::ReadFrom`, the decoders generated by
    `MESSAGE_SNAPSHOT_UNREACHABLE` / `MESSAGE_SNAPSHOT_ILLEGAL`, and
    `ExternalOneByteString::ReadFrom` / `ExternalTwoByteString::ReadFrom`:
    `UNREACHABLE()`. -/
def Unreachable.ReadFrom (_object_id : Int) (_tags : Tags) (_kind : Snapshot.Kind)
    (_as_reference : Bool) : Rd Obj :=
  UNREACHABLE

/-- `IsTypedDataClassId(cid)`: the 14 internal typed-data class ids. -/
def IsTypedDataClassId (cid : ClassId) : Bool :=
  (UntaggedTypedData.switchCid cid 0).isSome

/-- `IsExternalTypedDataClassId(cid)`: the 14 external typed-data class ids. -/
def IsExternalTypedDataClassId (cid : ClassId) : Bool :=
  (UntaggedExternalTypedData.switchCid cid 0).isSome

/-- `IsTypedDataViewClassId(cid) || cid == kByteDataViewCid`. -/
def IsTypedDataViewClassId : ClassId → Bool
  | kByteDataViewCid | kTypedDataInt8ArrayViewCid | kTypedDataUint8ArrayViewCid
  | kTypedDataUint8ClampedArrayViewCid | kTypedDataInt16ArrayViewCid
  | kTypedDataUint16ArrayViewCid | kTypedDataInt32ArrayViewCid
  | kTypedDataUint32ArrayViewCid | kTypedDataInt64ArrayViewCid
  | kTypedDataUint64ArrayViewCid | kTypedDataFloat32ArrayViewCid
  | kTypedDataFloat64ArrayViewCid | kTypedDataInt32x4ArrayViewCid
  | kTypedDataFloat32x4ArrayViewCid | kTypedDataFloat64x2ArrayViewCid => true
  | _ => false

/-- Modelled from the spec: the decode half of the Kind Dispatch Table
    ("total map from kind tag to (encode, decode)", built in `vm/snapshot.cc`):
    the `ReadFrom` of this file that a kind tag selects.  A tag with no decoder
    in this file, or with one that is `UNREACHABLE()`, aborts. -/
def ReadFromOf (t : Target) (cid : ClassId) :
    Int → Tags → Snapshot.Kind → Bool → Rd Obj :=
  match cid with
  | kClassCid => Class.ReadFrom
  | kTypeCid => Type.ReadFrom t
  | kTypeRefCid => TypeRef.ReadFrom t
  | kTypeParameterCid => TypeParameter.ReadFrom t
  | kTypeParametersCid => TypeParameters.ReadFrom t
  | kTypeArgumentsCid => TypeArguments.ReadFrom
  | kContextCid => Context.ReadFrom t
  | kContextScopeCid => ContextScope.ReadFrom
  | kApiErrorCid => ApiError.ReadFrom t
  | kLanguageErrorCid => LanguageError.ReadFrom t
  | kUnhandledExceptionCid => UnhandledException.ReadFrom t
  | kInstanceCid => Instance.ReadFrom
  | kMintCid => Mint.ReadFrom t
  | kDoubleCid => Double.ReadFrom
  | kOneByteStringCid => OneByteString.ReadFrom
  | kTwoByteStringCid => TwoByteString.ReadFrom
  | kArrayCid => Array.ReadFrom
  | kImmutableArrayCid => ImmutableArray.ReadFrom
  | kGrowableObjectArrayCid => GrowableObjectArray.ReadFrom
  | kLinkedHashMapCid => LinkedHashMap.ReadFrom t
  | kFloat32x4Cid => Float32x4.ReadFrom
  | kInt32x4Cid => Int32x4.ReadFrom
  | kFloat64x2Cid => Float64x2.ReadFrom
  | kCapabilityCid => Capability.ReadFrom
  | kSendPortCid => SendPort.ReadFrom
  | kTransferableTypedDataCid => TransferableTypedData.ReadFrom
  | kRegExpCid => RegExp.ReadFrom
  | kWeakPropertyCid => WeakProperty.ReadFrom t
  | cid =>
    if IsTypedDataClassId cid then TypedData.ReadFrom t
    else if IsExternalTypedDataClassId cid then ExternalTypedData.ReadFrom t
    else if IsTypedDataViewClassId cid then TypedDataView.ReadFrom
    else Unreachable.ReadFrom

/-- Modelled from the spec: decoding of one inlined object, framed as
    "[id-marker][kind-tag][tag-byte: canonical|kind-flags][scalar fields…]
    [child slots…]" (`SnapshotReader::ReadInlinedObject` in `vm/snapshot.cc`):
    read the header, the kind tag and the tags word, then run the decoder the
    kind tag selects; the decoder receives the tags word with its class-id
    field set to the kind tag read. -/
def SnapshotReader.ReadInlinedObject (t : Target) (kind : Snapshot.Kind)
    (as_reference : Bool) : Rd Obj :=
  fun r =>
    match r.stream with
    | .InlinedObjectHeader object_id :: .IndexedObject cid :: .WriteTags tags :: rest =>
      ReadFromOf t cid object_id (UntaggedObject.ClassIdTag.update cid tags) kind
        as_reference { r with stream := rest }
    | .InlinedObjectHeader object_id :: .VMIsolateObject cid :: .WriteTags tags :: rest =>
      ReadFromOf t cid object_id (UntaggedObject.ClassIdTag.update cid tags) kind
        as_reference { r with stream := rest }
    | _ => none

/-! ## The other encoders -/

/-- What the encoders ask of the writer's isolate group and class table:
    `class_table()->At(id)`, `cls->untag()->library()`,
    `AllowObjectsInDartLibrary(library)`, `GetObjectTags(obj)`,
    `Class::IsInFullSnapshot(cls)`, `type->untag()->type_class_id()` and
    `IsSerializableClosure(closure)`. -/
structure WriterEnv where
  class_table_At : Int → ObjectPtr
  library_of : ObjectPtr → ObjectPtr
  AllowObjectsInDartLibrary : ObjectPtr → Bool
  GetObjectTags : ObjectPtr → Tags
  IsInFullSnapshot : ObjectPtr → Bool
  type_class_id_of : ObjectPtr → ObjectPtr
  IsSerializableClosure : ObjectPtr → ObjectPtr

/-- `SnapshotWriterVisitor visitor(writer, as_reference);
    visitor.VisitPointers(from, to)`: every slot of the range, in order. -/
def SnapshotWriter.VisitPointers (w : SnapshotWriter) (fields : List ObjectPtr)
    (as_reference : Bool) : SnapshotWriter :=
  fields.foldl (fun w p => w.WriteObjectImpl p as_reference) w

/-- `writer->WriteClassId(cls)`. -/
def SnapshotWriter.WriteClassId (w : SnapshotWriter) (cls : ObjectPtr) : SnapshotWriter :=
  w.emit (.ClassIdOf cls)

/-- `writer->WriteStaticImplicitClosure(object_id, func, tags,
    delayed_type_arguments)`. -/
def SnapshotWriter.WriteStaticImplicitClosure (w : SnapshotWriter) (object_id : Int)
    (func : ObjectPtr) (tags : Tags) (delayed_type_arguments : ObjectPtr) : SnapshotWriter :=
  w.emit (.StaticImplicitClosure object_id func tags delayed_type_arguments)

/-- The message of the regular-instance error of `UntaggedClass::WriteTo`. -/
def kRegularInstanceMsg : String :=
  "Illegal argument in isolate message" ++ " : (object is a regular Dart Instance)"

/-- `UntaggedClass::WriteTo`. -/
def UntaggedClass.WriteTo (env : WriterEnv) (this : UntaggedClass) (writer : SnapshotWriter)
    (object_id : Int) (_kind : Snapshot.Kind) (_as_reference : Bool) :
    Option SnapshotWriter :=
  -- Write out the serialization header value for this object.
  let writer := writer.WriteInlinedObjectHeader object_id
  -- Write out the class and tags information.
  let writer := writer.WriteVMIsolateObject kClassCid
  let writer := writer.WriteTags this.tags
  if writer.can_send_any_object || env.AllowObjectsInDartLibrary this.library then
    some (writer.WriteClassId this.self)
  else
    -- We do not allow regular dart instances in isolate messages.
    some (writer.SetWriteException .kArgument kRegularInstanceMsg)

/-- The byte `(hi << 4) | lo` as a `uint8_t`. -/
def combinedByte (hi lo : Int) : Int :=
  (((hi.toNat <<< 4) ||| lo.toNat) % 256 : Nat)

/-- `UntaggedType::WriteTo`. -/
def UntaggedType.WriteTo (env : WriterEnv) (this : UntaggedType) (writer : SnapshotWriter)
    (object_id : Int) (_kind : Snapshot.Kind) (as_reference : Bool) :
    Option SnapshotWriter :=
  -- Write out the serialization header value for this object.
  let writer := writer.WriteInlinedObjectHeader object_id
  -- Write out the class and tags information.
  let writer := writer.WriteIndexedObject kTypeCid
  let writer := writer.WriteTags this.tags
  match this.type_class_id with
  | .heap _ =>
    -- Type class is still an unresolved class.
    none
  | .smi raw_type_class_id =>
    -- Lookup the type class.
    let type_class := env.class_table_At raw_type_class_id
    -- Write out typeclass_is_in_fullsnapshot first as this will
    -- help the reader decide on how to canonicalize the type object.
    let tags := env.GetObjectTags type_class
    let typeclass_is_in_fullsnapshot :=
      (UntaggedObject.ClassIdTag.decode tags == kClassCid) && env.IsInFullSnapshot type_class
    let writer := writer.Write .bool_t (if typeclass_is_in_fullsnapshot then 1 else 0)
    -- Write out all the non object pointer fields.
    let combined := combinedByte this.type_state_ this.nullability_
    let writer := writer.Write .uint8_t combined
    -- Write out all the object pointer fields.
    let writer := writer.VisitPointers this.fields as_reference
    -- Write out the type class.
    some (writer.WriteObjectImpl type_class as_reference)

/-- `UntaggedTypeRef::WriteTo`. -/
def UntaggedTypeRef.WriteTo (this : UntaggedTypeRef) (writer : SnapshotWriter)
    (object_id : Int) (_kind : Snapshot.Kind) (_as_reference : Bool) :
    Option SnapshotWriter :=
  -- Write out the serialization header value for this object.
  let writer := writer.WriteInlinedObjectHeader object_id
  -- Write out the class and tags information.
  let writer := writer.WriteIndexedObject kTypeRefCid
  let writer := writer.WriteTags this.tags
  -- Write out all the object pointer fields.
  some (writer.VisitPointers this.fields kAsReference)

/-- `UntaggedTypeParameter::WriteTo`. -/
def UntaggedTypeParameter.WriteTo (env : WriterEnv) (this : UntaggedTypeParameter)
    (writer : SnapshotWriter) (object_id : Int) (_kind : Snapshot.Kind)
    (_as_reference : Bool) : Option SnapshotWriter :=
  -- Write out the serialization header value for this object.
  let writer := writer.WriteInlinedObjectHeader object_id
  -- Write out the class and tags information.
  let writer := writer.WriteIndexedObject kTypeParameterCid
  let writer := writer.WriteTags this.tags
  -- Write out all the non object pointer fields.
  let writer := writer.Write .uint8_t this.base_
  let writer := writer.Write .uint8_t this.index_
  let combined := combinedByte this.flags_ this.nullability_
  let writer := writer.Write .uint8_t combined
  -- Write out all the object pointer fields.
  let writer := writer.VisitPointers this.fields kAsReference
  -- Write out the parameterized class (or Function if cid == kFunctionCid).
  let param_class := env.class_table_At this.parameterized_class_id_
  some (writer.WriteObjectImpl param_class kAsReference)

/-- `UntaggedTypeParameters::WriteTo`. -/
def UntaggedTypeParameters.WriteTo (this : UntaggedTypeParameters) (writer : SnapshotWriter)
    (object_id : Int) (_kind : Snapshot.Kind) (_as_reference : Bool) :
    Option SnapshotWriter :=
  -- Write out the serialization header value for this object.
  let writer := writer.WriteInlinedObjectHeader object_id
  -- Write out the class and tags information.
  let writer := writer.WriteVMIsolateObject kTypeParametersCid
  let writer := writer.WriteTags this.tags
  -- Write out all the object pointer fields.
  some (writer.VisitPointers this.fields kAsReference)

/-- One iteration of the loop of `UntaggedTypeArguments::WriteTo` for
    `element(i)`. -/
def UntaggedTypeArguments.writeElement (env : WriterEnv) (as_reference : Bool)
    (writer : SnapshotWriter) (element : ObjectPtr) : SnapshotWriter :=
  if !writer.can_send_any_object then
    -- Lookup the type class.
    let raw_type_class_id := env.type_class_id_of element
    let type_class := env.class_table_At
      (match raw_type_class_id with
       | .smi v => v
       | .heap _ => 0)
    if !env.AllowObjectsInDartLibrary (env.library_of type_class) then
      writer.WriteVMIsolateObject kDynamicType
    else
      writer.WriteObjectImpl element as_reference
  else
    writer.WriteObjectImpl element as_reference

/-- `UntaggedTypeArguments::WriteTo`. -/
def UntaggedTypeArguments.WriteTo (env : WriterEnv) (this : UntaggedTypeArguments)
    (writer : SnapshotWriter) (object_id : Int) (_kind : Snapshot.Kind)
    (as_reference : Bool) : Option SnapshotWriter :=
  -- Write out the serialization header value for this object.
  let writer := writer.WriteInlinedObjectHeader object_id
  -- Write out the class and tags information.
  let writer := writer.WriteVMIsolateObject kTypeArgumentsCid
  let writer := writer.WriteTags this.tags
  -- Write out the length field.
  let writer := writer.Write .ObjectPtr this.length_
  -- Write out the individual types.
  let len := this.length_
  some ((this.types.take len.toNat).foldl
    (UntaggedTypeArguments.writeElement env as_reference) writer)

/-- `UntaggedClosure::WriteTo`. -/
def UntaggedClosure.WriteTo (env : WriterEnv) (this : UntaggedClosure)
    (writer : SnapshotWriter) (object_id : Int) (_kind : Snapshot.Kind)
    (_as_reference : Bool) : Option SnapshotWriter :=
  -- Check if closure is serializable, throw an exception otherwise.
  let func := env.IsSerializableClosure this.self
  if func ≠ Object.null then
    some (writer.WriteStaticImplicitClosure object_id func this.tags
      this.delayed_type_arguments)
  else
    none

/-- `UntaggedContext::WriteTo`. -/
def UntaggedContext.WriteTo (this : UntaggedContext) (writer : SnapshotWriter)
    (object_id : Int) (_kind : Snapshot.Kind) (_as_reference : Bool) :
    Option SnapshotWriter :=
  -- Write out the serialization header value for this object.
  let writer := writer.WriteInlinedObjectHeader object_id
  -- Write out the class and tags information.
  let writer := writer.WriteVMIsolateObject kContextCid
  let writer := writer.WriteTags this.tags
  -- Write out num of variables in the context.
  let num_variables := this.num_variables_
  let writer := writer.Write .int32_t num_variables
  if num_variables ≠ 0 then
    -- Write out all the object pointer fields.
    some (writer.VisitPointers this.fields kAsReference)
  else
    some writer

/-- `UntaggedContextScope::WriteTo`. -/
def UntaggedContextScope.WriteTo (this : UntaggedContextScope) (writer : SnapshotWriter)
    (object_id : Int) (_kind : Snapshot.Kind) (_as_reference : Bool) :
    Option SnapshotWriter :=
  if this.is_implicit_ then
    match this.vars.head? with
    | none => none
    | some var =>
      -- Write out the serialization header value for this object.
      let writer := writer.WriteInlinedObjectHeader object_id
      -- Write out the class and tags information.
      let writer := writer.WriteVMIsolateObject kContextScopeCid
      let writer := writer.WriteTags this.tags
      -- Write out is_implicit flag for the context scope.
      let writer := writer.Write .bool_t 1
      -- Write out the type of 'this' the variable.
      some (writer.WriteObjectImpl var.type kAsInlinedObject)
  else
    none

/-- `WriteTo` generated by `MESSAGE_SNAPSHOT_UNREACHABLE(type)`. -/
def MESSAGE_SNAPSHOT_UNREACHABLE.WriteTo (_writer : SnapshotWriter) (_object_id : Int)
    (_kind : Snapshot.Kind) (_as_reference : Bool) : Option SnapshotWriter :=
  none

/-- The message `"Illegal argument in isolate message" " : (object is a "
    #type ")"` of `MESSAGE_SNAPSHOT_ILLEGAL(type)`. -/
def MESSAGE_SNAPSHOT_ILLEGAL.msg (type : String) : String :=
  "Illegal argument in isolate message" ++ " : (object is a " ++ type ++ ")"

/-- `WriteTo` generated by `MESSAGE_SNAPSHOT_ILLEGAL(type)`. -/
def MESSAGE_SNAPSHOT_ILLEGAL.WriteTo (type : String) (writer : SnapshotWriter)
    (_object_id : Int) (_kind : Snapshot.Kind) (_as_reference : Bool) :
    Option SnapshotWriter :=
  some (writer.SetWriteException .kArgument (MESSAGE_SNAPSHOT_ILLEGAL.msg type))

/-- The kinds instantiated with `MESSAGE_SNAPSHOT_ILLEGAL`. -/
def MESSAGE_SNAPSHOT_ILLEGAL.types : List String :=
  ["FunctionType", "DynamicLibrary", "MirrorReference", "Pointer", "ReceivePort",
   "StackTrace", "UserTag"]

/-- The kinds instantiated with `MESSAGE_SNAPSHOT_UNREACHABLE`. -/
def MESSAGE_SNAPSHOT_UNREACHABLE.types : List String :=
  ["AbstractType", "Bool", "ClosureData", "Code", "CodeSourceMap", "CompressedStackMaps",
   "Error", "ExceptionHandlers", "FfiTrampolineData", "Field", "Function", "CallSiteData",
   "ICData", "Instructions", "InstructionsSection", "InstructionsTable",
   "KernelProgramInfo", "Library", "LibraryPrefix", "LocalVarDescriptors",
   "MegamorphicCache", "Namespace", "ObjectPool", "PatchClass", "PcDescriptors", "Script",
   "Sentinel", "SingleTargetCache", "String", "SubtypeTestCache", "LoadingUnit",
   "TypedDataBase", "UnlinkedCall", "MonomorphicSmiableCall", "UnwindError", "FutureOr",
   "WeakSerializationReference"]

/-- `UntaggedApiError::WriteTo`. -/
def UntaggedApiError.WriteTo (this : UntaggedApiError) (writer : SnapshotWriter)
    (object_id : Int) (_kind : Snapshot.Kind) (_as_reference : Bool) :
    Option SnapshotWriter :=
  -- Write out the serialization header value for this object.
  let writer := writer.WriteInlinedObjectHeader object_id
  -- Write out the class and tags information.
  let writer := writer.WriteVMIsolateObject kApiErrorCid
  let writer := writer.WriteTags this.tags
  -- Write out all the object pointer fields.
  some (writer.VisitPointers this.fields kAsReference)

/-- `UntaggedLanguageError::WriteTo`. -/
def UntaggedLanguageError.WriteTo (this : UntaggedLanguageError) (writer : SnapshotWriter)
    (object_id : Int) (_kind : Snapshot.Kind) (_as_reference : Bool) :
    Option SnapshotWriter :=
  -- Write out the serialization header value for this object.
  let writer := writer.WriteInlinedObjectHeader object_id
  -- Write out the class and tags information.
  let writer := writer.WriteVMIsolateObject kLanguageErrorCid
  let writer := writer.WriteTags this.tags
  -- Write out all the non object fields.
  let writer := writer.Write .int32_t this.token_pos_
  let writer := writer.Write .bool_t (if this.report_after_token_ then 1 else 0)
  let writer := writer.Write .uint8_t this.kind_
  -- Write out all the object pointer fields.
  some (writer.VisitPointers this.fields kAsReference)

/-- `UntaggedUnhandledException::WriteTo`. -/
def UntaggedUnhandledException.WriteTo (this : UntaggedUnhandledException)
    (writer : SnapshotWriter) (object_id : Int) (_kind : Snapshot.Kind)
    (_as_reference : Bool) : Option SnapshotWriter :=
  -- Write out the serialization header value for this object.
  let writer := writer.WriteInlinedObjectHeader object_id
  -- Write out the class and tags information.
  let writer := writer.WriteVMIsolateObject kUnhandledExceptionCid
  let writer := writer.WriteTags this.tags
  -- Write out all the object pointer fields.
  some (writer.VisitPointers this.fields kAsReference)

/-- `UntaggedInstance::WriteTo`. -/
def UntaggedInstance.WriteTo (this : UntaggedInstance) (writer : SnapshotWriter)
    (object_id : Int) (_kind : Snapshot.Kind) (_as_reference : Bool) :
    Option SnapshotWriter :=
  -- Write out the serialization header value for this object.
  let writer := writer.WriteInlinedObjectHeader object_id
  -- Write out the class and tags information.
  let writer := writer.WriteIndexedObject kInstanceCid
  some (writer.WriteTags this.tags)

/-- `UntaggedDouble::WriteTo`. -/
def UntaggedDouble.WriteTo (this : UntaggedDouble) (writer : SnapshotWriter)
    (object_id : Int) (_kind : Snapshot.Kind) (_as_reference : Bool) :
    Option SnapshotWriter :=
  -- Write out the serialization header value for this object.
  let writer := writer.WriteInlinedObjectHeader object_id
  -- Write out the class and tags information.
  let writer := writer.WriteIndexedObject kDoubleCid
  let writer := writer.WriteTags this.tags
  -- Write out the double value.
  some (writer.WriteDouble this.value_)

/-- `StringWriteTo<T>`; `data` holds the code units (`uint8_t` or `uint16_t`). -/
def StringWriteTo (writer : SnapshotWriter) (object_id : Int) (_kind : Snapshot.Kind)
    (class_id : ClassId) (tags : Tags) (length : Int) (data : List Nat) :
    Option SnapshotWriter :=
  let len := length
  -- Write out the serialization header value for this object.
  let writer := writer.WriteInlinedObjectHeader object_id
  -- Write out the class and tags information.
  let writer := writer.WriteIndexedObject class_id
  let writer := writer.WriteTags tags
  -- Write out the length field.
  let writer := writer.Write .ObjectPtr length
  -- Write out the string.
  if len > 0 then
    if class_id = kOneByteStringCid then
      some (writer.WriteBytes data len)
    else
      some ((data.take len.toNat).foldl
        (fun (w : SnapshotWriter) (c : Nat) => w.Write .uint16_t (c : Int)) writer)
  else
    some writer

/-- `UntaggedOneByteString::WriteTo`. -/
def UntaggedOneByteString.WriteTo (this : UntaggedString) (writer : SnapshotWriter)
    (object_id : Int) (kind : Snapshot.Kind) (_as_reference : Bool) :
    Option SnapshotWriter :=
  StringWriteTo writer object_id kind kOneByteStringCid this.tags this.length_ this.data

/-- `UntaggedTwoByteString::WriteTo`. -/
def UntaggedTwoByteString.WriteTo (this : UntaggedString) (writer : SnapshotWriter)
    (object_id : Int) (kind : Snapshot.Kind) (_as_reference : Bool) :
    Option SnapshotWriter :=
  StringWriteTo writer object_id kind kTwoByteStringCid this.tags this.length_ this.data

/-- `UntaggedExternalOneByteString::WriteTo`. -/
def UntaggedExternalOneByteString.WriteTo (this : UntaggedString) (writer : SnapshotWriter)
    (object_id : Int) (kind : Snapshot.Kind) (_as_reference : Bool) :
    Option SnapshotWriter :=
  -- Serialize as a non-external one byte string.
  StringWriteTo writer object_id kind kOneByteStringCid this.tags this.length_ this.data

/-- `UntaggedExternalTwoByteString::WriteTo`. -/
def UntaggedExternalTwoByteString.WriteTo (this : UntaggedString) (writer : SnapshotWriter)
    (object_id : Int) (kind : Snapshot.Kind) (_as_reference : Bool) :
    Option SnapshotWriter :=
  -- Serialize as a non-external two byte string.
  StringWriteTo writer object_id kind kTwoByteStringCid this.tags this.length_ this.data

/-- `kOmittedObjectId` (declared in `vm/snapshot.h`); only its being a fixed
    constant matters here. -/
def kOmittedObjectId : Int := 0

/-- Modelled from the spec: `writer->ArrayWriteTo(object_id, array_kind, tags,
    length, type_arguments, data, as_reference)` (defined in `vm/snapshot.cc`):
    in reference mode the header, kind tag, tags and length only; inline the
    same followed by the type arguments (a small fixed-shape field, inline) and
    the elements in order ("collection elements default to reference mode"). -/
def SnapshotWriter.ArrayWriteTo (writer : SnapshotWriter) (object_id : Int)
    (array_kind : ClassId) (tags : Tags) (length : Int) (type_arguments : ObjectPtr)
    (data : List ObjectPtr) (as_reference : Bool) : SnapshotWriter :=
  if as_reference then
    let writer := writer.WriteInlinedObjectHeader kOmittedObjectId
    let writer := writer.WriteIndexedObject array_kind
    let writer := writer.WriteTags tags
    writer.Write .ObjectPtr length
  else
    let writer := writer.WriteInlinedObjectHeader object_id
    let writer := writer.WriteIndexedObject array_kind
    let writer := writer.WriteTags tags
    let writer := writer.Write .ObjectPtr length
    let writer := writer.WriteObjectImpl type_arguments kAsInlinedObject
    writer.VisitPointers (data.take length.toNat) kAsReference

/-- `UntaggedArray::WriteTo`. -/
def UntaggedArray.WriteTo (this : UntaggedArray) (writer : SnapshotWriter)
    (object_id : Int) (_kind : Snapshot.Kind) (as_reference : Bool) :
    Option SnapshotWriter :=
  some (writer.ArrayWriteTo object_id kArrayCid this.tags this.length_ this.type_arguments
    this.data as_reference)

/-- `UntaggedImmutableArray::WriteTo`. -/
def UntaggedImmutableArray.WriteTo (this : UntaggedArray) (writer : SnapshotWriter)
    (object_id : Int) (_kind : Snapshot.Kind) (as_reference : Bool) :
    Option SnapshotWriter :=
  some (writer.ArrayWriteTo object_id kImmutableArrayCid this.tags this.length_
    this.type_arguments this.data as_reference)

/-- `UntaggedGrowableObjectArray::WriteTo`. -/
def UntaggedGrowableObjectArray.WriteTo (this : UntaggedGrowableObjectArray)
    (writer : SnapshotWriter) (object_id : Int) (_kind : Snapshot.Kind)
    (_as_reference : Bool) : Option SnapshotWriter :=
  -- Write out the serialization header value for this object.
  let writer := writer.WriteInlinedObjectHeader object_id
  -- Write out the class and tags information.
  let writer := writer.WriteIndexedObject kGrowableObjectArrayCid
  let writer := writer.WriteTags this.tags
  -- Write out the type arguments field.
  let writer := writer.WriteObjectImpl this.type_arguments kAsInlinedObject
  -- Write out the used length field.
  let writer := writer.Write .ObjectPtr this.length_
  -- Write out the Array object.
  some (writer.WriteObjectImpl this.data kAsReference)

/-- The body of the loop `for (i = 0; i < num_used_data; i += 2)` of
    `UntaggedLinkedHashMap::WriteTo` at `i = 2 * k`. -/
def UntaggedLinkedHashMap.writePair (this : UntaggedLinkedHashMap)
    (write_as_reference : Bool) (writer : SnapshotWriter) (k : Nat) : SnapshotWriter :=
  let key := this.data_elements.getD (2 * k) Object.null
  if key = this.data then
    writer
  else
    let value := this.data_elements.getD (2 * k + 1) Object.null
    let writer := writer.WriteObjectImpl key write_as_reference
    writer.WriteObjectImpl value write_as_reference

/-- `UntaggedLinkedHashMap::WriteTo`. -/
def UntaggedLinkedHashMap.WriteTo (this : UntaggedLinkedHashMap) (writer : SnapshotWriter)
    (object_id : Int) (_kind : Snapshot.Kind) (_as_reference : Bool) :
    Option SnapshotWriter :=
  -- Write out the serialization header value for this object.
  let writer := writer.WriteInlinedObjectHeader object_id
  -- Write out the class and tags information.
  let writer := writer.WriteIndexedObject kLinkedHashMapCid
  let writer := writer.WriteTags this.tags
  -- Write out the type arguments.
  let writer := writer.WriteObjectImpl this.type_arguments kAsInlinedObject
  let num_used_data := this.used_data
  let num_deleted_keys := this.deleted_keys
  -- Write out the number of (not deleted) key/value pairs that will follow.
  let writer := writer.Write .ObjectPtr (num_used_data / 2 - num_deleted_keys)
  -- Write out the keys and values.
  let write_as_reference := if this.tags.canonical then false else true
  some ((List.range ((num_used_data + 1) / 2).toNat).foldl
    (this.writePair write_as_reference) writer)

/-- `UntaggedFloat32x4::WriteTo`. -/
def UntaggedFloat32x4.WriteTo (this : UntaggedFloat32x4) (writer : SnapshotWriter)
    (object_id : Int) (_kind : Snapshot.Kind) (_as_reference : Bool) :
    Option SnapshotWriter :=
  -- Write out the serialization header value for this object.
  let writer := writer.WriteInlinedObjectHeader object_id
  -- Write out the class and tags information.
  let writer := writer.WriteIndexedObject kFloat32x4Cid
  let writer := writer.WriteTags this.tags
  -- Write out the float values.
  let writer := writer.Write .float_t this.value_0
  let writer := writer.Write .float_t this.value_1
  let writer := writer.Write .float_t this.value_2
  some (writer.Write .float_t this.value_3)

/-- `UntaggedInt32x4::WriteTo`. -/
def UntaggedInt32x4.WriteTo (this : UntaggedInt32x4) (writer : SnapshotWriter)
    (object_id : Int) (_kind : Snapshot.Kind) (_as_reference : Bool) :
    Option SnapshotWriter :=
  -- Write out the serialization header value for this object.
  let writer := writer.WriteInlinedObjectHeader object_id
  -- Write out the class and tags information.
  let writer := writer.WriteIndexedObject kInt32x4Cid
  let writer := writer.WriteTags this.tags
  -- Write out the mask values.
  let writer := writer.Write .uint32_t this.value_0
  let writer := writer.Write .uint32_t this.value_1
  let writer := writer.Write .uint32_t this.value_2
  some (writer.Write .uint32_t this.value_3)

/-- `UntaggedFloat64x2::WriteTo`. -/
def UntaggedFloat64x2.WriteTo (this : UntaggedFloat64x2) (writer : SnapshotWriter)
    (object_id : Int) (_kind : Snapshot.Kind) (_as_reference : Bool) :
    Option SnapshotWriter :=
  -- Write out the serialization header value for this object.
  let writer := writer.WriteInlinedObjectHeader object_id
  -- Write out the class and tags information.
  let writer := writer.WriteIndexedObject kFloat64x2Cid
  let writer := writer.WriteTags this.tags
  -- Write out the float values.
  let writer := writer.Write .double_t this.value_0
  some (writer.Write .double_t this.value_1)

/-- `UntaggedTypedDataView::WriteTo`. -/
def UntaggedTypedDataView.WriteTo (this : UntaggedTypedDataView) (writer : SnapshotWriter)
    (object_id : Int) (_kind : Snapshot.Kind) (as_reference : Bool) :
    Option SnapshotWriter :=
  -- Write out the serialization header value for this object.
  let writer := writer.WriteInlinedObjectHeader object_id
  -- Write out the class and tags information.
  let writer := writer.WriteIndexedObject this.tags.class_id
  let writer := writer.WriteTags this.tags
  -- Write members.
  let writer := writer.Write .ObjectPtr this.offset_in_bytes
  let writer := writer.Write .ObjectPtr this.length
  some (writer.WriteObjectImpl this.typed_data as_reference)

/-- `UntaggedCapability::WriteTo`. -/
def UntaggedCapability.WriteTo (this : UntaggedCapability) (writer : SnapshotWriter)
    (object_id : Int) (_kind : Snapshot.Kind) (_as_reference : Bool) :
    Option SnapshotWriter :=
  -- Write out the serialization header value for this object.
  let writer := writer.WriteInlinedObjectHeader object_id
  -- Write out the class and tags information.
  let writer := writer.WriteIndexedObject kCapabilityCid
  let writer := writer.WriteTags this.tags
  some (writer.Write .uint64_t this.id_)

/-- `UntaggedSendPort::WriteTo`. -/
def UntaggedSendPort.WriteTo (this : UntaggedSendPort) (writer : SnapshotWriter)
    (object_id : Int) (_kind : Snapshot.Kind) (_as_reference : Bool) :
    Option SnapshotWriter :=
  -- Write out the serialization header value for this object.
  let writer := writer.WriteInlinedObjectHeader object_id
  -- Write out the class and tags information.
  let writer := writer.WriteIndexedObject kSendPortCid
  let writer := writer.WriteTags this.tags
  let writer := writer.Write .uint64_t this.id_
  some (writer.Write .uint64_t this.origin_id_)

/-- `UntaggedRegExp::WriteTo`. -/
def UntaggedRegExp.WriteTo (this : UntaggedRegExp) (writer : SnapshotWriter)
    (object_id : Int) (_kind : Snapshot.Kind) (_as_reference : Bool) :
    Option SnapshotWriter :=
  -- Write out the serialization header value for this object.
  let writer := writer.WriteInlinedObjectHeader object_id
  -- Write out the class and tags information.
  let writer := writer.WriteIndexedObject kRegExpCid
  let writer := writer.WriteTags this.tags
  -- Write out all the other fields.
  let writer := writer.WriteObjectImpl this.capture_name_map kAsInlinedObject
  let writer := writer.WriteObjectImpl this.pattern kAsInlinedObject
  let writer := writer.Write .int32_t this.num_bracket_expressions_
  let writer := writer.Write .int32_t this.num_one_byte_registers_
  let writer := writer.Write .int32_t this.num_two_byte_registers_
  some (writer.Write .int8_t this.type_flags_)

/-- `UntaggedWeakProperty::WriteTo`. -/
def UntaggedWeakProperty.WriteTo (this : UntaggedWeakProperty) (writer : SnapshotWriter)
    (object_id : Int) (_kind : Snapshot.Kind) (_as_reference : Bool) :
    Option SnapshotWriter :=
  -- Write out the serialization header value for this object.
  let writer := writer.WriteInlinedObjectHeader object_id
  -- Write out the class and tags information.
  let writer := writer.WriteIndexedObject kWeakPropertyCid
  let writer := writer.WriteTags this.tags
  -- Write out all the object pointer fields.
  some (writer.VisitPointers this.fields kAsReference)

/-! ## Concrete targets and initial states -/

/-- Modelled from the spec: `TypedDataBase::ElementSizeInBytes(cid)` (declared
    in `vm/object.h`): the element width of a typed-data class id, "8/16/32/64-bit
    integer, float, double, or fixed-size groups of 2 or 4". -/
def ElementSizeInBytes : ClassId → Int
  | kTypedDataInt8ArrayCid | kExternalTypedDataInt8ArrayCid => 1
  | kTypedDataUint8ArrayCid | kExternalTypedDataUint8ArrayCid => 1
  | kTypedDataUint8ClampedArrayCid | kExternalTypedDataUint8ClampedArrayCid => 1
  | kTypedDataInt16ArrayCid | kExternalTypedDataInt16ArrayCid => 2
  | kTypedDataUint16ArrayCid | kExternalTypedDataUint16ArrayCid => 2
  | kTypedDataInt32ArrayCid | kExternalTypedDataInt32ArrayCid => 4
  | kTypedDataUint32ArrayCid | kExternalTypedDataUint32ArrayCid => 4
  | kTypedDataInt64ArrayCid | kExternalTypedDataInt64ArrayCid => 8
  | kTypedDataUint64ArrayCid | kExternalTypedDataUint64ArrayCid => 8
  | kTypedDataFloat32ArrayCid | kExternalTypedDataFloat32ArrayCid => 4
  | kTypedDataFloat64ArrayCid | kExternalTypedDataFloat64ArrayCid => 8
  | kTypedDataInt32x4ArrayCid | kExternalTypedDataInt32x4ArrayCid => 16
  | kTypedDataFloat32x4ArrayCid | kExternalTypedDataFloat32x4ArrayCid => 16
  | kTypedDataFloat64x2ArrayCid | kExternalTypedDataFloat64x2ArrayCid => 16
  | _ => 0

/-- Slot distances `to() - from()` used by the concrete targets: an error with
    one slot, a language error with four, an unhandled exception and a weak
    property with two, the type-system values with three. -/
def exampleToMinusFrom : ClassId → Int
  | kApiErrorCid => 0
  | kLanguageErrorCid => 3
  | kUnhandledExceptionCid => 1
  | kWeakPropertyCid => 1
  | _ => 2

/-- A 64-bit target with full-width pointers: a small integer has
    `kBitsPerWord - 2 = 62` value bits. -/
def Target.x64 : Target :=
  { kSmiBits := 62, ElementSizeInBytes := Dart.ElementSizeInBytes, kInitialIndexSize := 8,
    to_minus_from := exampleToMinusFrom, context_to_minus_from := fun n => n,
    class_id_of := fun p => match p with
      | .smi v => v
      | .heap a => a,
    kFunctionCid := 7 }

/-- A target with 31-bit small integers (32-bit words or compressed
    pointers): 30 value bits. -/
def Target.smi31 : Target := { Target.x64 with kSmiBits := 30 }

/-- An empty registry. -/
def MessageFinalizableData.empty : MessageFinalizableData :=
  { records := [], take_position := 0, external_size := 0 }

/-- A heap with no native block and no peer. -/
def Heap.empty : Heap := { memory := { blocks := [], next := 0 }, peers := [] }

/-- A writer that has written nothing, over heap `h`. -/
def SnapshotWriter.init (h : Heap) : SnapshotWriter :=
  { stream := [], finalizable_data := .empty, exception_type := .kNone,
    exception_msg := none, can_send_any_object := false, heap := h }

/-- A reader at the start of `stream`, with registry `fd`. -/
def SnapshotReader.init (stream : List Item) (fd : MessageFinalizableData) : SnapshotReader :=
  { stream := stream, backrefs := [], finalizable_data := fd, types_to_postprocess := [],
    maps_to_rehash := [], events := [], next_addr := 100 }

/-- The reader of the message a writer produced: its stream and its registry. -/
def SnapshotWriter.toReader (w : SnapshotWriter) : SnapshotReader :=
  SnapshotReader.init w.stream w.finalizable_data

/-- The integer a decoded small integer or boxed integer denotes. -/
def Obj.integerValue : Obj → Option Int
  | .Smi v => some v
  | .Mint m => some m.value_
  | _ => none

/-- Whether a decoded object is a boxed Mint. -/
def Obj.isMint : Obj → Bool
  | .Mint _ => true
  | _ => false

/-- Whether a decoded object is a small integer. -/
def Obj.isSmi : Obj → Bool
  | .Smi _ => true
  | _ => false

/-! ## Threshold externalization of typed buffers -/

/-- The writer after the external branch of `UntaggedTypedData::WriteTo`. -/
def UntaggedTypedData.externalResult (this : UntaggedTypedData) (w : SnapshotWriter)
    (object_id : Int) (external_cid : ClassId) (bytes : Int) : SnapshotWriter :=
  { w with
    stream := w.stream ++ [.InlinedObjectHeader object_id, .IndexedObject external_cid,
      .WriteTags this.tags, .Write .ObjectPtr this.length_],
    heap := { w.heap with memory :=
      (w.heap.memory.malloc bytes).2.memmove (w.heap.memory.malloc bytes).1 this.data bytes },
    finalizable_data := w.finalizable_data.Put bytes
      (.block (w.heap.memory.malloc bytes).1) (.block (w.heap.memory.malloc bytes).1)
      .IsolateMessageTypedDataFinalizer none }

/-- The writer after the inline branch of `UntaggedTypedData::WriteTo`. -/
def UntaggedTypedData.inlineResult (this : UntaggedTypedData) (w : SnapshotWriter)
    (object_id : Int) (bytes : Int) : SnapshotWriter :=
  { w with
    stream := w.stream ++ [.InlinedObjectHeader object_id,
      .IndexedObject this.tags.class_id, .WriteTags this.tags,
      .Write .ObjectPtr this.length_, .Align Zone.kAlignment] ++ bytesItems this.data bytes }

/-- The registry after the records `ds` were put, in order. -/
def MessageFinalizableData.putAll (r : MessageFinalizableData) (ds : List FinalizableData) :
    MessageFinalizableData :=
  ds.foldl (fun r d => r.Put 0 d.data d.peer d.callback d.successful_transfer_callback) r

/-- The records `n` successive calls of `Take()` return, in order. -/
def MessageFinalizableData.takeN :
    Nat → MessageFinalizableData → Option (List FinalizableData × MessageFinalizableData)
  | 0, r => some ([], r)
  | n + 1, r =>
    match r.Take with
    | none => none
    | some (d, r') =>
      match MessageFinalizableData.takeN n r' with
      | none => none
      | some (ds, r'') => some (d :: ds, r'')

/-- The writer after `UntaggedExternalTypedData::WriteTo`. -/
def UntaggedExternalTypedData.result (this : UntaggedExternalTypedData) (w : SnapshotWriter)
    (object_id : Int) (bytes : Int) : SnapshotWriter :=
  { w with
    stream := w.stream ++ [.InlinedObjectHeader object_id,
      .IndexedObject this.tags.class_id, .WriteTags this.tags,
      .Write .ObjectPtr this.length_],
    heap := { w.heap with memory :=
      (w.heap.memory.malloc bytes).2.memmove (w.heap.memory.malloc bytes).1 (w.heap.bytesAt this.data_) bytes },
    finalizable_data := w.finalizable_data.Put bytes
      (.block (w.heap.memory.malloc bytes).1) (.block (w.heap.memory.malloc bytes).1)
      .IsolateMessageTypedDataFinalizer none }

/-- The writer after `UntaggedTransferableTypedData::WriteTo` on a peer with
    data. -/
def UntaggedTransferableTypedData.result (this : UntaggedTransferableTypedData)
    (w : SnapshotWriter) (object_id : Int) (tpeer : TransferableTypedDataPeer) :
    SnapshotWriter :=
  { w with
    stream := w.stream ++ [.InlinedObjectHeader object_id,
      .IndexedObject this.tags.class_id, .WriteTags this.tags,
      .Write .int64_t tpeer.length_],
    finalizable_data := w.finalizable_data.Put tpeer.length_ tpeer.data_
      (.tpeer this.self) .TransferableNoop (some .TransferableSuccess) }

/-- A heap with one native block `[7, 8, 9]` at address 1, owned by the peer of
    the transferable buffer at heap address 10. -/
def Heap.withPeer : Heap :=
  { memory := { blocks := [(1, [7, 8, 9])], next := 1 },
    peers := [(.heap 10, { data_ := .block 1, length_ := 3, handle_ := true })] }

/-- The same heap after the buffer at address 10 was transferred. -/
def Heap.withClearedPeer : Heap :=
  { memory := { blocks := [(1, [7, 8, 9])], next := 1 },
    peers := [(.heap 10, { data_ := .nullptr, length_ := 0, handle_ := false })] }

/-! ## Round trips -/

/-- Decoding of the message an encoder produced: the encoder must have
    returned, and one inlined object is decoded from the whole stream, with the
    registry the writer filled; a stream that is not consumed exactly is a
    failure. -/
def decodeMessage (t : Target) (kind : Snapshot.Kind) (as_reference : Bool)
    (wr : Option SnapshotWriter) : Option Obj :=
  match wr with
  | none => none
  | some w =>
    match SnapshotReader.ReadInlinedObject t kind as_reference w.toReader with
    | none => none
    | some (o, r) => if r.stream = [] then some o else none

/-- The keys and values of the first `n` pairs of a map's data array whose key
    is not the deleted-key marker (the data array itself), in order. -/
def UntaggedLinkedHashMap.livePairs (this : UntaggedLinkedHashMap) (n : Nat) :
    List ObjectPtr :=
  (List.range n).flatMap (fun k =>
    if this.data_elements.getD (2 * k) Object.null = this.data then []
    else [this.data_elements.getD (2 * k) Object.null,
          this.data_elements.getD (2 * k + 1) Object.null])

/-- The size of the data array `LinkedHashMap::ReadFrom` allocates for
    `used_data` slots. -/
def LinkedHashMap.dataSize (t : Target) (used_data : Int) : Int :=
  toIntptr (max (Utils.RoundUpToPowerOfTwo (toUint64 used_data)) t.kInitialIndexSize : Nat)

/-- The map `LinkedHashMap::ReadFrom` builds from the live pairs `live` of a
    source map with type arguments `type_arguments`, its data array at
    `data_ptr`. -/
def LinkedHashMap.decoded (t : Target) (type_arguments : ObjectPtr) (data_ptr : ObjectPtr)
    (live : List ObjectPtr) : UntaggedLinkedHashMap :=
  { tags := ⟨kLinkedHashMapCid, false⟩,
    type_arguments := type_arguments,
    hash_mask := 0,
    data := data_ptr,
    data_length := LinkedHashMap.dataSize t (live.length : Int),
    data_elements := live ++ List.replicate
      ((LinkedHashMap.dataSize t (live.length : Int)).toNat - live.length) Object.null,
    used_data := (live.length : Int),
    deleted_keys := 0 }

/-! ## Isomorphism of a source object and a decoded object -/

/-- An object of one of the kinds the round-trip property lists: boxed
    integers, doubles, strings, arrays, growable arrays, ordered maps, SIMD
    values, typed buffers and views, capability, send port, regexp, context and
    error values. -/
inductive Source
  | Mint (o : UntaggedMint)
  | Double (o : UntaggedDouble)
  | OneByteString (o : UntaggedString)
  | TwoByteString (o : UntaggedString)
  | Array (o : UntaggedArray)
  | ImmutableArray (o : UntaggedArray)
  | GrowableObjectArray (o : UntaggedGrowableObjectArray)
  | LinkedHashMap (o : UntaggedLinkedHashMap)
  | Float32x4 (o : UntaggedFloat32x4)
  | Int32x4 (o : UntaggedInt32x4)
  | Float64x2 (o : UntaggedFloat64x2)
  | TypedData (o : UntaggedTypedData)
  | ExternalTypedData (o : UntaggedExternalTypedData)
  | TypedDataView (o : UntaggedTypedDataView)
  | Capability (o : UntaggedCapability)
  | SendPort (o : UntaggedSendPort)
  | TransferableTypedData (o : UntaggedTransferableTypedData)
  | RegExp (o : UntaggedRegExp)
  | Context (o : UntaggedContext)
  | ApiError (o : UntaggedApiError)
  | LanguageError (o : UntaggedLanguageError)
  | UnhandledException (o : UntaggedUnhandledException)
  deriving DecidableEq, Repr

/-- Modelled from the spec: the encode half of the Kind Dispatch Table ("total
    map from kind tag to (encode, decode)"): the `WriteTo` of the object's
    kind. -/
def Source.WriteTo (T : Nat) (s : Source) (writer : SnapshotWriter) (object_id : Int)
    (kind : Snapshot.Kind) (as_reference : Bool) : Option SnapshotWriter :=
  match s with
  | .Mint o => o.WriteTo writer object_id kind as_reference
  | .Double o => o.WriteTo writer object_id kind as_reference
  | .OneByteString o => UntaggedOneByteString.WriteTo o writer object_id kind as_reference
  | .TwoByteString o => UntaggedTwoByteString.WriteTo o writer object_id kind as_reference
  | .Array o => UntaggedArray.WriteTo o writer object_id kind as_reference
  | .ImmutableArray o => UntaggedImmutableArray.WriteTo o writer object_id kind as_reference
  | .GrowableObjectArray o => o.WriteTo writer object_id kind as_reference
  | .LinkedHashMap o => o.WriteTo writer object_id kind as_reference
  | .Float32x4 o => o.WriteTo writer object_id kind as_reference
  | .Int32x4 o => o.WriteTo writer object_id kind as_reference
  | .Float64x2 o => o.WriteTo writer object_id kind as_reference
  | .TypedData o => UntaggedTypedData.WriteTo T o writer object_id kind as_reference
  | .ExternalTypedData o => o.WriteTo writer object_id kind as_reference
  | .TypedDataView o => o.WriteTo writer object_id kind as_reference
  | .Capability o => o.WriteTo writer object_id kind as_reference
  | .SendPort o => o.WriteTo writer object_id kind as_reference
  | .TransferableTypedData o => o.WriteTo writer object_id kind as_reference
  | .RegExp o => o.WriteTo writer object_id kind as_reference
  | .Context o => o.WriteTo writer object_id kind as_reference
  | .ApiError o => o.WriteTo writer object_id kind as_reference
  | .LanguageError o => o.WriteTo writer object_id kind as_reference
  | .UnhandledException o => o.WriteTo writer object_id kind as_reference

/-- The peer of a transferable buffer, without data when there is none. -/
def Heap.peerOf (h : Heap) (obj : ObjectPtr) : TransferableTypedDataPeer :=
  (h.GetPeer obj).getD { data_ := .nullptr, length_ := 0, handle_ := false }

/-- The source object as a value, read in heap `h`. -/
def Source.toObj (h : Heap) : Source → Obj
  | .Mint o => .Mint o
  | .Double o => .Double o
  | .OneByteString o => .String o
  | .TwoByteString o => .String o
  | .Array o => .Array o
  | .ImmutableArray o => .Array o
  | .GrowableObjectArray o => .GrowableObjectArray o
  | .LinkedHashMap o => .LinkedHashMap o
  | .Float32x4 o => .Float32x4 o
  | .Int32x4 o => .Int32x4 o
  | .Float64x2 o => .Float64x2 o
  | .TypedData o => .TypedData o
  | .ExternalTypedData o => .ExternalTypedData o
  | .TypedDataView o => .TypedDataView o
  | .Capability o => .Capability o
  | .SendPort o => .SendPort o
  | .TransferableTypedData o => .TransferableTypedData o.tags (h.peerOf o.self)
  | .RegExp o => .RegExp o
  | .Context o => .Context o
  | .ApiError o => .ApiError o
  | .LanguageError o => .LanguageError o
  | .UnhandledException o => .UnhandledException o

/-- What two isomorphic objects share: the kind, the scalar fields and payload
    in order, and the children in order. -/
structure ObjView where
  kind : ClassId
  scalars : List Int
  children : List ObjectPtr
  deriving DecidableEq, Repr

/-- The bytes as integers. -/
def bytesAsInts (l : List Nat) : List Int := l.map (fun (b : Nat) => (b : Int))

/-- The scalars and children of a variable descriptor. -/
def VariableDesc.scalars (v : VariableDesc) : List Int :=
  [v.declaration_token_pos, v.token_pos, if v.is_final then 1 else 0,
   if v.is_const then 1 else 0, v.context_index, v.context_level]

/-- The kind, scalar fields and children of an object; the payload of an
    external buffer is read in native memory `mem`.  The canonical flag is not
    part of the view. -/
def Obj.view (mem : NativeMemory) : Obj → ObjView
  | .Null => ⟨kNullCid, [], []⟩
  | .Smi v => ⟨kSmiCid, [v], []⟩
  | .Class cls => ⟨kClassCid, [], [cls]⟩
  | .Type o => ⟨o.tags.class_id, [o.type_state_, o.nullability_], o.type_class_id :: o.fields⟩
  | .TypeRef o => ⟨o.tags.class_id, [], o.fields⟩
  | .TypeParameter o =>
    ⟨o.tags.class_id,
     [o.base_, o.index_, o.flags_, o.nullability_, o.parameterized_class_id_], o.fields⟩
  | .TypeParameters o => ⟨o.tags.class_id, [], o.fields⟩
  | .TypeArguments o => ⟨o.tags.class_id, [o.length_], o.instantiations :: o.types⟩
  | .Context o => ⟨o.tags.class_id, [o.num_variables_], o.fields⟩
  | .ContextScope o =>
    ⟨o.tags.class_id,
     [o.num_variables_, if o.is_implicit_ then 1 else 0] ++ o.vars.flatMap VariableDesc.scalars,
     o.vars.flatMap (fun v => [v.name, v.type])⟩
  | .ApiError o => ⟨o.tags.class_id, [], o.fields⟩
  | .LanguageError o =>
    ⟨o.tags.class_id,
     [o.token_pos_, if o.report_after_token_ then 1 else 0, o.kind_], o.fields⟩
  | .UnhandledException o => ⟨o.tags.class_id, [], o.fields⟩
  | .Instance o => ⟨o.tags.class_id, [], []⟩
  | .Mint o => ⟨o.tags.class_id, [o.value_], []⟩
  | .Double o => ⟨o.tags.class_id, [o.value_], []⟩
  | .String o => ⟨o.tags.class_id, o.length_ :: bytesAsInts o.data, []⟩
  | .Array o => ⟨o.tags.class_id, [o.length_], o.type_arguments :: o.data⟩
  | .GrowableObjectArray o => ⟨o.tags.class_id, [o.length_], [o.type_arguments, o.data]⟩
  | .LinkedHashMap o =>
    ⟨o.tags.class_id, [o.used_data, o.deleted_keys, o.hash_mask],
     o.type_arguments :: o.data_elements.take o.used_data.toNat⟩
  | .Float32x4 o => ⟨o.tags.class_id, [o.value_0, o.value_1, o.value_2, o.value_3], []⟩
  | .Int32x4 o => ⟨o.tags.class_id, [o.value_0, o.value_1, o.value_2, o.value_3], []⟩
  | .Float64x2 o => ⟨o.tags.class_id, [o.value_0, o.value_1], []⟩
  | .TypedData o => ⟨o.tags.class_id, o.length_ :: bytesAsInts o.data, []⟩
  | .ExternalTypedData o =>
    ⟨o.tags.class_id,
     o.length_ :: bytesAsInts (match o.data_ with
       | .block a => mem.read a
       | _ => []), []⟩
  | .TypedDataView o => ⟨o.tags.class_id, [o.offset_in_bytes, o.length], [o.typed_data]⟩
  | .Capability o => ⟨o.tags.class_id, [o.id_], []⟩
  | .SendPort o => ⟨o.tags.class_id, [o.id_, o.origin_id_], []⟩
  | .TransferableTypedData tags peer =>
    ⟨tags.class_id,
     peer.length_ :: bytesAsInts (match peer.data_ with
       | .block a => mem.read a
       | _ => []), []⟩
  | .RegExp o =>
    ⟨o.tags.class_id,
     [o.num_bracket_expressions_, o.num_one_byte_registers_, o.num_two_byte_registers_,
      o.type_flags_], [o.capture_name_map, o.pattern]⟩
  | .WeakProperty o => ⟨o.tags.class_id, [], o.fields⟩

/-- Isomorphic objects: "same kind, same scalar fields, same children in the
    same order"; `a` is read in memory `mem`, `b` in `mem'`. -/
def Isomorphic (mem : NativeMemory) (a : Obj) (mem' : NativeMemory) (b : Obj) : Prop :=
  a.view mem = b.view mem'

instance (mem : NativeMemory) (a : Obj) (mem' : NativeMemory) (b : Obj) :
    Decidable (Isomorphic mem a mem' b) := by
  unfold Isomorphic
  infer_instance

/-- Well-formed source objects, for target `t`, sender heap `h` and encoding
    mode `as_reference`: the header carries the class id of the kind, a payload
    has the length the object declares, a fixed-shape object has the number of
    slots of its layout, 64-bit scalars are 64-bit values, and
    * an array is encoded inline (in reference mode only its length is written
      at this point of the stream);
    * a map's `used_data` is even and non-negative, its `deleted_keys` counts
      the deleted pairs, and its live slots number at most `2 ^ 61`;
    * a typed buffer has one of the 14 element kinds, for which the decoder's
      element size agrees with the encoder's byte count;
    * a transferable buffer has a peer that still holds its data. -/
def Source.WellFormed (t : Target) (h : Heap) (as_reference : Bool) : Source → Prop
  | .Mint o => o.tags.class_id = kMintCid ∧ -(2 : Int) ^ 63 ≤ o.value_ ∧ o.value_ < (2 : Int) ^ 63
  | .Double o => o.tags.class_id = kDoubleCid
  | .OneByteString o =>
    o.tags.class_id = kOneByteStringCid ∧ 0 ≤ o.length_ ∧ o.data.length = o.length_.toNat
  | .TwoByteString o =>
    o.tags.class_id = kTwoByteStringCid ∧ 0 ≤ o.length_ ∧ o.data.length = o.length_.toNat
  | .Array o =>
    o.tags.class_id = kArrayCid ∧ o.data.length = o.length_.toNat ∧ as_reference = false
  | .ImmutableArray o =>
    o.tags.class_id = kImmutableArrayCid ∧ o.data.length = o.length_.toNat
      ∧ as_reference = false
  | .GrowableObjectArray o => o.tags.class_id = kGrowableObjectArrayCid
  | .LinkedHashMap o =>
    o.tags.class_id = kLinkedHashMapCid ∧ 0 ≤ o.used_data ∧ o.used_data % 2 = 0
      ∧ ((o.livePairs (o.used_data / 2).toNat).length : Int)
          = 2 * (o.used_data / 2 - o.deleted_keys)
      ∧ (o.livePairs (o.used_data / 2).toNat).length ≤ 2 ^ 61
      ∧ t.kInitialIndexSize < 2 ^ 63
  | .Float32x4 o => o.tags.class_id = kFloat32x4Cid
  | .Int32x4 o => o.tags.class_id = kInt32x4Cid
  | .Float64x2 o => o.tags.class_id = kFloat64x2Cid
  | .TypedData o =>
    ∃ ext bytes, UntaggedTypedData.switchCid o.tags.class_id o.length_ = some (ext, bytes)
      ∧ o.data.length = bytes.toNat
      ∧ toIntptr (o.length_ * t.ElementSizeInBytes o.tags.class_id) = bytes
  | .ExternalTypedData o =>
    ∃ bytes, UntaggedExternalTypedData.switchCid o.tags.class_id o.length_ = some bytes
      ∧ (h.bytesAt o.data_).length = bytes.toNat ∧ ∃ a, o.data_ = .block a
  | .TypedDataView o => IsTypedDataViewClassId o.tags.class_id = true
  | .Capability o => o.tags.class_id = kCapabilityCid
  | .SendPort o => o.tags.class_id = kSendPortCid
  | .TransferableTypedData o =>
    o.tags.class_id = kTransferableTypedDataCid
      ∧ ∃ tpeer, h.GetPeer o.self = some tpeer ∧ tpeer.data_ ≠ .nullptr
        ∧ -(2 : Int) ^ 63 ≤ tpeer.length_ ∧ tpeer.length_ < (2 : Int) ^ 63
  | .RegExp o => o.tags.class_id = kRegExpCid
  | .Context o =>
    o.tags.class_id = kContextCid
      ∧ (o.num_variables_ ≠ 0 →
          o.fields.length = (t.context_to_minus_from o.num_variables_ + 1).toNat)
  | .ApiError o =>
    o.tags.class_id = kApiErrorCid
      ∧ o.fields.length = (t.to_minus_from kApiErrorCid + 1).toNat
  | .LanguageError o =>
    o.tags.class_id = kLanguageErrorCid
      ∧ o.fields.length = (t.to_minus_from kLanguageErrorCid + 1).toNat
  | .UnhandledException o =>
    o.tags.class_id = kUnhandledExceptionCid
      ∧ o.fields.length = (t.to_minus_from kUnhandledExceptionCid + 1).toNat

/-- Whether `s` is an internal typed buffer written for a message whose byte
    size is exactly the threshold `T`. -/
def Source.atThreshold (T : Nat) (kind : Snapshot.Kind) : Source → Bool
  | .TypedData o =>
    match UntaggedTypedData.switchCid o.tags.class_id o.length_ with
    | some (_, bytes) => decide (kind = .kMessage) && decide (toUint64 bytes = T)
    | none => false
  | _ => false

/-- The round-trip relation between a source object `s`, read in the sender's
    heap `h` before encoding, and the decoded object `o'`, read in the heap
    `h'` after encoding:
    * a boxed integer in the small-integer range decodes as the small integer
      of the same value;
    * a context with zero variables decodes as the null object;
    * an internal typed buffer written for a message whose byte size exceeds
      the threshold `T` decodes as an external buffer of the paired external
      kind, with the same length and bytes;
    * an ordered map decodes as a map with the same type arguments holding its
      live pairs in order, with `used_data` the number of live slots,
      `deleted_keys = 0` and `hash_mask = 0`;
    * every other object decodes to an isomorphic object. -/
def RoundTrip (t : Target) (T : Nat) (kind : Snapshot.Kind) (h h' : Heap) (s : Source)
    (o' : Obj) : Prop :=
  match s with
  | .Mint o =>
    if Smi.IsValid t.kSmiBits o.value_ then o' = Obj.Smi o.value_
    else Isomorphic h.memory (s.toObj h) h'.memory o'
  | .Context o =>
    if o.num_variables_ = 0 then o' = Obj.Null
    else Isomorphic h.memory (s.toObj h) h'.memory o'
  | .TypedData o =>
    match UntaggedTypedData.switchCid o.tags.class_id o.length_ with
    | some (ext, bytes) =>
      if kind = .kMessage ∧ toUint64 bytes > T then
        o'.view h'.memory = { (s.toObj h).view h.memory with kind := ext }
      else Isomorphic h.memory (s.toObj h) h'.memory o'
    | none => False
  | .LinkedHashMap o =>
    o'.view h'.memory
      = { kind := kLinkedHashMapCid,
          scalars := [((o.livePairs (o.used_data / 2).toNat).length : Int), 0, 0],
          children := o.type_arguments :: o.livePairs (o.used_data / 2).toNat }
  | _ => Isomorphic h.memory (s.toObj h) h'.memory o'

/-- A writer environment that allows no library and finds no closure
    serializable; tags and classes are read off the pointer. -/
def WriterEnv.strict : WriterEnv :=
  { class_table_At := fun id => .heap id.toNat,
    library_of := fun p => p,
    AllowObjectsInDartLibrary := fun _ => false,
    GetObjectTags := fun _ => ⟨kInstanceCid, false⟩,
    IsInFullSnapshot := fun _ => true,
    type_class_id_of := fun p => p,
    IsSerializableClosure := fun _ => Object.null }

/-- A writer environment that allows every library and takes every closure
    for the static implicit closure of the function at heap address 7. -/
def WriterEnv.permissive : WriterEnv :=
  { WriterEnv.strict with
    AllowObjectsInDartLibrary := fun _ => true,
    IsSerializableClosure := fun _ => .heap 7 }

/-! ## The order of binding and reading in the decoders -/

/-- Whether an event is the read of a child object. -/
def ReaderEvent.isChildRead : ReaderEvent → Bool
  | .ReadObjectImpl _ _ => true
  | _ => false

/-- A step that only appends to the log. -/
def Appends {α : Type} (x : Rd α) : Prop :=
  ∀ r a r', x r = some (a, r') → ∃ l, r'.events = r.events ++ l

/-- A step that only appends to the log, and reads no child. -/
def Quiet {α : Type} (x : Rd α) : Prop :=
  ∀ r a r', x r = some (a, r') →
    ∃ l, r'.events = r.events ++ l ∧ ∀ e ∈ l, e.isChildRead = false

/-- A step that, whenever it returns, has bound `object_id` with `AddBackRef`
    before reading any child: the events it appends are `pre`, in which no
    child is read, then the binding, then `post`. -/
def BindsBeforeChildren {α : Type} (object_id : Int) (x : Rd α) : Prop :=
  ∀ r a r', x r = some (a, r') →
    ∃ pre st post, r'.events = r.events ++ pre ++ ReaderEvent.AddBackRef object_id st :: post
      ∧ ∀ e ∈ pre, e.isChildRead = false

/-! ## Kind tags written and the decoders they select -/

/-- An object of any kind for which this file defines a `WriteTo`: the listed
    transferable kinds, the type-system values, closures, scope descriptors,
    regular instances, external strings, weak properties, and the kinds
    instantiated with `MESSAGE_SNAPSHOT_UNREACHABLE` and
    `MESSAGE_SNAPSHOT_ILLEGAL` (by name). -/
inductive Encoded
  | listed (s : Source)
  | Class (o : UntaggedClass)
  | Type_ (o : UntaggedType)
  | TypeRef (o : UntaggedTypeRef)
  | TypeParameter (o : UntaggedTypeParameter)
  | TypeParameters (o : UntaggedTypeParameters)
  | TypeArguments (o : UntaggedTypeArguments)
  | Closure (o : UntaggedClosure)
  | ContextScope (o : UntaggedContextScope)
  | Instance (o : UntaggedInstance)
  | ExternalOneByteString (o : UntaggedString)
  | ExternalTwoByteString (o : UntaggedString)
  | WeakProperty (o : UntaggedWeakProperty)
  | Unreachable (type : String)
  | Illegal (type : String)
  deriving DecidableEq, Repr

/-- Modelled from the spec: the encode half of the Kind Dispatch Table for
    every kind of this file: the `WriteTo` of the object's kind. -/
def Encoded.WriteTo (env : WriterEnv) (T : Nat) (e : Encoded) (writer : SnapshotWriter)
    (object_id : Int) (kind : Snapshot.Kind) (as_reference : Bool) : Option SnapshotWriter :=
  match e with
  | .listed s => s.WriteTo T writer object_id kind as_reference
  | .Class o => UntaggedClass.WriteTo env o writer object_id kind as_reference
  | .Type_ o => UntaggedType.WriteTo env o writer object_id kind as_reference
  | .TypeRef o => o.WriteTo writer object_id kind as_reference
  | .TypeParameter o => UntaggedTypeParameter.WriteTo env o writer object_id kind as_reference
  | .TypeParameters o => o.WriteTo writer object_id kind as_reference
  | .TypeArguments o => UntaggedTypeArguments.WriteTo env o writer object_id kind as_reference
  | .Closure o => UntaggedClosure.WriteTo env o writer object_id kind as_reference
  | .ContextScope o => o.WriteTo writer object_id kind as_reference
  | .Instance o => o.WriteTo writer object_id kind as_reference
  | .ExternalOneByteString o =>
    UntaggedExternalOneByteString.WriteTo o writer object_id kind as_reference
  | .ExternalTwoByteString o =>
    UntaggedExternalTwoByteString.WriteTo o writer object_id kind as_reference
  | .WeakProperty o => o.WriteTo writer object_id kind as_reference
  | .Unreachable _ => MESSAGE_SNAPSHOT_UNREACHABLE.WriteTo writer object_id kind as_reference
  | .Illegal type => MESSAGE_SNAPSHOT_ILLEGAL.WriteTo type writer object_id kind as_reference

/-- The header of an object carries the class id of its C++ type; this matters
    for the two encoders that write `GetClassId()` as the kind tag: a typed-data
    view has one of the view class ids, a transferable buffer has
    `kTransferableTypedDataCid` (the encoder asserts it). -/
def Encoded.HeaderOk : Encoded → Prop
  | .listed (.TypedDataView o) => IsTypedDataViewClassId o.tags.class_id = true
  | .listed (.TransferableTypedData o) => o.tags.class_id = kTransferableTypedDataCid
  | _ => True

/-- The kind tag at the head of what an encoder appended to the stream
    `before`, giving `after`: the class id written right after an object
    header, if the appended items start with a header and a class id. -/
def kindTagOf (before after : List Item) : Option ClassId :=
  match after.drop before.length with
  | .InlinedObjectHeader _ :: .IndexedObject cid :: _ => some cid
  | .InlinedObjectHeader _ :: .VMIsolateObject cid :: _ => some cid
  | _ => none

/-- The decoder a kind tag selects is not an unreachable stub: it returns on
    some reader state. -/
def HasDecoder (t : Target) (cid : ClassId) : Prop :=
  ∃ object_id tags kind m r, (ReadFromOf t cid object_id tags kind m r).isSome = true

/-- The kind tags that select a decoder of this file whose body is not
    `UNREACHABLE()`. -/
def IsDecodedTag (cid : ClassId) : Bool :=
  cid ∈ [kClassCid, kTypeCid, kTypeRefCid, kTypeParameterCid, kTypeParametersCid,
    kTypeArgumentsCid, kContextCid, kContextScopeCid, kApiErrorCid, kLanguageErrorCid,
    kUnhandledExceptionCid, kInstanceCid, kMintCid, kDoubleCid, kOneByteStringCid,
    kTwoByteStringCid, kArrayCid, kImmutableArrayCid, kGrowableObjectArrayCid,
    kLinkedHashMapCid, kFloat32x4Cid, kInt32x4Cid, kFloat64x2Cid, kCapabilityCid,
    kSendPortCid, kTransferableTypedDataCid, kRegExpCid, kWeakPropertyCid]
  || IsTypedDataClassId cid || IsExternalTypedDataClassId cid || IsTypedDataViewClassId cid

/-- For each decoded kind tag, a stream its decoder accepts: the encoding of an
    object of that kind with zero length, zero scalars and null children. -/
def sampleStream (t : Target) (cid : ClassId) : List Item :=
  match cid with
  | kClassCid => [.ClassIdOf Object.null]
  | kTypeCid =>
    [.Write .bool_t 0, .Write .uint8_t 0]
      ++ List.replicate (t.to_minus_from kTypeCid + 1).toNat (.ObjectImpl Object.null false)
      ++ [.ObjectImpl Object.null false]
  | kTypeParameterCid =>
    [.Write .uint8_t 0, .Write .uint8_t 0, .Write .uint8_t 0]
      ++ List.replicate (t.to_minus_from kTypeParameterCid + 1).toNat
          (.ObjectImpl Object.null false)
      ++ [.ObjectImpl Object.null false]
  | kLanguageErrorCid =>
    [.Write .int32_t 0, .Write .bool_t 0, .Write .uint8_t 0]
      ++ List.replicate (t.to_minus_from kLanguageErrorCid + 1).toNat
          (.ObjectImpl Object.null false)
      ++ []
  | kTypeRefCid | kTypeParametersCid | kApiErrorCid | kUnhandledExceptionCid
  | kWeakPropertyCid =>
    List.replicate (t.to_minus_from cid + 1).toNat (.ObjectImpl Object.null false) ++ []
  | kTypeArgumentsCid | kOneByteStringCid | kTwoByteStringCid => [.Write .ObjectPtr 0]
  | kContextCid => [.Write .int32_t 0]
  | kContextScopeCid => [.Write .bool_t 1, .ObjectImpl Object.null false]
  | kInstanceCid => []
  | kMintCid => [.Write .int64_t 0]
  | kDoubleCid => [.Write .double_t 0]
  | kArrayCid | kImmutableArrayCid => [.Write .ObjectPtr 0, .ObjectImpl Object.null false]
  | kGrowableObjectArrayCid =>
    [.ObjectImpl Object.null false, .Write .ObjectPtr 0, .ObjectImpl Object.null true]
  | kLinkedHashMapCid => [.ObjectImpl Object.null false, .Write .ObjectPtr 0]
  | kFloat32x4Cid =>
    [.Write .float_t 0, .Write .float_t 0, .Write .float_t 0, .Write .float_t 0]
  | kInt32x4Cid =>
    [.Write .uint32_t 0, .Write .uint32_t 0, .Write .uint32_t 0, .Write .uint32_t 0]
  | kFloat64x2Cid => [.Write .double_t 0, .Write .double_t 0]
  | kCapabilityCid => [.Write .uint64_t 0]
  | kSendPortCid => [.Write .uint64_t 0, .Write .uint64_t 0]
  | kTransferableTypedDataCid => [.Write .int64_t 0]
  | kRegExpCid =>
    [.ObjectImpl Object.null false, .ObjectImpl Object.null false, .Write .int32_t 0,
     .Write .int32_t 0, .Write .int32_t 0, .Write .int8_t 0]
  | cid =>
    if IsTypedDataClassId cid then [.Write .ObjectPtr 0, .Align Zone.kAlignment]
    else if IsExternalTypedDataClassId cid then [.Write .ObjectPtr 0]
    else [.Write .ObjectPtr 0, .Write .ObjectPtr 0, .ObjectImpl Object.null false]

/-- A registry holding one record, for the decoders of the external kinds. -/
def sampleRegistry : MessageFinalizableData :=
  { records := [⟨.block 1, .block 1, .IsolateMessageTypedDataFinalizer, none⟩],
    take_position := 0, external_size := 0 }

/-- The item one iteration of the loop of `UntaggedTypeArguments::WriteTo`
    appends for `element`, on a writer whose `can_send_any_object()` is
    `can_send`. -/
def UntaggedTypeArguments.elementItem (env : WriterEnv) (as_reference : Bool)
    (can_send : Bool) (element : ObjectPtr) : Item :=
  if !can_send then
    if !env.AllowObjectsInDartLibrary (env.library_of (env.class_table_At
        (match env.type_class_id_of element with
         | .smi v => v
         | .heap _ => 0))) then
      .VMIsolateObject kDynamicType
    else .ObjectImpl element as_reference
  else .ObjectImpl element as_reference

/-! ## Ordered maps: live pairs, tombstones and self-references -/

/-- The indices `k < n` of the pairs of a map's data array that are not
    deleted: the key slot `2 k` does not hold the data array itself. -/
def UntaggedLinkedHashMap.liveIndices (this : UntaggedLinkedHashMap) (n : Nat) : List Nat :=
  (List.range n).filter (fun k => this.data_elements.getD (2 * k) Object.null != this.data)

/-- The number of tombstone keys (key slot equal to the data array itself)
    among the first `n` pairs. -/
def UntaggedLinkedHashMap.tombstones (this : UntaggedLinkedHashMap) (n : Nat) : Nat :=
  ((List.range n).filter
    (fun k => this.data_elements.getD (2 * k) Object.null == this.data)).length

/-- Modelled from the spec: `Resolve(id) -> object|unset` of the Identity
    Table applied to a child of the stream (§4.1, §6; performed by
    `ReadObjectImpl` in `vm/snapshot.cc`): a child to which the write pass had
    already assigned an id (`ids`) travels as a back-reference `[back-ref-marker]
    [id]`, and resolves to the object the reader has bound to that id. -/
def SnapshotReader.Resolve (ids : ObjectPtr → Option Int) (r : SnapshotReader)
    (child : ObjectPtr) : Option Obj :=
  (ids child).bind r.lookup

/-- The items `UntaggedLinkedHashMap::WriteTo` appends: header, kind tag, tags,
    the type arguments inline, the declared pair count, and the live pairs in
    order, in reference mode unless the map is canonical. -/
def UntaggedLinkedHashMap.items (o : UntaggedLinkedHashMap) (object_id : Int) : List Item :=
  [.InlinedObjectHeader object_id, .IndexedObject kLinkedHashMapCid, .WriteTags o.tags,
   .ObjectImpl o.type_arguments false,
   .Write .ObjectPtr (o.used_data / 2 - o.deleted_keys)]
    ++ (o.livePairs ((o.used_data + 1) / 2).toNat).map
        (fun p => Item.ObjectImpl p (!o.tags.canonical))

/-- The reader after `LinkedHashMap::ReadFrom` has decoded the stream of a map
    with live pairs `live`, starting from a fresh reader over an empty
    registry. -/
def LinkedHashMap.readerAfter (t : Target) (object_id : Int) (canonical : Bool)
    (type_arguments : ObjectPtr) (live : List ObjectPtr) : SnapshotReader :=
  { stream := [],
    backrefs := [⟨object_id,
      .LinkedHashMap (LinkedHashMap.decoded t type_arguments (.heap 100) live),
      .kIsDeserialized⟩],
    finalizable_data := .empty,
    types_to_postprocess := [],
    maps_to_rehash := [object_id],
    events := [.New kLinkedHashMapCid, .AddBackRef object_id .kIsDeserialized,
        .ReadObjectImpl false type_arguments, .Read .ObjectPtr ((live.length : Int) / 2),
        .New kArrayCid, .EnqueueRehashingOfMap object_id]
      ++ live.map (fun p => ReaderEvent.ReadObjectImpl (!canonical) p),
    next_addr := 101 }

/-- A map with one live pair whose value is the map itself (`.heap 20`). -/
def selfMap : UntaggedLinkedHashMap :=
  { tags := ⟨kLinkedHashMapCid, false⟩, type_arguments := Object.null, hash_mask := 0,
    data := .heap 30, data_length := 8,
    data_elements := [.smi 1, .heap 20, .heap 30, .smi 7, .smi 2, .smi 9],
    used_data := 6, deleted_keys := 1 }

/-- The id the write pass assigned to `selfMap`. -/
def selfMapIds (p : ObjectPtr) : Option Int :=
  if p = .heap 20 then some 1 else none

/-! ## Interning of populated objects -/

/-- The tags word of a decoded heap object; null, a small integer and a class
    reference carry none. -/
def Obj.tags : Obj → Option Tags
  | .Null => none
  | .Smi _ => none
  | .Class _ => none
  | .Type o => some o.tags
  | .TypeRef o => some o.tags
  | .TypeParameter o => some o.tags
  | .TypeParameters o => some o.tags
  | .TypeArguments o => some o.tags
  | .Context o => some o.tags
  | .ContextScope o => some o.tags
  | .ApiError o => some o.tags
  | .LanguageError o => some o.tags
  | .UnhandledException o => some o.tags
  | .Instance o => some o.tags
  | .Mint o => some o.tags
  | .Double o => some o.tags
  | .String o => some o.tags
  | .Array o => some o.tags
  | .GrowableObjectArray o => some o.tags
  | .LinkedHashMap o => some o.tags
  | .Float32x4 o => some o.tags
  | .Int32x4 o => some o.tags
  | .Float64x2 o => some o.tags
  | .TypedData o => some o.tags
  | .ExternalTypedData o => some o.tags
  | .TypedDataView o => some o.tags
  | .Capability o => some o.tags
  | .SendPort o => some o.tags
  | .TransferableTypedData tags _ => some tags
  | .RegExp o => some o.tags
  | .WeakProperty o => some o.tags

/-- `obj.IsCanonical()` of a decoded heap object: the canonical bit of its
    tags word. -/
def Obj.IsCanonical (o : Obj) : Bool :=
  match o.tags with
  | some tags => UntaggedObject.IsCanonical tags
  | none => false

/-- A step that leaves the back-reference table alone and does not look
    `object_id` up: the events it appends are not `GetBackRef object_id`. -/
def Populates {α : Type} (object_id : Int) (x : Rd α) : Prop :=
  ∀ r a r', x r = some (a, r') →
    r'.backrefs = r.backrefs
      ∧ ∃ l, r'.events = r.events ++ l ∧ ∀ e ∈ l, e ≠ ReaderEvent.GetBackRef object_id

/-- The part of a decoder after the binding of `object_id`: started with the
    id bound, it populates the object without looking the id up, interns as
    its last step, and leaves the id bound to the canonical object it
    returns. -/
def InternsLast (object_id : Int) (x : Rd Obj) : Prop :=
  ∀ r o r', x r = some (o, r') → (r.lookup object_id).isSome = true →
    (∃ mid, r'.events = r.events ++ mid ++ [ReaderEvent.Canonicalize object_id]
        ∧ ∀ e ∈ mid, e ≠ ReaderEvent.GetBackRef object_id)
      ∧ r'.lookup object_id = some o ∧ o.IsCanonical = true

/-- Whether an event is a read from the stream: a scalar, an alignment, a
    child or a class id. -/
def ReaderEvent.isStreamRead : ReaderEvent → Bool
  | .Read _ _ => true
  | .Align _ => true
  | .ReadObjectImpl _ _ => true
  | .ReadClassId _ => true
  | _ => false

/-! ## Sample type-system values -/

/-- A finalized type of class 5 with state 3 and nullability 2. -/
def sampleType : UntaggedType :=
  { tags := ⟨kTypeCid, false⟩, type_state_ := 3, nullability_ := 2, type_class_id := .smi 5,
    fields := [Object.null, .heap 40, .smi 0] }

/-- A finalized type parameter with base 1, index 4, flags 9 and nullability 1. -/
def sampleTypeParameter : UntaggedTypeParameter :=
  { tags := ⟨kTypeParameterCid, false⟩, base_ := 1, index_ := 4, flags_ := 9,
    nullability_ := 1, parameterized_class_id_ := 5,
    fields := [Object.null, .heap 41, .smi 0] }

/-! ## Deferred work: postprocessing queues and type-testing stubs -/

/-- Whether an event is an enqueueing for postprocessing or a step of the
    type-testing-stub generator. -/
def ReaderEvent.isDeferredWork : ReaderEvent → Bool
  | .EnqueueTypePostprocessing _ => true
  | .EnqueueRehashingOfMap _ => true
  | .DefaultCodeForType _ => true
  | .InitializeTypeTestingStubNonAtomic _ => true
  | _ => false

/-- The entry an event appends to the type-postprocessing queue. -/
def ReaderEvent.typeEntry : ReaderEvent → Option Int
  | .EnqueueTypePostprocessing object_id => some object_id
  | _ => none

/-- The entry an event appends to the queue of maps to rehash. -/
def ReaderEvent.mapEntry : ReaderEvent → Option Int
  | .EnqueueRehashingOfMap object_id => some object_id
  | _ => none

/-- A step whose enqueueings and stub-generator steps are exactly `l`, in
    order, and which appends to the two queues the entries of `l`. -/
def Defers {α : Type} (l : List ReaderEvent) (x : Rd α) : Prop :=
  ∀ r a r', x r = some (a, r') →
    (∃ l', r'.events = r.events ++ l' ∧ l'.filter ReaderEvent.isDeferredWork = l)
      ∧ r'.types_to_postprocess
          = r.types_to_postprocess ++ l.filterMap ReaderEvent.typeEntry
      ∧ r'.maps_to_rehash = r.maps_to_rehash ++ l.filterMap ReaderEvent.mapEntry

/-- The enqueueings and stub-generator steps of the decoder a kind tag
    selects: the three type decoders enqueue the type and fill in its stub, the
    map decoder enqueues the map, every other decoder does neither. -/
def deferredWorkOf : ClassId → Int → List ReaderEvent
  | kTypeCid, object_id =>
    [.EnqueueTypePostprocessing object_id, .DefaultCodeForType object_id,
     .InitializeTypeTestingStubNonAtomic object_id]
  | kTypeRefCid, object_id =>
    [.EnqueueTypePostprocessing object_id, .DefaultCodeForType object_id,
     .InitializeTypeTestingStubNonAtomic object_id]
  | kTypeParameterCid, object_id =>
    [.EnqueueTypePostprocessing object_id, .DefaultCodeForType object_id,
     .InitializeTypeTestingStubNonAtomic object_id]
  | kLinkedHashMapCid, object_id => [.EnqueueRehashingOfMap object_id]
  | _, _ => []

/-! ## Interning follows the canonical bit -/

/-- Whether an event is an interning step: `Canonicalize`, an allocation with
    `NewCanonical`, or the look-up of a symbol. -/
def ReaderEvent.isIntern : ReaderEvent → Bool
  | .Canonicalize _ => true
  | .NewCanonical _ => true
  | .NewSymbol _ => true
  | _ => false

/-- A step whose result, whenever it returns, has canonical bit `b`. -/
def CanonResult (b : Bool) (x : Rd Obj) : Prop :=
  ∀ r o r', x r = some (o, r') → o.IsCanonical = b

/-- A step that only appends to the log, with an interning step among the
    events appended if and only if `b`. -/
def InternEvents {α : Type} (b : Bool) (x : Rd α) : Prop :=
  ∀ r a r', x r = some (a, r') →
    ∃ l, r'.events = r.events ++ l ∧ l.any ReaderEvent.isIntern = b

/-! ## Framing of what the encoders write -/

/-- Whether an item is a kind tag: an indexed class id or a predefined
    VM-isolate object id. -/
def Item.isKindTag : Item → Bool
  | .IndexedObject _ => true
  | .VMIsolateObject _ => true
  | _ => false

/-- Whether an item is a scalar field: a raw value or an alignment. -/
def Item.isScalar : Item → Bool
  | .Write _ _ => true
  | .Align _ => true
  | _ => false

/-- Whether an item is a child slot: an object written inline or by reference,
    a predefined object, or a class id. -/
def Item.isChild : Item → Bool
  | .ObjectImpl _ _ => true
  | .VMIsolateObject _ => true
  | .ClassIdOf _ => true
  | _ => false

/-- All scalar fields come before all child slots. -/
def scalarsFirst (items : List Item) : Bool :=
  (items.dropWhile Item.isScalar).all Item.isChild

/-- The tags word of a source object of a listed kind. -/
def Source.tags : Source → Tags
  | .Mint o => o.tags
  | .Double o => o.tags
  | .OneByteString o => o.tags
  | .TwoByteString o => o.tags
  | .Array o => o.tags
  | .ImmutableArray o => o.tags
  | .GrowableObjectArray o => o.tags
  | .LinkedHashMap o => o.tags
  | .Float32x4 o => o.tags
  | .Int32x4 o => o.tags
  | .Float64x2 o => o.tags
  | .TypedData o => o.tags
  | .ExternalTypedData o => o.tags
  | .TypedDataView o => o.tags
  | .Capability o => o.tags
  | .SendPort o => o.tags
  | .TransferableTypedData o => o.tags
  | .RegExp o => o.tags
  | .Context o => o.tags
  | .ApiError o => o.tags
  | .LanguageError o => o.tags
  | .UnhandledException o => o.tags

/-- The tags word of an object that has an encoder in this file,
    `writer->GetObjectTags(this)`; the objects of the kinds instantiated with
    the two macros are not represented. -/
def Encoded.tags : Encoded → Option Tags
  | .listed s => some s.tags
  | .Class o => some o.tags
  | .Type_ o => some o.tags
  | .TypeRef o => some o.tags
  | .TypeParameter o => some o.tags
  | .TypeParameters o => some o.tags
  | .TypeArguments o => some o.tags
  | .Closure o => some o.tags
  | .ContextScope o => some o.tags
  | .Instance o => some o.tags
  | .ExternalOneByteString o => some o.tags
  | .ExternalTwoByteString o => some o.tags
  | .WeakProperty o => some o.tags
  | .Unreachable _ => none
  | .Illegal _ => none

/-- Whether the `WriteTo` of the kind writes the stream items itself: the two
    array encoders hand the whole output to `writer->ArrayWriteTo` and the
    closure encoder to `writer->WriteStaticImplicitClosure`, both defined in
    `vm/snapshot.cc`. -/
def Encoded.selfWrites : Encoded → Bool
  | .listed (.Array _) => false
  | .listed (.ImmutableArray _) => false
  | .Closure _ => false
  | _ => true

/-- The number of child slots an encoder writes before its scalar fields: the
    capture-name map and the pattern of a regular expression, the type
    arguments of a growable array and of a map. -/
def Encoded.leadingChildren : Encoded → Nat
  | .listed (.RegExp _) => 2
  | .listed (.GrowableObjectArray _) => 1
  | .listed (.LinkedHashMap _) => 1
  | _ => 0

/-- What an encoder appended for the object `e` with id `object_id`: nothing,
    or the header carrying the id, a kind tag and the object's tags, followed
    by the payload: the leading children of the kind, then all scalar fields,
    then the child slots. -/
def Framed (e : Encoded) (object_id : Int) (items : List Item) : Prop :=
  items = [] ∨ ∃ k tags payload,
    items = .InlinedObjectHeader object_id :: k :: .WriteTags tags :: payload
      ∧ k.isKindTag = true ∧ e.tags = some tags
      ∧ (payload.take e.leadingChildren).all Item.isChild = true
      ∧ scalarsFirst (payload.drop e.leadingChildren) = true

/-! ## The mode of child slots -/

/-- The mode in which a child slot was written: `true` for reference mode,
    `false` for inline; `none` for an item that is not a child object. -/
def Item.childMode : Item → Option Bool
  | .ObjectImpl _ m => some m
  | _ => none

/-- The mode in which a decoder read a child: `true` for reference mode,
    `false` for inline; `none` for an event that is not the read of a child. -/
def ReaderEvent.childMode : ReaderEvent → Option Bool
  | .ReadObjectImpl m _ => some m
  | _ => none

/-! ## The reads of a decoder against the items of the encoder -/

/-- Whether a stream item is the one a read event consumed: a scalar of the
    same width and value, an alignment of the same size, a child read in the
    mode it was written in (a predefined object has no mode), or a class
    id. -/
def Item.readBy : Item → ReaderEvent → Bool
  | .Write type value, .Read type' value' => decide (type = type') && decide (value = value')
  | .Align alignment, .Align alignment' => decide (alignment = alignment')
  | .ObjectImpl obj as_reference, .ReadObjectImpl as_reference' obj' =>
    decide (obj = obj') && decide (as_reference = as_reference')
  | .VMIsolateObject cid, .ReadObjectImpl _ obj' =>
    decide (cid = kDynamicType) && decide (obj' = Object.dynamic_type)
  | .ClassIdOf cls, .ReadClassId cls' => decide (cls = cls')
  | _, _ => false

/-- The reads `events` consumed exactly the items `items`, one read per item,
    in order. -/
def mirrors : List Item → List ReaderEvent → Bool
  | [], [] => true
  | i :: items, e :: events => i.readBy e && mirrors items events
  | _, _ => false

theorem toIntptr_of_fits (x : Int) (h1 : -(2 : Int) ^ 63 ≤ x) (h2 : x < (2 : Int) ^ 63) :
    toIntptr x = x := by
  unfold toIntptr kBitsPerWord
  norm_num at h1 h2 ⊢
  omega

theorem toUint64_of_nonneg (x : Int) (h1 : 0 ≤ x) (h2 : x < (2 : Int) ^ 64) :
    (toUint64 x : Int) = x := by
  unfold toUint64
  norm_num at h2 ⊢
  omega

/-! ## Small-integer narrowing -/

/-- C2. For every 64-bit value `v` and every tags word, `Mint::ReadFrom` on a
    stream that starts with `v` succeeds, returns the small integer `v` exactly
    when `Smi::IsValid(v)`, returns a boxed Mint holding `v` (canonical as the
    tags say) otherwise, and in both cases adds the binding of `object_id` to
    the returned object. -/
theorem C2_mint_readfrom_narrows (t : Target) (object_id : Int) (tags : Tags)
    (kind : Snapshot.Kind) (as_reference : Bool) (v : Int) (rest : List Item)
    (r : SnapshotReader) (hlo : -(2 : Int) ^ 63 ≤ v) (hhi : v < (2 : Int) ^ 63) :
    ∃ o r', Mint.ReadFrom t object_id tags kind as_reference
          { r with stream := .Write .int64_t v :: rest } = some (o, r')
      ∧ (o = Obj.Smi v ↔ Smi.IsValid t.kSmiBits v = true)
      ∧ (Smi.IsValid t.kSmiBits v = false →
          o = Obj.Mint { tags := ⟨kMintCid, tags.canonical⟩, value_ := v })
      ∧ r'.backrefs = r.backrefs ++ [⟨object_id, o, .kIsDeserialized⟩]
      ∧ r'.stream = rest := by
  have hfit := toIntptr_of_fits v hlo hhi
  by_cases hvalid : Smi.IsValid t.kSmiBits v = true
  · simp [Mint.ReadFrom, bind, StateT.bind, SnapshotReader.Read, hvalid,
      SnapshotReader.AddBackRef, pure, StateT.pure, hfit]
    exact ⟨_, _, ⟨rfl, rfl⟩, rfl, rfl, rfl⟩
  · have hf : Smi.IsValid t.kSmiBits v = false := by simpa using hvalid
    cases hc : tags.canonical <;>
      simp [Mint.ReadFrom, bind, StateT.bind, SnapshotReader.Read, hf,
        SnapshotReader.AddBackRef, pure, StateT.pure, UntaggedObject.IsCanonical, hc,
        Mint.New, Mint.NewCanonical, SnapshotReader.log] <;>
      exact ⟨_, _, ⟨rfl, rfl⟩, by simp, rfl, rfl, rfl⟩

/-- Witness of C2: the value 42 on the 64-bit target. -/
theorem C2_mint_readfrom_narrows_witness :
    (-(2 : Int) ^ 63 ≤ 42 ∧ (42 : Int) < (2 : Int) ^ 63) ∧
    ∃ o r', Mint.ReadFrom Target.x64 5 ⟨kMintCid, false⟩ .kMessage false
          { SnapshotReader.init [] .empty with stream := .Write .int64_t 42 :: [] }
            = some (o, r')
      ∧ (o = Obj.Smi 42 ↔ Smi.IsValid Target.x64.kSmiBits 42 = true)
      ∧ (Smi.IsValid Target.x64.kSmiBits 42 = false →
          o = Obj.Mint { tags := ⟨kMintCid, false⟩, value_ := 42 })
      ∧ r'.backrefs = (SnapshotReader.init [] .empty).backrefs
          ++ [⟨5, o, .kIsDeserialized⟩]
      ∧ r'.stream = [] :=
  ⟨⟨by norm_num, by norm_num⟩,
   C2_mint_readfrom_narrows Target.x64 5 ⟨kMintCid, false⟩ .kMessage false 42 []
     (SnapshotReader.init [] .empty) (by norm_num) (by norm_num)⟩

/-- The stream `UntaggedMint::WriteTo` produces. -/
theorem UntaggedMint.WriteTo_mint_eq (m : UntaggedMint) (w : SnapshotWriter) (object_id : Int)
    (kind : Snapshot.Kind) (as_reference : Bool) :
    UntaggedMint.WriteTo m w object_id kind as_reference =
      some { w with stream := w.stream ++ [.InlinedObjectHeader object_id,
        .IndexedObject kMintCid, .WriteTags m.tags, .Write .int64_t m.value_] } := by
  simp [UntaggedMint.WriteTo, SnapshotWriter.WriteInlinedObjectHeader,
    SnapshotWriter.WriteIndexedObject, SnapshotWriter.WriteTags, SnapshotWriter.Write,
    SnapshotWriter.emit]

/-- Decoding what `UntaggedMint::WriteTo` wrote: a small integer when the value
    is in the small-integer range of the target, a boxed Mint otherwise. -/
theorem mint_roundtrip (t : Target) (m : UntaggedMint) (w : SnapshotWriter) (object_id : Int)
    (kind : Snapshot.Kind) (as_reference : Bool) (r : SnapshotReader)
    (hlo : -(2 : Int) ^ 63 ≤ m.value_) (hhi : m.value_ < (2 : Int) ^ 63) :
    ∃ w', UntaggedMint.WriteTo m { w with stream := [] } object_id kind as_reference
        = some w'
      ∧ ∃ r', SnapshotReader.ReadInlinedObject t kind as_reference
            { r with stream := w'.stream }
          = some (if Smi.IsValid t.kSmiBits m.value_ then Obj.Smi m.value_
                  else Obj.Mint { tags := ⟨kMintCid, m.tags.canonical⟩, value_ := m.value_ },
                  r')
        ∧ r'.stream = [] := by
  have hfit := toIntptr_of_fits m.value_ hlo hhi
  refine ⟨_, UntaggedMint.WriteTo_mint_eq _ _ _ _ _, ?_⟩
  by_cases hvalid : Smi.IsValid t.kSmiBits m.value_ = true
  · simp [SnapshotReader.ReadInlinedObject, ReadFromOf, Mint.ReadFrom, bind, StateT.bind,
      SnapshotReader.Read, hvalid, SnapshotReader.AddBackRef, pure, StateT.pure, hfit]
  · have hf : Smi.IsValid t.kSmiBits m.value_ = false := by simpa using hvalid
    cases hc : m.tags.canonical <;>
      simp [SnapshotReader.ReadInlinedObject, ReadFromOf, Mint.ReadFrom, bind, StateT.bind,
        SnapshotReader.Read, hf, SnapshotReader.AddBackRef, pure, StateT.pure,
        UntaggedObject.IsCanonical, UntaggedObject.ClassIdTag.update, hc,
        Mint.New, Mint.NewCanonical, SnapshotReader.log]

/-- Whether `2 ^ 53` is a valid small integer depends on the target. -/
theorem Smi.IsValid_two_pow_53 (k : Nat) :
    Smi.IsValid k ((2 : Int) ^ 53) = decide (53 < k) := by
  unfold Smi.IsValid
  have h1 : -(2 : Int) ^ k ≤ (2 : Int) ^ 53 := by
    have : (0 : Int) < (2 : Int) ^ k := by positivity
    have : (0 : Int) < (2 : Int) ^ 53 := by positivity
    omega
  have h2 : ((2 : Int) ^ 53 < (2 : Int) ^ k) ↔ 53 < k :=
    pow_lt_pow_iff_right₀ (by norm_num : (1 : Int) < 2)
  rw [decide_eq_true h1, Bool.true_and]
  exact decide_eq_decide.mpr h2

/-- `42` is a valid small integer on every target with at least six value
    bits. -/
theorem Smi.IsValid_42 (k : Nat) (h : 6 ≤ k) : Smi.IsValid k 42 = true := by
  unfold Smi.IsValid
  have h64 : (2 : Int) ^ 6 ≤ (2 : Int) ^ k := pow_le_pow_right₀ (by norm_num) h
  have : (0 : Int) < (2 : Int) ^ k := by positivity
  norm_num at h64
  simp
  omega

/-- Counterexample to C3 as stated: on the 64-bit target a boxed Mint holding
    `2 ^ 53`, written by `UntaggedMint::WriteTo`, decodes as the small integer
    `2 ^ 53`, not as a boxed Mint. -/
theorem C3_counterexample :
    ∃ w',
      UntaggedMint.WriteTo { tags := ⟨kMintCid, false⟩, value_ := 2 ^ 53 }
          (SnapshotWriter.init .empty) 1 .kMessage false = some w'
      ∧ ∃ r', SnapshotReader.ReadInlinedObject Target.x64 .kMessage false w'.toReader
          = some (Obj.Smi (2 ^ 53), r')
        ∧ (Obj.Smi (2 ^ 53)).isMint = false := by
  refine ⟨_, UntaggedMint.WriteTo_mint_eq _ _ _ _ _, ?_⟩
  have hv : Smi.IsValid Target.x64.kSmiBits ((2 : Int) ^ 53) = true := by
    rw [Smi.IsValid_two_pow_53]; decide
  have hfit : toIntptr ((2 : Int) ^ 53) = (2 : Int) ^ 53 :=
    toIntptr_of_fits _ (by norm_num) (by norm_num)
  simp only [SnapshotWriter.toReader, SnapshotReader.init, SnapshotWriter.init,
    List.nil_append, SnapshotReader.ReadInlinedObject, ReadFromOf, Mint.ReadFrom, bind,
    StateT.bind, SnapshotReader.Read, if_true, hv, SnapshotReader.AddBackRef, pure,
    StateT.pure, hfit]
  exact ⟨_, rfl, rfl⟩

/-- C3 (amended). On every target whose small integers have at least six value
    bits, a boxed 42 written by `UntaggedMint::WriteTo` decodes through
    `Mint::ReadFrom` as the small integer 42; a boxed `2 ^ 53` decodes as a boxed
    Mint exactly when the target's small integers have at most 53 value bits
    (31-bit small integers) and as a small integer otherwise (63-bit small
    integers); in every case the decoded value equals the source value. -/
theorem C3_narrowing_of_42_and_two_pow_53 (t : Target) (tags : Tags) (object_id : Int)
    (kind : Snapshot.Kind) (as_reference : Bool) (w : SnapshotWriter) (r : SnapshotReader)
    (h6 : 6 ≤ t.kSmiBits) :
    (∃ w', UntaggedMint.WriteTo { tags := tags, value_ := 42 } { w with stream := [] }
          object_id kind as_reference = some w'
      ∧ ∃ r', SnapshotReader.ReadInlinedObject t kind as_reference
            { r with stream := w'.stream } = some (Obj.Smi 42, r')
        ∧ (Obj.Smi 42).integerValue = some 42)
    ∧ (∃ w', UntaggedMint.WriteTo { tags := tags, value_ := 2 ^ 53 } { w with stream := [] }
          object_id kind as_reference = some w'
      ∧ ∃ o r', SnapshotReader.ReadInlinedObject t kind as_reference
            { r with stream := w'.stream } = some (o, r')
        ∧ (o.isMint = true ↔ t.kSmiBits ≤ 53)
        ∧ (o.isSmi = true ↔ 53 < t.kSmiBits)
        ∧ o.integerValue = some (2 ^ 53)) := by
  constructor
  · obtain ⟨w', hw, r', hr, _⟩ := mint_roundtrip t { tags := tags, value_ := 42 } w object_id
      kind as_reference r (by norm_num) (by norm_num)
    refine ⟨w', hw, r', ?_, rfl⟩
    rw [hr]
    simp [Smi.IsValid_42 t.kSmiBits h6]
  · obtain ⟨w', hw, r', hr, _⟩ := mint_roundtrip t { tags := tags, value_ := 2 ^ 53 } w
      object_id kind as_reference r (by norm_num) (by norm_num)
    refine ⟨w', hw, _, r', hr, ?_, ?_, ?_⟩
    · simp only [Smi.IsValid_two_pow_53]
      by_cases hk : 53 < t.kSmiBits
      · simp [hk, Obj.isMint]
      · simp [hk, Obj.isMint]; omega
    · simp only [Smi.IsValid_two_pow_53]
      by_cases hk : 53 < t.kSmiBits
      · simp [hk, Obj.isSmi]
      · simp [hk, Obj.isSmi]
    · simp only [Smi.IsValid_two_pow_53]
      by_cases hk : 53 < t.kSmiBits
      · simp [hk, Obj.integerValue]
      · simp [hk, Obj.integerValue]

/-- Witness of C3 (amended): the target with 31-bit small integers, where 42
    decodes as a small integer and `2 ^ 53` as a boxed Mint. -/
theorem C3_narrowing_of_42_and_two_pow_53_witness :
    6 ≤ Target.smi31.kSmiBits ∧
    ((∃ w', UntaggedMint.WriteTo { tags := ⟨kMintCid, false⟩, value_ := 42 }
          { SnapshotWriter.init .empty with stream := [] } 1 .kMessage false = some w'
      ∧ ∃ r', SnapshotReader.ReadInlinedObject Target.smi31 .kMessage false
            { SnapshotReader.init [] .empty with stream := w'.stream } = some (Obj.Smi 42, r')
        ∧ (Obj.Smi 42).integerValue = some 42)
    ∧ (∃ w', UntaggedMint.WriteTo { tags := ⟨kMintCid, false⟩, value_ := 2 ^ 53 }
          { SnapshotWriter.init .empty with stream := [] } 1 .kMessage false = some w'
      ∧ ∃ o r', SnapshotReader.ReadInlinedObject Target.smi31 .kMessage false
            { SnapshotReader.init [] .empty with stream := w'.stream } = some (o, r')
        ∧ (o.isMint = true ↔ Target.smi31.kSmiBits ≤ 53)
        ∧ (o.isSmi = true ↔ 53 < Target.smi31.kSmiBits)
        ∧ o.integerValue = some (2 ^ 53))) :=
  ⟨by decide,
   C3_narrowing_of_42_and_two_pow_53 Target.smi31 ⟨kMintCid, false⟩ 1 .kMessage false
     (SnapshotWriter.init .empty) (SnapshotReader.init [] .empty) (by decide)⟩

/-! ## Threshold externalization of typed buffers -/

/-- The external branch of `UntaggedTypedData::WriteTo`. -/
theorem UntaggedTypedData.WriteTo_external (T : Nat) (this : UntaggedTypedData)
    (w : SnapshotWriter) (object_id : Int) (as_reference : Bool) (ext : ClassId) (bytes : Int)
    (hs : UntaggedTypedData.switchCid this.tags.class_id this.length_ = some (ext, bytes))
    (hT : toUint64 bytes ≥ T) :
    UntaggedTypedData.WriteTo T this w object_id .kMessage as_reference
      = some (this.externalResult w object_id ext bytes) := by
  simp [UntaggedTypedData.WriteTo, hs, hT, UntaggedTypedData.externalResult,
    SnapshotWriter.WriteInlinedObjectHeader, SnapshotWriter.WriteIndexedObject,
    SnapshotWriter.WriteTags, SnapshotWriter.Write, SnapshotWriter.emit,
    SnapshotWriter.malloc, SnapshotWriter.memmove, SnapshotWriter.Put]

/-- The inline branch of `UntaggedTypedData::WriteTo`. -/
theorem UntaggedTypedData.WriteTo_inline (T : Nat) (this : UntaggedTypedData)
    (w : SnapshotWriter) (object_id : Int) (kind : Snapshot.Kind) (as_reference : Bool)
    (ext : ClassId) (bytes : Int)
    (hs : UntaggedTypedData.switchCid this.tags.class_id this.length_ = some (ext, bytes))
    (h : ¬ (kind = .kMessage ∧ toUint64 bytes ≥ T)) :
    UntaggedTypedData.WriteTo T this w object_id kind as_reference
      = some (this.inlineResult w object_id bytes) := by
  simp only [UntaggedTypedData.WriteTo, hs, h, if_false]
  simp [UntaggedTypedData.inlineResult,
    SnapshotWriter.WriteInlinedObjectHeader, SnapshotWriter.WriteIndexedObject,
    SnapshotWriter.WriteTags, SnapshotWriter.Write, SnapshotWriter.emit,
    SnapshotWriter.Align, SnapshotWriter.WriteBytes]

theorem toIntptr_range (x : Int) :
    -(2 : Int) ^ 63 ≤ toIntptr x ∧ toIntptr x < (2 : Int) ^ 63 := by
  unfold toIntptr kBitsPerWord
  norm_num
  omega

/-- The external class id the `switch` pairs with an internal one is one of the
    14 external ids and differs from the internal id. -/
theorem UntaggedTypedData.switchCid_external (cid : ClassId) (length : Int) (ext : ClassId)
    (bytes : Int) (hs : UntaggedTypedData.switchCid cid length = some (ext, bytes)) :
    ext ≠ cid ∧ IsExternalTypedDataClassId ext = true ∧ IsTypedDataClassId cid = true := by
  cases cid <;> simp [UntaggedTypedData.switchCid] at hs <;>
    (obtain ⟨rfl, _⟩ := hs; exact ⟨by decide, by decide, by decide⟩)

/-- The byte size the `switch` computes is the element count times the width
    the `switch` gives for one element, converted to `intptr_t`. -/
theorem UntaggedTypedData.switchCid_width (cid : ClassId) (length : Int) (ext : ClassId)
    (width : Int) (hs : UntaggedTypedData.switchCid cid 1 = some (ext, width)) :
    UntaggedTypedData.switchCid cid length = some (ext, toIntptr (length * width))
      ∧ 1 ≤ width ∧ width ≤ 16 := by
  cases cid <;> simp [UntaggedTypedData.switchCid] at hs <;>
    (obtain ⟨rfl, rfl⟩ := hs
     simp [UntaggedTypedData.switchCid, toIntptr, kBitsPerWord, sizeof_int8_t,
       sizeof_uint8_t, sizeof_int16_t, sizeof_uint16_t, sizeof_int32_t, sizeof_uint32_t,
       sizeof_int64_t, sizeof_uint64_t, sizeof_float, sizeof_double, mul_assoc])

/-- C4. For every threshold `T` and every internal typed buffer of one of the 14
    element kinds whose payload has more than `T` bytes, `UntaggedTypedData::
    WriteTo` for a message snapshot emits, after the object header, the external
    class id paired with the buffer's kind (which is not the internal id), the
    tags and the length, and no payload byte. -/
theorem C4_above_threshold_externalizes (T : Nat) (this : UntaggedTypedData)
    (w : SnapshotWriter) (object_id : Int) (as_reference : Bool) (ext : ClassId) (bytes : Int)
    (hs : UntaggedTypedData.switchCid this.tags.class_id this.length_ = some (ext, bytes))
    (hwf : (this.data.length : Int) = bytes) (hT : T < this.data.length) :
    ∃ w', UntaggedTypedData.WriteTo T this w object_id .kMessage as_reference = some w'
      ∧ w'.stream = w.stream ++ [.InlinedObjectHeader object_id, .IndexedObject ext,
          .WriteTags this.tags, .Write .ObjectPtr this.length_]
      ∧ ext ≠ this.tags.class_id
      ∧ IsExternalTypedDataClassId ext = true
      ∧ ∀ b, Item.Write .uint8_t b ∉ w'.stream.drop w.stream.length := by
  have hge : toUint64 bytes ≥ T := by
    have h := toUint64_of_nonneg bytes (by omega) (by
      have := (show bytes < (2 : Int) ^ 63 by
        have hsw := hs
        cases hc : this.tags.class_id <;> rw [hc] at hsw <;>
          simp [UntaggedTypedData.switchCid] at hsw <;>
          (obtain ⟨_, rfl⟩ := hsw; exact (toIntptr_range _).2))
      norm_num at this ⊢
      omega)
    omega
  obtain ⟨hne, hext, _⟩ := UntaggedTypedData.switchCid_external _ _ _ _ hs
  refine ⟨_, UntaggedTypedData.WriteTo_external T this w object_id as_reference ext bytes hs hge,
    rfl, hne, hext, ?_⟩
  intro b
  simp [UntaggedTypedData.externalResult]

/-- Witness of C4: threshold 3 and a four-byte `Uint8` buffer. -/
theorem C4_above_threshold_externalizes_witness :
    (UntaggedTypedData.switchCid kTypedDataUint8ArrayCid 4
        = some (kExternalTypedDataUint8ArrayCid, 4)
      ∧ (([1, 2, 3, 4] : List Nat).length : Int) = 4 ∧ 3 < ([1, 2, 3, 4] : List Nat).length)
    ∧ ∃ w', UntaggedTypedData.WriteTo 3
          { tags := ⟨kTypedDataUint8ArrayCid, false⟩, length_ := 4, data := [1, 2, 3, 4] }
          (SnapshotWriter.init .empty) 1 .kMessage false = some w'
      ∧ w'.stream = (SnapshotWriter.init .empty).stream ++ [.InlinedObjectHeader 1,
          .IndexedObject kExternalTypedDataUint8ArrayCid,
          .WriteTags ⟨kTypedDataUint8ArrayCid, false⟩, .Write .ObjectPtr 4]
      ∧ kExternalTypedDataUint8ArrayCid ≠ kTypedDataUint8ArrayCid
      ∧ IsExternalTypedDataClassId kExternalTypedDataUint8ArrayCid = true
      ∧ ∀ b, Item.Write .uint8_t b ∉
          w'.stream.drop (SnapshotWriter.init .empty).stream.length :=
  ⟨⟨by decide, by decide, by decide⟩,
   C4_above_threshold_externalizes 3
     { tags := ⟨kTypedDataUint8ArrayCid, false⟩, length_ := 4, data := [1, 2, 3, 4] }
     (SnapshotWriter.init .empty) 1 false kExternalTypedDataUint8ArrayCid 4
     (by decide) (by decide) (by decide)⟩

/-- C5, the code at the failing input: with threshold 4, a `Uint8` buffer of
    exactly 4 bytes written for a message takes the external branch (the test is
    `bytes >= threshold`): the stream carries the external class id and no
    payload byte, and one record is put into the finalizer registry. -/
theorem C5_exactly_threshold_is_externalized :
    ∃ w', UntaggedTypedData.WriteTo 4
          { tags := ⟨kTypedDataUint8ArrayCid, false⟩, length_ := 4, data := [1, 2, 3, 4] }
          (SnapshotWriter.init .empty) 1 .kMessage false = some w'
      ∧ w'.stream = [.InlinedObjectHeader 1, .IndexedObject kExternalTypedDataUint8ArrayCid,
          .WriteTags ⟨kTypedDataUint8ArrayCid, false⟩, .Write .ObjectPtr 4]
      ∧ w'.finalizable_data.records.length = 1 := by
  refine ⟨_, UntaggedTypedData.WriteTo_external 4 _ _ 1 false
    kExternalTypedDataUint8ArrayCid 4 (by decide) (by decide), ?_, ?_⟩
  · rfl
  · rfl

/-- Strictly below the threshold the buffer is written inline: the internal
    class id, the aligned payload bytes, and nothing put into the registry. -/
theorem UntaggedTypedData.WriteTo_below_threshold (T : Nat) (this : UntaggedTypedData)
    (w : SnapshotWriter) (object_id : Int) (kind : Snapshot.Kind) (as_reference : Bool)
    (ext : ClassId) (bytes : Int)
    (hs : UntaggedTypedData.switchCid this.tags.class_id this.length_ = some (ext, bytes))
    (hT : toUint64 bytes < T) :
    ∃ w', UntaggedTypedData.WriteTo T this w object_id kind as_reference = some w'
      ∧ w'.stream = w.stream ++ [.InlinedObjectHeader object_id,
          .IndexedObject this.tags.class_id, .WriteTags this.tags,
          .Write .ObjectPtr this.length_, .Align Zone.kAlignment]
          ++ bytesItems this.data bytes
      ∧ w'.finalizable_data = w.finalizable_data ∧ w'.heap = w.heap :=
  ⟨_, UntaggedTypedData.WriteTo_inline T this w object_id kind as_reference ext bytes hs
    (by omega), rfl, rfl, rfl⟩

/-- C6. For every snapshot kind other than the message kind, every threshold
    and every internal typed buffer of one of the 14 element kinds,
    `UntaggedTypedData::WriteTo` emits the internal class id and the payload
    bytes inline, and leaves the finalizer registry and native memory as they
    were (no `Put`). -/
theorem C6_externalization_only_for_messages (T : Nat) (this : UntaggedTypedData)
    (w : SnapshotWriter) (object_id : Int) (kind : Snapshot.Kind) (as_reference : Bool)
    (ext : ClassId) (bytes : Int)
    (hs : UntaggedTypedData.switchCid this.tags.class_id this.length_ = some (ext, bytes))
    (hk : kind ≠ .kMessage) :
    ∃ w', UntaggedTypedData.WriteTo T this w object_id kind as_reference = some w'
      ∧ w'.stream = w.stream ++ [.InlinedObjectHeader object_id,
          .IndexedObject this.tags.class_id, .WriteTags this.tags,
          .Write .ObjectPtr this.length_, .Align Zone.kAlignment]
          ++ bytesItems this.data bytes
      ∧ w'.finalizable_data = w.finalizable_data ∧ w'.heap = w.heap :=
  ⟨_, UntaggedTypedData.WriteTo_inline T this w object_id kind as_reference ext bytes hs
    (fun h => hk h.1), rfl, rfl, rfl⟩

/-- Witness of C6: threshold 0 and a four-byte `Uint8` buffer in a full
    snapshot. -/
theorem C6_externalization_only_for_messages_witness :
    (UntaggedTypedData.switchCid kTypedDataUint8ArrayCid 4
        = some (kExternalTypedDataUint8ArrayCid, 4)
      ∧ Snapshot.Kind.kFull ≠ Snapshot.Kind.kMessage)
    ∧ ∃ w', UntaggedTypedData.WriteTo 0
          { tags := ⟨kTypedDataUint8ArrayCid, false⟩, length_ := 4, data := [1, 2, 3, 4] }
          (SnapshotWriter.init .empty) 1 .kFull false = some w'
      ∧ w'.stream = (SnapshotWriter.init .empty).stream ++ [.InlinedObjectHeader 1,
          .IndexedObject kTypedDataUint8ArrayCid, .WriteTags ⟨kTypedDataUint8ArrayCid, false⟩,
          .Write .ObjectPtr 4, .Align Zone.kAlignment]
          ++ bytesItems [1, 2, 3, 4] 4
      ∧ w'.finalizable_data = (SnapshotWriter.init .empty).finalizable_data
      ∧ w'.heap = (SnapshotWriter.init .empty).heap :=
  ⟨⟨by decide, by decide⟩,
   C6_externalization_only_for_messages 0
     { tags := ⟨kTypedDataUint8ArrayCid, false⟩, length_ := 4, data := [1, 2, 3, 4] }
     (SnapshotWriter.init .empty) 1 .kFull false kExternalTypedDataUint8ArrayCid 4
     (by decide) (by decide)⟩

/-- C7. With the default threshold `kMaxUint64`, for every one of the 14 element
    kinds (of element width `width`) and every non-negative element count whose
    byte size `length * width` fits a signed machine word, `UntaggedTypedData::
    WriteTo` takes the inline branch for every snapshot kind, the message kind
    included: internal class id, payload inline, no `Put`. -/
theorem C7_default_threshold_never_externalizes (this : UntaggedTypedData)
    (w : SnapshotWriter) (object_id : Int) (kind : Snapshot.Kind) (as_reference : Bool)
    (ext : ClassId) (width : Int)
    (hs : UntaggedTypedData.switchCid this.tags.class_id 1 = some (ext, width))
    (h0 : 0 ≤ this.length_) (hfit : this.length_ * width < (2 : Int) ^ 63) :
    ∃ w', UntaggedTypedData.WriteTo FLAG_externalize_typed_data_threshold_default this w
          object_id kind as_reference = some w'
      ∧ w'.stream = w.stream ++ [.InlinedObjectHeader object_id,
          .IndexedObject this.tags.class_id, .WriteTags this.tags,
          .Write .ObjectPtr this.length_, .Align Zone.kAlignment]
          ++ bytesItems this.data (this.length_ * width)
      ∧ w'.finalizable_data = w.finalizable_data ∧ w'.heap = w.heap := by
  obtain ⟨hsw, hw1, _⟩ := UntaggedTypedData.switchCid_width _ this.length_ _ _ hs
  have hnn : 0 ≤ this.length_ * width := mul_nonneg h0 (by omega)
  have hfit' := toIntptr_of_fits (this.length_ * width) (by
    have : (0 : Int) < (2 : Int) ^ 63 := by positivity
    omega) hfit
  rw [hfit'] at hsw
  refine UntaggedTypedData.WriteTo_below_threshold _ this w object_id kind as_reference ext _
    hsw ?_
  have h := toUint64_of_nonneg (this.length_ * width) hnn (by
    norm_num at hfit ⊢
    omega)
  unfold FLAG_externalize_typed_data_threshold_default kMaxUint64
  norm_num at hfit ⊢
  omega

/-- Witness of C7: an `Int16` buffer of two elements in a message. -/
theorem C7_default_threshold_never_externalizes_witness :
    (UntaggedTypedData.switchCid kTypedDataInt16ArrayCid 1
        = some (kExternalTypedDataInt16ArrayCid, 2)
      ∧ (0 : Int) ≤ 2 ∧ (2 : Int) * 2 < (2 : Int) ^ 63)
    ∧ ∃ w', UntaggedTypedData.WriteTo FLAG_externalize_typed_data_threshold_default
          { tags := ⟨kTypedDataInt16ArrayCid, false⟩, length_ := 2, data := [1, 0, 2, 0] }
          (SnapshotWriter.init .empty) 1 .kMessage false = some w'
      ∧ w'.stream = (SnapshotWriter.init .empty).stream ++ [.InlinedObjectHeader 1,
          .IndexedObject kTypedDataInt16ArrayCid,
          .WriteTags ⟨kTypedDataInt16ArrayCid, false⟩,
          .Write .ObjectPtr 2, .Align Zone.kAlignment]
          ++ bytesItems [1, 0, 2, 0] (2 * 2)
      ∧ w'.finalizable_data = (SnapshotWriter.init .empty).finalizable_data
      ∧ w'.heap = (SnapshotWriter.init .empty).heap :=
  ⟨⟨by decide, by norm_num, by norm_num⟩,
   C7_default_threshold_never_externalizes
     { tags := ⟨kTypedDataInt16ArrayCid, false⟩, length_ := 2, data := [1, 0, 2, 0] }
     (SnapshotWriter.init .empty) 1 .kMessage false kExternalTypedDataInt16ArrayCid 2
     (by decide) (by norm_num) (by norm_num)⟩

/-! ## Native memory -/

theorem foldl_max_ge (l : List (Nat × List Nat)) (init : Nat) :
    init ≤ l.foldl (fun a b => max a b.1) init
      ∧ ∀ b ∈ l, b.1 ≤ l.foldl (fun a b => max a b.1) init := by
  induction l generalizing init with
  | nil => simp
  | cons x xs ih =>
    obtain ⟨h1, h2⟩ := ih (max init x.1)
    simp only [List.foldl_cons, List.mem_cons]
    refine ⟨le_trans (le_max_left _ _) h1, ?_⟩
    rintro b (rfl | hb)
    · exact le_trans (le_max_right _ _) h1
    · exact h2 b hb

/-- The address `malloc` returns belongs to no live block. -/
theorem NativeMemory.malloc_fresh (m : NativeMemory) (bytes : Int) :
    m.isLive (m.malloc bytes).1 = false := by
  simp only [NativeMemory.isLive, NativeMemory.malloc, List.any_eq_false, beq_iff_eq]
  intro b hb
  have := (foldl_max_ge m.blocks m.next).2 b hb
  omega

/-- `malloc` followed by `memmove` into the new block: one more block, holding
    the first `bytes` bytes of the source; every other block is as before. -/
theorem NativeMemory.malloc_memmove (m : NativeMemory) (bytes : Int) (src : List Nat) :
    (m.malloc bytes).2.memmove (m.malloc bytes).1 src bytes
      = { blocks := ((m.malloc bytes).1, src.take bytes.toNat) :: m.blocks,
          next := (m.malloc bytes).1 } := by
  have hfresh := NativeMemory.malloc_fresh m bytes
  simp only [NativeMemory.isLive, List.any_eq_false, beq_iff_eq] at hfresh
  simp only [NativeMemory.memmove, NativeMemory.malloc, List.map_cons, beq_self_eq_true,
    if_true, NativeMemory.mk.injEq, List.cons.injEq, and_true]
  refine ⟨?_, ?_⟩
  · simp [List.drop_replicate]
  · conv_rhs => rw [← List.map_id m.blocks]
    apply List.map_congr_left
    intro b hb
    have := hfresh b hb
    simp only [NativeMemory.malloc] at this
    simp [this]

/-- Reading the block just allocated and filled. -/
theorem NativeMemory.read_malloc_memmove (m : NativeMemory) (bytes : Int) (src : List Nat) :
    ((m.malloc bytes).2.memmove (m.malloc bytes).1 src bytes).read (m.malloc bytes).1
      = src.take bytes.toNat := by
  rw [NativeMemory.malloc_memmove]
  simp [NativeMemory.read]

/-- A block that was live before `malloc` and `memmove` keeps its contents. -/
theorem NativeMemory.read_old_malloc_memmove (m : NativeMemory) (bytes : Int)
    (src : List Nat) (a : Nat) (ha : m.isLive a = true) :
    ((m.malloc bytes).2.memmove (m.malloc bytes).1 src bytes).read a = m.read a := by
  rw [NativeMemory.malloc_memmove]
  have hfresh := NativeMemory.malloc_fresh m bytes
  have hne : ((m.malloc bytes).1 == a) = false := by
    rw [beq_eq_false_iff_ne]
    intro h
    rw [h, ha] at hfresh
    exact absurd hfresh (by simp)
  simp [NativeMemory.read, List.find?_cons, hne]

/-! ## The finalizer registry -/

theorem MessageFinalizableData.putAll_records (r : MessageFinalizableData)
    (ds : List FinalizableData) :
    (r.putAll ds).records = r.records ++ ds ∧ (r.putAll ds).take_position = r.take_position := by
  induction ds generalizing r with
  | nil => simp [MessageFinalizableData.putAll]
  | cons d ds ih =>
    have h := ih (r.Put 0 d.data d.peer d.callback d.successful_transfer_callback)
    simp only [MessageFinalizableData.putAll, List.foldl_cons] at h ⊢
    rw [h.1, h.2]
    simp [MessageFinalizableData.Put]

theorem MessageFinalizableData.takeN_records (pre ds : List FinalizableData)
    (r : MessageFinalizableData) (hr : r.records = pre ++ ds)
    (hp : r.take_position = pre.length) :
    r.takeN ds.length = some (ds, { r with take_position := pre.length + ds.length }) := by
  induction ds generalizing pre r with
  | nil =>
    simp only [List.length_nil, MessageFinalizableData.takeN, add_zero]
    rw [← hp]
  | cons d ds ih =>
    have hget : r.records.get? r.take_position = some d := by
      rw [hr, hp, List.get?_eq_getElem?, List.getElem?_append_right (le_refl _)]
      simp
    have h := ih (pre ++ [d]) { r with take_position := r.take_position + 1 }
      (by simp [hr]) (by simp [hp])
    simp only [List.length_cons, MessageFinalizableData.takeN, MessageFinalizableData.Take,
      hget, h]
    simp [Nat.add_assoc, Nat.add_comm 1]

/-- The records come out of the registry in the order they were put in: after
    the puts `ds` on an empty registry, `ds.length` takes return `ds`. -/
theorem MessageFinalizableData.fifo (ds : List FinalizableData) :
    ∃ r', (MessageFinalizableData.empty.putAll ds).takeN ds.length = some (ds, r') := by
  obtain ⟨h1, h2⟩ := MessageFinalizableData.putAll_records .empty ds
  exact ⟨_, MessageFinalizableData.takeN_records [] ds _ (by simpa using h1) (by simpa using h2)⟩

/-! ## External-buffer hand-off -/

/-- What `UntaggedExternalTypedData::WriteTo` does. -/
theorem UntaggedExternalTypedData.WriteTo_external_eq (this : UntaggedExternalTypedData)
    (w : SnapshotWriter) (object_id : Int) (kind : Snapshot.Kind) (as_reference : Bool)
    (bytes : Int)
    (hs : UntaggedExternalTypedData.switchCid this.tags.class_id this.length_ = some bytes) :
    UntaggedExternalTypedData.WriteTo this w object_id kind as_reference
      = some (this.result w object_id bytes) := by
  simp [UntaggedExternalTypedData.WriteTo, hs, UntaggedExternalTypedData.result,
    SnapshotWriter.WriteInlinedObjectHeader, SnapshotWriter.WriteIndexedObject,
    SnapshotWriter.WriteTags, SnapshotWriter.Write, SnapshotWriter.emit,
    SnapshotWriter.malloc, SnapshotWriter.memmove, SnapshotWriter.Put]

/-- What `UntaggedTransferableTypedData::WriteTo` does on a peer with data. -/
theorem UntaggedTransferableTypedData.WriteTo_transferable_eq (this : UntaggedTransferableTypedData)
    (w : SnapshotWriter) (object_id : Int) (kind : Snapshot.Kind) (as_reference : Bool)
    (tpeer : TransferableTypedDataPeer) (hp : w.heap.GetPeer this.self = some tpeer)
    (hd : tpeer.data_ ≠ .nullptr) :
    UntaggedTransferableTypedData.WriteTo this w object_id kind as_reference
      = some (this.result w object_id tpeer) := by
  simp [UntaggedTransferableTypedData.WriteTo, hp, hd,
    UntaggedTransferableTypedData.result,
    SnapshotWriter.WriteInlinedObjectHeader, SnapshotWriter.WriteIndexedObject,
    SnapshotWriter.WriteTags, SnapshotWriter.Write, SnapshotWriter.emit, SnapshotWriter.Put]

/-- What `UntaggedTransferableTypedData::WriteTo` does on a peer without
    data. -/
theorem UntaggedTransferableTypedData.WriteTo_transferred
    (this : UntaggedTransferableTypedData)
    (w : SnapshotWriter) (object_id : Int) (kind : Snapshot.Kind) (as_reference : Bool)
    (tpeer : TransferableTypedDataPeer) (hp : w.heap.GetPeer this.self = some tpeer)
    (hd : tpeer.data_ = .nullptr) :
    UntaggedTransferableTypedData.WriteTo this w object_id kind as_reference
      = some (w.SetWriteException .kArgument kTransferredAlreadyMsg) := by
  simp [UntaggedTransferableTypedData.WriteTo, hp, hd]

/-- C8. Every encode on an external path performs exactly one `Put`, every
    decode of an external kind exactly one `Take`, and takes return the records
    in the order of the puts:
    * `UntaggedTypedData::WriteTo` at or above the threshold (message snapshot)
      and `UntaggedExternalTypedData::WriteTo` append one record whose block is
      freshly allocated, holds the first `bytes` bytes of the source, and leave
      every block that was live before unchanged;
    * `UntaggedTransferableTypedData::WriteTo` on a peer with data appends one
      record and leaves the heap unchanged;
    * `ExternalTypedData::ReadFrom` and `TransferableTypedData::ReadFrom` take
      the next record, advance the take position by one and build the object
      directly over the record's block;
    * after the puts `ds` on an empty registry, `ds.length` takes return `ds`. -/
theorem C8_external_handoff_paired :
    (∀ (T : Nat) (this : UntaggedTypedData) (w : SnapshotWriter) (object_id : Int)
        (as_reference : Bool) (ext : ClassId) (bytes : Int),
        UntaggedTypedData.switchCid this.tags.class_id this.length_ = some (ext, bytes) →
        toUint64 bytes ≥ T →
        ∃ w' a, UntaggedTypedData.WriteTo T this w object_id .kMessage as_reference = some w'
          ∧ w'.finalizable_data.records = w.finalizable_data.records
              ++ [⟨.block a, .block a, .IsolateMessageTypedDataFinalizer, none⟩]
          ∧ w.heap.memory.isLive a = false
          ∧ w'.heap.memory.read a = this.data.take bytes.toNat
          ∧ ∀ a', w.heap.memory.isLive a' = true →
              w'.heap.memory.read a' = w.heap.memory.read a')
    ∧ (∀ (this : UntaggedExternalTypedData) (w : SnapshotWriter) (object_id : Int)
        (kind : Snapshot.Kind) (as_reference : Bool) (bytes : Int),
        UntaggedExternalTypedData.switchCid this.tags.class_id this.length_ = some bytes →
        ∃ w' a, UntaggedExternalTypedData.WriteTo this w object_id kind as_reference = some w'
          ∧ w'.finalizable_data.records = w.finalizable_data.records
              ++ [⟨.block a, .block a, .IsolateMessageTypedDataFinalizer, none⟩]
          ∧ w.heap.memory.isLive a = false
          ∧ w'.heap.memory.read a = (w.heap.bytesAt this.data_).take bytes.toNat
          ∧ ∀ a', w.heap.memory.isLive a' = true →
              w'.heap.memory.read a' = w.heap.memory.read a')
    ∧ (∀ (this : UntaggedTransferableTypedData) (w : SnapshotWriter) (object_id : Int)
        (kind : Snapshot.Kind) (as_reference : Bool) (tpeer : TransferableTypedDataPeer),
        w.heap.GetPeer this.self = some tpeer → tpeer.data_ ≠ .nullptr →
        ∃ w', UntaggedTransferableTypedData.WriteTo this w object_id kind as_reference
            = some w'
          ∧ w'.finalizable_data.records = w.finalizable_data.records
              ++ [⟨tpeer.data_, .tpeer this.self, .TransferableNoop,
                   some .TransferableSuccess⟩]
          ∧ w'.heap = w.heap)
    ∧ (∀ (t : Target) (object_id : Int) (tags : Tags) (kind : Snapshot.Kind)
        (as_reference : Bool) (r : SnapshotReader) (len : Int) (rest : List Item)
        (d : FinalizableData),
        r.stream = .Write .ObjectPtr len :: rest →
        r.finalizable_data.records.get? r.finalizable_data.take_position = some d →
        ∃ r', ExternalTypedData.ReadFrom t object_id tags kind as_reference r
            = some (Obj.ExternalTypedData
                { tags := ⟨tags.class_id, false⟩, length_ := len, data_ := d.data }, r')
          ∧ r'.finalizable_data.records = r.finalizable_data.records
          ∧ r'.finalizable_data.take_position = r.finalizable_data.take_position + 1)
    ∧ (∀ (object_id : Int) (tags : Tags) (kind : Snapshot.Kind)
        (as_reference : Bool) (r : SnapshotReader) (len : Int) (rest : List Item)
        (d : FinalizableData),
        r.stream = .Write .int64_t len :: rest →
        r.finalizable_data.records.get? r.finalizable_data.take_position = some d →
        ∃ r', TransferableTypedData.ReadFrom object_id tags kind as_reference r
            = some (Obj.TransferableTypedData ⟨kTransferableTypedDataCid, false⟩
                { data_ := d.data, length_ := toIntptr len, handle_ := true }, r')
          ∧ r'.finalizable_data.records = r.finalizable_data.records
          ∧ r'.finalizable_data.take_position = r.finalizable_data.take_position + 1)
    ∧ (∀ ds : List FinalizableData,
        ∃ r', (MessageFinalizableData.empty.putAll ds).takeN ds.length = some (ds, r')) := by
  refine ⟨?_, ?_, ?_, ?_, ?_, MessageFinalizableData.fifo⟩
  · intro T this w object_id as_reference ext bytes hs hT
    refine ⟨_, (w.heap.memory.malloc bytes).1,
      UntaggedTypedData.WriteTo_external T this w object_id as_reference ext bytes hs hT,
      ?_, NativeMemory.malloc_fresh _ _, ?_, ?_⟩
    · simp [UntaggedTypedData.externalResult, MessageFinalizableData.Put]
    · exact NativeMemory.read_malloc_memmove _ _ _
    · intro a' ha'
      exact NativeMemory.read_old_malloc_memmove _ _ _ _ ha'
  · intro this w object_id kind as_reference bytes hs
    refine ⟨_, (w.heap.memory.malloc bytes).1,
      UntaggedExternalTypedData.WriteTo_external_eq this w object_id kind as_reference bytes hs,
      ?_, NativeMemory.malloc_fresh _ _, ?_, ?_⟩
    · simp [UntaggedExternalTypedData.result, MessageFinalizableData.Put]
    · exact NativeMemory.read_malloc_memmove _ _ _
    · intro a' ha'
      exact NativeMemory.read_old_malloc_memmove _ _ _ _ ha'
  · intro this w object_id kind as_reference tpeer hp hd
    refine ⟨_, UntaggedTransferableTypedData.WriteTo_transferable_eq this w object_id kind as_reference
      tpeer hp hd, ?_, rfl⟩
    simp [UntaggedTransferableTypedData.result, MessageFinalizableData.Put]
  · intro t object_id tags kind as_reference r len rest d hs hd
    rw [List.get?_eq_getElem?] at hd
    simp [ExternalTypedData.ReadFrom, bind, StateT.bind, SnapshotReader.ReadSmiValue,
      SnapshotReader.Read, hs, SnapshotReader.Take, MessageFinalizableData.Take, hd,
      SnapshotReader.New, SnapshotReader.log, SnapshotReader.AddBackRef, pure, StateT.pure,
      UntaggedObject.ClassIdTag.decode]
  · intro object_id tags kind as_reference r len rest d hs hd
    rw [List.get?_eq_getElem?] at hd
    simp [TransferableTypedData.ReadFrom, bind, StateT.bind,
      SnapshotReader.Read, hs, SnapshotReader.Take, MessageFinalizableData.Take, hd,
      SnapshotReader.New, SnapshotReader.log, SnapshotReader.AddBackRef, pure, StateT.pure]

/-- Witness of C8: the copy path at threshold 4 with a four-byte buffer, and
    the decode of an external buffer over the first record of a registry. -/
theorem C8_external_handoff_paired_witness :
    ((UntaggedTypedData.switchCid kTypedDataUint8ArrayCid 4
        = some (kExternalTypedDataUint8ArrayCid, 4) ∧ toUint64 4 ≥ 4)
      ∧ ∃ w' a, UntaggedTypedData.WriteTo 4
            { tags := ⟨kTypedDataUint8ArrayCid, false⟩, length_ := 4, data := [1, 2, 3, 4] }
            (SnapshotWriter.init .empty) 1 .kMessage false = some w'
          ∧ w'.finalizable_data.records = (SnapshotWriter.init .empty).finalizable_data.records
              ++ [⟨.block a, .block a, .IsolateMessageTypedDataFinalizer, none⟩]
          ∧ (SnapshotWriter.init .empty).heap.memory.isLive a = false
          ∧ w'.heap.memory.read a = ([1, 2, 3, 4] : List Nat).take (4 : Int).toNat
          ∧ ∀ a', (SnapshotWriter.init .empty).heap.memory.isLive a' = true →
              w'.heap.memory.read a' = (SnapshotWriter.init .empty).heap.memory.read a')
    ∧ ∃ r', ExternalTypedData.ReadFrom Target.x64 1 ⟨kExternalTypedDataUint8ArrayCid, false⟩
            .kMessage false
            (SnapshotReader.init [.Write .ObjectPtr 4]
              { records := [⟨.block 1, .block 1, .IsolateMessageTypedDataFinalizer, none⟩],
                take_position := 0, external_size := 4 })
          = some (Obj.ExternalTypedData
              { tags := ⟨kExternalTypedDataUint8ArrayCid, false⟩, length_ := 4,
                data_ := .block 1 }, r')
        ∧ r'.finalizable_data.records
            = [⟨.block 1, .block 1, .IsolateMessageTypedDataFinalizer, none⟩]
        ∧ r'.finalizable_data.take_position = 0 + 1 :=
  ⟨⟨⟨by decide, by decide⟩,
    C8_external_handoff_paired.1 4
      { tags := ⟨kTypedDataUint8ArrayCid, false⟩, length_ := 4, data := [1, 2, 3, 4] }
      (SnapshotWriter.init .empty) 1 false kExternalTypedDataUint8ArrayCid 4
      (by decide) (by decide)⟩,
   C8_external_handoff_paired.2.2.2.1 Target.x64 1 ⟨kExternalTypedDataUint8ArrayCid, false⟩
     .kMessage false
     (SnapshotReader.init [.Write .ObjectPtr 4]
       { records := [⟨.block 1, .block 1, .IsolateMessageTypedDataFinalizer, none⟩],
         take_position := 0, external_size := 4 })
     4 [] ⟨.block 1, .block 1, .IsolateMessageTypedDataFinalizer, none⟩ rfl rfl⟩

/-! ## Transferable buffers -/

theorem Heap.GetPeer_setPeer (h : Heap) (obj : ObjectPtr) (p q : TransferableTypedDataPeer)
    (hp : h.GetPeer obj = some p) : (h.setPeer obj q).GetPeer obj = some q := by
  obtain ⟨mem, peers⟩ := h
  simp only [Heap.GetPeer, Heap.setPeer] at hp ⊢
  induction peers with
  | nil => simp at hp
  | cons x xs ih =>
    by_cases hx : x.1 = obj
    · simp [List.find?_cons, hx]
    · have hx' : (x.1 == obj) = false := by simpa using hx
      simp only [List.find?_cons, hx', List.map_cons] at hp ⊢
      simp only [Bool.false_eq_true, if_false, List.find?_cons, hx']
      exact ih hp

/-- C9. When the peer of a transferable buffer has no data, `UntaggedTransferable
    TypedData::WriteTo` sets the illegal-argument write exception with the
    "transferred already" message, appends nothing to the stream, puts nothing
    into the finalizer registry and leaves the heap (native blocks and peers) as
    it was. -/
theorem C9_retransfer_rejected (this : UntaggedTransferableTypedData)
    (w : SnapshotWriter) (object_id : Int) (kind : Snapshot.Kind) (as_reference : Bool)
    (tpeer : TransferableTypedDataPeer) (hp : w.heap.GetPeer this.self = some tpeer)
    (hd : tpeer.data_ = .nullptr) :
    ∃ w', UntaggedTransferableTypedData.WriteTo this w object_id kind as_reference = some w'
      ∧ w'.exception_type = .kArgument
      ∧ w'.exception_msg = some ("Illegal argument in isolate message"
          ++ " : (TransferableTypedData has been transferred already)")
      ∧ w'.stream = w.stream
      ∧ w'.finalizable_data = w.finalizable_data
      ∧ w'.heap = w.heap :=
  ⟨_, UntaggedTransferableTypedData.WriteTo_transferred this w object_id kind as_reference
    tpeer hp hd, rfl, rfl, rfl, rfl, rfl⟩

/-- Witness of C9: the transferable buffer at address 10 after its transfer. -/
theorem C9_retransfer_rejected_witness :
    (Heap.withClearedPeer.GetPeer (.heap 10)
        = some { data_ := .nullptr, length_ := 0, handle_ := false }
      ∧ (TransferableTypedDataPeer.mk .nullptr 0 false).data_ = .nullptr)
    ∧ ∃ w', UntaggedTransferableTypedData.WriteTo
          { tags := ⟨kTransferableTypedDataCid, false⟩, self := .heap 10 }
          (SnapshotWriter.init .withClearedPeer) 1 .kMessage false = some w'
      ∧ w'.exception_type = .kArgument
      ∧ w'.exception_msg = some ("Illegal argument in isolate message"
          ++ " : (TransferableTypedData has been transferred already)")
      ∧ w'.stream = (SnapshotWriter.init .withClearedPeer).stream
      ∧ w'.finalizable_data = (SnapshotWriter.init .withClearedPeer).finalizable_data
      ∧ w'.heap = (SnapshotWriter.init .withClearedPeer).heap :=
  ⟨⟨rfl, rfl⟩,
   C9_retransfer_rejected { tags := ⟨kTransferableTypedDataCid, false⟩, self := .heap 10 }
     (SnapshotWriter.init .withClearedPeer) 1 .kMessage false
     { data_ := .nullptr, length_ := 0, handle_ := false } rfl rfl⟩

/-- C10. A first `UntaggedTransferableTypedData::WriteTo` on a peer holding data
    sets no exception and registers one record carrying the peer's own data
    pointer (the heap is unchanged: nothing is allocated or copied), the peer,
    the no-op failure finalizer and the success callback.  Running the failure
    finalizer leaves the heap, hence the peer's data and length, unchanged, and a
    later `WriteTo` of the same object registers the same record again.  Running
    the success callback leaves the peer with no data and length zero, and a
    second `WriteTo` of the same object then sets the "transferred already"
    exception, writing and registering nothing. -/
theorem C10_zero_copy_ownership (this : UntaggedTransferableTypedData)
    (w : SnapshotWriter) (object_id : Int) (kind : Snapshot.Kind) (as_reference : Bool)
    (tpeer : TransferableTypedDataPeer) (hp : w.heap.GetPeer this.self = some tpeer)
    (hd : tpeer.data_ ≠ .nullptr) :
    ∃ w' d, UntaggedTransferableTypedData.WriteTo this w object_id kind as_reference = some w'
      ∧ w'.finalizable_data.records = w.finalizable_data.records ++ [d]
      ∧ d.data = tpeer.data_ ∧ d.peer = .tpeer this.self
      ∧ d.callback = .TransferableNoop
      ∧ d.successful_transfer_callback = some .TransferableSuccess
      ∧ w'.heap = w.heap
      ∧ w'.exception_type = w.exception_type ∧ w'.exception_msg = w.exception_msg
      ∧ d.runCallback w'.heap = w'.heap
      ∧ (∃ w'', UntaggedTransferableTypedData.WriteTo this
              { w' with heap := d.runCallback w'.heap } object_id kind as_reference = some w''
          ∧ w''.finalizable_data.records = w'.finalizable_data.records ++ [d]
          ∧ w''.exception_type = w.exception_type ∧ w''.exception_msg = w.exception_msg)
      ∧ (d.runSuccessfulTransferCallback w'.heap).GetPeer this.self
          = some { data_ := .nullptr, length_ := 0, handle_ := false }
      ∧ (∃ w'', UntaggedTransferableTypedData.WriteTo this
              { w' with heap := d.runSuccessfulTransferCallback w'.heap }
              object_id kind as_reference = some w''
          ∧ w''.exception_type = .kArgument
          ∧ w''.exception_msg = some kTransferredAlreadyMsg
          ∧ w''.stream = w'.stream
          ∧ w''.finalizable_data = w'.finalizable_data) := by
  have hcleared : (Callback.TransferableSuccess.run tpeer.data_ (.tpeer this.self)
      w.heap).GetPeer this.self = some { data_ := .nullptr, length_ := 0, handle_ := false } := by
    simp only [Callback.run, hp]
    exact Heap.GetPeer_setPeer _ _ _ _ hp
  refine ⟨_, ⟨tpeer.data_, .tpeer this.self, .TransferableNoop, some .TransferableSuccess⟩,
    UntaggedTransferableTypedData.WriteTo_transferable_eq this w object_id kind as_reference tpeer hp hd,
    ?_, rfl, rfl, rfl, rfl, rfl, rfl, rfl, rfl, ?_, hcleared, ?_⟩
  · simp [UntaggedTransferableTypedData.result, MessageFinalizableData.Put]
  · refine ⟨_, UntaggedTransferableTypedData.WriteTo_transferable_eq this _ object_id kind as_reference
      tpeer hp hd, ?_, rfl, rfl⟩
    simp [UntaggedTransferableTypedData.result, MessageFinalizableData.Put]
  · exact ⟨_, UntaggedTransferableTypedData.WriteTo_transferred this _ object_id kind
      as_reference _ hcleared rfl, rfl, rfl, rfl, rfl⟩

/-- Witness of C10: the transferable buffer at address 10 owning the block at
    address 1. -/
theorem C10_zero_copy_ownership_witness :
    (Heap.withPeer.GetPeer (.heap 10)
        = some { data_ := .block 1, length_ := 3, handle_ := true }
      ∧ (TransferableTypedDataPeer.mk (.block 1) 3 true).data_ ≠ .nullptr)
    ∧ ∃ w' d, UntaggedTransferableTypedData.WriteTo
          { tags := ⟨kTransferableTypedDataCid, false⟩, self := .heap 10 }
          (SnapshotWriter.init .withPeer) 1 .kMessage false = some w'
      ∧ w'.finalizable_data.records
          = (SnapshotWriter.init .withPeer).finalizable_data.records ++ [d]
      ∧ d.data = .block 1 ∧ d.peer = .tpeer (.heap 10)
      ∧ (d.runSuccessfulTransferCallback w'.heap).GetPeer (.heap 10)
          = some { data_ := .nullptr, length_ := 0, handle_ := false } := by
  refine ⟨⟨rfl, by decide⟩, ?_⟩
  obtain ⟨w', d, h1, h2, h3, h4, _, _, _, _, _, _, _, h5, _⟩ :=
    C10_zero_copy_ownership { tags := ⟨kTransferableTypedDataCid, false⟩, self := .heap 10 }
      (SnapshotWriter.init .withPeer) 1 .kMessage false
      { data_ := .block 1, length_ := 3, handle_ := true } rfl (by decide)
  exact ⟨w', d, h1, h2, h3, h4, h5⟩

/-! ## Streams of children and of scalars -/

/-- The visitor appends one child item per slot, in order. -/
theorem SnapshotWriter.VisitPointers_eq (w : SnapshotWriter) (fields : List ObjectPtr)
    (m : Bool) :
    w.VisitPointers fields m
      = { w with stream := w.stream ++ fields.map (fun p => Item.ObjectImpl p m) } := by
  induction fields generalizing w with
  | nil => simp [SnapshotWriter.VisitPointers]
  | cons p ps ih =>
    have h := ih (w.WriteObjectImpl p m)
    simp only [SnapshotWriter.VisitPointers, List.foldl_cons] at h ⊢
    rw [h]
    simp [SnapshotWriter.WriteObjectImpl, SnapshotWriter.emit]

/-- Reading back the children a visitor wrote. -/
theorem SnapshotReader.ReadObjects_map (fields : List ObjectPtr) (m m' : Bool)
    (rest : List Item) (r : SnapshotReader)
    (h : r.stream = fields.map (fun p => Item.ObjectImpl p m) ++ rest) :
    SnapshotReader.ReadObjects m' fields.length r
      = some (fields,
          { r with
            stream := rest,
            events := r.events ++ fields.map (fun p => ReaderEvent.ReadObjectImpl m' p) }) := by
  induction fields generalizing r with
  | nil =>
    simp only [List.map_nil, List.nil_append] at h
    simp [SnapshotReader.ReadObjects, pure, StateT.pure, ← h]
  | cons p ps ih =>
    simp only [List.map_cons, List.cons_append] at h
    have h' := ih { r with stream := ps.map (fun p => Item.ObjectImpl p m) ++ rest,
                           events := r.events ++ [ReaderEvent.ReadObjectImpl m' p] } rfl
    simp only [List.length_cons, SnapshotReader.ReadObjects, bind, StateT.bind,
      SnapshotReader.ReadObjectImpl, h, pure, StateT.pure, Option.some_bind]
    rw [h']
    simp

/-- Reading back `n` scalars of one type. -/
theorem SnapshotReader.ReadN_map (ty : ScalarType) (vs : List Int) (rest : List Item)
    (r : SnapshotReader) (h : r.stream = vs.map (fun v => Item.Write ty v) ++ rest) :
    SnapshotReader.ReadN ty vs.length r
      = some (vs,
          { r with
            stream := rest,
            events := r.events ++ vs.map (fun v => ReaderEvent.Read ty v) }) := by
  induction vs generalizing r with
  | nil =>
    simp only [List.map_nil, List.nil_append] at h
    simp [SnapshotReader.ReadN, pure, StateT.pure, ← h]
  | cons v vs ih =>
    simp only [List.map_cons, List.cons_append] at h
    have h' := ih { r with stream := vs.map (fun v => Item.Write ty v) ++ rest,
                           events := r.events ++ [ReaderEvent.Read ty v] } rfl
    simp only [List.length_cons, SnapshotReader.ReadN, bind, StateT.bind,
      SnapshotReader.Read, h, pure, StateT.pure, if_true, Option.some_bind]
    rw [h']
    simp

/-! ## Round trips, kind by kind -/

theorem double_roundtrip (t : Target) (o : UntaggedDouble) (h : Heap) (object_id : Int)
    (kind : Snapshot.Kind) (m : Bool) :
    decodeMessage t kind m (UntaggedDouble.WriteTo o (SnapshotWriter.init h) object_id kind m)
      = some (Obj.Double { tags := ⟨kDoubleCid, o.tags.canonical⟩, value_ := o.value_ }) := by
  cases hc : o.tags.canonical <;>
    simp [decodeMessage, UntaggedDouble.WriteTo, SnapshotWriter.init,
      SnapshotWriter.toReader, SnapshotReader.init,
      SnapshotWriter.WriteInlinedObjectHeader, SnapshotWriter.WriteIndexedObject,
      SnapshotWriter.WriteTags, SnapshotWriter.Write, SnapshotWriter.WriteDouble,
      SnapshotWriter.emit, SnapshotReader.ReadInlinedObject, ReadFromOf,
      UntaggedObject.ClassIdTag.update, UntaggedObject.IsCanonical,
      Double.ReadFrom, Double.New, Double.NewCanonical, SnapshotReader.ReadDouble,
      SnapshotReader.Read, SnapshotReader.log, SnapshotReader.AddBackRef,
      bind, StateT.bind, pure, StateT.pure, hc]

theorem float32x4_roundtrip (t : Target) (o : UntaggedFloat32x4) (h : Heap) (object_id : Int)
    (kind : Snapshot.Kind) (m : Bool) :
    decodeMessage t kind m (UntaggedFloat32x4.WriteTo o (SnapshotWriter.init h) object_id kind m)
      = some (Obj.Float32x4 { o with tags := ⟨kFloat32x4Cid, false⟩ }) := by
  simp [UntaggedFloat32x4.WriteTo, Float32x4.ReadFrom, decodeMessage, SnapshotWriter.init,
    SnapshotWriter.toReader, SnapshotReader.init,
    SnapshotWriter.WriteInlinedObjectHeader, SnapshotWriter.WriteIndexedObject,
    SnapshotWriter.WriteVMIsolateObject, SnapshotWriter.WriteObjectImpl,
    SnapshotWriter.WriteTags, SnapshotWriter.Write, SnapshotWriter.WriteDouble,
    SnapshotWriter.emit, SnapshotReader.ReadInlinedObject, ReadFromOf,
    UntaggedObject.ClassIdTag.update, UntaggedObject.ClassIdTag.decode,
    UntaggedObject.IsCanonical, SnapshotReader.ReadDouble, SnapshotReader.ReadSmiValue,
    SnapshotReader.Read, SnapshotReader.ReadObjectImpl, SnapshotReader.New,
    SnapshotReader.log, SnapshotReader.AddBackRef, SnapshotReader.StoreHandle,
    kAsReference, kAsInlinedObject, bind, StateT.bind, pure, StateT.pure]

theorem int32x4_roundtrip (t : Target) (o : UntaggedInt32x4) (h : Heap) (object_id : Int)
    (kind : Snapshot.Kind) (m : Bool) :
    decodeMessage t kind m (UntaggedInt32x4.WriteTo o (SnapshotWriter.init h) object_id kind m)
      = some (Obj.Int32x4 { o with tags := ⟨kInt32x4Cid, false⟩ }) := by
  simp [UntaggedInt32x4.WriteTo, Int32x4.ReadFrom, decodeMessage, SnapshotWriter.init,
    SnapshotWriter.toReader, SnapshotReader.init,
    SnapshotWriter.WriteInlinedObjectHeader, SnapshotWriter.WriteIndexedObject,
    SnapshotWriter.WriteVMIsolateObject, SnapshotWriter.WriteObjectImpl,
    SnapshotWriter.WriteTags, SnapshotWriter.Write, SnapshotWriter.WriteDouble,
    SnapshotWriter.emit, SnapshotReader.ReadInlinedObject, ReadFromOf,
    UntaggedObject.ClassIdTag.update, UntaggedObject.ClassIdTag.decode,
    UntaggedObject.IsCanonical, SnapshotReader.ReadDouble, SnapshotReader.ReadSmiValue,
    SnapshotReader.Read, SnapshotReader.ReadObjectImpl, SnapshotReader.New,
    SnapshotReader.log, SnapshotReader.AddBackRef, SnapshotReader.StoreHandle,
    kAsReference, kAsInlinedObject, bind, StateT.bind, pure, StateT.pure]

theorem float64x2_roundtrip (t : Target) (o : UntaggedFloat64x2) (h : Heap) (object_id : Int)
    (kind : Snapshot.Kind) (m : Bool) :
    decodeMessage t kind m (UntaggedFloat64x2.WriteTo o (SnapshotWriter.init h) object_id kind m)
      = some (Obj.Float64x2 { o with tags := ⟨kFloat64x2Cid, false⟩ }) := by
  simp [UntaggedFloat64x2.WriteTo, Float64x2.ReadFrom, decodeMessage, SnapshotWriter.init,
    SnapshotWriter.toReader, SnapshotReader.init,
    SnapshotWriter.WriteInlinedObjectHeader, SnapshotWriter.WriteIndexedObject,
    SnapshotWriter.WriteVMIsolateObject, SnapshotWriter.WriteObjectImpl,
    SnapshotWriter.WriteTags, SnapshotWriter.Write, SnapshotWriter.WriteDouble,
    SnapshotWriter.emit, SnapshotReader.ReadInlinedObject, ReadFromOf,
    UntaggedObject.ClassIdTag.update, UntaggedObject.ClassIdTag.decode,
    UntaggedObject.IsCanonical, SnapshotReader.ReadDouble, SnapshotReader.ReadSmiValue,
    SnapshotReader.Read, SnapshotReader.ReadObjectImpl, SnapshotReader.New,
    SnapshotReader.log, SnapshotReader.AddBackRef, SnapshotReader.StoreHandle,
    kAsReference, kAsInlinedObject, bind, StateT.bind, pure, StateT.pure]

theorem capability_roundtrip (t : Target) (o : UntaggedCapability) (h : Heap) (object_id : Int)
    (kind : Snapshot.Kind) (m : Bool) :
    decodeMessage t kind m (UntaggedCapability.WriteTo o (SnapshotWriter.init h) object_id kind m)
      = some (Obj.Capability { o with tags := ⟨kCapabilityCid, false⟩ }) := by
  simp [UntaggedCapability.WriteTo, Capability.ReadFrom, decodeMessage, SnapshotWriter.init,
    SnapshotWriter.toReader, SnapshotReader.init,
    SnapshotWriter.WriteInlinedObjectHeader, SnapshotWriter.WriteIndexedObject,
    SnapshotWriter.WriteVMIsolateObject, SnapshotWriter.WriteObjectImpl,
    SnapshotWriter.WriteTags, SnapshotWriter.Write, SnapshotWriter.WriteDouble,
    SnapshotWriter.emit, SnapshotReader.ReadInlinedObject, ReadFromOf,
    UntaggedObject.ClassIdTag.update, UntaggedObject.ClassIdTag.decode,
    UntaggedObject.IsCanonical, SnapshotReader.ReadDouble, SnapshotReader.ReadSmiValue,
    SnapshotReader.Read, SnapshotReader.ReadObjectImpl, SnapshotReader.New,
    SnapshotReader.log, SnapshotReader.AddBackRef, SnapshotReader.StoreHandle,
    kAsReference, kAsInlinedObject, bind, StateT.bind, pure, StateT.pure]

theorem sendport_roundtrip (t : Target) (o : UntaggedSendPort) (h : Heap) (object_id : Int)
    (kind : Snapshot.Kind) (m : Bool) :
    decodeMessage t kind m (UntaggedSendPort.WriteTo o (SnapshotWriter.init h) object_id kind m)
      = some (Obj.SendPort { o with tags := ⟨kSendPortCid, false⟩ }) := by
  simp [UntaggedSendPort.WriteTo, SendPort.ReadFrom, decodeMessage, SnapshotWriter.init,
    SnapshotWriter.toReader, SnapshotReader.init,
    SnapshotWriter.WriteInlinedObjectHeader, SnapshotWriter.WriteIndexedObject,
    SnapshotWriter.WriteVMIsolateObject, SnapshotWriter.WriteObjectImpl,
    SnapshotWriter.WriteTags, SnapshotWriter.Write, SnapshotWriter.WriteDouble,
    SnapshotWriter.emit, SnapshotReader.ReadInlinedObject, ReadFromOf,
    UntaggedObject.ClassIdTag.update, UntaggedObject.ClassIdTag.decode,
    UntaggedObject.IsCanonical, SnapshotReader.ReadDouble, SnapshotReader.ReadSmiValue,
    SnapshotReader.Read, SnapshotReader.ReadObjectImpl, SnapshotReader.New,
    SnapshotReader.log, SnapshotReader.AddBackRef, SnapshotReader.StoreHandle,
    kAsReference, kAsInlinedObject, bind, StateT.bind, pure, StateT.pure]

theorem regexp_roundtrip (t : Target) (o : UntaggedRegExp) (h : Heap) (object_id : Int)
    (kind : Snapshot.Kind) (m : Bool) :
    decodeMessage t kind m (UntaggedRegExp.WriteTo o (SnapshotWriter.init h) object_id kind m)
      = some (Obj.RegExp { o with tags := ⟨kRegExpCid, false⟩ }) := by
  simp [UntaggedRegExp.WriteTo, RegExp.ReadFrom, decodeMessage, SnapshotWriter.init,
    SnapshotWriter.toReader, SnapshotReader.init,
    SnapshotWriter.WriteInlinedObjectHeader, SnapshotWriter.WriteIndexedObject,
    SnapshotWriter.WriteVMIsolateObject, SnapshotWriter.WriteObjectImpl,
    SnapshotWriter.WriteTags, SnapshotWriter.Write, SnapshotWriter.WriteDouble,
    SnapshotWriter.emit, SnapshotReader.ReadInlinedObject, ReadFromOf,
    UntaggedObject.ClassIdTag.update, UntaggedObject.ClassIdTag.decode,
    UntaggedObject.IsCanonical, SnapshotReader.ReadDouble, SnapshotReader.ReadSmiValue,
    SnapshotReader.Read, SnapshotReader.ReadObjectImpl, SnapshotReader.New,
    SnapshotReader.log, SnapshotReader.AddBackRef, SnapshotReader.StoreHandle,
    kAsReference, kAsInlinedObject, bind, StateT.bind, pure, StateT.pure]

theorem growable_roundtrip (t : Target) (o : UntaggedGrowableObjectArray) (h : Heap) (object_id : Int)
    (kind : Snapshot.Kind) (m : Bool) :
    decodeMessage t kind m (UntaggedGrowableObjectArray.WriteTo o (SnapshotWriter.init h) object_id kind m)
      = some (Obj.GrowableObjectArray { o with tags := ⟨kGrowableObjectArrayCid, false⟩ }) := by
  simp [UntaggedGrowableObjectArray.WriteTo, GrowableObjectArray.ReadFrom, decodeMessage, SnapshotWriter.init,
    SnapshotWriter.toReader, SnapshotReader.init,
    SnapshotWriter.WriteInlinedObjectHeader, SnapshotWriter.WriteIndexedObject,
    SnapshotWriter.WriteVMIsolateObject, SnapshotWriter.WriteObjectImpl,
    SnapshotWriter.WriteTags, SnapshotWriter.Write, SnapshotWriter.WriteDouble,
    SnapshotWriter.emit, SnapshotReader.ReadInlinedObject, ReadFromOf,
    UntaggedObject.ClassIdTag.update, UntaggedObject.ClassIdTag.decode,
    UntaggedObject.IsCanonical, SnapshotReader.ReadDouble, SnapshotReader.ReadSmiValue,
    SnapshotReader.Read, SnapshotReader.ReadObjectImpl, SnapshotReader.New,
    SnapshotReader.log, SnapshotReader.AddBackRef, SnapshotReader.StoreHandle,
    kAsReference, kAsInlinedObject, bind, StateT.bind, pure, StateT.pure]

theorem ReadFromOf_view (t : Target) (cid : ClassId)
    (h : IsTypedDataViewClassId cid = true) : ReadFromOf t cid = TypedDataView.ReadFrom := by
  cases cid <;> simp [IsTypedDataViewClassId] at h <;> rfl

theorem ReadFromOf_typedData (t : Target) (cid : ClassId)
    (h : IsTypedDataClassId cid = true) : ReadFromOf t cid = TypedData.ReadFrom t := by
  cases cid <;> simp [IsTypedDataClassId, UntaggedTypedData.switchCid] at h <;> rfl

theorem ReadFromOf_externalTypedData (t : Target) (cid : ClassId)
    (h : IsExternalTypedDataClassId cid = true) :
    ReadFromOf t cid = ExternalTypedData.ReadFrom t := by
  cases cid <;> simp [IsExternalTypedDataClassId, UntaggedExternalTypedData.switchCid] at h <;>
    rfl

theorem view_roundtrip (t : Target) (o : UntaggedTypedDataView) (h : Heap) (object_id : Int)
    (kind : Snapshot.Kind) (m : Bool) (hcid : IsTypedDataViewClassId o.tags.class_id = true) :
    decodeMessage t kind m (UntaggedTypedDataView.WriteTo o (SnapshotWriter.init h) object_id
        kind m)
      = some (Obj.TypedDataView { o with tags := ⟨o.tags.class_id, false⟩ }) := by
  simp [UntaggedTypedDataView.WriteTo, TypedDataView.ReadFrom, decodeMessage,
    SnapshotWriter.init, SnapshotWriter.toReader, SnapshotReader.init,
    SnapshotWriter.WriteInlinedObjectHeader, SnapshotWriter.WriteIndexedObject,
    SnapshotWriter.WriteObjectImpl, SnapshotWriter.WriteTags, SnapshotWriter.Write,
    SnapshotWriter.emit, SnapshotReader.ReadInlinedObject, ReadFromOf_view t _ hcid,
    UntaggedObject.ClassIdTag.update, UntaggedObject.ClassIdTag.decode,
    SnapshotReader.ReadSmiValue, SnapshotReader.Read, SnapshotReader.ReadObjectImpl,
    SnapshotReader.New, SnapshotReader.log, SnapshotReader.AddBackRef,
    SnapshotReader.StoreHandle, bind, StateT.bind, pure, StateT.pure]

theorem apierror_roundtrip (t : Target) (o : UntaggedApiError) (h : Heap) (object_id : Int)
    (kind : Snapshot.Kind) (m : Bool)
    (hlen : o.fields.length = (t.to_minus_from kApiErrorCid + 1).toNat) :
    decodeMessage t kind m (UntaggedApiError.WriteTo o (SnapshotWriter.init h) object_id kind m)
      = some (Obj.ApiError { o with tags := ⟨kApiErrorCid, false⟩ }) := by
  simp only [UntaggedApiError.WriteTo, SnapshotWriter.VisitPointers_eq, decodeMessage,
    SnapshotWriter.init, SnapshotWriter.toReader, SnapshotReader.init,
    SnapshotWriter.WriteInlinedObjectHeader, SnapshotWriter.WriteVMIsolateObject,
    SnapshotWriter.WriteTags, SnapshotWriter.emit, List.nil_append, List.cons_append,
    List.append_assoc, SnapshotReader.ReadInlinedObject, ReadFromOf, ApiError.ReadFrom,
    READ_OBJECT_FIELDS, ← hlen, SnapshotReader.New, SnapshotReader.log,
    SnapshotReader.AddBackRef, SnapshotReader.StoreHandle, bind, StateT.bind, pure,
    StateT.pure, Option.some_bind, kAsReference]
  rw [SnapshotReader.ReadObjects_map o.fields true true []]
  · simp
  · simp

theorem languageerror_roundtrip (t : Target) (o : UntaggedLanguageError) (h : Heap)
    (object_id : Int) (kind : Snapshot.Kind) (m : Bool)
    (hlen : o.fields.length = (t.to_minus_from kLanguageErrorCid + 1).toNat) :
    decodeMessage t kind m
        (UntaggedLanguageError.WriteTo o (SnapshotWriter.init h) object_id kind m)
      = some (Obj.LanguageError { o with tags := ⟨kLanguageErrorCid, false⟩ }) := by
  simp only [UntaggedLanguageError.WriteTo, SnapshotWriter.VisitPointers_eq, decodeMessage,
    SnapshotWriter.init, SnapshotWriter.toReader, SnapshotReader.init,
    SnapshotWriter.WriteInlinedObjectHeader, SnapshotWriter.WriteVMIsolateObject,
    SnapshotWriter.WriteTags, SnapshotWriter.Write, SnapshotWriter.emit, List.nil_append,
    List.cons_append, List.append_assoc, SnapshotReader.ReadInlinedObject, ReadFromOf,
    LanguageError.ReadFrom, SnapshotReader.Read, if_true,
    READ_OBJECT_FIELDS, ← hlen, SnapshotReader.New, SnapshotReader.log,
    SnapshotReader.AddBackRef, SnapshotReader.StoreHandle, bind, StateT.bind, pure,
    StateT.pure, Option.some_bind, kAsReference]
  rw [SnapshotReader.ReadObjects_map o.fields true true []]
  · cases o.report_after_token_ <;> simp
  · simp

theorem unhandledexception_roundtrip (t : Target) (o : UntaggedUnhandledException) (h : Heap)
    (object_id : Int) (kind : Snapshot.Kind) (m : Bool)
    (hlen : o.fields.length = (t.to_minus_from kUnhandledExceptionCid + 1).toNat) :
    decodeMessage t kind m
        (UntaggedUnhandledException.WriteTo o (SnapshotWriter.init h) object_id kind m)
      = some (Obj.UnhandledException { o with tags := ⟨kUnhandledExceptionCid, false⟩ }) := by
  simp only [UntaggedUnhandledException.WriteTo, SnapshotWriter.VisitPointers_eq,
    decodeMessage, SnapshotWriter.init, SnapshotWriter.toReader, SnapshotReader.init,
    SnapshotWriter.WriteInlinedObjectHeader, SnapshotWriter.WriteVMIsolateObject,
    SnapshotWriter.WriteTags, SnapshotWriter.emit, List.nil_append, List.cons_append,
    List.append_assoc, SnapshotReader.ReadInlinedObject, ReadFromOf,
    UnhandledException.ReadFrom,
    READ_OBJECT_FIELDS, ← hlen, SnapshotReader.New, SnapshotReader.log,
    SnapshotReader.AddBackRef, SnapshotReader.StoreHandle, bind, StateT.bind, pure,
    StateT.pure, Option.some_bind, kAsReference]
  rw [SnapshotReader.ReadObjects_map o.fields true true []]
  · simp
  · simp

theorem context_roundtrip (t : Target) (o : UntaggedContext) (h : Heap)
    (object_id : Int) (kind : Snapshot.Kind) (m : Bool) (hn : o.num_variables_ ≠ 0)
    (hlen : o.fields.length = (t.context_to_minus_from o.num_variables_ + 1).toNat) :
    decodeMessage t kind m (UntaggedContext.WriteTo o (SnapshotWriter.init h) object_id kind m)
      = some (Obj.Context { o with tags := ⟨kContextCid, false⟩ }) := by
  simp only [UntaggedContext.WriteTo, hn, ne_eq, not_false_eq_true, if_true,
    SnapshotWriter.VisitPointers_eq,
    decodeMessage, SnapshotWriter.init, SnapshotWriter.toReader, SnapshotReader.init,
    SnapshotWriter.WriteInlinedObjectHeader, SnapshotWriter.WriteVMIsolateObject,
    SnapshotWriter.WriteTags, SnapshotWriter.Write, SnapshotWriter.emit, List.nil_append,
    List.cons_append, List.append_assoc, SnapshotReader.ReadInlinedObject, ReadFromOf,
    Context.ReadFrom, SnapshotReader.Read, ← hlen, SnapshotReader.New, SnapshotReader.log,
    SnapshotReader.AddBackRef, SnapshotReader.StoreHandle, bind, StateT.bind, pure,
    StateT.pure, Option.some_bind, kAsReference]
  rw [SnapshotReader.ReadObjects_map o.fields true true []]
  · simp
  · simp

/-- A context with zero variables decodes as the null object: nothing but the
    count is written, and the decoder allocates nothing. -/
theorem context_zero_roundtrip (t : Target) (o : UntaggedContext) (h : Heap)
    (object_id : Int) (kind : Snapshot.Kind) (m : Bool) (hn : o.num_variables_ = 0) :
    decodeMessage t kind m (UntaggedContext.WriteTo o (SnapshotWriter.init h) object_id kind m)
      = some Obj.Null := by
  simp [UntaggedContext.WriteTo, hn, decodeMessage, SnapshotWriter.init,
    SnapshotWriter.toReader, SnapshotReader.init,
    SnapshotWriter.WriteInlinedObjectHeader, SnapshotWriter.WriteVMIsolateObject,
    SnapshotWriter.WriteTags, SnapshotWriter.Write, SnapshotWriter.emit,
    SnapshotReader.ReadInlinedObject, ReadFromOf,
    Context.ReadFrom, SnapshotReader.Read, SnapshotReader.AddBackRef, bind, StateT.bind, pure,
    StateT.pure]

theorem SnapshotWriter.foldl_Write_eq (w : SnapshotWriter) (ty : ScalarType) (l : List Nat) :
    l.foldl (fun (w : SnapshotWriter) (c : Nat) => w.Write ty (c : Int)) w
      = { w with
          stream := w.stream ++
            (l.map (fun (c : Nat) => (c : Int))).map (fun v => Item.Write ty v) } := by
  induction l generalizing w with
  | nil => simp
  | cons c cs ih =>
    simp only [List.foldl_cons, ih]
    simp [SnapshotWriter.Write, SnapshotWriter.emit]

theorem bytesItems_eq (data : List Nat) (len : Int) :
    bytesItems data len
      = ((data.take len.toNat).map (fun (c : Nat) => (c : Int))).map
          (fun v => Item.Write .uint8_t v) := by
  simp only [bytesItems, List.map_map]
  rfl

theorem map_toNat_comp_cast (l : List Nat) :
    l.map (Int.toNat ∘ fun (c : Nat) => (c : Int)) = l := by
  have h : (Int.toNat ∘ fun (c : Nat) => (c : Int)) = id := by
    funext c
    simp
  rw [h, List.map_id]

theorem map_toNat_cast (l : List Nat) :
    (l.map (fun (c : Nat) => (c : Int))).map Int.toNat = l := by
  rw [List.map_map]
  exact map_toNat_comp_cast l

/-- What `StringWriteTo` appends after the header, tags and length: the
    `length` code units, one item each. -/
theorem StringWriteTo_eq (w : SnapshotWriter) (object_id : Int) (kind : Snapshot.Kind)
    (class_id : ClassId) (char_type : ScalarType) (tags : Tags) (length : Int)
    (data : List Nat)
    (hty : (class_id = kOneByteStringCid ∧ char_type = .uint8_t)
      ∨ (class_id ≠ kOneByteStringCid ∧ char_type = .uint16_t))
    (h0 : 0 ≤ length) (hlen : data.length = length.toNat) :
    StringWriteTo w object_id kind class_id tags length data
      = some { w with
          stream := w.stream ++ [.InlinedObjectHeader object_id,
            .IndexedObject class_id, .WriteTags tags, .Write .ObjectPtr length]
            ++ (data.map (fun (c : Nat) => (c : Int))).map (fun v => Item.Write char_type v) } := by
  have htake : data.take length.toNat = data := by
    rw [← hlen]; exact List.take_length data
  by_cases hpos : length > 0
  · rcases hty with ⟨h1, h2⟩ | ⟨h1, h2⟩
    · subst h1 h2
      simp [StringWriteTo, hpos, SnapshotWriter.WriteBytes, bytesItems_eq, htake,
        SnapshotWriter.WriteInlinedObjectHeader, SnapshotWriter.WriteIndexedObject,
        SnapshotWriter.WriteTags, SnapshotWriter.Write, SnapshotWriter.emit]
    · subst h2
      simp only [StringWriteTo, hpos, h1, htake, SnapshotWriter.foldl_Write_eq, if_true,
        if_false]
      simp [SnapshotWriter.WriteInlinedObjectHeader, SnapshotWriter.WriteIndexedObject,
        SnapshotWriter.WriteTags, SnapshotWriter.Write, SnapshotWriter.emit]
  · have hz : length = 0 := by omega
    have hd : data = [] := by
      apply List.eq_nil_of_length_eq_zero
      rw [hlen, hz]; rfl
    subst hz hd
    simp [StringWriteTo, SnapshotWriter.WriteInlinedObjectHeader,
      SnapshotWriter.WriteIndexedObject, SnapshotWriter.WriteTags, SnapshotWriter.Write,
      SnapshotWriter.emit]

/-- What `String::ReadFromImpl` returns on the code units of a string. -/
theorem String.ReadFromImpl_eq (cid : ClassId) (char_type : ScalarType) (len : Int)
    (tags : Tags) (kind : Snapshot.Kind) (data : List Nat) (r : SnapshotReader)
    (hlen : data.length = len.toNat)
    (hs : r.stream = (data.map (fun (c : Nat) => (c : Int))).map (fun v => Item.Write char_type v)) :
    ∃ r', String.ReadFromImpl cid char_type len tags kind r
        = some (Obj.String { tags := ⟨cid, tags.canonical⟩, length_ := len, data := data }, r')
      ∧ r'.stream = [] ∧ r'.backrefs = r.backrefs
      ∧ r'.finalizable_data = r.finalizable_data := by
  have hl : len.toNat = (data.map (fun (c : Nat) => (c : Int))).length := by simp [hlen]
  cases hc : tags.canonical
  · by_cases hz : len = 0
    · have hd : data = [] := by
        apply List.eq_nil_of_length_eq_zero
        rw [hlen, hz]; rfl
      subst hd
      simp only [List.map_nil] at hs
      simp [String.ReadFromImpl, UntaggedObject.IsCanonical, hc, hz, SnapshotReader.New,
        SnapshotReader.log, bind, StateT.bind, pure, StateT.pure, hs]
    · simp only [String.ReadFromImpl, UntaggedObject.IsCanonical, hc, hz, SnapshotReader.New,
        SnapshotReader.log, bind, StateT.bind, pure, StateT.pure, Option.some_bind, if_false,
        Bool.false_eq_true, hl]
      rw [SnapshotReader.ReadN_map char_type _ []]
      · simp [map_toNat_comp_cast]
      · simp [hs]
  · simp only [String.ReadFromImpl, UntaggedObject.IsCanonical, hc, SnapshotReader.New,
      SnapshotReader.log, bind, StateT.bind, pure, StateT.pure, Option.some_bind, if_true, hl]
    rw [SnapshotReader.ReadN_map char_type _ [] r (by simp [hs])]
    simp [map_toNat_comp_cast]

theorem onebytestring_roundtrip (t : Target) (o : UntaggedString) (h : Heap)
    (object_id : Int) (kind : Snapshot.Kind) (m : Bool)
    (h0 : 0 ≤ o.length_) (hlen : o.data.length = o.length_.toNat) :
    decodeMessage t kind m
        (UntaggedOneByteString.WriteTo o (SnapshotWriter.init h) object_id kind m)
      = some (Obj.String { o with tags := ⟨kOneByteStringCid, o.tags.canonical⟩ }) := by
  rw [UntaggedOneByteString.WriteTo,
    StringWriteTo_eq _ _ _ kOneByteStringCid .uint8_t _ _ _ (Or.inl ⟨rfl, rfl⟩) h0 hlen]
  obtain ⟨r', hr, hs', -, -⟩ := String.ReadFromImpl_eq kOneByteStringCid .uint8_t o.length_
    (UntaggedObject.ClassIdTag.update kOneByteStringCid o.tags) kind o.data
    { stream := (o.data.map (fun (c : Nat) => (c : Int))).map
        (fun v => Item.Write .uint8_t v),
      backrefs := [], finalizable_data := .empty, types_to_postprocess := [],
      maps_to_rehash := [], events := [.Read .ObjectPtr o.length_], next_addr := 100 }
    hlen rfl
  simp only [decodeMessage, SnapshotWriter.init, SnapshotWriter.toReader, SnapshotReader.init,
    List.nil_append, List.cons_append, List.append_assoc, SnapshotReader.ReadInlinedObject,
    ReadFromOf, OneByteString.ReadFrom, SnapshotReader.ReadSmiValue, SnapshotReader.Read,
    if_true, bind, StateT.bind, Option.some_bind]
  rw [hr]
  simp [SnapshotReader.AddBackRef, pure, StateT.pure, hs', UntaggedObject.ClassIdTag.update]

theorem twobytestring_roundtrip (t : Target) (o : UntaggedString) (h : Heap)
    (object_id : Int) (kind : Snapshot.Kind) (m : Bool)
    (h0 : 0 ≤ o.length_) (hlen : o.data.length = o.length_.toNat) :
    decodeMessage t kind m
        (UntaggedTwoByteString.WriteTo o (SnapshotWriter.init h) object_id kind m)
      = some (Obj.String { o with tags := ⟨kTwoByteStringCid, o.tags.canonical⟩ }) := by
  rw [UntaggedTwoByteString.WriteTo,
    StringWriteTo_eq _ _ _ kTwoByteStringCid .uint16_t _ _ _
      (Or.inr ⟨by decide, rfl⟩) h0 hlen]
  obtain ⟨r', hr, hs', -, -⟩ := String.ReadFromImpl_eq kTwoByteStringCid .uint16_t o.length_
    (UntaggedObject.ClassIdTag.update kTwoByteStringCid o.tags) kind o.data
    { stream := (o.data.map (fun (c : Nat) => (c : Int))).map
        (fun v => Item.Write .uint16_t v),
      backrefs := [], finalizable_data := .empty, types_to_postprocess := [],
      maps_to_rehash := [], events := [.Read .ObjectPtr o.length_], next_addr := 100 }
    hlen rfl
  simp only [decodeMessage, SnapshotWriter.init, SnapshotWriter.toReader, SnapshotReader.init,
    List.nil_append, List.cons_append, List.append_assoc, SnapshotReader.ReadInlinedObject,
    ReadFromOf, TwoByteString.ReadFrom, SnapshotReader.ReadSmiValue, SnapshotReader.Read,
    if_true, bind, StateT.bind, Option.some_bind]
  rw [hr]
  simp [SnapshotReader.AddBackRef, pure, StateT.pure, hs', UntaggedObject.ClassIdTag.update]

theorem array_roundtrip (t : Target) (o : UntaggedArray) (h : Heap)
    (object_id : Int) (kind : Snapshot.Kind) (hlen : o.data.length = o.length_.toNat) :
    decodeMessage t kind false
        (UntaggedArray.WriteTo o (SnapshotWriter.init h) object_id kind false)
      = some (Obj.Array { o with tags := ⟨kArrayCid, false⟩ }) := by
  have htake : o.data.take o.length_.toNat = o.data := by
    rw [← hlen]; exact List.take_length o.data
  simp only [UntaggedArray.WriteTo, SnapshotWriter.ArrayWriteTo, htake,
    SnapshotWriter.VisitPointers_eq, decodeMessage,
    SnapshotWriter.init, SnapshotWriter.toReader, SnapshotReader.init,
    SnapshotWriter.WriteInlinedObjectHeader, SnapshotWriter.WriteIndexedObject,
    SnapshotWriter.WriteTags, SnapshotWriter.Write, SnapshotWriter.WriteObjectImpl,
    SnapshotWriter.emit, List.nil_append, List.cons_append,
    List.append_assoc, SnapshotReader.ReadInlinedObject, ReadFromOf, Array.ReadFrom,
    Array.ReadFrom.prepare, Array.New, SnapshotReader.ArrayReadFrom,
    SnapshotReader.ReadSmiValue, SnapshotReader.Read, SnapshotReader.GetBackRef,
    SnapshotReader.lookup, SnapshotReader.ReadObjectImpl,
    SnapshotReader.New, SnapshotReader.log,
    SnapshotReader.AddBackRef, SnapshotReader.StoreHandle, bind, StateT.bind, pure,
    StateT.pure, Option.some_bind, kAsReference, kAsInlinedObject, if_true, if_false,
    Bool.not_false, Bool.false_eq_true, List.find?_nil, Option.map_none', ← hlen]
  rw [SnapshotReader.ReadObjects_map o.data true _ []]
  · simp
  · simp

theorem immutablearray_roundtrip (t : Target) (o : UntaggedArray) (h : Heap)
    (object_id : Int) (kind : Snapshot.Kind) (hlen : o.data.length = o.length_.toNat) :
    decodeMessage t kind false
        (UntaggedImmutableArray.WriteTo o (SnapshotWriter.init h) object_id kind false)
      = some (Obj.Array { o with tags := ⟨kImmutableArrayCid, o.tags.canonical⟩ }) := by
  have htake : o.data.take o.length_.toNat = o.data := by
    rw [← hlen]; exact List.take_length o.data
  simp only [UntaggedImmutableArray.WriteTo, SnapshotWriter.ArrayWriteTo, htake,
    SnapshotWriter.VisitPointers_eq, decodeMessage,
    SnapshotWriter.init, SnapshotWriter.toReader, SnapshotReader.init,
    SnapshotWriter.WriteInlinedObjectHeader, SnapshotWriter.WriteIndexedObject,
    SnapshotWriter.WriteTags, SnapshotWriter.Write, SnapshotWriter.WriteObjectImpl,
    SnapshotWriter.emit, List.nil_append, List.cons_append,
    List.append_assoc, SnapshotReader.ReadInlinedObject, ReadFromOf, ImmutableArray.ReadFrom,
    Array.ReadFrom.prepare, Array.New, SnapshotReader.ArrayReadFrom,
    SnapshotReader.ReadSmiValue, SnapshotReader.Read, SnapshotReader.GetBackRef,
    SnapshotReader.lookup, SnapshotReader.ReadObjectImpl,
    SnapshotReader.New, SnapshotReader.log,
    SnapshotReader.AddBackRef, SnapshotReader.StoreHandle, bind, StateT.bind, pure,
    StateT.pure, Option.some_bind, kAsReference, kAsInlinedObject, if_true, if_false,
    Bool.not_false, Bool.false_eq_true, List.find?_nil, Option.map_none', ← hlen]
  rw [SnapshotReader.ReadObjects_map o.data true _ []]
  · cases hc : o.tags.canonical <;>
      simp [UntaggedObject.IsCanonical, UntaggedObject.ClassIdTag.update, hc,
        SnapshotReader.Canonicalize, SnapshotReader.log, SnapshotReader.StoreHandle,
        bind, StateT.bind, pure, StateT.pure]
  · simp

theorem typeddata_inline_roundtrip (t : Target) (T : Nat) (o : UntaggedTypedData) (h : Heap)
    (object_id : Int) (kind : Snapshot.Kind) (m : Bool) (ext : ClassId) (bytes : Int)
    (hs : UntaggedTypedData.switchCid o.tags.class_id o.length_ = some (ext, bytes))
    (hinl : ¬ (kind = .kMessage ∧ toUint64 bytes ≥ T))
    (hlen : o.data.length = bytes.toNat)
    (hsize : toIntptr (o.length_ * t.ElementSizeInBytes o.tags.class_id) = bytes) :
    decodeMessage t kind m
        (UntaggedTypedData.WriteTo T o (SnapshotWriter.init h) object_id kind m)
      = some (Obj.TypedData o) := by
  have htake : o.data.take bytes.toNat = o.data := by
    rw [← hlen]; exact List.take_length o.data
  have hcid := (UntaggedTypedData.switchCid_external _ _ _ _ hs).2.2
  have hl : bytes.toNat = (o.data.map (fun (c : Nat) => (c : Int))).length := by simp [hlen]
  rw [UntaggedTypedData.WriteTo_inline T o _ object_id kind m ext bytes hs hinl]
  simp only [UntaggedTypedData.inlineResult, bytesItems_eq, htake, decodeMessage,
    SnapshotWriter.init, SnapshotWriter.toReader, SnapshotReader.init,
    List.nil_append, List.cons_append, List.append_assoc,
    SnapshotReader.ReadInlinedObject, ReadFromOf_typedData t _ hcid, TypedData.ReadFrom,
    UntaggedObject.ClassIdTag.update, UntaggedObject.ClassIdTag.decode,
    SnapshotReader.ReadSmiValue, SnapshotReader.Read, SnapshotReader.Align,
    SnapshotReader.ReadBytes, SnapshotReader.New, SnapshotReader.log,
    SnapshotReader.AddBackRef, bind, StateT.bind, pure,
    StateT.pure, Option.some_bind, if_true, hsize, Zone.kAlignment, hl]
  rw [SnapshotReader.ReadN_map .uint8_t _ []]
  · cases hc : o.tags.canonical <;>
      simp [UntaggedObject.IsCanonical, hc, map_toNat_comp_cast,
        SnapshotReader.Canonicalize, SnapshotReader.log, SnapshotReader.StoreHandle,
        bind, StateT.bind, pure, StateT.pure] <;>
      (obtain ⟨tags, len, data⟩ := o
       obtain ⟨cid, can⟩ := tags
       simp_all)
  · simp

theorem typeddata_external_roundtrip (t : Target) (T : Nat) (o : UntaggedTypedData) (h : Heap)
    (object_id : Int) (m : Bool) (ext : ClassId) (bytes : Int)
    (hs : UntaggedTypedData.switchCid o.tags.class_id o.length_ = some (ext, bytes))
    (hT : toUint64 bytes ≥ T) :
    decodeMessage t .kMessage m
        (UntaggedTypedData.WriteTo T o (SnapshotWriter.init h) object_id .kMessage m)
      = some (Obj.ExternalTypedData
          ⟨⟨ext, false⟩, o.length_, .block (h.memory.malloc bytes).1⟩) := by
  have hext := (UntaggedTypedData.switchCid_external _ _ _ _ hs).2.1
  rw [UntaggedTypedData.WriteTo_external T o _ object_id m ext bytes hs hT]
  simp [UntaggedTypedData.externalResult, decodeMessage,
    SnapshotWriter.init, SnapshotWriter.toReader, SnapshotReader.init,
    SnapshotReader.ReadInlinedObject, ReadFromOf_externalTypedData t _ hext,
    ExternalTypedData.ReadFrom, MessageFinalizableData.Put, MessageFinalizableData.empty,
    UntaggedObject.ClassIdTag.update, UntaggedObject.ClassIdTag.decode,
    SnapshotReader.ReadSmiValue, SnapshotReader.Read, SnapshotReader.Take,
    MessageFinalizableData.Take, SnapshotReader.New, SnapshotReader.log,
    SnapshotReader.AddBackRef, bind, StateT.bind, pure, StateT.pure]

theorem externaltypeddata_roundtrip (t : Target) (o : UntaggedExternalTypedData) (h : Heap)
    (object_id : Int) (kind : Snapshot.Kind) (m : Bool) (bytes : Int)
    (hs : UntaggedExternalTypedData.switchCid o.tags.class_id o.length_ = some bytes) :
    decodeMessage t kind m
        (UntaggedExternalTypedData.WriteTo o (SnapshotWriter.init h) object_id kind m)
      = some (Obj.ExternalTypedData
          ⟨⟨o.tags.class_id, false⟩, o.length_, .block (h.memory.malloc bytes).1⟩) := by
  have hext : IsExternalTypedDataClassId o.tags.class_id = true := by
    have hs' := hs
    cases hc : o.tags.class_id <;> rw [hc] at hs' <;>
      simp [UntaggedExternalTypedData.switchCid] at hs' <;> decide
  rw [UntaggedExternalTypedData.WriteTo_external_eq o _ object_id kind m bytes hs]
  simp [UntaggedExternalTypedData.result, decodeMessage,
    SnapshotWriter.init, SnapshotWriter.toReader, SnapshotReader.init,
    SnapshotReader.ReadInlinedObject, ReadFromOf_externalTypedData t _ hext,
    ExternalTypedData.ReadFrom, MessageFinalizableData.Put, MessageFinalizableData.empty,
    UntaggedObject.ClassIdTag.update, UntaggedObject.ClassIdTag.decode,
    SnapshotReader.ReadSmiValue, SnapshotReader.Read, SnapshotReader.Take,
    MessageFinalizableData.Take, SnapshotReader.New, SnapshotReader.log,
    SnapshotReader.AddBackRef, bind, StateT.bind, pure, StateT.pure]

theorem transferable_roundtrip (t : Target) (o : UntaggedTransferableTypedData) (h : Heap)
    (object_id : Int) (kind : Snapshot.Kind) (m : Bool) (tpeer : TransferableTypedDataPeer)
    (hcid : o.tags.class_id = kTransferableTypedDataCid)
    (hp : h.GetPeer o.self = some tpeer) (hd : tpeer.data_ ≠ .nullptr)
    (hlo : -(2 : Int) ^ 63 ≤ tpeer.length_) (hhi : tpeer.length_ < (2 : Int) ^ 63) :
    decodeMessage t kind m
        (UntaggedTransferableTypedData.WriteTo o (SnapshotWriter.init h) object_id kind m)
      = some (Obj.TransferableTypedData ⟨kTransferableTypedDataCid, false⟩
          { data_ := tpeer.data_, length_ := tpeer.length_, handle_ := true }) := by
  rw [UntaggedTransferableTypedData.WriteTo_transferable_eq o _ object_id kind m tpeer hp hd]
  simp [UntaggedTransferableTypedData.result, decodeMessage, hcid,
    SnapshotWriter.init, SnapshotWriter.toReader, SnapshotReader.init,
    SnapshotReader.ReadInlinedObject, ReadFromOf,
    TransferableTypedData.ReadFrom, MessageFinalizableData.Put, MessageFinalizableData.empty,
    SnapshotReader.Read, SnapshotReader.Take, toIntptr_of_fits _ hlo hhi,
    MessageFinalizableData.Take, SnapshotReader.New, SnapshotReader.log,
    SnapshotReader.AddBackRef, bind, StateT.bind, pure, StateT.pure]

/-! ## Ordered maps -/

/-- The pair loop of `UntaggedLinkedHashMap::WriteTo` appends the live pairs. -/
theorem UntaggedLinkedHashMap.foldl_writePair (this : UntaggedLinkedHashMap) (m : Bool)
    (n : Nat) (w : SnapshotWriter) :
    (List.range n).foldl (this.writePair m) w
      = { w with stream := w.stream ++ (this.livePairs n).map (fun p => Item.ObjectImpl p m) } := by
  induction n with
  | zero => simp [UntaggedLinkedHashMap.livePairs]
  | succ n ih =>
    rw [List.range_succ, List.foldl_append, ih]
    simp only [List.foldl_cons, List.foldl_nil, UntaggedLinkedHashMap.livePairs,
      List.flatMap_append, List.flatMap_cons, List.flatMap_nil, List.append_nil,
      UntaggedLinkedHashMap.writePair, List.range_succ]
    split_ifs with hk <;> simp [SnapshotWriter.WriteObjectImpl, SnapshotWriter.emit]

/-- The slot loop of `LinkedHashMap::ReadFrom` stores the children it reads
    into consecutive slots, leaving the other slots as they were. -/
theorem LinkedHashMap.ReadFrom.loop_eq (m m' : Bool) (ps : List ObjectPtr) (i : Nat)
    (data : List ObjectPtr) (rest : List Item) (r : SnapshotReader)
    (hs : r.stream = ps.map (fun p => Item.ObjectImpl p m) ++ rest)
    (hb : i + ps.length ≤ data.length) :
    LinkedHashMap.ReadFrom.loop m' ps.length i data r
      = some (data.take i ++ ps ++ data.drop (i + ps.length),
          { r with
            stream := rest,
            events := r.events ++ ps.map (fun p => ReaderEvent.ReadObjectImpl m' p) }) := by
  induction ps generalizing i data r with
  | nil =>
    simp only [List.map_nil, List.nil_append] at hs
    simp [LinkedHashMap.ReadFrom.loop, pure, StateT.pure, ← hs]
  | cons p ps ih =>
    simp only [List.map_cons, List.cons_append] at hs
    simp only [List.length_cons] at hb
    have hi : i < data.length := by omega
    have h' := ih (i + 1) (data.set i p)
      { r with stream := ps.map (fun p => Item.ObjectImpl p m) ++ rest,
               events := r.events ++ [ReaderEvent.ReadObjectImpl m' p] } rfl
      (by simp; omega)
    simp only [List.length_cons, LinkedHashMap.ReadFrom.loop, bind, StateT.bind,
      SnapshotReader.ReadObjectImpl, hs, Option.some_bind]
    rw [h']
    have hset : data.set i p = (data.take i ++ [p]) ++ data.drop (i + 1) := by
      rw [List.set_eq_take_append_cons_drop, if_pos hi]
      simp
    have h1 : (data.set i p).take (i + 1) = data.take i ++ [p] := by
      rw [hset]
      exact List.take_left' (by simp; omega)
    have h2 : (data.set i p).drop (i + 1 + ps.length) = data.drop (i + (ps.length + 1)) := by
      rw [List.drop_set_of_lt p data (by omega)]
      congr 1
      omega
    rw [h1, h2]
    simp

theorem Utils.RoundUpToPowerOfTwo.loop_bounds (fuel p x : Nat) (h : x ≤ p * 2 ^ fuel) :
    x ≤ Utils.RoundUpToPowerOfTwo.loop fuel p x
      ∧ Utils.RoundUpToPowerOfTwo.loop fuel p x ≤ max p (2 * x) := by
  induction fuel generalizing p with
  | zero =>
    simp only [pow_zero, mul_one] at h
    simp only [Utils.RoundUpToPowerOfTwo.loop]
    exact ⟨h, le_max_left _ _⟩
  | succ f ih =>
    simp only [Utils.RoundUpToPowerOfTwo.loop]
    split_ifs with hx
    · exact ⟨hx, le_max_left _ _⟩
    · obtain ⟨h1, h2⟩ := ih (2 * p) (by rw [pow_succ] at h; linarith)
      refine ⟨h1, le_trans h2 ?_⟩
      have : 2 * p ≤ 2 * x := by omega
      rw [max_eq_right this]
      exact le_max_right _ _

/-- Up to `2 ^ 61` the rounded value is at least its argument and at most
    twice its argument. -/
theorem Utils.RoundUpToPowerOfTwo_bounds (x : Nat) (hx : x ≤ 2 ^ 61) :
    x ≤ Utils.RoundUpToPowerOfTwo x ∧ Utils.RoundUpToPowerOfTwo x ≤ 2 ^ 62 := by
  unfold Utils.RoundUpToPowerOfTwo
  split_ifs with h0
  · subst h0; simp
  · have hb := Utils.RoundUpToPowerOfTwo.loop_bounds kBitsPerWord 1 x (by
      unfold kBitsPerWord
      norm_num at hx ⊢
      omega)
    have hle : Utils.RoundUpToPowerOfTwo.loop kBitsPerWord 1 x ≤ 2 ^ 62 := by
      refine le_trans hb.2 ?_
      norm_num at hx ⊢
      omega
    have hmod : Utils.RoundUpToPowerOfTwo.loop kBitsPerWord 1 x % 2 ^ kBitsPerWord
        = Utils.RoundUpToPowerOfTwo.loop kBitsPerWord 1 x := by
      apply Nat.mod_eq_of_lt
      refine lt_of_le_of_lt hle ?_
      unfold kBitsPerWord
      norm_num
    rw [hmod]
    exact ⟨hb.1, hle⟩

/-- The data array allocated for `u` used slots has room for them. -/
theorem LinkedHashMap.dataSize_ge (t : Target) (u : Nat) (hu : u ≤ 2 ^ 61)
    (hk : t.kInitialIndexSize < 2 ^ 63) :
    u ≤ (LinkedHashMap.dataSize t (u : Int)).toNat := by
  obtain ⟨h1, h2⟩ := Utils.RoundUpToPowerOfTwo_bounds u hu
  have hu64 : toUint64 (u : Int) = u := by
    have := toUint64_of_nonneg (u : Int) (by omega) (by
      norm_num at hu ⊢
      omega)
    exact_mod_cast this
  unfold LinkedHashMap.dataSize
  rw [hu64]
  have hmax : (max (Utils.RoundUpToPowerOfTwo u) t.kInitialIndexSize : Nat) < 2 ^ 63 := by
    apply max_lt
    · norm_num at h2 ⊢
      omega
    · exact hk
  rw [toIntptr_of_fits _ (by
      have : (0 : Int) < (2 : Int) ^ 63 := by positivity
      omega) (by exact_mod_cast hmax)]
  simp only [Int.toNat_ofNat]
  exact le_trans h1 (le_max_left _ _)

theorem linkedhashmap_roundtrip (t : Target) (o : UntaggedLinkedHashMap) (h : Heap)
    (object_id : Int) (kind : Snapshot.Kind) (m : Bool)
    (hu0 : 0 ≤ o.used_data) (heven : o.used_data % 2 = 0)
    (hdel : ((o.livePairs (o.used_data / 2).toNat).length : Int)
      = 2 * (o.used_data / 2 - o.deleted_keys))
    (hsmall : (o.livePairs (o.used_data / 2).toNat).length ≤ 2 ^ 61)
    (hk : t.kInitialIndexSize < 2 ^ 63) :
    decodeMessage t kind m
        (UntaggedLinkedHashMap.WriteTo o (SnapshotWriter.init h) object_id kind m)
      = some (Obj.LinkedHashMap (LinkedHashMap.decoded t o.type_arguments (.heap 100)
          (o.livePairs (o.used_data / 2).toNat))) := by
  have hn : ((o.used_data + 1) / 2).toNat = (o.used_data / 2).toNat := by omega
  generalize hlive : o.livePairs (o.used_data / 2).toNat = live at hdel hsmall
  have hL : toIntptr ((o.used_data / 2 - o.deleted_keys) * 2) = (live.length : Int) := by
    rw [toIntptr_of_fits]
    · omega
    · have : (0 : Int) < (2 : Int) ^ 63 := by positivity
      omega
    · have : ((live.length : Nat) : Int) ≤ ((2 ^ 61 : Nat) : Int) := by exact_mod_cast hsmall
      norm_num at this ⊢
      omega
  have hge := LinkedHashMap.dataSize_ge t live.length hsmall hk
  simp only [UntaggedLinkedHashMap.WriteTo, hn, UntaggedLinkedHashMap.foldl_writePair, hlive,
    decodeMessage, SnapshotWriter.init, SnapshotWriter.toReader, SnapshotReader.init,
    SnapshotWriter.WriteInlinedObjectHeader, SnapshotWriter.WriteIndexedObject,
    SnapshotWriter.WriteTags, SnapshotWriter.Write, SnapshotWriter.WriteObjectImpl,
    SnapshotWriter.emit, List.nil_append, List.cons_append, List.append_assoc,
    SnapshotReader.ReadInlinedObject, ReadFromOf, LinkedHashMap.ReadFrom,
    SnapshotReader.ReadSmiValue, SnapshotReader.Read, SnapshotReader.ReadObjectImpl,
    SnapshotReader.New, SnapshotReader.log, SnapshotReader.freshAddr,
    SnapshotReader.EnqueueRehashingOfMap, SnapshotReader.AddBackRef, bind, StateT.bind, pure,
    StateT.pure, Option.some_bind, kAsInlinedObject, if_true, hL, Int.toNat_ofNat]
  rw [LinkedHashMap.ReadFrom.loop_eq (!o.tags.canonical) _ live 0 _ []]
  · simp [SnapshotReader.StoreHandle, LinkedHashMap.decoded, LinkedHashMap.dataSize]
  · simp
  · simpa [LinkedHashMap.dataSize] using hge

/-! ## Round trip of every listed kind -/

theorem decodeMessage_of_some (t : Target) (kind : Snapshot.Kind) (m : Bool)
    (wr : Option SnapshotWriter) (o : Obj) (h : decodeMessage t kind m wr = some o) :
    ∃ w', wr = some w' ∧ decodeMessage t kind m (some w') = some o := by
  cases wr with
  | none => simp [decodeMessage] at h
  | some w => exact ⟨w, rfl, h⟩

theorem mint_decodeMessage (t : Target) (o : UntaggedMint) (h : Heap) (object_id : Int)
    (kind : Snapshot.Kind) (m : Bool)
    (hlo : -(2 : Int) ^ 63 ≤ o.value_) (hhi : o.value_ < (2 : Int) ^ 63) :
    decodeMessage t kind m (UntaggedMint.WriteTo o (SnapshotWriter.init h) object_id kind m)
      = some (if Smi.IsValid t.kSmiBits o.value_ then Obj.Smi o.value_
              else Obj.Mint { tags := ⟨kMintCid, o.tags.canonical⟩, value_ := o.value_ }) := by
  have hfit := toIntptr_of_fits o.value_ hlo hhi
  rw [UntaggedMint.WriteTo_mint_eq]
  by_cases hvalid : Smi.IsValid t.kSmiBits o.value_ = true
  · simp [decodeMessage, SnapshotWriter.init, SnapshotWriter.toReader, SnapshotReader.init,
      SnapshotReader.ReadInlinedObject, ReadFromOf, Mint.ReadFrom, bind, StateT.bind,
      SnapshotReader.Read, hvalid, SnapshotReader.AddBackRef, pure, StateT.pure, hfit]
  · have hf : Smi.IsValid t.kSmiBits o.value_ = false := by simpa using hvalid
    cases hc : o.tags.canonical <;>
      simp [decodeMessage, SnapshotWriter.init, SnapshotWriter.toReader, SnapshotReader.init,
        SnapshotReader.ReadInlinedObject, ReadFromOf, Mint.ReadFrom, bind, StateT.bind,
        SnapshotReader.Read, hf, SnapshotReader.AddBackRef, pure, StateT.pure,
        UntaggedObject.IsCanonical, UntaggedObject.ClassIdTag.update, hc,
        Mint.New, Mint.NewCanonical, SnapshotReader.log]

/-- C1 (amended). For every well-formed object of a listed kind, other than
    an internal typed buffer written for a message whose byte size is exactly
    the threshold, `WriteTo` on a fresh writer returns, `ReadFrom` on the
    stream it produced returns an object and consumes the whole stream, and the
    decoded object is the source up to the decoder's policy (`RoundTrip`):
    isomorphic to the source, except that a boxed integer in the small-integer
    range decodes as a small integer, a context with zero variables as null, an
    internal typed buffer whose byte size exceeds the threshold in a message as
    the paired external kind, and a map as its live pairs compacted. -/
theorem C1_roundtrip_up_to_decoder_policy (t : Target) (T : Nat) (s : Source) (h : Heap)
    (object_id : Int) (kind : Snapshot.Kind) (m : Bool) (hwf : s.WellFormed t h m)
    (hT0 : s.atThreshold T kind = false) :
    ∃ w', s.WriteTo T (SnapshotWriter.init h) object_id kind m = some w'
      ∧ ∃ o', decodeMessage t kind m (some w') = some o'
        ∧ RoundTrip t T kind h w'.heap s o' := by
  cases s with
  | Mint o =>
    obtain ⟨hc, hlo, hhi⟩ := hwf
    obtain ⟨w', hw, hd⟩ := decodeMessage_of_some _ _ _ _ _
      (mint_decodeMessage t o h object_id kind m hlo hhi)
    refine ⟨w', hw, _, hd, ?_⟩
    by_cases hv : Smi.IsValid t.kSmiBits o.value_ = true
    · simp [RoundTrip, hv]
    · simp [RoundTrip, hv, Isomorphic, Source.toObj, Obj.view, hc]
  | Double o =>
    obtain ⟨w', hw, hd⟩ := decodeMessage_of_some _ _ _ _ _
      (double_roundtrip t o h object_id kind m)
    exact ⟨w', hw, _, hd, by
      simpa [RoundTrip, Isomorphic, Source.toObj, Obj.view, Source.WellFormed] using hwf⟩
  | OneByteString o =>
    obtain ⟨hc, h0, hlen⟩ := hwf
    obtain ⟨w', hw, hd⟩ := decodeMessage_of_some _ _ _ _ _
      (onebytestring_roundtrip t o h object_id kind m h0 hlen)
    exact ⟨w', hw, _, hd, by simp [RoundTrip, Isomorphic, Source.toObj, Obj.view, hc]⟩
  | TwoByteString o =>
    obtain ⟨hc, h0, hlen⟩ := hwf
    obtain ⟨w', hw, hd⟩ := decodeMessage_of_some _ _ _ _ _
      (twobytestring_roundtrip t o h object_id kind m h0 hlen)
    exact ⟨w', hw, _, hd, by simp [RoundTrip, Isomorphic, Source.toObj, Obj.view, hc]⟩
  | Array o =>
    obtain ⟨hc, hlen, hm⟩ := hwf
    subst hm
    obtain ⟨w', hw, hd⟩ := decodeMessage_of_some _ _ _ _ _
      (array_roundtrip t o h object_id kind hlen)
    exact ⟨w', hw, _, hd, by simp [RoundTrip, Isomorphic, Source.toObj, Obj.view, hc]⟩
  | ImmutableArray o =>
    obtain ⟨hc, hlen, hm⟩ := hwf
    subst hm
    obtain ⟨w', hw, hd⟩ := decodeMessage_of_some _ _ _ _ _
      (immutablearray_roundtrip t o h object_id kind hlen)
    exact ⟨w', hw, _, hd, by simp [RoundTrip, Isomorphic, Source.toObj, Obj.view, hc]⟩
  | GrowableObjectArray o =>
    obtain ⟨w', hw, hd⟩ := decodeMessage_of_some _ _ _ _ _
      (growable_roundtrip t o h object_id kind m)
    exact ⟨w', hw, _, hd, by
      simpa [RoundTrip, Isomorphic, Source.toObj, Obj.view, Source.WellFormed] using hwf⟩
  | LinkedHashMap o =>
    obtain ⟨hc, hu0, heven, hdel, hsmall, hk⟩ := hwf
    obtain ⟨w', hw, hd⟩ := decodeMessage_of_some _ _ _ _ _
      (linkedhashmap_roundtrip t o h object_id kind m hu0 heven hdel hsmall hk)
    exact ⟨w', hw, _, hd, by simp [RoundTrip, Obj.view, LinkedHashMap.decoded]⟩
  | Float32x4 o =>
    obtain ⟨w', hw, hd⟩ := decodeMessage_of_some _ _ _ _ _
      (float32x4_roundtrip t o h object_id kind m)
    exact ⟨w', hw, _, hd, by
      simpa [RoundTrip, Isomorphic, Source.toObj, Obj.view, Source.WellFormed] using hwf⟩
  | Int32x4 o =>
    obtain ⟨w', hw, hd⟩ := decodeMessage_of_some _ _ _ _ _
      (int32x4_roundtrip t o h object_id kind m)
    exact ⟨w', hw, _, hd, by
      simpa [RoundTrip, Isomorphic, Source.toObj, Obj.view, Source.WellFormed] using hwf⟩
  | Float64x2 o =>
    obtain ⟨w', hw, hd⟩ := decodeMessage_of_some _ _ _ _ _
      (float64x2_roundtrip t o h object_id kind m)
    exact ⟨w', hw, _, hd, by
      simpa [RoundTrip, Isomorphic, Source.toObj, Obj.view, Source.WellFormed] using hwf⟩
  | TypedData o =>
    obtain ⟨ext, bytes, hs, hlen, hsize⟩ := hwf
    have htake : o.data.take bytes.toNat = o.data := by
      rw [← hlen]; exact List.take_length o.data
    have hne : kind = .kMessage → toUint64 bytes ≠ T := by
      intro hk hb
      simp [Source.atThreshold, hs, hk, hb] at hT0
    by_cases hx : kind = .kMessage ∧ toUint64 bytes ≥ T
    · obtain ⟨hk, hT⟩ := hx
      have hgt : toUint64 bytes > T := lt_of_le_of_ne hT (fun e => hne hk e.symm)
      subst hk
      obtain ⟨w', hw, hd⟩ := decodeMessage_of_some _ _ _ _ _
        (typeddata_external_roundtrip t T o h object_id m ext bytes hs hT)
      have hw2 := UntaggedTypedData.WriteTo_external T o (SnapshotWriter.init h) object_id m
        ext bytes hs hT
      have hw' : w' = o.externalResult (SnapshotWriter.init h) object_id ext bytes := by
        rw [hw2] at hw
        exact (Option.some.inj hw).symm
      refine ⟨w', hw, _, hd, ?_⟩
      subst hw'
      simp [RoundTrip, hs, hgt, Source.toObj, Obj.view, UntaggedTypedData.externalResult,
        SnapshotWriter.init, NativeMemory.read_malloc_memmove, htake]
    · obtain ⟨w', hw, hd⟩ := decodeMessage_of_some _ _ _ _ _
        (typeddata_inline_roundtrip t T o h object_id kind m ext bytes hs hx hlen hsize)
      have hx' : ¬ (kind = .kMessage ∧ toUint64 bytes > T) :=
        fun hh => hx ⟨hh.1, le_of_lt hh.2⟩
      refine ⟨w', hw, _, hd, ?_⟩
      simp only [RoundTrip, hs, hx', if_false]
      simp [Isomorphic, Source.toObj, Obj.view]
  | ExternalTypedData o =>
    obtain ⟨bytes, hs, hlen, a, ha⟩ := hwf
    have htake : (h.bytesAt o.data_).take bytes.toNat = h.bytesAt o.data_ := by
      rw [← hlen]; exact List.take_length _
    obtain ⟨w', hw, hd⟩ := decodeMessage_of_some _ _ _ _ _
      (externaltypeddata_roundtrip t o h object_id kind m bytes hs)
    have hw2 := UntaggedExternalTypedData.WriteTo_external_eq o (SnapshotWriter.init h)
      object_id kind m bytes hs
    have hw' : w' = o.result (SnapshotWriter.init h) object_id bytes := by
      rw [hw2] at hw
      exact (Option.some.inj hw).symm
    refine ⟨w', hw, _, hd, ?_⟩
    subst hw'
    simp only [ha, Heap.bytesAt] at htake
    simp [RoundTrip, Isomorphic, Source.toObj, Obj.view, UntaggedExternalTypedData.result,
      SnapshotWriter.init, NativeMemory.read_malloc_memmove, htake, ha, Heap.bytesAt]
  | TypedDataView o =>
    obtain ⟨w', hw, hd⟩ := decodeMessage_of_some _ _ _ _ _
      (view_roundtrip t o h object_id kind m hwf)
    exact ⟨w', hw, _, hd, by simp [RoundTrip, Isomorphic, Source.toObj, Obj.view]⟩
  | Capability o =>
    obtain ⟨w', hw, hd⟩ := decodeMessage_of_some _ _ _ _ _
      (capability_roundtrip t o h object_id kind m)
    exact ⟨w', hw, _, hd, by
      simpa [RoundTrip, Isomorphic, Source.toObj, Obj.view, Source.WellFormed] using hwf⟩
  | SendPort o =>
    obtain ⟨w', hw, hd⟩ := decodeMessage_of_some _ _ _ _ _
      (sendport_roundtrip t o h object_id kind m)
    exact ⟨w', hw, _, hd, by
      simpa [RoundTrip, Isomorphic, Source.toObj, Obj.view, Source.WellFormed] using hwf⟩
  | TransferableTypedData o =>
    obtain ⟨hc, tpeer, hp, hdn, hlo, hhi⟩ := hwf
    obtain ⟨w', hw, hd⟩ := decodeMessage_of_some _ _ _ _ _
      (transferable_roundtrip t o h object_id kind m tpeer hc hp hdn hlo hhi)
    have hw2 := UntaggedTransferableTypedData.WriteTo_transferable_eq o (SnapshotWriter.init h)
      object_id kind m tpeer hp hdn
    have hw' : w' = o.result (SnapshotWriter.init h) object_id tpeer := by
      rw [hw2] at hw
      exact (Option.some.inj hw).symm
    refine ⟨w', hw, _, hd, ?_⟩
    subst hw'
    simp [RoundTrip, Isomorphic, Source.toObj, Obj.view,
      UntaggedTransferableTypedData.result, SnapshotWriter.init, Heap.peerOf, hp, hc]
  | RegExp o =>
    obtain ⟨w', hw, hd⟩ := decodeMessage_of_some _ _ _ _ _
      (regexp_roundtrip t o h object_id kind m)
    exact ⟨w', hw, _, hd, by
      simpa [RoundTrip, Isomorphic, Source.toObj, Obj.view, Source.WellFormed] using hwf⟩
  | Context o =>
    obtain ⟨hc, hlen⟩ := hwf
    by_cases hn : o.num_variables_ = 0
    · obtain ⟨w', hw, hd⟩ := decodeMessage_of_some _ _ _ _ _
        (context_zero_roundtrip t o h object_id kind m hn)
      exact ⟨w', hw, _, hd, by simp [RoundTrip, hn]⟩
    · obtain ⟨w', hw, hd⟩ := decodeMessage_of_some _ _ _ _ _
        (context_roundtrip t o h object_id kind m hn (hlen hn))
      exact ⟨w', hw, _, hd, by simp [RoundTrip, hn, Isomorphic, Source.toObj, Obj.view, hc]⟩
  | ApiError o =>
    obtain ⟨hc, hlen⟩ := hwf
    obtain ⟨w', hw, hd⟩ := decodeMessage_of_some _ _ _ _ _
      (apierror_roundtrip t o h object_id kind m hlen)
    exact ⟨w', hw, _, hd, by simp [RoundTrip, Isomorphic, Source.toObj, Obj.view, hc]⟩
  | LanguageError o =>
    obtain ⟨hc, hlen⟩ := hwf
    obtain ⟨w', hw, hd⟩ := decodeMessage_of_some _ _ _ _ _
      (languageerror_roundtrip t o h object_id kind m hlen)
    exact ⟨w', hw, _, hd, by simp [RoundTrip, Isomorphic, Source.toObj, Obj.view, hc]⟩
  | UnhandledException o =>
    obtain ⟨hc, hlen⟩ := hwf
    obtain ⟨w', hw, hd⟩ := decodeMessage_of_some _ _ _ _ _
      (unhandledexception_roundtrip t o h object_id kind m hlen)
    exact ⟨w', hw, _, hd, by simp [RoundTrip, Isomorphic, Source.toObj, Obj.view, hc]⟩

/-- C1, a concrete instance: a three-byte Uint8 buffer written inline for a
    message with threshold 100 round-trips to an isomorphic object. -/
theorem C1_roundtrip_up_to_decoder_policy_witness :
    (Source.TypedData ⟨⟨kTypedDataUint8ArrayCid, false⟩, 3, [7, 8, 9]⟩).WellFormed
        Target.x64 Heap.empty false
      ∧ (Source.TypedData ⟨⟨kTypedDataUint8ArrayCid, false⟩, 3, [7, 8, 9]⟩).atThreshold
          100 .kMessage = false
      ∧ ∃ w', (Source.TypedData ⟨⟨kTypedDataUint8ArrayCid, false⟩, 3, [7, 8, 9]⟩).WriteTo 100
            (SnapshotWriter.init Heap.empty) 1 .kMessage false = some w'
        ∧ ∃ o', decodeMessage Target.x64 .kMessage false (some w') = some o'
          ∧ RoundTrip Target.x64 100 .kMessage Heap.empty w'.heap
              (Source.TypedData ⟨⟨kTypedDataUint8ArrayCid, false⟩, 3, [7, 8, 9]⟩) o' :=
  ⟨⟨kExternalTypedDataUint8ArrayCid, 3, by decide, by decide, by decide⟩, by decide,
   C1_roundtrip_up_to_decoder_policy Target.x64 100
     (Source.TypedData ⟨⟨kTypedDataUint8ArrayCid, false⟩, 3, [7, 8, 9]⟩) Heap.empty 1 .kMessage
     false ⟨kExternalTypedDataUint8ArrayCid, 3, by decide, by decide, by decide⟩ (by decide)⟩

/-- C1, counterexamples to the unqualified claim, one for each way the decoded
    object differs from the source:
    * a boxed integer 42 decodes as the small integer 42;
    * a context with zero variables decodes as the null object;
    * a three-byte Uint8 buffer written for a message with threshold 2 decodes
      as an external Uint8 buffer;
    * a map whose first pair is deleted decodes as a map of one pair, with
      `used_data = 2` and `deleted_keys = 0` instead of `4` and `1`;
    * an array written in reference mode decodes as an array of nulls.
    In each case the decoded object is not isomorphic to the source. -/
theorem C1_counterexample :
    (∃ w', (Source.Mint ⟨⟨kMintCid, false⟩, 42⟩).WriteTo 100
          (SnapshotWriter.init Heap.empty) 1 .kMessage false = some w'
      ∧ decodeMessage Target.x64 .kMessage false (some w') = some (Obj.Smi 42)
      ∧ ¬ Isomorphic Heap.empty.memory
            ((Source.Mint ⟨⟨kMintCid, false⟩, 42⟩).toObj Heap.empty)
            w'.heap.memory (Obj.Smi 42))
    ∧ (∃ w', (Source.Context ⟨⟨kContextCid, false⟩, 0, [Object.null]⟩).WriteTo 100
          (SnapshotWriter.init Heap.empty) 1 .kMessage false = some w'
      ∧ decodeMessage Target.x64 .kMessage false (some w') = some Obj.Null
      ∧ ¬ Isomorphic Heap.empty.memory
            ((Source.Context ⟨⟨kContextCid, false⟩, 0, [Object.null]⟩).toObj Heap.empty)
            w'.heap.memory Obj.Null)
    ∧ (∃ w', (Source.TypedData ⟨⟨kTypedDataUint8ArrayCid, false⟩, 3, [7, 8, 9]⟩).WriteTo 2
          (SnapshotWriter.init Heap.empty) 1 .kMessage false = some w'
      ∧ decodeMessage Target.x64 .kMessage false (some w')
          = some (Obj.ExternalTypedData ⟨⟨kExternalTypedDataUint8ArrayCid, false⟩, 3, .block 1⟩)
      ∧ ¬ Isomorphic Heap.empty.memory
            ((Source.TypedData ⟨⟨kTypedDataUint8ArrayCid, false⟩, 3, [7, 8, 9]⟩).toObj
              Heap.empty)
            w'.heap.memory
            (Obj.ExternalTypedData ⟨⟨kExternalTypedDataUint8ArrayCid, false⟩, 3, .block 1⟩))
    ∧ (∃ w' o', (Source.LinkedHashMap
            { tags := ⟨kLinkedHashMapCid, false⟩, type_arguments := Object.null,
              hash_mask := 3, data := .heap 30, data_length := 4,
              data_elements := [.heap 30, .heap 30, .smi 1, .smi 2], used_data := 4,
              deleted_keys := 1 }).WriteTo 100
          (SnapshotWriter.init Heap.empty) 1 .kMessage false = some w'
      ∧ decodeMessage Target.x64 .kMessage false (some w') = some (Obj.LinkedHashMap o')
      ∧ o'.used_data = 2 ∧ o'.deleted_keys = 0
      ∧ o'.data_elements.take 2 = [.smi 1, .smi 2]
      ∧ ¬ Isomorphic Heap.empty.memory
            ((Source.LinkedHashMap
              { tags := ⟨kLinkedHashMapCid, false⟩, type_arguments := Object.null,
                hash_mask := 3, data := .heap 30, data_length := 4,
                data_elements := [.heap 30, .heap 30, .smi 1, .smi 2], used_data := 4,
                deleted_keys := 1 }).toObj Heap.empty)
            w'.heap.memory (Obj.LinkedHashMap o'))
    ∧ (∃ w', (Source.Array ⟨⟨kArrayCid, false⟩, 1, Object.null, [.smi 5]⟩).WriteTo 100
          (SnapshotWriter.init Heap.empty) 1 .kMessage true = some w'
      ∧ decodeMessage Target.x64 .kMessage true (some w')
          = some (Obj.Array ⟨⟨kArrayCid, false⟩, 1, Object.null, [Object.null]⟩)
      ∧ ¬ Isomorphic Heap.empty.memory
            ((Source.Array ⟨⟨kArrayCid, false⟩, 1, Object.null, [.smi 5]⟩).toObj Heap.empty)
            w'.heap.memory
            (Obj.Array ⟨⟨kArrayCid, false⟩, 1, Object.null, [Object.null]⟩)) := by
  refine ⟨⟨_, rfl, rfl, by decide⟩, ⟨_, rfl, rfl, by decide⟩, ⟨_, rfl, rfl, by decide⟩, ?_,
    ⟨_, rfl, rfl, by decide⟩⟩
  obtain ⟨w', hw, hd⟩ := decodeMessage_of_some Target.x64 .kMessage false _ _
    (linkedhashmap_roundtrip Target.x64
      { tags := ⟨kLinkedHashMapCid, false⟩, type_arguments := Object.null,
        hash_mask := 3, data := .heap 30, data_length := 4,
        data_elements := [.heap 30, .heap 30, .smi 1, .smi 2], used_data := 4,
        deleted_keys := 1 } Heap.empty 1 .kMessage false (by decide) (by decide) (by decide)
      (by decide) (by decide))
  refine ⟨w', _, hw, hd, ?_, ?_, ?_, ?_⟩
  · decide
  · rfl
  · decide
  · simp only [Isomorphic, Source.toObj, Obj.view, LinkedHashMap.decoded]
    decide

/-! ## The length field of typed buffers -/

/-- C12. For each of the seven kinds instantiated with
    `MESSAGE_SNAPSHOT_ILLEGAL` (FunctionType, DynamicLibrary, MirrorReference,
    Pointer, ReceivePort, StackTrace, UserTag) and every writer state, `WriteTo`
    returns, sets the write exception of type `kArgument` with the message
    "Illegal argument in isolate message : (object is a <Kind>)", and leaves the
    stream, the registry and the heap as they were. -/
theorem C12_illegal_kinds_set_write_exception (type : String) (w : SnapshotWriter)
    (object_id : Int) (kind : Snapshot.Kind) (m : Bool)
    (ht : type ∈ MESSAGE_SNAPSHOT_ILLEGAL.types) :
    type ∈ ["FunctionType", "DynamicLibrary", "MirrorReference", "Pointer", "ReceivePort",
        "StackTrace", "UserTag"]
      ∧ ∃ w', MESSAGE_SNAPSHOT_ILLEGAL.WriteTo type w object_id kind m = some w'
        ∧ w'.exception_type = .kArgument
        ∧ w'.exception_msg
            = some ("Illegal argument in isolate message : (object is a " ++ type ++ ")")
        ∧ w'.stream = w.stream
        ∧ w'.finalizable_data = w.finalizable_data
        ∧ w'.heap = w.heap := by
  have hlit : "Illegal argument in isolate message" ++ " : (object is a "
      = "Illegal argument in isolate message : (object is a " := by decide
  refine ⟨ht, _, rfl, rfl, ?_, rfl, rfl, rfl⟩
  show some (MESSAGE_SNAPSHOT_ILLEGAL.msg type) = _
  rw [MESSAGE_SNAPSHOT_ILLEGAL.msg, hlit]

/-- C12, a concrete instance: a receive port, on a writer that has already
    written one item. -/
theorem C12_illegal_kinds_set_write_exception_witness :
    "ReceivePort" ∈ ["FunctionType", "DynamicLibrary", "MirrorReference", "Pointer",
        "ReceivePort", "StackTrace", "UserTag"]
      ∧ ∃ w', MESSAGE_SNAPSHOT_ILLEGAL.WriteTo "ReceivePort"
            ((SnapshotWriter.init Heap.empty).Write .int32_t 5) 1 .kMessage false = some w'
        ∧ w'.exception_type = .kArgument
        ∧ w'.exception_msg
            = some ("Illegal argument in isolate message : (object is a " ++ "ReceivePort"
                ++ ")")
        ∧ w'.stream = ((SnapshotWriter.init Heap.empty).Write .int32_t 5).stream
        ∧ w'.finalizable_data = ((SnapshotWriter.init Heap.empty).Write .int32_t 5).finalizable_data
        ∧ w'.heap = ((SnapshotWriter.init Heap.empty).Write .int32_t 5).heap :=
  C12_illegal_kinds_set_write_exception "ReceivePort"
    ((SnapshotWriter.init Heap.empty).Write .int32_t 5) 1 .kMessage false (by decide)

/-- C13, counterexample: `Code` is instantiated with
    `MESSAGE_SNAPSHOT_UNREACHABLE`, whose `WriteTo` is `UNREACHABLE()`: for a
    message snapshot it does not return a writer with a write exception set
    (it does not return at all), and for the persistence kinds it does not
    succeed either. -/
theorem C13_counterexample :
    "Code" ∈ MESSAGE_SNAPSHOT_UNREACHABLE.types
      ∧ MESSAGE_SNAPSHOT_UNREACHABLE.WriteTo (SnapshotWriter.init Heap.empty) 1 .kMessage false
          = none
      ∧ MESSAGE_SNAPSHOT_UNREACHABLE.WriteTo (SnapshotWriter.init Heap.empty) 1 .kFull false
          = none
      ∧ MESSAGE_SNAPSHOT_UNREACHABLE.WriteTo (SnapshotWriter.init Heap.empty) 1 .kFullAOT false
          = none := by
  refine ⟨by decide, rfl, rfl, rfl⟩

/-- C13 (amended). `UntaggedCode::WriteTo`, generated by
    `MESSAGE_SNAPSHOT_UNREACHABLE(Code)`, is `UNREACHABLE()` for every writer
    state, object id, snapshot kind (message or persistence) and mode: it never
    returns, so it neither sets a write exception nor produces output; and
    `Code::ReadFrom`, generated by the same instantiation, never returns
    either. -/
theorem C13_code_encoder_is_unreachable (w : SnapshotWriter) (object_id : Int) (tags : Tags)
    (kind : Snapshot.Kind) (m : Bool) (r : SnapshotReader) :
    "Code" ∈ MESSAGE_SNAPSHOT_UNREACHABLE.types
      ∧ MESSAGE_SNAPSHOT_UNREACHABLE.WriteTo w object_id kind m = none
      ∧ Unreachable.ReadFrom object_id tags kind m r = none := by
  refine ⟨by decide, rfl, rfl⟩

/-! ## Classes and closures -/

/-- C14, counterexample: a writer that may not send arbitrary objects, a class
    whose library is not allowed: `UntaggedClass::WriteTo` sets the write
    exception, and the stream, empty before the call, holds the header, the
    class tag and the tags after it. -/
theorem C14_counterexample :
    (SnapshotWriter.init Heap.empty).can_send_any_object = false
      ∧ WriterEnv.strict.AllowObjectsInDartLibrary (.heap 9) = false
      ∧ ∃ w', UntaggedClass.WriteTo WriterEnv.strict ⟨⟨kClassCid, false⟩, .heap 8, .heap 9⟩
            (SnapshotWriter.init Heap.empty) 1 .kMessage false = some w'
        ∧ w'.exception_type = .kArgument
        ∧ w'.stream = [.InlinedObjectHeader 1, .VMIsolateObject kClassCid,
            .WriteTags ⟨kClassCid, false⟩]
        ∧ w'.stream ≠ (SnapshotWriter.init Heap.empty).stream := by
  refine ⟨rfl, rfl, _, rfl, rfl, rfl, by decide⟩

/-- C14 (amended). `UntaggedClass::WriteTo` always returns and always writes
    the header, the class tag `kClassCid` and the tags first.  When the writer
    may not send arbitrary objects and the class's library is not allowed, it
    then sets the write exception `kArgument` with the message "Illegal
    argument in isolate message : (object is a regular Dart Instance)", and the
    stream is the stream before the call followed by exactly these three
    items.  Otherwise it writes the class id after them and leaves the
    exception state as it was. -/
theorem C14_class_writes_prefix_then_checks (env : WriterEnv) (o : UntaggedClass)
    (w : SnapshotWriter) (object_id : Int) (kind : Snapshot.Kind) (m : Bool) :
    ∃ w', UntaggedClass.WriteTo env o w object_id kind m = some w'
      ∧ w'.finalizable_data = w.finalizable_data ∧ w'.heap = w.heap
      ∧ if w.can_send_any_object = false ∧ env.AllowObjectsInDartLibrary o.library = false
        then w'.exception_type = .kArgument
          ∧ w'.exception_msg
              = some "Illegal argument in isolate message : (object is a regular Dart Instance)"
          ∧ w'.stream = w.stream ++ [.InlinedObjectHeader object_id,
              .VMIsolateObject kClassCid, .WriteTags o.tags]
        else w'.exception_type = w.exception_type
          ∧ w'.exception_msg = w.exception_msg
          ∧ w'.stream = w.stream ++ [.InlinedObjectHeader object_id,
              .VMIsolateObject kClassCid, .WriteTags o.tags, .ClassIdOf o.self] := by
  have hlit : kRegularInstanceMsg
      = "Illegal argument in isolate message : (object is a regular Dart Instance)" := by
    decide
  cases hc : w.can_send_any_object <;> cases ha : env.AllowObjectsInDartLibrary o.library <;>
    simp [UntaggedClass.WriteTo, hc, ha, hlit, SnapshotWriter.WriteInlinedObjectHeader,
      SnapshotWriter.WriteVMIsolateObject, SnapshotWriter.WriteTags,
      SnapshotWriter.WriteClassId, SnapshotWriter.SetWriteException, SnapshotWriter.emit]

/-- C15. For every closure for which `IsSerializableClosure` returns a
    function (a non-null result), `UntaggedClosure::WriteTo` returns and
    appends exactly one static-implicit-closure record carrying the object id,
    that function, the closure's tags and its delayed type arguments, changing
    nothing else of the writer; for every other closure it does not return
    (`UNREACHABLE()`), so no output is produced. -/
theorem C15_closure_transfer_is_conditional (env : WriterEnv) (o : UntaggedClosure)
    (w : SnapshotWriter) (object_id : Int) (kind : Snapshot.Kind) (m : Bool) :
    (env.IsSerializableClosure o.self ≠ Object.null →
        UntaggedClosure.WriteTo env o w object_id kind m
          = some { w with stream := w.stream ++ [.StaticImplicitClosure object_id
              (env.IsSerializableClosure o.self) o.tags o.delayed_type_arguments] })
      ∧ (env.IsSerializableClosure o.self = Object.null →
        UntaggedClosure.WriteTo env o w object_id kind m = none) := by
  constructor
  · intro h
    simp [UntaggedClosure.WriteTo, h, SnapshotWriter.WriteStaticImplicitClosure,
      SnapshotWriter.emit]
  · intro h
    simp [UntaggedClosure.WriteTo, h]

/-- C15, concrete instances: the closure at heap address 20 under an
    environment that takes it for the static implicit closure of the function
    at address 7, and under one that finds it not serializable. -/
theorem C15_closure_transfer_is_conditional_witness :
    UntaggedClosure.WriteTo WriterEnv.permissive ⟨⟨kInstanceCid, false⟩, .heap 20, .heap 21⟩
          (SnapshotWriter.init Heap.empty) 1 .kMessage false
        = some { SnapshotWriter.init Heap.empty with
            stream := (SnapshotWriter.init Heap.empty).stream ++ [.StaticImplicitClosure 1
              (WriterEnv.permissive.IsSerializableClosure (.heap 20)) ⟨kInstanceCid, false⟩
              (.heap 21)] }
      ∧ UntaggedClosure.WriteTo WriterEnv.strict ⟨⟨kInstanceCid, false⟩, .heap 20, .heap 21⟩
          (SnapshotWriter.init Heap.empty) 1 .kMessage false = none :=
  ⟨(C15_closure_transfer_is_conditional WriterEnv.permissive
      ⟨⟨kInstanceCid, false⟩, .heap 20, .heap 21⟩ (SnapshotWriter.init Heap.empty) 1 .kMessage
      false).1 (by decide),
   (C15_closure_transfer_is_conditional WriterEnv.strict
      ⟨⟨kInstanceCid, false⟩, .heap 20, .heap 21⟩ (SnapshotWriter.init Heap.empty) 1 .kMessage
      false).2 (by decide)⟩

/-! ## Binding of the object id before children are read -/

theorem Rd_bind_eq_some {α β : Type} (x : Rd α) (f : α → Rd β) (r : SnapshotReader) (b : β)
    (r' : SnapshotReader) (h : (x >>= f) r = some (b, r')) :
    ∃ a r1, x r = some (a, r1) ∧ f a r1 = some (b, r') := by
  simp only [bind, StateT.bind] at h
  cases hx : x r with
  | none => simp [hx] at h
  | some p =>
    obtain ⟨a, r1⟩ := p
    simp only [hx] at h
    exact ⟨a, r1, rfl, h⟩

theorem Quiet_appends {α : Type} {x : Rd α} (h : Quiet x) : Appends x := by
  intro r a r' hx
  obtain ⟨l, hl, -⟩ := h r a r' hx
  exact ⟨l, hl⟩

theorem Appends_bind {α β : Type} {x : Rd α} {f : α → Rd β} (hx : Appends x)
    (hf : ∀ a, Appends (f a)) : Appends (x >>= f) := by
  intro r b r' h
  obtain ⟨a, r1, h1, h2⟩ := Rd_bind_eq_some x f r b r' h
  obtain ⟨l1, hl1⟩ := hx r a r1 h1
  obtain ⟨l2, hl2⟩ := hf a r1 b r' h2
  exact ⟨l1 ++ l2, by rw [hl2, hl1, List.append_assoc]⟩

theorem Quiet_bind {α β : Type} {x : Rd α} {f : α → Rd β} (hx : Quiet x)
    (hf : ∀ a, Quiet (f a)) : Quiet (x >>= f) := by
  intro r b r' h
  obtain ⟨a, r1, h1, h2⟩ := Rd_bind_eq_some x f r b r' h
  obtain ⟨l1, hl1, hq1⟩ := hx r a r1 h1
  obtain ⟨l2, hl2, hq2⟩ := hf a r1 b r' h2
  refine ⟨l1 ++ l2, by rw [hl2, hl1, List.append_assoc], ?_⟩
  intro e he
  rcases List.mem_append.1 he with h' | h'
  · exact hq1 e h'
  · exact hq2 e h'

theorem BindsBeforeChildren_of_quiet {α β : Type} {object_id : Int} {x : Rd α}
    {f : α → Rd β} (hx : Quiet x) (hf : ∀ a, BindsBeforeChildren object_id (f a)) :
    BindsBeforeChildren object_id (x >>= f) := by
  intro r b r' h
  obtain ⟨a, r1, h1, h2⟩ := Rd_bind_eq_some x f r b r' h
  obtain ⟨l1, hl1, hq1⟩ := hx r a r1 h1
  obtain ⟨pre, st, post, hl2, hq2⟩ := hf a r1 b r' h2
  refine ⟨l1 ++ pre, st, post, by rw [hl2, hl1]; simp, ?_⟩
  intro e he
  rcases List.mem_append.1 he with h' | h'
  · exact hq1 e h'
  · exact hq2 e h'

theorem BindsBeforeChildren_andThen {α β : Type} {object_id : Int} {x : Rd α}
    {f : α → Rd β} (hx : BindsBeforeChildren object_id x) (hf : ∀ a, Appends (f a)) :
    BindsBeforeChildren object_id (x >>= f) := by
  intro r b r' h
  obtain ⟨a, r1, h1, h2⟩ := Rd_bind_eq_some x f r b r' h
  obtain ⟨pre, st, post, hl1, hq1⟩ := hx r a r1 h1
  obtain ⟨l2, hl2⟩ := hf a r1 b r' h2
  exact ⟨pre, st, post ++ l2, by rw [hl2, hl1]; simp, hq1⟩

theorem Quiet_pure {α : Type} (a : α) : Quiet (pure a : Rd α) := by
  intro r b r' h
  simp only [Pure.pure, StateT.pure, Option.some.injEq, Prod.mk.injEq] at h
  obtain ⟨-, rfl⟩ := h
  exact ⟨[], by simp, by simp⟩

theorem Quiet_log (e : ReaderEvent) (he : e.isChildRead = false) :
    Quiet (SnapshotReader.log e) := by
  intro r b r' h
  simp only [SnapshotReader.log, Option.some.injEq, Prod.mk.injEq] at h
  obtain ⟨-, rfl⟩ := h
  exact ⟨[e], rfl, by simpa using he⟩

theorem Quiet_Read (ty : ScalarType) : Quiet (SnapshotReader.Read ty) := by
  intro r b r' h
  simp only [SnapshotReader.Read] at h
  split at h
  · split_ifs at h with ht
    simp only [Option.some.injEq, Prod.mk.injEq] at h
    obtain ⟨-, rfl⟩ := h
    exact ⟨[.Read ty _], rfl, by simp [ReaderEvent.isChildRead]⟩
  · exact absurd h (by simp)

theorem Quiet_UNREACHABLE {α : Type} : Quiet (UNREACHABLE : Rd α) := by
  intro r b r' h
  exact absurd h (by simp [Dart.UNREACHABLE])

theorem Quiet_ite {α : Type} {c : Prop} [Decidable c] {x y : Rd α} (hx : Quiet x)
    (hy : Quiet y) : Quiet (if c then x else y) := by
  split_ifs
  · exact hx
  · exact hy

theorem Quiet_ReadSmiValue : Quiet SnapshotReader.ReadSmiValue := Quiet_Read _

theorem Quiet_ReadDouble : Quiet SnapshotReader.ReadDouble := Quiet_Read _

theorem Quiet_New (cid : ClassId) : Quiet (SnapshotReader.New cid) :=
  Quiet_log _ rfl

theorem Quiet_Canonicalize (object_id : Int) : Quiet (SnapshotReader.Canonicalize object_id) :=
  Quiet_log _ rfl

theorem Quiet_Align (a : Nat) : Quiet (SnapshotReader.Align a) := by
  intro r b r' h
  simp only [SnapshotReader.Align] at h
  split at h
  · split_ifs at h with ht
    simp only [Option.some.injEq, Prod.mk.injEq] at h
    obtain ⟨-, rfl⟩ := h
    exact ⟨[.Align a], rfl, by simp [ReaderEvent.isChildRead]⟩
  · exact absurd h (by simp)

theorem Quiet_ReadN (ty : ScalarType) (n : Nat) : Quiet (SnapshotReader.ReadN ty n) := by
  induction n with
  | zero => exact Quiet_pure _
  | succ n ih =>
    unfold SnapshotReader.ReadN
    exact Quiet_bind (Quiet_Read _) (fun _ => Quiet_bind ih (fun _ => Quiet_pure _))

theorem Quiet_ReadBytes (len : Int) : Quiet (SnapshotReader.ReadBytes len) := by
  unfold SnapshotReader.ReadBytes
  exact Quiet_bind (Quiet_ReadN _ _) (fun _ => Quiet_pure _)

theorem Quiet_GetBackRef (object_id : Int) : Quiet (SnapshotReader.GetBackRef object_id) := by
  intro r b r' h
  simp only [SnapshotReader.GetBackRef, Option.some.injEq, Prod.mk.injEq] at h
  obtain ⟨-, rfl⟩ := h
  exact ⟨[.GetBackRef object_id], rfl, by simp [ReaderEvent.isChildRead]⟩

theorem Quiet_StoreHandle (object_id : Int) (obj : Obj) :
    Quiet (SnapshotReader.StoreHandle object_id obj) := by
  intro r b r' h
  simp only [SnapshotReader.StoreHandle, Option.some.injEq, Prod.mk.injEq] at h
  obtain ⟨-, rfl⟩ := h
  exact ⟨[], by simp, by simp⟩

theorem Quiet_Take : Quiet SnapshotReader.Take := by
  intro r b r' h
  simp only [SnapshotReader.Take] at h
  split at h
  · simp only [Option.some.injEq, Prod.mk.injEq] at h
    obtain ⟨-, rfl⟩ := h
    exact ⟨[.Take], rfl, by simp [ReaderEvent.isChildRead]⟩
  · exact absurd h (by simp)

theorem Quiet_EnqueueTypePostprocessing (object_id : Int) :
    Quiet (SnapshotReader.EnqueueTypePostprocessing object_id) := by
  intro r b r' h
  simp only [SnapshotReader.EnqueueTypePostprocessing, Option.some.injEq, Prod.mk.injEq] at h
  obtain ⟨-, rfl⟩ := h
  exact ⟨[.EnqueueTypePostprocessing object_id], rfl, by simp [ReaderEvent.isChildRead]⟩

theorem Quiet_EnqueueRehashingOfMap (object_id : Int) :
    Quiet (SnapshotReader.EnqueueRehashingOfMap object_id) := by
  intro r b r' h
  simp only [SnapshotReader.EnqueueRehashingOfMap, Option.some.injEq, Prod.mk.injEq] at h
  obtain ⟨-, rfl⟩ := h
  exact ⟨[.EnqueueRehashingOfMap object_id], rfl, by simp [ReaderEvent.isChildRead]⟩

theorem Quiet_freshAddr : Quiet SnapshotReader.freshAddr := by
  intro r b r' h
  simp only [SnapshotReader.freshAddr, Option.some.injEq, Prod.mk.injEq] at h
  obtain ⟨-, rfl⟩ := h
  exact ⟨[], by simp, by simp⟩

theorem Quiet_fillInStub (object_id : Int) :
    Quiet (FillInTypeTestingStub object_id) := by
  unfold Dart.FillInTypeTestingStub
  exact Quiet_bind (Quiet_log _ rfl) (fun _ => Quiet_log _ rfl)

theorem Quiet_Mint_New (v : Int) : Quiet (Mint.New v) := by
  unfold Mint.New
  exact Quiet_bind (Quiet_log _ rfl) (fun _ => Quiet_pure _)

theorem Quiet_Mint_NewCanonical (v : Int) : Quiet (Mint.NewCanonical v) := by
  unfold Mint.NewCanonical
  exact Quiet_bind (Quiet_log _ rfl) (fun _ => Quiet_pure _)

theorem Quiet_Double_New (v : Int) : Quiet (Double.New v) := by
  unfold Double.New
  exact Quiet_bind (Quiet_log _ rfl) (fun _ => Quiet_pure _)

theorem Quiet_Double_NewCanonical (v : Int) : Quiet (Double.NewCanonical v) := by
  unfold Double.NewCanonical
  exact Quiet_bind (Quiet_log _ rfl) (fun _ => Quiet_pure _)

theorem Quiet_Array_New (cid : ClassId) (len : Int) : Quiet (Array.New cid len) := by
  unfold Array.New
  exact Quiet_bind (Quiet_New _) (fun _ => Quiet_pure _)

theorem Quiet_String_ReadFromImpl (cid : ClassId) (ty : ScalarType) (len : Int) (tags : Tags)
    (kind : Snapshot.Kind) : Quiet (String.ReadFromImpl cid ty len tags kind) := by
  unfold String.ReadFromImpl
  refine Quiet_ite ?_ ?_
  · exact Quiet_bind (Quiet_ReadN _ _) (fun _ => Quiet_bind (Quiet_log _ rfl)
      (fun _ => Quiet_pure _))
  · refine Quiet_bind (Quiet_New _) (fun _ => Quiet_bind (Quiet_log _ rfl) (fun _ => ?_))
    refine Quiet_ite (Quiet_pure _) ?_
    exact Quiet_bind (Quiet_log _ rfl) (fun _ => Quiet_bind (Quiet_ReadN _ _)
      (fun _ => Quiet_pure _))

theorem Appends_ReadObjectImpl (m : Bool) : Appends (SnapshotReader.ReadObjectImpl m) := by
  intro r b r' h
  simp only [SnapshotReader.ReadObjectImpl] at h
  split at h
  · simp only [Option.some.injEq, Prod.mk.injEq] at h
    obtain ⟨-, rfl⟩ := h
    exact ⟨_, rfl⟩
  · simp only [Option.some.injEq, Prod.mk.injEq] at h
    obtain ⟨-, rfl⟩ := h
    exact ⟨_, rfl⟩
  · exact absurd h (by simp)

theorem Appends_ReadObjects (m : Bool) (n : Nat) : Appends (SnapshotReader.ReadObjects m n) := by
  induction n with
  | zero => exact Quiet_appends (Quiet_pure _)
  | succ n ih =>
    unfold SnapshotReader.ReadObjects
    exact Appends_bind (Appends_ReadObjectImpl _)
      (fun _ => Appends_bind ih (fun _ => Quiet_appends (Quiet_pure _)))

theorem Appends_READ_OBJECT_FIELDS (n : Int) (m : Bool) : Appends (READ_OBJECT_FIELDS n m) :=
  Appends_ReadObjects _ _

theorem Appends_loop (m : Bool) (n i : Nat) (data : List ObjectPtr) :
    Appends (LinkedHashMap.ReadFrom.loop m n i data) := by
  induction n generalizing i data with
  | zero => exact Quiet_appends (Quiet_pure _)
  | succ n ih =>
    unfold LinkedHashMap.ReadFrom.loop
    exact Appends_bind (Appends_ReadObjectImpl _) (fun _ => ih _ _)

theorem Appends_ArrayReadFrom (object_id : Int) (result : UntaggedArray) (len : Int)
    (tags : Tags) : Appends (SnapshotReader.ArrayReadFrom object_id result len tags) := by
  unfold SnapshotReader.ArrayReadFrom
  exact Appends_bind (Appends_ReadObjectImpl _)
    (fun _ => Appends_bind (Appends_ReadObjects _ _) (fun _ => Quiet_appends (Quiet_pure _)))

theorem BindsBeforeChildren_AddBackRef (object_id : Int) (obj : Obj) (st : DeserializeState) :
    BindsBeforeChildren object_id (SnapshotReader.AddBackRef object_id obj st) := by
  intro r b r' h
  simp only [SnapshotReader.AddBackRef, Option.some.injEq, Prod.mk.injEq] at h
  obtain ⟨-, rfl⟩ := h
  exact ⟨[], st, [], by simp, by simp⟩

theorem BindsBeforeChildren_UNREACHABLE {α : Type} (object_id : Int) :
    BindsBeforeChildren object_id (UNREACHABLE : Rd α) := by
  intro r b r' h
  exact absurd h (by simp [Dart.UNREACHABLE])


theorem SnapshotReader.Read_backrefs (ty : ScalarType) (r : SnapshotReader) (v : Int)
    (r' : SnapshotReader) (h : SnapshotReader.Read ty r = some (v, r')) :
    r'.backrefs = r.backrefs := by
  simp only [SnapshotReader.Read] at h
  split at h
  · split_ifs at h with ht
    simp only [Option.some.injEq, Prod.mk.injEq] at h
    obtain ⟨-, rfl⟩ := h
    rfl
  · exact absurd h (by simp)

/-- The allocation step of the array decoders binds the id, unless the array
    is decoded inline and its id is already bound. -/
theorem Array.ReadFrom.prepare_binds (cid : ClassId) (object_id : Int) (m : Bool) (len : Int)
    (r : SnapshotReader) (a : UntaggedArray) (r' : SnapshotReader)
    (h : Array.ReadFrom.prepare cid object_id m len r = some (a, r')) :
    (∃ pre st post, r'.events = r.events ++ pre ++ ReaderEvent.AddBackRef object_id st :: post
        ∧ ∀ e ∈ pre, e.isChildRead = false)
      ∨ (m = false ∧ (r.lookup object_id).isSome = true) := by
  cases m with
  | true =>
    left
    simp only [Array.ReadFrom.prepare, Array.New, SnapshotReader.New, SnapshotReader.log,
      SnapshotReader.AddBackRef, bind, StateT.bind, pure, StateT.pure, Bool.not_true,
      Bool.false_eq_true, if_false, Option.some.injEq, Prod.mk.injEq] at h
    obtain ⟨-, rfl⟩ := h
    exact ⟨[.New cid], .kIsNotDeserialized, [], by simp, by simp [ReaderEvent.isChildRead]⟩
  | false =>
    cases hl : r.lookup object_id with
    | none =>
      left
      simp only [Array.ReadFrom.prepare, Array.New, SnapshotReader.New, SnapshotReader.log,
        SnapshotReader.AddBackRef, SnapshotReader.GetBackRef, hl, bind, StateT.bind, pure,
        StateT.pure, Bool.not_false, if_true, Option.some.injEq, Prod.mk.injEq] at h
      obtain ⟨-, rfl⟩ := h
      exact ⟨[.GetBackRef object_id, .New cid], .kIsDeserialized, [], by simp,
        by simp [ReaderEvent.isChildRead]⟩
    | some b =>
      right
      exact ⟨rfl, rfl⟩

/-- `Array::ReadFrom` and `ImmutableArray::ReadFrom`: the part after the
    allocation step only appends to the log. -/
theorem Array.ReadFrom_binds (object_id : Int) (tags : Tags) (kind : Snapshot.Kind) (m : Bool)
    (r : SnapshotReader) (o : Obj) (r' : SnapshotReader)
    (h : Array.ReadFrom object_id tags kind m r = some (o, r')
      ∨ ImmutableArray.ReadFrom object_id tags kind m r = some (o, r')) :
    (∃ pre st post, r'.events = r.events ++ pre ++ ReaderEvent.AddBackRef object_id st :: post
        ∧ ∀ e ∈ pre, e.isChildRead = false)
      ∨ (m = false ∧ (r.lookup object_id).isSome = true) := by
  have key : ∀ (cid : ClassId) (f : Int → UntaggedArray → Rd Obj),
      (∀ len a, Appends (f len a)) →
      (SnapshotReader.ReadSmiValue >>= fun len =>
        Array.ReadFrom.prepare cid object_id m len >>= fun a => f len a) r = some (o, r') →
      (∃ pre st post, r'.events = r.events ++ pre ++ ReaderEvent.AddBackRef object_id st :: post
          ∧ ∀ e ∈ pre, e.isChildRead = false)
        ∨ (m = false ∧ (r.lookup object_id).isSome = true) := by
    intro cid f hf h
    obtain ⟨len, r1, h1, h2⟩ := Rd_bind_eq_some _ _ r o r' h
    obtain ⟨a, r2, h3, h4⟩ := Rd_bind_eq_some _ _ r1 o r' h2
    obtain ⟨l1, hl1, hq1⟩ := Quiet_ReadSmiValue r len r1 h1
    have hb := SnapshotReader.Read_backrefs _ r len r1 h1
    obtain ⟨l3, hl3⟩ := hf len a r2 o r' h4
    rcases Array.ReadFrom.prepare_binds cid object_id m len r1 a r2 h3 with
      ⟨pre, st, post, hl2, hq2⟩ | ⟨hm, hbound⟩
    · left
      refine ⟨l1 ++ pre, st, post ++ l3, by rw [hl3, hl2, hl1]; simp, ?_⟩
      intro e he
      rcases List.mem_append.1 he with h' | h'
      · exact hq1 e h'
      · exact hq2 e h'
    · right
      refine ⟨hm, ?_⟩
      simpa [SnapshotReader.lookup, hb] using hbound
  rcases h with h | h
  · refine key kArrayCid (fun len array =>
      if (!m) = true then
        SnapshotReader.ArrayReadFrom object_id array len tags >>= fun array =>
          SnapshotReader.StoreHandle object_id (.Array array) >>= fun _ => pure (.Array array)
      else pure (.Array array)) ?_ h
    intro len a
    split
    · exact Appends_bind (Appends_ArrayReadFrom _ _ _ _)
        (fun _ => Quiet_appends (Quiet_bind (Quiet_StoreHandle _ _) (fun _ => Quiet_pure _)))
    · exact Quiet_appends (Quiet_pure _)
  · refine key kImmutableArrayCid (fun len array =>
      if (!m) = true then
        SnapshotReader.ArrayReadFrom object_id array len tags >>= fun array =>
          if UntaggedObject.IsCanonical tags = true then
            SnapshotReader.Canonicalize object_id >>= fun _ =>
              SnapshotReader.StoreHandle object_id
                (.Array { array with tags := { array.tags with canonical := true } })
                >>= fun _ =>
                  pure (.Array { array with tags := { array.tags with canonical := true } })
          else
            SnapshotReader.StoreHandle object_id (.Array array) >>= fun _ =>
              pure (.Array array)
      else pure (.Array array)) ?_ h
    intro len a
    split
    · refine Appends_bind (Appends_ArrayReadFrom _ _ _ _) (fun _ => ?_)
      split
      · exact Quiet_appends (Quiet_bind (Quiet_Canonicalize _) (fun _ =>
          Quiet_bind (Quiet_StoreHandle _ _) (fun _ => Quiet_pure _)))
      · exact Quiet_appends (Quiet_bind (Quiet_StoreHandle _ _) (fun _ => Quiet_pure _))
    · exact Quiet_appends (Quiet_pure _)

/-- The three typed-buffer decoders bind the object id before they read any
    child. -/
theorem typed_decoders_bind (t : Target) (object_id : Int) (tags : Tags)
    (kind : Snapshot.Kind) (m : Bool) :
    BindsBeforeChildren object_id (TypedData.ReadFrom t object_id tags kind m)
      ∧ BindsBeforeChildren object_id (ExternalTypedData.ReadFrom t object_id tags kind m)
      ∧ BindsBeforeChildren object_id (TypedDataView.ReadFrom object_id tags kind m) := by
  refine ⟨?_, ?_, ?_⟩ <;>
  (change BindsBeforeChildren _ (_ >>= _)
   repeat' first
     | exact BindsBeforeChildren_UNREACHABLE _
     | refine BindsBeforeChildren_andThen (BindsBeforeChildren_AddBackRef _ _ _) (fun _ => ?_)
     | refine BindsBeforeChildren_of_quiet ?_ (fun _ => ?_)
     | exact Quiet_pure _
     | exact Quiet_Read _
     | exact Quiet_ReadSmiValue
     | exact Quiet_ReadDouble
     | exact Quiet_New _
     | exact Quiet_Canonicalize _
     | exact Quiet_Align _
     | exact Quiet_ReadBytes _
     | exact Quiet_ReadN _ _
     | exact Quiet_GetBackRef _
     | exact Quiet_StoreHandle _ _
     | exact Quiet_Take
     | exact Quiet_EnqueueTypePostprocessing _
     | exact Quiet_EnqueueRehashingOfMap _
     | exact Quiet_freshAddr
     | exact Quiet_fillInStub _
     | exact Quiet_Mint_New _
     | exact Quiet_Mint_NewCanonical _
     | exact Quiet_Double_New _
     | exact Quiet_Double_NewCanonical _
     | exact Quiet_Array_New _ _
     | exact Quiet_String_ReadFromImpl _ _ _ _ _
     | exact Quiet_log _ rfl
     | refine Quiet_bind ?_ (fun _ => ?_)
     | exact Appends_ReadObjectImpl _
     | exact Appends_ReadObjects _ _
     | exact Appends_READ_OBJECT_FIELDS _ _
     | exact Appends_loop _ _ _ _
     | exact Appends_ArrayReadFrom _ _ _ _
     | refine Appends_bind ?_ (fun _ => ?_)
     | split
     | dsimp only
     | refine Quiet_appends ?_)

set_option maxHeartbeats 2000000 in
/-- Every decoder a kind tag selects, other than `Class::ReadFrom` (which
    delegates to `ReadClassId`) and the two array decoders (which may reuse an
    existing binding), binds the object id before it reads any child. -/
theorem ReadFromOf_binds (t : Target) (cid : ClassId) (object_id : Int) (tags : Tags)
    (kind : Snapshot.Kind) (m : Bool) (h1 : cid ≠ kClassCid) (h2 : cid ≠ kArrayCid)
    (h3 : cid ≠ kImmutableArrayCid) :
    BindsBeforeChildren object_id (ReadFromOf t cid object_id tags kind m) := by
  by_cases hT : IsTypedDataClassId cid = true
  · rw [ReadFromOf_typedData t cid hT]
    exact (typed_decoders_bind t object_id tags kind m).1
  by_cases hE : IsExternalTypedDataClassId cid = true
  · rw [ReadFromOf_externalTypedData t cid hE]
    exact (typed_decoders_bind t object_id tags kind m).2.1
  by_cases hV : IsTypedDataViewClassId cid = true
  · rw [ReadFromOf_view t cid hV]
    exact (typed_decoders_bind t object_id tags kind m).2.2
  cases cid <;> first
    | contradiction
    | exact absurd rfl hT
    | exact absurd rfl hE
    | exact absurd rfl hV
    | exact BindsBeforeChildren_UNREACHABLE _
    | (change BindsBeforeChildren _ (_ >>= _)
       repeat' first
         | exact BindsBeforeChildren_UNREACHABLE _
         | refine BindsBeforeChildren_andThen (BindsBeforeChildren_AddBackRef _ _ _) (fun _ => ?_)
         | refine BindsBeforeChildren_of_quiet ?_ (fun _ => ?_)
         | exact Quiet_pure _
         | exact Quiet_Read _
         | exact Quiet_ReadSmiValue
         | exact Quiet_ReadDouble
         | exact Quiet_New _
         | exact Quiet_Canonicalize _
         | exact Quiet_Align _
         | exact Quiet_ReadBytes _
         | exact Quiet_ReadN _ _
         | exact Quiet_GetBackRef _
         | exact Quiet_StoreHandle _ _
         | exact Quiet_Take
         | exact Quiet_EnqueueTypePostprocessing _
         | exact Quiet_EnqueueRehashingOfMap _
         | exact Quiet_freshAddr
         | exact Quiet_fillInStub _
         | exact Quiet_Mint_New _
         | exact Quiet_Mint_NewCanonical _
         | exact Quiet_Double_New _
         | exact Quiet_Double_NewCanonical _
         | exact Quiet_Array_New _ _
         | exact Quiet_String_ReadFromImpl _ _ _ _ _
         | exact Quiet_log _ rfl
         | refine Quiet_bind ?_ (fun _ => ?_)
         | exact Appends_ReadObjectImpl _
         | exact Appends_ReadObjects _ _
         | exact Appends_READ_OBJECT_FIELDS _ _
         | exact Appends_loop _ _ _ _
         | exact Appends_ArrayReadFrom _ _ _ _
         | refine Appends_bind ?_ (fun _ => ?_)
         | split
         | dsimp only
         | refine Quiet_appends ?_)

/-- C17, counterexamples:
    * `TypeArguments::ReadFrom` on the stream of a one-element vector reads the
      scalar field `length` first, then allocates, and only then binds the
      object id; the child is read after the binding;
    * `Class::ReadFrom` returns without calling `AddBackRef`;
    * `Array::ReadFrom`, decoding inline an array whose id is already bound,
      looks the id up, reads the children and returns without calling
      `AddBackRef`. -/
theorem C17_counterexample :
    (∃ o r', TypeArguments.ReadFrom 1 ⟨kTypeArgumentsCid, false⟩ .kMessage false
          (SnapshotReader.init [.Write .ObjectPtr 1, .ObjectImpl (.heap 5) false] .empty)
        = some (o, r')
      ∧ r'.events = [.Read .ObjectPtr 1, .New kTypeArgumentsCid,
          .AddBackRef 1 .kIsDeserialized, .ReadObjectImpl false (.heap 5)])
    ∧ (∃ o r', Class.ReadFrom 1 ⟨kClassCid, false⟩ .kMessage false
          (SnapshotReader.init [.ClassIdOf (.heap 8)] .empty) = some (o, r')
      ∧ r'.events = [.ReadClassId (.heap 8)])
    ∧ (∃ o r', Array.ReadFrom 1 ⟨kArrayCid, false⟩ .kMessage false
          { SnapshotReader.init [.Write .ObjectPtr 1, .ObjectImpl Object.null false,
              .ObjectImpl (.smi 5) true] .empty with
            backrefs := [⟨1, .Array ⟨⟨kArrayCid, false⟩, 1, Object.null, [Object.null]⟩,
              .kIsNotDeserialized⟩] } = some (o, r')
      ∧ r'.events = [.Read .ObjectPtr 1, .GetBackRef 1,
          .ReadObjectImpl false Object.null, .ReadObjectImpl true (.smi 5)]) :=
  ⟨⟨_, _, rfl, rfl⟩, ⟨_, _, rfl, rfl⟩, ⟨_, _, rfl, rfl⟩⟩

/-- C17 (amended). Whenever a decoder of this file other than `Class::ReadFrom`
    (which delegates the binding to `ReadClassId`) returns, it has bound the
    object id with `AddBackRef` before reading any child object: the events it
    appended are `pre`, in which no child is read (only scalars such as a
    length, a value or a flag, the look-up of the id, and the allocation), then
    the binding, then the rest.  The one exception is an array decoded inline
    whose id was already bound (by an earlier read of the array by reference):
    the decoder fills the bound array and binds nothing. -/
theorem C17_id_bound_before_children (t : Target) (cid : ClassId) (object_id : Int)
    (tags : Tags) (kind : Snapshot.Kind) (m : Bool) (r : SnapshotReader) (o : Obj)
    (r' : SnapshotReader) (hc : cid ≠ kClassCid)
    (h : ReadFromOf t cid object_id tags kind m r = some (o, r')) :
    (∃ pre st post,
        r'.events = r.events ++ pre ++ ReaderEvent.AddBackRef object_id st :: post
          ∧ ∀ e ∈ pre, e.isChildRead = false)
      ∨ ((cid = kArrayCid ∨ cid = kImmutableArrayCid) ∧ m = false
          ∧ (r.lookup object_id).isSome = true) := by
  by_cases h2 : cid = kArrayCid
  · subst h2
    rcases Array.ReadFrom_binds object_id tags kind m r o r' (Or.inl h) with hb | ⟨hm, hl⟩
    · exact Or.inl hb
    · exact Or.inr ⟨Or.inl rfl, hm, hl⟩
  by_cases h3 : cid = kImmutableArrayCid
  · subst h3
    rcases Array.ReadFrom_binds object_id tags kind m r o r' (Or.inr h) with hb | ⟨hm, hl⟩
    · exact Or.inl hb
    · exact Or.inr ⟨Or.inr rfl, hm, hl⟩
  exact Or.inl (ReadFromOf_binds t cid object_id tags kind m hc h2 h3 r o r' h)

/-- C17, a concrete instance: the decoder the tag `kLinkedHashMapCid` selects,
    on the stream of an empty map. -/
theorem C17_id_bound_before_children_witness :
    kLinkedHashMapCid ≠ kClassCid
      ∧ ∃ o r', ReadFromOf Target.x64 kLinkedHashMapCid 1 ⟨kLinkedHashMapCid, false⟩ .kMessage
            false (SnapshotReader.init [.ObjectImpl Object.null false, .Write .ObjectPtr 0]
              .empty) = some (o, r')
        ∧ ((∃ pre st post,
              r'.events = (SnapshotReader.init [.ObjectImpl Object.null false,
                  .Write .ObjectPtr 0] .empty).events ++ pre
                ++ ReaderEvent.AddBackRef 1 st :: post
              ∧ ∀ e ∈ pre, e.isChildRead = false)
          ∨ ((kLinkedHashMapCid = kArrayCid ∨ kLinkedHashMapCid = kImmutableArrayCid)
              ∧ false = false
              ∧ ((SnapshotReader.init [.ObjectImpl Object.null false, .Write .ObjectPtr 0]
                  .empty).lookup 1).isSome = true)) :=
  ⟨by decide, _, _, rfl,
    C17_id_bound_before_children Target.x64 kLinkedHashMapCid 1 ⟨kLinkedHashMapCid, false⟩
      .kMessage false _ _ _ (by decide) rfl⟩

/-! ## Kind tags written and the decoders they select -/

/-- A stub selects no decoder. -/
theorem not_HasDecoder_of_unreachable (t : Target) (cid : ClassId)
    (h : ReadFromOf t cid = Unreachable.ReadFrom) : ¬ HasDecoder t cid := by
  rintro ⟨object_id, tags, kind, m, r, hr⟩
  rw [h] at hr
  simp [Unreachable.ReadFrom, UNREACHABLE] at hr

/-- The loop of `n` child reads returns on a stream that starts with `n`
    children. -/
theorem SnapshotReader.ReadObjects_replicate (n : Nat) (m : Bool) (rest : List Item)
    (r : SnapshotReader)
    (h : r.stream = List.replicate n (Item.ObjectImpl Object.null false) ++ rest) :
    SnapshotReader.ReadObjects m n r
      = some (List.replicate n Object.null,
          { r with
            stream := rest,
            events := r.events
              ++ (List.replicate n Object.null).map (fun p => ReaderEvent.ReadObjectImpl m p) }) := by
  have h' := SnapshotReader.ReadObjects_map (List.replicate n Object.null) false m rest r
    (by simpa using h)
  simpa using h'

set_option maxHeartbeats 1000000 in
/-- Every decoded kind tag selects a decoder that returns on the sample stream
    of the tag. -/
theorem sampleStream_decodes (t : Target) (cid : ClassId) (h : IsDecodedTag cid = true) :
    (ReadFromOf t cid 1 ⟨cid, false⟩ .kMessage false
      (SnapshotReader.init (sampleStream t cid) sampleRegistry)).isSome = true := by
  cases cid <;> first
    | exact absurd h (by decide)
    | rfl
    | (simp only [ReadFromOf, sampleStream, Type.ReadFrom, TypeRef.ReadFrom,
        TypeParameter.ReadFrom, TypeParameters.ReadFrom, ApiError.ReadFrom,
        LanguageError.ReadFrom, UnhandledException.ReadFrom, WeakProperty.ReadFrom,
        READ_OBJECT_FIELDS, SnapshotReader.Read,
        SnapshotReader.New, SnapshotReader.log, SnapshotReader.AddBackRef,
        SnapshotReader.EnqueueTypePostprocessing, FillInTypeTestingStub,
        SnapshotReader.StoreHandle, bind, StateT.bind, pure, StateT.pure, Option.some_bind,
        SnapshotReader.init, List.cons_append, List.nil_append, List.append_assoc, if_true]
       rw [SnapshotReader.ReadObjects_replicate _ _ _ _ rfl]
       simp [SnapshotReader.ReadObjectImpl, UntaggedObject.IsCanonical,
         SnapshotReader.Canonicalize, SnapshotReader.log, SnapshotReader.StoreHandle,
         bind, StateT.bind, pure, StateT.pure])
    | (simp [ReadFromOf, sampleStream, sampleRegistry, Mint.ReadFrom, LinkedHashMap.ReadFrom,
        TypedData.ReadFrom, ExternalTypedData.ReadFrom, IsTypedDataClassId,
        IsExternalTypedDataClassId, IsTypedDataViewClassId, UntaggedTypedData.switchCid,
        UntaggedExternalTypedData.switchCid, Mint.New, Mint.NewCanonical,
        UntaggedObject.IsCanonical, UntaggedObject.ClassIdTag.decode,
        LinkedHashMap.ReadFrom.loop, SnapshotReader.freshAddr,
        SnapshotReader.EnqueueRehashingOfMap, SnapshotReader.ReadSmiValue,
        SnapshotReader.ReadObjectImpl, SnapshotReader.Align, SnapshotReader.ReadBytes,
        SnapshotReader.ReadN, SnapshotReader.Take, MessageFinalizableData.Take,
        SnapshotReader.Read, Zone.kAlignment, toIntptr, kAsInlinedObject,
        SnapshotReader.New, SnapshotReader.log, SnapshotReader.AddBackRef,
        SnapshotReader.StoreHandle, bind, StateT.bind, pure, StateT.pure,
        SnapshotReader.init]
       try (split <;> simp [SnapshotReader.AddBackRef, SnapshotReader.log, bind, StateT.bind,
         pure, StateT.pure]))

/-- The element loop of `UntaggedTypeArguments::WriteTo` appends one item for
    each element. -/
theorem UntaggedTypeArguments.foldl_writeElement (env : WriterEnv) (m : Bool)
    (xs : List ObjectPtr) (w : SnapshotWriter) :
    xs.foldl (UntaggedTypeArguments.writeElement env m) w
      = { w with stream := w.stream
            ++ xs.map (UntaggedTypeArguments.elementItem env m w.can_send_any_object) } := by
  induction xs generalizing w with
  | nil => simp
  | cons x xs ih =>
    rw [List.foldl_cons, ih]
    simp only [UntaggedTypeArguments.writeElement, UntaggedTypeArguments.elementItem,
      SnapshotWriter.WriteVMIsolateObject, SnapshotWriter.WriteObjectImpl,
      SnapshotWriter.emit, List.map_cons]
    cases w.can_send_any_object
    · simp only [Bool.not_false, if_true]
      split <;> simp_all
    · simp

theorem kindTagOf_indexed (s : List Item) (object_id : Int) (cid : ClassId)
    (rest : List Item) :
    kindTagOf s (s ++ .InlinedObjectHeader object_id :: .IndexedObject cid :: rest)
      = some cid := by
  simp [kindTagOf]

theorem kindTagOf_vmIsolate (s : List Item) (object_id : Int) (cid : ClassId)
    (rest : List Item) :
    kindTagOf s (s ++ .InlinedObjectHeader object_id :: .VMIsolateObject cid :: rest)
      = some cid := by
  simp [kindTagOf]

theorem kindTagOf_self (s : List Item) : kindTagOf s s = none := by
  simp [kindTagOf]

theorem kindTagOf_closure (s : List Item) (object_id : Int) (func : ObjectPtr) (tags : Tags)
    (d : ObjectPtr) :
    kindTagOf s (s ++ [.StaticImplicitClosure object_id func tags d]) = none := by
  simp [kindTagOf]

set_option maxHeartbeats 2000000 in
/-- The kind tag an encoder of this file writes after the object header is a
    decoded kind tag. -/
theorem emitted_tag_is_decoded (env : WriterEnv) (T : Nat) (e : Encoded)
    (w : SnapshotWriter) (object_id : Int) (kind : Snapshot.Kind) (m : Bool)
    (w' : SnapshotWriter) (cid : ClassId) (hok : e.HeaderOk)
    (h : e.WriteTo env T w object_id kind m = some w')
    (htag : kindTagOf w.stream w'.stream = some cid) : IsDecodedTag cid = true := by
  have hI : ∀ (s : List Item) (id : Int) (c c' : ClassId) (rest : List Item),
      kindTagOf s (s ++ .InlinedObjectHeader id :: .IndexedObject c :: rest) = some c' →
      c = c' := by
    intro s id c c' rest hk
    rw [kindTagOf_indexed] at hk
    exact Option.some.inj hk
  have hV : ∀ (s : List Item) (id : Int) (c c' : ClassId) (rest : List Item),
      kindTagOf s (s ++ .InlinedObjectHeader id :: .VMIsolateObject c :: rest) = some c' →
      c = c' := by
    intro s id c c' rest hk
    rw [kindTagOf_vmIsolate] at hk
    exact Option.some.inj hk
  cases e with
  | listed s =>
    cases s with
    | TypedData o =>
      simp only [Encoded.WriteTo, Source.WriteTo] at h
      cases hs : UntaggedTypedData.switchCid o.tags.class_id o.length_ with
      | none => simp [UntaggedTypedData.WriteTo, hs] at h
      | some p =>
        obtain ⟨ext, bytes⟩ := p
        obtain ⟨-, hext, hint⟩ := UntaggedTypedData.switchCid_external _ _ _ _ hs
        by_cases hx : kind = .kMessage ∧ toUint64 bytes ≥ T
        · obtain ⟨hk, hT⟩ := hx
          subst hk
          rw [UntaggedTypedData.WriteTo_external T o w object_id m ext bytes hs hT] at h
          obtain rfl := Option.some.inj h
          have := hI _ _ _ _ _ htag
          subst this
          simp [IsDecodedTag, hext]
        · rw [UntaggedTypedData.WriteTo_inline T o w object_id kind m ext bytes hs hx] at h
          obtain rfl := Option.some.inj h
          simp only [UntaggedTypedData.inlineResult, List.append_assoc, List.cons_append,
            List.nil_append] at htag
          have := hI _ _ _ _ _ htag
          subst this
          simp [IsDecodedTag, hint]
    | ExternalTypedData o =>
      simp only [Encoded.WriteTo, Source.WriteTo] at h
      cases hs : UntaggedExternalTypedData.switchCid o.tags.class_id o.length_ with
      | none => simp [UntaggedExternalTypedData.WriteTo, hs] at h
      | some bytes =>
        rw [UntaggedExternalTypedData.WriteTo_external_eq o w object_id kind m bytes hs] at h
        obtain rfl := Option.some.inj h
        have := hI _ _ _ _ _ htag
        subst this
        have hext : IsExternalTypedDataClassId o.tags.class_id = true := by
          have hs' := hs
          cases hc : o.tags.class_id <;> rw [hc] at hs' <;>
            simp [UntaggedExternalTypedData.switchCid] at hs' <;> decide
        simp [IsDecodedTag, hext]
    | TransferableTypedData o =>
      simp only [Encoded.WriteTo, Source.WriteTo, UntaggedTransferableTypedData.WriteTo] at h
      cases hp : w.heap.GetPeer o.self with
      | none => simp [hp] at h
      | some tpeer =>
        simp only [hp] at h
        by_cases hd : tpeer.data_ = .nullptr
        · simp only [hd, if_true, Option.some.injEq] at h
          subst h
          simp [SnapshotWriter.SetWriteException, kindTagOf_self] at htag
        · simp only [hd, if_false, Option.some.injEq] at h
          subst h
          simp only [SnapshotWriter.Put, SnapshotWriter.Write, SnapshotWriter.WriteTags,
            SnapshotWriter.WriteIndexedObject, SnapshotWriter.WriteInlinedObjectHeader,
            SnapshotWriter.emit, List.append_assoc, List.cons_append, List.nil_append] at htag
          have := hI _ _ _ _ _ htag
          subst this
          rw [show o.tags.class_id = kTransferableTypedDataCid from hok]
          decide
    | TypedDataView o =>
      simp only [Encoded.WriteTo, Source.WriteTo, UntaggedTypedDataView.WriteTo,
        Option.some.injEq] at h
      subst h
      simp only [SnapshotWriter.WriteObjectImpl, SnapshotWriter.Write, SnapshotWriter.WriteTags,
        SnapshotWriter.WriteIndexedObject, SnapshotWriter.WriteInlinedObjectHeader,
        SnapshotWriter.emit, List.append_assoc, List.cons_append, List.nil_append] at htag
      have := hI _ _ _ _ _ htag
      subst this
      have hv : IsTypedDataViewClassId o.tags.class_id = true := hok
      simp [IsDecodedTag, hv]
    | OneByteString o | TwoByteString o =>
      simp only [Encoded.WriteTo, Source.WriteTo, UntaggedOneByteString.WriteTo,
        UntaggedTwoByteString.WriteTo, StringWriteTo, SnapshotWriter.foldl_Write_eq] at h
      (try split_ifs at h) <;>
        (obtain rfl := Option.some.inj h
         simp only [SnapshotWriter.WriteBytes, SnapshotWriter.foldl_Write_eq,
           SnapshotWriter.Write, SnapshotWriter.WriteTags,
           SnapshotWriter.WriteIndexedObject, SnapshotWriter.WriteInlinedObjectHeader,
           SnapshotWriter.emit, List.append_assoc, List.cons_append, List.nil_append] at htag
         have := hI _ _ _ _ _ htag
         subst this
         decide)
    | Mint o | Double o | Array o | ImmutableArray o | GrowableObjectArray o
    | LinkedHashMap o | Float32x4 o | Int32x4 o | Float64x2 o | Capability o | SendPort o
    | RegExp o | Context o | ApiError o | LanguageError o | UnhandledException o =>
      simp only [Encoded.WriteTo, Source.WriteTo, UntaggedMint.WriteTo, UntaggedDouble.WriteTo,
        UntaggedArray.WriteTo, UntaggedImmutableArray.WriteTo, SnapshotWriter.ArrayWriteTo,
        UntaggedGrowableObjectArray.WriteTo, UntaggedLinkedHashMap.WriteTo,
        UntaggedFloat32x4.WriteTo, UntaggedInt32x4.WriteTo, UntaggedFloat64x2.WriteTo,
        UntaggedCapability.WriteTo, UntaggedSendPort.WriteTo, UntaggedRegExp.WriteTo,
        UntaggedContext.WriteTo, UntaggedApiError.WriteTo, UntaggedLanguageError.WriteTo,
        UntaggedUnhandledException.WriteTo, SnapshotWriter.VisitPointers_eq,
        UntaggedLinkedHashMap.foldl_writePair] at h
      (try split_ifs at h) <;>
        (obtain rfl := Option.some.inj h
         simp only [SnapshotWriter.WriteObjectImpl, SnapshotWriter.WriteDouble,
           SnapshotWriter.Write, SnapshotWriter.WriteTags, SnapshotWriter.WriteVMIsolateObject,
           SnapshotWriter.WriteIndexedObject, SnapshotWriter.WriteInlinedObjectHeader,
           SnapshotWriter.emit, List.append_assoc, List.cons_append, List.nil_append] at htag
         first
           | (have this := hI _ _ _ _ _ htag
              subst this
              decide)
           | (have this := hV _ _ _ _ _ htag
              subst this
              decide))
  | Class o =>
    simp only [Encoded.WriteTo, UntaggedClass.WriteTo] at h
    (try split_ifs at h) <;>
      (obtain rfl := Option.some.inj h
       simp only [SnapshotWriter.WriteClassId, SnapshotWriter.SetWriteException,
         SnapshotWriter.WriteTags, SnapshotWriter.WriteVMIsolateObject,
         SnapshotWriter.WriteInlinedObjectHeader,
         SnapshotWriter.emit, List.append_assoc, List.cons_append, List.nil_append] at htag
       have := hV _ _ _ _ _ htag
       subst this
       decide)
  | Type_ o =>
    simp only [Encoded.WriteTo, UntaggedType.WriteTo] at h
    split at h
    · exact absurd h (by simp)
    · obtain rfl := Option.some.inj h
      simp only [SnapshotWriter.VisitPointers_eq, SnapshotWriter.WriteObjectImpl,
        SnapshotWriter.Write, SnapshotWriter.WriteTags, SnapshotWriter.WriteIndexedObject,
        SnapshotWriter.WriteInlinedObjectHeader,
        SnapshotWriter.emit, List.append_assoc, List.cons_append, List.nil_append] at htag
      have := hI _ _ _ _ _ htag
      subst this
      decide
  | TypeArguments o =>
    simp only [Encoded.WriteTo, UntaggedTypeArguments.WriteTo,
      UntaggedTypeArguments.foldl_writeElement, Option.some.injEq] at h
    subst h
    simp only [SnapshotWriter.Write, SnapshotWriter.WriteTags,
      SnapshotWriter.WriteVMIsolateObject, SnapshotWriter.WriteInlinedObjectHeader,
      SnapshotWriter.emit, List.append_assoc, List.cons_append, List.nil_append] at htag
    have := hV _ _ _ _ _ htag
    subst this
    decide
  | Closure o =>
    simp only [Encoded.WriteTo, UntaggedClosure.WriteTo] at h
    split_ifs at h
    obtain rfl := Option.some.inj h
    simp [SnapshotWriter.WriteStaticImplicitClosure, SnapshotWriter.emit, kindTagOf_closure]
      at htag
  | ContextScope o =>
    simp only [Encoded.WriteTo, UntaggedContextScope.WriteTo] at h
    split_ifs at h
    split at h
    · exact absurd h (by simp)
    · obtain rfl := Option.some.inj h
      simp only [SnapshotWriter.WriteObjectImpl,
        SnapshotWriter.Write, SnapshotWriter.WriteTags, SnapshotWriter.WriteVMIsolateObject,
        SnapshotWriter.WriteInlinedObjectHeader,
        SnapshotWriter.emit, List.append_assoc, List.cons_append, List.nil_append] at htag
      have := hV _ _ _ _ _ htag
      subst this
      decide
  | Unreachable type =>
    simp [Encoded.WriteTo, MESSAGE_SNAPSHOT_UNREACHABLE.WriteTo] at h
  | Illegal type =>
    simp only [Encoded.WriteTo, MESSAGE_SNAPSHOT_ILLEGAL.WriteTo, Option.some.injEq] at h
    subst h
    simp [SnapshotWriter.SetWriteException, kindTagOf_self] at htag
  | TypeRef o | TypeParameter o | TypeParameters o | Instance o | ExternalOneByteString o
  | ExternalTwoByteString o | WeakProperty o =>
    simp only [Encoded.WriteTo, UntaggedTypeRef.WriteTo, UntaggedTypeParameter.WriteTo,
      UntaggedTypeParameters.WriteTo, UntaggedInstance.WriteTo,
      UntaggedExternalOneByteString.WriteTo, UntaggedExternalTwoByteString.WriteTo,
      UntaggedWeakProperty.WriteTo, StringWriteTo, SnapshotWriter.VisitPointers_eq,
      SnapshotWriter.foldl_Write_eq] at h
    (try split_ifs at h) <;>
      (obtain rfl := Option.some.inj h
       simp only [SnapshotWriter.WriteBytes, SnapshotWriter.foldl_Write_eq,
         SnapshotWriter.WriteObjectImpl,
         SnapshotWriter.Write, SnapshotWriter.WriteTags, SnapshotWriter.WriteVMIsolateObject,
         SnapshotWriter.WriteIndexedObject, SnapshotWriter.WriteInlinedObjectHeader,
         SnapshotWriter.emit, List.append_assoc, List.cons_append, List.nil_append] at htag
       first
         | (have this := hI _ _ _ _ _ htag
            subst this
            decide)
         | (have this := hV _ _ _ _ _ htag
            subst this
            decide))

/-- C16. Every kind tag that a `WriteTo` of this file writes right after an
    object header selects a decoder that is not an unreachable stub: for every
    encoder of the file (the listed kinds, the type-system values, closures,
    scope descriptors, instances, external strings, weak properties, and the
    kinds instantiated with the two macros), every writer state and every
    object whose header carries the class id of its kind, if the encoder
    returns and what it appended starts with a header and a kind tag `cid`,
    then the decoder `cid` selects returns on some stream, so it is none of the
    decoders that are `UNREACHABLE()`.  This covers the external typed-data
    tags chosen by the threshold branch and the non-external string tags
    written for external strings. -/
theorem C16_emitted_kind_tags_have_decoders (t : Target) (env : WriterEnv) (T : Nat)
    (e : Encoded) (w : SnapshotWriter) (object_id : Int) (kind : Snapshot.Kind) (m : Bool)
    (w' : SnapshotWriter) (cid : ClassId) (hok : e.HeaderOk)
    (h : e.WriteTo env T w object_id kind m = some w')
    (htag : kindTagOf w.stream w'.stream = some cid) :
    HasDecoder t cid ∧ ReadFromOf t cid ≠ Unreachable.ReadFrom := by
  have hd := emitted_tag_is_decoded env T e w object_id kind m w' cid hok h htag
  have hh : HasDecoder t cid :=
    ⟨1, ⟨cid, false⟩, .kMessage, false, _, sampleStream_decodes t cid hd⟩
  exact ⟨hh, fun hu => not_HasDecoder_of_unreachable t cid hu hh⟩

/-- C16, concrete instances: a three-byte Uint8 buffer written for a message
    with threshold 3 carries the external tag, and an external one-byte string
    carries the tag of one-byte strings; both tags select decoders. -/
theorem C16_emitted_kind_tags_have_decoders_witness :
    (∃ w', (Encoded.listed (.TypedData ⟨⟨kTypedDataUint8ArrayCid, false⟩, 3, [7, 8, 9]⟩)).WriteTo
          WriterEnv.strict 3 (SnapshotWriter.init Heap.empty) 1 .kMessage false = some w'
        ∧ kindTagOf (SnapshotWriter.init Heap.empty).stream w'.stream
            = some kExternalTypedDataUint8ArrayCid
        ∧ HasDecoder Target.x64 kExternalTypedDataUint8ArrayCid
        ∧ ReadFromOf Target.x64 kExternalTypedDataUint8ArrayCid ≠ Unreachable.ReadFrom)
      ∧ (∃ w', (Encoded.ExternalOneByteString ⟨⟨kOneByteStringCid, false⟩, 2, [104, 105]⟩).WriteTo
          WriterEnv.strict 3 (SnapshotWriter.init Heap.empty) 1 .kMessage false = some w'
        ∧ kindTagOf (SnapshotWriter.init Heap.empty).stream w'.stream = some kOneByteStringCid
        ∧ HasDecoder Target.x64 kOneByteStringCid
        ∧ ReadFromOf Target.x64 kOneByteStringCid ≠ Unreachable.ReadFrom) :=
  ⟨⟨_, rfl, rfl,
     C16_emitted_kind_tags_have_decoders Target.x64 WriterEnv.strict 3
       (Encoded.listed (.TypedData ⟨⟨kTypedDataUint8ArrayCid, false⟩, 3, [7, 8, 9]⟩))
       (SnapshotWriter.init Heap.empty) 1 .kMessage false _ kExternalTypedDataUint8ArrayCid
       trivial rfl rfl⟩,
   ⟨_, rfl, rfl,
     C16_emitted_kind_tags_have_decoders Target.x64 WriterEnv.strict 3
       (Encoded.ExternalOneByteString ⟨⟨kOneByteStringCid, false⟩, 2, [104, 105]⟩)
       (SnapshotWriter.init Heap.empty) 1 .kMessage false _ kOneByteStringCid
       trivial rfl rfl⟩⟩

theorem flatMap_skip_eq_filter (key val : Nat → ObjectPtr) (d : ObjectPtr) (l : List Nat) :
    l.flatMap (fun k => if key k = d then [] else [key k, val k])
      = (l.filter (fun k => key k != d)).flatMap (fun k => [key k, val k]) := by
  induction l with
  | nil => rfl
  | cons x xs ih =>
    rw [List.flatMap_cons, ih, List.filter_cons]
    by_cases hx : key x = d
    · simp [hx]
    · simp [hx]

theorem length_flatMap_pairs (key val : Nat → ObjectPtr) (l : List Nat) :
    (l.flatMap (fun k => [key k, val k])).length = 2 * l.length := by
  induction l with
  | nil => rfl
  | cons x xs ih =>
    rw [List.flatMap_cons, List.length_append, ih]
    simp only [List.length_cons, List.length_nil]
    omega

theorem length_filter_add_filter (key : Nat → ObjectPtr) (d : ObjectPtr) (l : List Nat) :
    (l.filter (fun k => key k != d)).length + (l.filter (fun k => key k == d)).length
      = l.length := by
  induction l with
  | nil => rfl
  | cons x xs ih =>
    rw [List.filter_cons, List.filter_cons]
    by_cases hx : key x = d
    · simp [hx]
      omega
    · simp [hx]
      omega

theorem UntaggedLinkedHashMap.livePairs_eq_flatMap (this : UntaggedLinkedHashMap) (n : Nat) :
    this.livePairs n = (this.liveIndices n).flatMap (fun k =>
      [this.data_elements.getD (2 * k) Object.null,
       this.data_elements.getD (2 * k + 1) Object.null]) :=
  flatMap_skip_eq_filter (fun k => this.data_elements.getD (2 * k) Object.null)
    (fun k => this.data_elements.getD (2 * k + 1) Object.null) this.data (List.range n)

theorem UntaggedLinkedHashMap.livePairs_length (this : UntaggedLinkedHashMap) (n : Nat) :
    (this.livePairs n).length = 2 * (this.liveIndices n).length := by
  rw [UntaggedLinkedHashMap.livePairs_eq_flatMap]
  exact length_flatMap_pairs _ _ _

theorem UntaggedLinkedHashMap.liveIndices_add_tombstones (this : UntaggedLinkedHashMap)
    (n : Nat) : (this.liveIndices n).length + this.tombstones n = n := by
  have h := length_filter_add_filter (fun k => this.data_elements.getD (2 * k) Object.null)
    this.data (List.range n)
  rw [List.length_range] at h
  exact h

/-- A live pair at index `k < n` sits in the live pairs right after the live
    pairs of the indices below `k`. -/
theorem UntaggedLinkedHashMap.livePairs_split (this : UntaggedLinkedHashMap) (n k : Nat)
    (hk : k < n) (hlive : this.data_elements.getD (2 * k) Object.null ≠ this.data) :
    ∃ rest, this.livePairs n = this.livePairs k
      ++ [this.data_elements.getD (2 * k) Object.null,
          this.data_elements.getD (2 * k + 1) Object.null] ++ rest := by
  obtain ⟨d, rfl⟩ : ∃ d, n = (k + 1) + d := ⟨n - (k + 1), by omega⟩
  refine ⟨((List.range d).map (fun x => k + 1 + x)).flatMap (fun j =>
    if this.data_elements.getD (2 * j) Object.null = this.data then []
    else [this.data_elements.getD (2 * j) Object.null,
          this.data_elements.getD (2 * j + 1) Object.null]), ?_⟩
  unfold UntaggedLinkedHashMap.livePairs
  rw [List.range_add, List.range_succ, List.flatMap_append, List.flatMap_append,
    List.flatMap_cons, List.flatMap_nil, List.append_nil, if_neg hlive]

/-- What `UntaggedLinkedHashMap::WriteTo` does: it appends the items of the
    map and changes nothing else. -/
theorem UntaggedLinkedHashMap_WriteTo_stream (o : UntaggedLinkedHashMap) (w : SnapshotWriter)
    (object_id : Int) (kind : Snapshot.Kind) (m : Bool) :
    UntaggedLinkedHashMap.WriteTo o w object_id kind m
      = some { w with stream := w.stream ++ o.items object_id } := by
  simp only [UntaggedLinkedHashMap.WriteTo, UntaggedLinkedHashMap.foldl_writePair,
    UntaggedLinkedHashMap.items,
    SnapshotWriter.WriteInlinedObjectHeader, SnapshotWriter.WriteIndexedObject,
    SnapshotWriter.WriteTags, SnapshotWriter.Write, SnapshotWriter.WriteObjectImpl,
    SnapshotWriter.emit, kAsInlinedObject, List.append_assoc, List.cons_append,
    List.nil_append]
  cases o.tags.canonical <;> simp

theorem linkedhashmap_decode (t : Target) (o : UntaggedLinkedHashMap) (h : Heap)
    (object_id : Int) (kind : Snapshot.Kind) (m : Bool)
    (hu0 : 0 ≤ o.used_data) (heven : o.used_data % 2 = 0)
    (hdel : ((o.livePairs (o.used_data / 2).toNat).length : Int)
      = 2 * (o.used_data / 2 - o.deleted_keys))
    (hsmall : (o.livePairs (o.used_data / 2).toNat).length ≤ 2 ^ 61)
    (hk : t.kInitialIndexSize < 2 ^ 63) :
    ∃ w', UntaggedLinkedHashMap.WriteTo o (SnapshotWriter.init h) object_id kind m = some w'
      ∧ SnapshotReader.ReadInlinedObject t kind m w'.toReader
        = some (Obj.LinkedHashMap (LinkedHashMap.decoded t o.type_arguments (.heap 100)
              (o.livePairs (o.used_data / 2).toNat)),
            LinkedHashMap.readerAfter t object_id o.tags.canonical o.type_arguments
              (o.livePairs (o.used_data / 2).toNat)) := by
  have hn : ((o.used_data + 1) / 2).toNat = (o.used_data / 2).toNat := by omega
  refine ⟨_, UntaggedLinkedHashMap_WriteTo_stream o _ object_id kind m, ?_⟩
  generalize hlive : o.livePairs (o.used_data / 2).toNat = live at hdel hsmall
  have hL : toIntptr ((o.used_data / 2 - o.deleted_keys) * 2) = (live.length : Int) := by
    rw [toIntptr_of_fits]
    · omega
    · have : (0 : Int) < (2 : Int) ^ 63 := by positivity
      omega
    · have : ((live.length : Nat) : Int) ≤ ((2 ^ 61 : Nat) : Int) := by exact_mod_cast hsmall
      norm_num at this ⊢
      omega
  have hge := LinkedHashMap.dataSize_ge t live.length hsmall hk
  have hcount : o.used_data / 2 - o.deleted_keys = (live.length : Int) / 2 := by omega
  simp only [SnapshotWriter.init, SnapshotWriter.toReader, SnapshotReader.init,
    UntaggedLinkedHashMap.items, hn, hlive,
    List.nil_append, List.cons_append, List.append_assoc,
    SnapshotReader.ReadInlinedObject, ReadFromOf, LinkedHashMap.ReadFrom,
    SnapshotReader.ReadSmiValue, SnapshotReader.Read, SnapshotReader.ReadObjectImpl,
    SnapshotReader.New, SnapshotReader.log, SnapshotReader.freshAddr,
    SnapshotReader.EnqueueRehashingOfMap, SnapshotReader.AddBackRef, bind, StateT.bind, pure,
    StateT.pure, Option.some_bind, kAsInlinedObject, if_true, hL, Int.toNat_ofNat]
  rw [LinkedHashMap.ReadFrom.loop_eq (!o.tags.canonical) _ live 0 _ []]
  · have hc2 : (live.length : Int) / 2 * 2 = (live.length : Int) := by omega
    have hc3 : o.used_data / 2 - o.deleted_keys = (live.length : Int) / 2 := hcount
    simp [SnapshotReader.StoreHandle, LinkedHashMap.decoded, LinkedHashMap.dataSize,
      LinkedHashMap.readerAfter, MessageFinalizableData.empty, UntaggedObject.IsCanonical,
      UntaggedObject.ClassIdTag.update]
    omega
  · cases o.tags.canonical <;> simp [UntaggedObject.IsCanonical, UntaggedObject.ClassIdTag.update]
  · simpa [LinkedHashMap.dataSize] using hge

/-- The hypotheses of the map round trip, from the tombstone count. -/
theorem UntaggedLinkedHashMap.live_of_tombstones (o : UntaggedLinkedHashMap)
    (hu0 : 0 ≤ o.used_data)
    (hdel : o.deleted_keys = (o.tombstones (o.used_data / 2).toNat : Int))
    (hsmall : o.used_data ≤ 2 ^ 61) :
    o.used_data / 2 - o.deleted_keys = ((o.liveIndices (o.used_data / 2).toNat).length : Int)
      ∧ ((o.livePairs (o.used_data / 2).toNat).length : Int)
          = 2 * (o.used_data / 2 - o.deleted_keys)
      ∧ (o.livePairs (o.used_data / 2).toNat).length ≤ 2 ^ 61 := by
  have h1 := o.liveIndices_add_tombstones (o.used_data / 2).toNat
  have h2 := o.livePairs_length (o.used_data / 2).toNat
  have h3 : ((o.used_data / 2).toNat : Int) = o.used_data / 2 := Int.toNat_of_nonneg (by omega)
  have h4 : (2 : Int) ^ 61 = 2305843009213693952 := by norm_num
  have h5 : (2 : Nat) ^ 61 = 2305843009213693952 := by norm_num
  rw [h4] at hsmall
  rw [h5]
  refine ⟨by omega, by omega, by omega⟩

/-- C19. For every map whose `used_data` is even (and a valid slot count:
    non-negative, at most `2 ^ 61`) and whose `deleted_keys` counter equals the
    number of tombstone keys among its first `used_data` slots:
    * the pair count `UntaggedLinkedHashMap::WriteTo` declares,
      `used_data / 2 - deleted_keys`, equals the number of pairs it then
      emits;
    * what it writes is header, kind tag, tags, type arguments, that count, and
      exactly the non-deleted pairs, key then value, in their original order;
    * `LinkedHashMap::ReadFrom` on that stream returns, consumes it all, sets
      `used_data` to twice the declared count, holds the pairs in the data
      slots `0 .. 2 * count - 1` in that order, and reads as children exactly
      the type arguments and then those `2 * count` objects. -/
theorem C19_map_entry_count_consistent (t : Target) (o : UntaggedLinkedHashMap) (h : Heap)
    (object_id : Int) (kind : Snapshot.Kind) (m : Bool)
    (hu0 : 0 ≤ o.used_data) (heven : o.used_data % 2 = 0)
    (hdel : o.deleted_keys = (o.tombstones (o.used_data / 2).toNat : Int))
    (hsmall : o.used_data ≤ 2 ^ 61) (hk : t.kInitialIndexSize < 2 ^ 63) :
    o.used_data / 2 - o.deleted_keys = ((o.liveIndices (o.used_data / 2).toNat).length : Int)
      ∧ ∃ w', UntaggedLinkedHashMap.WriteTo o (SnapshotWriter.init h) object_id kind m = some w'
        ∧ w'.stream = [.InlinedObjectHeader object_id, .IndexedObject kLinkedHashMapCid,
              .WriteTags o.tags, .ObjectImpl o.type_arguments false,
              .Write .ObjectPtr ((o.liveIndices (o.used_data / 2).toNat).length : Int)]
            ++ ((o.liveIndices (o.used_data / 2).toNat).flatMap (fun k =>
                  [o.data_elements.getD (2 * k) Object.null,
                   o.data_elements.getD (2 * k + 1) Object.null])).map
                (fun p => Item.ObjectImpl p (!o.tags.canonical))
        ∧ ∃ o' r', SnapshotReader.ReadInlinedObject t kind m w'.toReader
              = some (Obj.LinkedHashMap o', r')
          ∧ r'.stream = []
          ∧ o'.used_data = 2 * ((o.liveIndices (o.used_data / 2).toNat).length : Int)
          ∧ o'.data_elements.take (2 * (o.liveIndices (o.used_data / 2).toNat).length)
              = (o.liveIndices (o.used_data / 2).toNat).flatMap (fun k =>
                  [o.data_elements.getD (2 * k) Object.null,
                   o.data_elements.getD (2 * k + 1) Object.null])
          ∧ r'.events.filter ReaderEvent.isChildRead
              = ReaderEvent.ReadObjectImpl false o.type_arguments
                :: ((o.liveIndices (o.used_data / 2).toNat).flatMap (fun k =>
                      [o.data_elements.getD (2 * k) Object.null,
                       o.data_elements.getD (2 * k + 1) Object.null])).map
                    (fun p => ReaderEvent.ReadObjectImpl (!o.tags.canonical) p) := by
  obtain ⟨hcount, hdel', hsmall'⟩ := o.live_of_tombstones hu0 hdel hsmall
  obtain ⟨w', hw, hd⟩ := linkedhashmap_decode t o h object_id kind m hu0 heven hdel' hsmall' hk
  have hn : ((o.used_data + 1) / 2).toNat = (o.used_data / 2).toNat := by omega
  have hlen := o.livePairs_length (o.used_data / 2).toNat
  have hflat := o.livePairs_eq_flatMap (o.used_data / 2).toNat
  refine ⟨hcount, w', hw, ?_, _, _, hd, rfl, ?_, ?_, ?_⟩
  · rw [UntaggedLinkedHashMap_WriteTo_stream] at hw
    obtain rfl := Option.some.inj hw
    simp only [SnapshotWriter.init, UntaggedLinkedHashMap.items, hn, hcount, hflat,
      List.nil_append]
  · simp only [LinkedHashMap.decoded, hlen]
    push_cast
    ring
  · simp only [LinkedHashMap.decoded, ← hlen, ← hflat]
    exact List.take_left' rfl
  · simp only [LinkedHashMap.readerAfter, ← hflat]
    simp [List.filter_cons, List.filter_append, ReaderEvent.isChildRead, List.filter_map,
      Function.comp_def]

theorem C19_map_entry_count_consistent_witness :
    selfMap.used_data / 2 - selfMap.deleted_keys
        = ((selfMap.liveIndices (selfMap.used_data / 2).toNat).length : Int)
      ∧ ∃ w', UntaggedLinkedHashMap.WriteTo selfMap (SnapshotWriter.init Heap.empty) 1
            Snapshot.Kind.kMessage false = some w'
        ∧ w'.stream = [.InlinedObjectHeader 1, .IndexedObject kLinkedHashMapCid,
              .WriteTags selfMap.tags, .ObjectImpl selfMap.type_arguments false,
              .Write .ObjectPtr ((selfMap.liveIndices (selfMap.used_data / 2).toNat).length : Int)]
            ++ ((selfMap.liveIndices (selfMap.used_data / 2).toNat).flatMap (fun k =>
                  [selfMap.data_elements.getD (2 * k) Object.null,
                   selfMap.data_elements.getD (2 * k + 1) Object.null])).map
                (fun p => Item.ObjectImpl p (!selfMap.tags.canonical))
        ∧ ∃ o' r', SnapshotReader.ReadInlinedObject Target.x64 Snapshot.Kind.kMessage false
              w'.toReader = some (Obj.LinkedHashMap o', r')
          ∧ r'.stream = []
          ∧ o'.used_data = 2 * ((selfMap.liveIndices (selfMap.used_data / 2).toNat).length : Int)
          ∧ o'.data_elements.take (2 * (selfMap.liveIndices (selfMap.used_data / 2).toNat).length)
              = (selfMap.liveIndices (selfMap.used_data / 2).toNat).flatMap (fun k =>
                  [selfMap.data_elements.getD (2 * k) Object.null,
                   selfMap.data_elements.getD (2 * k + 1) Object.null])
          ∧ r'.events.filter ReaderEvent.isChildRead
              = ReaderEvent.ReadObjectImpl false selfMap.type_arguments
                :: ((selfMap.liveIndices (selfMap.used_data / 2).toNat).flatMap (fun k =>
                      [selfMap.data_elements.getD (2 * k) Object.null,
                       selfMap.data_elements.getD (2 * k + 1) Object.null])).map
                    (fun p => ReaderEvent.ReadObjectImpl (!selfMap.tags.canonical) p) :=
  C19_map_entry_count_consistent Target.x64 selfMap Heap.empty 1 Snapshot.Kind.kMessage false
    (by decide) (by decide) (by decide) (by decide) (by decide)

/-- C18. A map that contains itself as a live value round-trips.  Let the
    map be well formed (`used_data` even, non-negative and at most `2 ^ 61`,
    `deleted_keys` the number of tombstones), let pair `k` be live with the map
    itself (`self`) in its value slot, and let the write pass have given the
    map the id `object_id`, so that the value travels as a back-reference to
    that id.  Then encoding returns, decoding the result returns a map and
    consumes the whole stream, the first two things the decoder does are to
    allocate the map and bind it to `object_id` (before any entry is read),
    the decoded map has as many pairs as the source has live pairs, its value
    slot for that pair (the pair's rank among the live pairs) again holds
    `self`, and `self` resolves through the identity table to the decoded map
    itself. -/
theorem C18_self_containing_map_roundtrips (t : Target) (o : UntaggedLinkedHashMap)
    (h : Heap) (object_id : Int) (kind : Snapshot.Kind) (m : Bool)
    (ids : ObjectPtr → Option Int) (self : ObjectPtr) (k : Nat)
    (hu0 : 0 ≤ o.used_data) (heven : o.used_data % 2 = 0)
    (hdel : o.deleted_keys = (o.tombstones (o.used_data / 2).toNat : Int))
    (hsmall : o.used_data ≤ 2 ^ 61) (hk : t.kInitialIndexSize < 2 ^ 63)
    (hself : ids self = some object_id)
    (hkn : k < (o.used_data / 2).toNat)
    (hlive : o.data_elements.getD (2 * k) Object.null ≠ o.data)
    (hval : o.data_elements.getD (2 * k + 1) Object.null = self) :
    ∃ w' o' r',
      UntaggedLinkedHashMap.WriteTo o (SnapshotWriter.init h) object_id kind m = some w'
      ∧ SnapshotReader.ReadInlinedObject t kind m w'.toReader = some (Obj.LinkedHashMap o', r')
      ∧ r'.stream = []
      ∧ (∃ post, r'.events = ReaderEvent.New kLinkedHashMapCid
            :: ReaderEvent.AddBackRef object_id .kIsDeserialized :: post)
      ∧ o'.used_data = 2 * ((o.liveIndices (o.used_data / 2).toNat).length : Int)
      ∧ 2 * (o.liveIndices k).length + 1 < o'.used_data.toNat
      ∧ o'.data_elements.getD (2 * (o.liveIndices k).length + 1) Object.null = self
      ∧ SnapshotReader.Resolve ids r' self = some (Obj.LinkedHashMap o') := by
  obtain ⟨-, hdel', hsmall'⟩ := o.live_of_tombstones hu0 hdel hsmall
  obtain ⟨w', hw, hd⟩ := linkedhashmap_decode t o h object_id kind m hu0 heven hdel' hsmall' hk
  have hlen := o.livePairs_length (o.used_data / 2).toNat
  obtain ⟨rest, hsplit⟩ := o.livePairs_split (o.used_data / 2).toNat k hkn hlive
  have hlenk := o.livePairs_length k
  have hlt : 2 * (o.liveIndices k).length + 1 < (o.livePairs (o.used_data / 2).toNat).length := by
    rw [hsplit]
    simp only [List.length_append, List.length_cons, List.length_nil]
    omega
  refine ⟨w', _, _, hw, hd, rfl, ⟨_, rfl⟩, ?_, ?_, ?_, ?_⟩
  · simp only [LinkedHashMap.decoded, hlen]
    push_cast
    ring
  · simp only [LinkedHashMap.decoded, Int.toNat_ofNat]
    exact hlt
  · simp only [LinkedHashMap.decoded]
    rw [List.getD_append _ _ _ _ hlt, hsplit, List.append_assoc,
      List.getD_append_right _ _ _ _ (by omega)]
    have : 2 * (o.liveIndices k).length + 1 - (o.livePairs k).length = 1 := by omega
    rw [this]
    simpa using hval
  · simp [SnapshotReader.Resolve, hself, SnapshotReader.lookup, LinkedHashMap.readerAfter]

theorem C18_self_containing_map_roundtrips_witness :
    ∃ w' o' r',
      UntaggedLinkedHashMap.WriteTo selfMap (SnapshotWriter.init Heap.empty) 1
          Snapshot.Kind.kMessage false = some w'
      ∧ SnapshotReader.ReadInlinedObject Target.x64 Snapshot.Kind.kMessage false w'.toReader
          = some (Obj.LinkedHashMap o', r')
      ∧ r'.stream = []
      ∧ (∃ post, r'.events = ReaderEvent.New kLinkedHashMapCid
            :: ReaderEvent.AddBackRef 1 .kIsDeserialized :: post)
      ∧ o'.used_data = 2 * ((selfMap.liveIndices (selfMap.used_data / 2).toNat).length : Int)
      ∧ 2 * (selfMap.liveIndices 0).length + 1 < o'.used_data.toNat
      ∧ o'.data_elements.getD (2 * (selfMap.liveIndices 0).length + 1) Object.null = .heap 20
      ∧ SnapshotReader.Resolve selfMapIds r' (.heap 20) = some (Obj.LinkedHashMap o') :=
  C18_self_containing_map_roundtrips Target.x64 selfMap Heap.empty 1 Snapshot.Kind.kMessage
    false selfMapIds (.heap 20) 0 (by decide) (by decide) (by decide) (by decide) (by decide)
    (by decide) (by decide) (by decide) (by decide)

/-! ## Interning of populated objects -/

theorem Populates_bind {α β : Type} {object_id : Int} {x : Rd α} {f : α → Rd β}
    (hx : Populates object_id x) (hf : ∀ a, Populates object_id (f a)) :
    Populates object_id (x >>= f) := by
  intro r b r' h
  obtain ⟨a, r1, h1, h2⟩ := Rd_bind_eq_some x f r b r' h
  obtain ⟨hb1, l1, hl1, hq1⟩ := hx r a r1 h1
  obtain ⟨hb2, l2, hl2, hq2⟩ := hf a r1 b r' h2
  refine ⟨hb2.trans hb1, l1 ++ l2, by rw [hl2, hl1, List.append_assoc], ?_⟩
  intro e he
  rcases List.mem_append.1 he with h' | h'
  · exact hq1 e h'
  · exact hq2 e h'

theorem Populates_pure {α : Type} (object_id : Int) (a : α) :
    Populates object_id (pure a : Rd α) := by
  intro r b r' h
  simp only [Pure.pure, StateT.pure, Option.some.injEq, Prod.mk.injEq] at h
  obtain ⟨-, rfl⟩ := h
  exact ⟨rfl, [], by simp, by simp⟩

theorem Populates_Read (object_id : Int) (ty : ScalarType) :
    Populates object_id (SnapshotReader.Read ty) := by
  intro r b r' h
  simp only [SnapshotReader.Read] at h
  split at h
  · split_ifs at h with ht
    simp only [Option.some.injEq, Prod.mk.injEq] at h
    obtain ⟨-, rfl⟩ := h
    exact ⟨rfl, [.Read ty _], rfl, by simp⟩
  · exact absurd h (by simp)

theorem Populates_ReadObjectImpl (object_id : Int) (m : Bool) :
    Populates object_id (SnapshotReader.ReadObjectImpl m) := by
  intro r b r' h
  simp only [SnapshotReader.ReadObjectImpl] at h
  split at h
  · simp only [Option.some.injEq, Prod.mk.injEq] at h
    obtain ⟨-, rfl⟩ := h
    exact ⟨rfl, [.ReadObjectImpl m _], rfl, by simp⟩
  · simp only [Option.some.injEq, Prod.mk.injEq] at h
    obtain ⟨-, rfl⟩ := h
    exact ⟨rfl, [.ReadObjectImpl m _], rfl, by simp⟩
  · exact absurd h (by simp)

theorem Populates_ReadObjects (object_id : Int) (m : Bool) (n : Nat) :
    Populates object_id (SnapshotReader.ReadObjects m n) := by
  induction n with
  | zero => exact Populates_pure _ _
  | succ n ih =>
    unfold SnapshotReader.ReadObjects
    exact Populates_bind (Populates_ReadObjectImpl _ _)
      (fun _ => Populates_bind ih (fun _ => Populates_pure _ _))

theorem Populates_ArrayReadFrom (object_id id : Int) (a : UntaggedArray) (len : Int)
    (tags : Tags) : Populates object_id (SnapshotReader.ArrayReadFrom id a len tags) := by
  unfold SnapshotReader.ArrayReadFrom
  exact Populates_bind (Populates_ReadObjectImpl _ _)
    (fun _ => Populates_bind (Populates_ReadObjects _ _ _) (fun _ => Populates_pure _ _))

/-- After a store through the handle of a bound id, the id refers to the
    stored object. -/
theorem SnapshotReader.lookup_store (backrefs : List BackRef) (object_id : Int) (obj : Obj)
    (h : ((backrefs.find? (fun b => b.object_id == object_id)).map (fun b => b.obj)).isSome
      = true) :
    ((backrefs.map (fun b => if b.object_id == object_id then { b with obj := obj } else b)).find?
      (fun b => b.object_id == object_id)).map (fun b => b.obj) = some obj := by
  induction backrefs with
  | nil => simp at h
  | cons b bs ih =>
    by_cases hb : b.object_id = object_id
    · simp [List.find?_cons, hb]
    · have hb' : (b.object_id == object_id) = false := by simpa using hb
      simp only [List.map_cons, hb', List.find?_cons] at h ⊢
      simp only [Bool.false_eq_true, if_false, hb', List.find?_cons]
      exact ih h

theorem InternsLast_final (object_id : Int) (obj : Obj) (hc : obj.IsCanonical = true) :
    InternsLast object_id
      (SnapshotReader.Canonicalize object_id >>= fun _ =>
        SnapshotReader.StoreHandle object_id obj >>= fun _ => pure obj) := by
  intro r o r' h hb
  obtain ⟨a, r1, h1, h2⟩ := Rd_bind_eq_some _ _ r o r' h
  obtain ⟨a2, r2, h3, h4⟩ := Rd_bind_eq_some _ _ r1 o r' h2
  simp only [SnapshotReader.Canonicalize, SnapshotReader.log, Option.some.injEq,
    Prod.mk.injEq] at h1
  obtain ⟨-, rfl⟩ := h1
  simp only [SnapshotReader.StoreHandle, Option.some.injEq, Prod.mk.injEq] at h3
  obtain ⟨-, rfl⟩ := h3
  simp only [Pure.pure, StateT.pure, Option.some.injEq, Prod.mk.injEq] at h4
  obtain ⟨rfl, rfl⟩ := h4
  refine ⟨⟨[], by simp, by simp⟩, ?_, hc⟩
  exact SnapshotReader.lookup_store r.backrefs object_id _ hb

theorem InternsLast_bind {α : Type} {object_id : Int} {x : Rd α} {f : α → Rd Obj}
    (hx : Populates object_id x) (hf : ∀ a, InternsLast object_id (f a)) :
    InternsLast object_id (x >>= f) := by
  intro r o r' h hb
  obtain ⟨a, r1, h1, h2⟩ := Rd_bind_eq_some x f r o r' h
  obtain ⟨hb1, l1, hl1, hq1⟩ := hx r a r1 h1
  have hb' : (r1.lookup object_id).isSome = true := by
    simpa only [SnapshotReader.lookup, hb1] using hb
  obtain ⟨⟨mid, hl2, hq2⟩, hlook, hc⟩ := hf a r1 o r' h2 hb'
  refine ⟨⟨l1 ++ mid, by rw [hl2, hl1]; simp, ?_⟩, hlook, hc⟩
  intro e he
  rcases List.mem_append.1 he with h' | h'
  · exact hq1 e h'
  · exact hq2 e h'

theorem SnapshotReader.lookup_isSome_append (r : SnapshotReader) (object_id : Int) (obj : Obj)
    (st : DeserializeState) :
    (((r.backrefs ++ [BackRef.mk object_id obj st]).find?
      (fun b => b.object_id == object_id)).map (fun b => b.obj)).isSome = true := by
  simp only [Option.isSome_map', List.find?_isSome]
  exact ⟨BackRef.mk object_id obj st, by simp, by simp⟩

/-- The rest of `ImmutableArray::ReadFrom` in inline mode, after the array to
    fill has been obtained. -/
theorem ImmutableArray.fill_interns (object_id : Int) (tags : Tags) (array : UntaggedArray)
    (len : Int) (hc : UntaggedObject.IsCanonical tags = true) :
    InternsLast object_id
      (SnapshotReader.ArrayReadFrom object_id array len tags >>= fun array =>
        if UntaggedObject.IsCanonical tags then
          (SnapshotReader.Canonicalize object_id >>= fun _ =>
            SnapshotReader.StoreHandle object_id
                (.Array { array with tags := { array.tags with canonical := true } }) >>= fun _ =>
              pure (.Array { array with tags := { array.tags with canonical := true } }))
        else
          (SnapshotReader.StoreHandle object_id (.Array array) >>= fun _ =>
            pure (.Array array))) := by
  refine InternsLast_bind (Populates_ArrayReadFrom _ _ _ _ _) (fun a => ?_)
  rw [if_pos hc]
  exact InternsLast_final _ _ rfl

/-- `ImmutableArray::ReadFrom` in inline mode on canonical tags: either the id
    was unbound and the decoder binds, populates and interns, or the id was
    bound and the decoder fills the bound array and interns; in both cases
    interning is the last step and the id is left bound to the canonical
    array returned. -/
theorem ImmutableArray_ReadFrom_interns (object_id : Int) (tags : Tags)
    (kind : Snapshot.Kind) (r : SnapshotReader) (o : Obj) (r' : SnapshotReader)
    (hc : UntaggedObject.IsCanonical tags = true)
    (h : ImmutableArray.ReadFrom object_id tags kind false r = some (o, r')) :
    (r'.lookup object_id = some o ∧ o.IsCanonical = true)
      ∧ ((∃ pre st mid, r'.events = r.events ++ pre ++ ReaderEvent.AddBackRef object_id st :: mid
              ++ [ReaderEvent.Canonicalize object_id]
            ∧ ∀ e ∈ mid, e ≠ ReaderEvent.GetBackRef object_id)
          ∨ ((r.lookup object_id).isSome = true
              ∧ ∃ l, r'.events = r.events ++ l ++ [ReaderEvent.Canonicalize object_id])) := by
  unfold ImmutableArray.ReadFrom at h
  obtain ⟨len, r1, h1, h2⟩ := Rd_bind_eq_some _ _ r o r' h
  obtain ⟨array, r2, h3, h4⟩ := Rd_bind_eq_some _ _ r1 o r' h2
  simp only [Bool.not_false, if_true] at h4
  have hfill := ImmutableArray.fill_interns object_id tags array len hc
  obtain ⟨l1, hl1, -⟩ := Quiet_ReadSmiValue r len r1 h1
  have hb1 : r1.backrefs = r.backrefs := by
    have := (Populates_Read object_id .ObjectPtr) r len r1 h1
    exact this.1
  -- the array to fill
  unfold Array.ReadFrom.prepare at h3
  simp only [Bool.not_false, if_true] at h3
  obtain ⟨bound, r3, h5, h6⟩ := Rd_bind_eq_some _ _ r1 array r2 h3
  simp only [SnapshotReader.GetBackRef, Option.some.injEq, Prod.mk.injEq] at h5
  obtain ⟨rfl, rfl⟩ := h5
  cases hlook : r1.lookup object_id with
  | none =>
    rw [hlook] at h6
    simp only at h6
    obtain ⟨a, r4, h7, h8⟩ := Rd_bind_eq_some _ _ _ array r2 h6
    obtain ⟨u, r5, h9, h10⟩ := Rd_bind_eq_some _ _ _ array r2 h8
    simp only [Pure.pure, StateT.pure, Option.some.injEq, Prod.mk.injEq] at h10
    obtain ⟨rfl, rfl⟩ := h10
    obtain ⟨l4, hl4, -⟩ := Quiet_Array_New _ _ _ a r4 h7
    simp only [SnapshotReader.AddBackRef, Option.some.injEq, Prod.mk.injEq] at h9
    obtain ⟨-, rfl⟩ := h9
    obtain ⟨⟨mid, hl, hq⟩, hlk, hcan⟩ := hfill _ o r' h4
      (SnapshotReader.lookup_isSome_append r4 object_id _ _)
    refine ⟨⟨hlk, hcan⟩, Or.inl ⟨l1 ++ [.GetBackRef object_id] ++ l4, .kIsDeserialized, mid, ?_, hq⟩⟩
    rw [hl]
    simp only [hl4, hl1, List.append_assoc, List.cons_append, List.nil_append]
  | some b =>
    rw [hlook] at h6
    have hsome : (r.lookup object_id).isSome = true := by
      have : r1.lookup object_id = r.lookup object_id := by
        simp only [SnapshotReader.lookup, hb1]
      rw [← this, hlook]
      rfl
    cases b with
    | Array a0 =>
      simp only [Pure.pure, StateT.pure, Option.some.injEq, Prod.mk.injEq] at h6
      obtain ⟨rfl, rfl⟩ := h6
      obtain ⟨⟨mid, hl, hq⟩, hlk, hcan⟩ := hfill _ o r' h4 (by
        simpa only [SnapshotReader.lookup, hlook] using congrArg Option.isSome hlook)
      refine ⟨⟨hlk, hcan⟩, Or.inr ⟨hsome, l1 ++ [.GetBackRef object_id] ++ mid, ?_⟩⟩
      rw [hl]
      simp only [hl1, List.append_assoc, List.cons_append, List.nil_append]
    | _ => exact absurd h6 (by simp [Dart.UNREACHABLE])

/-- C30. The internal and the external size tables agree.
    * For every internal element kind `k` and element count `n`, if the switch
      of `UntaggedTypedData::WriteTo` yields the external kind `ext` and the
      byte size `bytes`, the switch of `UntaggedExternalTypedData::WriteTo`
      yields the same byte size for `(ext, n)`.
    * The mapping from internal to external kind is injective.
    * For the 14 internal kinds Int8, Uint8, Uint8Clamped, Int16, Uint16,
      Int32, Uint32, Int64, Uint64, Float32, Float64, Int32x4, Float32x4,
      Float64x2 the switch yields the paired external kind and `n` times the
      width 1, 1, 1, 2, 2, 4, 4, 8, 8, 4, 8, 16, 16, 16 (as an `intptr_t`);
      every other class id takes the `default:` branch. -/
theorem C30_typed_data_size_tables_agree :
    (∀ (k : ClassId) (n : Int) (ext : ClassId) (bytes : Int),
        UntaggedTypedData.switchCid k n = some (ext, bytes) →
          UntaggedExternalTypedData.switchCid ext n = some bytes)
      ∧ (∀ (k k' : ClassId) (n n' : Int) (ext : ClassId) (b b' : Int),
          UntaggedTypedData.switchCid k n = some (ext, b) →
          UntaggedTypedData.switchCid k' n' = some (ext, b') → k = k')
      ∧ (∀ n : Int,
          [kTypedDataInt8ArrayCid, kTypedDataUint8ArrayCid, kTypedDataUint8ClampedArrayCid,
            kTypedDataInt16ArrayCid, kTypedDataUint16ArrayCid, kTypedDataInt32ArrayCid,
            kTypedDataUint32ArrayCid, kTypedDataInt64ArrayCid, kTypedDataUint64ArrayCid,
            kTypedDataFloat32ArrayCid, kTypedDataFloat64ArrayCid, kTypedDataInt32x4ArrayCid,
            kTypedDataFloat32x4ArrayCid, kTypedDataFloat64x2ArrayCid].map
              (fun k => UntaggedTypedData.switchCid k n)
            = [some (kExternalTypedDataInt8ArrayCid, toIntptr (n * 1)),
               some (kExternalTypedDataUint8ArrayCid, toIntptr (n * 1)),
               some (kExternalTypedDataUint8ClampedArrayCid, toIntptr (n * 1)),
               some (kExternalTypedDataInt16ArrayCid, toIntptr (n * 2)),
               some (kExternalTypedDataUint16ArrayCid, toIntptr (n * 2)),
               some (kExternalTypedDataInt32ArrayCid, toIntptr (n * 4)),
               some (kExternalTypedDataUint32ArrayCid, toIntptr (n * 4)),
               some (kExternalTypedDataInt64ArrayCid, toIntptr (n * 8)),
               some (kExternalTypedDataUint64ArrayCid, toIntptr (n * 8)),
               some (kExternalTypedDataFloat32ArrayCid, toIntptr (n * 4)),
               some (kExternalTypedDataFloat64ArrayCid, toIntptr (n * 8)),
               some (kExternalTypedDataInt32x4ArrayCid, toIntptr (n * 16)),
               some (kExternalTypedDataFloat32x4ArrayCid, toIntptr (n * 16)),
               some (kExternalTypedDataFloat64x2ArrayCid, toIntptr (n * 16))])
      ∧ (∀ (k : ClassId) (n : Int),
          (UntaggedTypedData.switchCid k n).isSome = true ↔
            k ∈ [kTypedDataInt8ArrayCid, kTypedDataUint8ArrayCid,
              kTypedDataUint8ClampedArrayCid, kTypedDataInt16ArrayCid,
              kTypedDataUint16ArrayCid, kTypedDataInt32ArrayCid, kTypedDataUint32ArrayCid,
              kTypedDataInt64ArrayCid, kTypedDataUint64ArrayCid, kTypedDataFloat32ArrayCid,
              kTypedDataFloat64ArrayCid, kTypedDataInt32x4ArrayCid,
              kTypedDataFloat32x4ArrayCid, kTypedDataFloat64x2ArrayCid]) := by
  refine ⟨?_, ?_, ?_, ?_⟩
  · intro k n ext bytes h
    cases k <;> simp only [UntaggedTypedData.switchCid, Option.some.injEq, Prod.mk.injEq,
      reduceCtorEq] at h <;>
      (obtain ⟨rfl, rfl⟩ := h; rfl)
  · intro k k' n n' ext b b' h h'
    cases k <;> simp only [UntaggedTypedData.switchCid, Option.some.injEq, Prod.mk.injEq,
      reduceCtorEq] at h <;>
      (obtain ⟨rfl, -⟩ := h
       cases k' <;> simp only [UntaggedTypedData.switchCid, Option.some.injEq, Prod.mk.injEq,
         reduceCtorEq, false_and] at h' <;> rfl)
  · intro n
    simp only [List.map_cons, List.map_nil, UntaggedTypedData.switchCid, sizeof_int8_t,
      sizeof_uint8_t, sizeof_int16_t, sizeof_uint16_t, sizeof_int32_t, sizeof_uint32_t,
      sizeof_int64_t, sizeof_uint64_t, sizeof_float, sizeof_double, mul_assoc]
    norm_num
  · intro k n
    cases k <;> simp [UntaggedTypedData.switchCid]

theorem C30_typed_data_size_tables_agree_witness :
    UntaggedExternalTypedData.switchCid kExternalTypedDataInt16ArrayCid 3 = some 6
      ∧ kTypedDataInt16ArrayCid = kTypedDataInt16ArrayCid :=
  ⟨C30_typed_data_size_tables_agree.1 kTypedDataInt16ArrayCid 3
      kExternalTypedDataInt16ArrayCid 6 (by decide),
    C30_typed_data_size_tables_agree.2.1 kTypedDataInt16ArrayCid kTypedDataInt16ArrayCid 3 5
      kExternalTypedDataInt16ArrayCid 6 10 (by decide) (by decide)⟩

/-! ## The packed byte of the type-system values -/

theorem combinedByte_unpack (hi lo : Int) (h1 : 0 ≤ hi) (h2 : hi < 16) (h3 : 0 ≤ lo)
    (h4 : lo < 16) :
    combinedByte hi lo = 16 * hi + lo ∧ combinedByte hi lo / 16 = hi
      ∧ combinedByte hi lo % 16 = lo := by
  have key : ∀ a b : Fin 16,
      ((((a.val <<< 4) ||| b.val) % 256 : Nat) : Int) = 16 * (a.val : Int) + (b.val : Int) := by
    decide
  obtain ⟨a, rfl⟩ := Int.eq_ofNat_of_zero_le h1
  obtain ⟨b, rfl⟩ := Int.eq_ofNat_of_zero_le h3
  have ha : a < 16 := by omega
  have hb : b < 16 := by omega
  have h := key ⟨a, ha⟩ ⟨b, hb⟩
  simp only [combinedByte, Int.toNat_ofNat]
  simp only at h
  rw [h]
  refine ⟨rfl, by omega, by omega⟩

/-- What `UntaggedType::WriteTo` appends for a type whose class is
    resolved. -/
theorem UntaggedType_WriteTo_stream (env : WriterEnv) (o : UntaggedType) (w : SnapshotWriter)
    (object_id : Int) (kind : Snapshot.Kind) (m : Bool) (c : Int)
    (hcls : o.type_class_id = .smi c) :
    UntaggedType.WriteTo env o w object_id kind m
      = some { w with stream := w.stream ++
          [.InlinedObjectHeader object_id, .IndexedObject kTypeCid, .WriteTags o.tags,
           .Write .bool_t (if ((UntaggedObject.ClassIdTag.decode
                (env.GetObjectTags (env.class_table_At c)) == kClassCid)
                && env.IsInFullSnapshot (env.class_table_At c)) = true then 1 else 0),
           .Write .uint8_t (combinedByte o.type_state_ o.nullability_)]
          ++ o.fields.map (fun p => Item.ObjectImpl p m)
          ++ [.ObjectImpl (env.class_table_At c) m] } := by
  simp only [UntaggedType.WriteTo, hcls, SnapshotWriter.VisitPointers_eq,
    SnapshotWriter.WriteInlinedObjectHeader, SnapshotWriter.WriteIndexedObject,
    SnapshotWriter.WriteTags, SnapshotWriter.Write, SnapshotWriter.WriteObjectImpl,
    SnapshotWriter.emit, List.append_assoc, List.cons_append, List.nil_append]

/-- Decoding of a type from its items after the header. -/
theorem Type_ReadFrom_stream (t : Target) (object_id : Int) (tags : Tags)
    (kind : Snapshot.Kind) (m : Bool) (b comb : Int) (fields : List ObjectPtr)
    (cls : ObjectPtr) (r : SnapshotReader)
    (hlen : fields.length = (t.to_minus_from kTypeCid + 1).toNat)
    (hs : r.stream = [.Write .bool_t b, .Write .uint8_t comb]
      ++ fields.map (fun p => Item.ObjectImpl p m) ++ [.ObjectImpl cls m]) :
    ∃ o' r', Type.ReadFrom t object_id tags kind m r = some (Obj.Type o', r')
      ∧ r'.stream = []
      ∧ o'.type_state_ = comb / 16 ∧ o'.nullability_ = comb % 16 ∧ o'.fields = fields
      ∧ r'.events.filter ReaderEvent.isStreamRead
          = r.events.filter ReaderEvent.isStreamRead
            ++ [.Read .bool_t b, .Read .uint8_t comb]
            ++ fields.map (fun p => ReaderEvent.ReadObjectImpl m p)
            ++ [.ReadObjectImpl m cls] := by
  simp only [Type.ReadFrom, SnapshotReader.Read, hs, if_true, List.cons_append,
    List.nil_append, List.append_assoc,
    READ_OBJECT_FIELDS, ← hlen, SnapshotReader.New, SnapshotReader.log,
    SnapshotReader.AddBackRef, SnapshotReader.StoreHandle, SnapshotReader.Canonicalize,
    SnapshotReader.EnqueueTypePostprocessing, FillInTypeTestingStub,
    bind, StateT.bind, pure, StateT.pure, Option.some_bind]
  rw [SnapshotReader.ReadObjects_map fields m m [.ObjectImpl cls m]]
  · cases hc : UntaggedObject.IsCanonical tags <;>
      (simp only [SnapshotReader.ReadObjectImpl, SnapshotReader.StoreHandle,
         SnapshotReader.Canonicalize, SnapshotReader.log, FillInTypeTestingStub,
         bind, StateT.bind, pure, StateT.pure, Option.some_bind, Bool.false_eq_true,
         if_false, if_true]
       refine ⟨_, _, rfl, rfl, rfl, rfl, rfl, ?_⟩
       simp [List.filter_append, List.filter_cons, ReaderEvent.isStreamRead,
         List.filter_map, Function.comp_def])
  · simp

/-- What `UntaggedTypeParameter::WriteTo` appends. -/
theorem UntaggedTypeParameter_WriteTo_stream (env : WriterEnv) (o : UntaggedTypeParameter)
    (w : SnapshotWriter) (object_id : Int) (kind : Snapshot.Kind) (m : Bool) :
    UntaggedTypeParameter.WriteTo env o w object_id kind m
      = some { w with stream := w.stream ++
          [.InlinedObjectHeader object_id, .IndexedObject kTypeParameterCid, .WriteTags o.tags,
           .Write .uint8_t o.base_, .Write .uint8_t o.index_,
           .Write .uint8_t (combinedByte o.flags_ o.nullability_)]
          ++ o.fields.map (fun p => Item.ObjectImpl p true)
          ++ [.ObjectImpl (env.class_table_At o.parameterized_class_id_) true] } := by
  simp only [UntaggedTypeParameter.WriteTo, SnapshotWriter.VisitPointers_eq,
    SnapshotWriter.WriteInlinedObjectHeader, SnapshotWriter.WriteIndexedObject,
    SnapshotWriter.WriteTags, SnapshotWriter.Write, SnapshotWriter.WriteObjectImpl,
    SnapshotWriter.emit, List.append_assoc, List.cons_append, List.nil_append, kAsReference]

/-- Decoding of a type parameter from its items after the header. -/
theorem TypeParameter_ReadFrom_stream (t : Target) (object_id : Int) (tags : Tags)
    (kind : Snapshot.Kind) (m : Bool) (base index comb : Int) (fields : List ObjectPtr)
    (cls : ObjectPtr) (m' : Bool) (r : SnapshotReader)
    (hlen : fields.length = (t.to_minus_from kTypeParameterCid + 1).toNat)
    (hs : r.stream = [.Write .uint8_t base, .Write .uint8_t index, .Write .uint8_t comb]
      ++ fields.map (fun p => Item.ObjectImpl p m') ++ [.ObjectImpl cls m']) :
    ∃ o' r', TypeParameter.ReadFrom t object_id tags kind m r = some (Obj.TypeParameter o', r')
      ∧ r'.stream = []
      ∧ o'.base_ = base ∧ o'.index_ = index
      ∧ o'.flags_ = comb / 16 ∧ o'.nullability_ = comb % 16 ∧ o'.fields = fields
      ∧ r'.events.filter ReaderEvent.isStreamRead
          = r.events.filter ReaderEvent.isStreamRead
            ++ [.Read .uint8_t base, .Read .uint8_t index, .Read .uint8_t comb]
            ++ fields.map (fun p => ReaderEvent.ReadObjectImpl true p)
            ++ [.ReadObjectImpl true cls] := by
  simp only [TypeParameter.ReadFrom, SnapshotReader.Read, hs, if_true, List.cons_append,
    List.nil_append, List.append_assoc,
    READ_OBJECT_FIELDS, ← hlen, SnapshotReader.New, SnapshotReader.log,
    SnapshotReader.AddBackRef, SnapshotReader.StoreHandle, SnapshotReader.Canonicalize,
    SnapshotReader.EnqueueTypePostprocessing, FillInTypeTestingStub,
    bind, StateT.bind, pure, StateT.pure, Option.some_bind, kAsReference]
  rw [SnapshotReader.ReadObjects_map fields m' true [.ObjectImpl cls m']]
  · cases hc : UntaggedObject.IsCanonical tags <;>
      (simp only [SnapshotReader.ReadObjectImpl, SnapshotReader.StoreHandle,
         SnapshotReader.Canonicalize, SnapshotReader.log, FillInTypeTestingStub,
         bind, StateT.bind, pure, StateT.pure, Option.some_bind, Bool.false_eq_true,
         if_false, if_true]
       refine ⟨_, _, rfl, rfl, rfl, rfl, rfl, rfl, rfl, ?_⟩
       simp [List.filter_append, List.filter_cons, ReaderEvent.isStreamRead,
         List.filter_map, Function.comp_def])
  · simp

/-- Decoding of the one object a writer produced, when its stream starts with
    a header, an indexed kind tag and the tags. -/
theorem SnapshotReader.ReadInlinedObject_indexed (t : Target) (kind : Snapshot.Kind)
    (m : Bool) (w : SnapshotWriter) (object_id : Int) (cid : ClassId) (tags : Tags)
    (payload : List Item)
    (hs : w.stream = .InlinedObjectHeader object_id :: .IndexedObject cid :: .WriteTags tags
      :: payload) :
    SnapshotReader.ReadInlinedObject t kind m w.toReader
      = ReadFromOf t cid object_id (UntaggedObject.ClassIdTag.update cid tags) kind m
          (SnapshotReader.init payload w.finalizable_data) := by
  simp only [SnapshotReader.ReadInlinedObject, SnapshotWriter.toReader, SnapshotReader.init, hs]

/-- Decoding of the one object a writer produced, when its stream starts with
    a header, a predefined kind tag and the tags. -/
theorem SnapshotReader.ReadInlinedObject_vmIsolate (t : Target) (kind : Snapshot.Kind)
    (m : Bool) (w : SnapshotWriter) (object_id : Int) (cid : ClassId) (tags : Tags)
    (payload : List Item)
    (hs : w.stream = .InlinedObjectHeader object_id :: .VMIsolateObject cid :: .WriteTags tags
      :: payload) :
    SnapshotReader.ReadInlinedObject t kind m w.toReader
      = ReadFromOf t cid object_id (UntaggedObject.ClassIdTag.update cid tags) kind m
          (SnapshotReader.init payload w.finalizable_data) := by
  simp only [SnapshotReader.ReadInlinedObject, SnapshotWriter.toReader, SnapshotReader.init, hs]

/-- C29. Packed state/nullability byte round trip.  For a type whose state
    and nullability lie in `0 .. 15` (its type class resolved, its slots those
    of the layout), `UntaggedType::WriteTo` writes the byte `16 * state +
    nullability`, that is `(state << 4) | nullability`, and `Type::ReadFrom`
    on the stream written returns a type with the same state (`byte >> 4`)
    and the same nullability (`byte & 0xf`).  For a type parameter whose flags
    and nullability lie in `0 .. 15`, `UntaggedTypeParameter::WriteTo` writes
    the bytes base, index and `16 * flags + nullability`, and
    `TypeParameter::ReadFrom` returns a type parameter with the same base,
    index, flags and nullability. -/
theorem C29_packed_byte_roundtrip (t : Target) (env : WriterEnv) (o : UntaggedType)
    (p : UntaggedTypeParameter) (h : Heap) (object_id : Int) (kind : Snapshot.Kind) (m : Bool)
    (c : Int)
    (hs : 0 ≤ o.type_state_ ∧ o.type_state_ < 16)
    (hn : 0 ≤ o.nullability_ ∧ o.nullability_ < 16)
    (hcls : o.type_class_id = .smi c)
    (hlen : o.fields.length = (t.to_minus_from kTypeCid + 1).toNat)
    (hf : 0 ≤ p.flags_ ∧ p.flags_ < 16)
    (hpn : 0 ≤ p.nullability_ ∧ p.nullability_ < 16)
    (hplen : p.fields.length = (t.to_minus_from kTypeParameterCid + 1).toNat) :
    (∃ w' o' r',
        UntaggedType.WriteTo env o (SnapshotWriter.init h) object_id kind m = some w'
        ∧ w'.stream.get? 4 = some (.Write .uint8_t (16 * o.type_state_ + o.nullability_))
        ∧ SnapshotReader.ReadInlinedObject t kind m w'.toReader = some (Obj.Type o', r')
        ∧ o'.type_state_ = o.type_state_ ∧ o'.nullability_ = o.nullability_)
      ∧ (∃ w' o' r',
        UntaggedTypeParameter.WriteTo env p (SnapshotWriter.init h) object_id kind m = some w'
        ∧ (w'.stream.drop 3).take 3
            = [.Write .uint8_t p.base_, .Write .uint8_t p.index_,
               .Write .uint8_t (16 * p.flags_ + p.nullability_)]
        ∧ SnapshotReader.ReadInlinedObject t kind m w'.toReader
            = some (Obj.TypeParameter o', r')
        ∧ o'.base_ = p.base_ ∧ o'.index_ = p.index_
        ∧ o'.flags_ = p.flags_ ∧ o'.nullability_ = p.nullability_) := by
  obtain ⟨hb1, hd1, hm1⟩ := combinedByte_unpack _ _ hs.1 hs.2 hn.1 hn.2
  obtain ⟨hb2, hd2, hm2⟩ := combinedByte_unpack _ _ hf.1 hf.2 hpn.1 hpn.2
  constructor
  · have hw := UntaggedType_WriteTo_stream env o (SnapshotWriter.init h) object_id kind m c hcls
    obtain ⟨o', r', hr, -, hst, hnl, -, -⟩ := Type_ReadFrom_stream t object_id
      (UntaggedObject.ClassIdTag.update kTypeCid o.tags) kind m
      (if ((UntaggedObject.ClassIdTag.decode
          (env.GetObjectTags (env.class_table_At c)) == kClassCid)
          && env.IsInFullSnapshot (env.class_table_At c)) = true then 1 else 0)
      (combinedByte o.type_state_ o.nullability_) o.fields (env.class_table_At c)
      (SnapshotReader.init ([Item.Write .bool_t (if ((UntaggedObject.ClassIdTag.decode
                (env.GetObjectTags (env.class_table_At c)) == kClassCid)
                && env.IsInFullSnapshot (env.class_table_At c)) = true then 1 else 0),
           Item.Write .uint8_t (combinedByte o.type_state_ o.nullability_)]
          ++ o.fields.map (fun p => Item.ObjectImpl p m)
          ++ [Item.ObjectImpl (env.class_table_At c) m]) MessageFinalizableData.empty) hlen rfl
    refine ⟨_, o', r', hw, ?_, ?_, by rw [hst, hd1], by rw [hnl, hm1]⟩
    · simp [SnapshotWriter.init, hb1]
    · rw [SnapshotReader.ReadInlinedObject_indexed t kind m _ object_id kTypeCid o.tags _
        rfl]
      exact hr
  · have hw := UntaggedTypeParameter_WriteTo_stream env p (SnapshotWriter.init h) object_id
      kind m
    obtain ⟨o', r', hr, -, hba, hix, hfl, hnl, -, -⟩ := TypeParameter_ReadFrom_stream t object_id
      (UntaggedObject.ClassIdTag.update kTypeParameterCid p.tags) kind m p.base_ p.index_
      (combinedByte p.flags_ p.nullability_) p.fields
      (env.class_table_At p.parameterized_class_id_) true
      (SnapshotReader.init ([Item.Write .uint8_t p.base_, Item.Write .uint8_t p.index_,
           Item.Write .uint8_t (combinedByte p.flags_ p.nullability_)]
          ++ p.fields.map (fun p => Item.ObjectImpl p true)
          ++ [Item.ObjectImpl (env.class_table_At p.parameterized_class_id_) true])
        MessageFinalizableData.empty) hplen rfl
    refine ⟨_, o', r', hw, ?_, ?_, hba, hix, by rw [hfl, hd2], by rw [hnl, hm2]⟩
    · simp [SnapshotWriter.init, hb2]
    · rw [SnapshotReader.ReadInlinedObject_indexed t kind m _ object_id kTypeParameterCid
        p.tags _ rfl]
      exact hr

theorem C29_packed_byte_roundtrip_witness :
    (∃ w' o' r',
        UntaggedType.WriteTo WriterEnv.strict sampleType (SnapshotWriter.init Heap.empty) 1
          .kMessage false = some w'
        ∧ w'.stream.get? 4
            = some (.Write .uint8_t (16 * sampleType.type_state_ + sampleType.nullability_))
        ∧ SnapshotReader.ReadInlinedObject Target.x64 .kMessage false w'.toReader
            = some (Obj.Type o', r')
        ∧ o'.type_state_ = sampleType.type_state_ ∧ o'.nullability_ = sampleType.nullability_)
      ∧ (∃ w' o' r',
        UntaggedTypeParameter.WriteTo WriterEnv.strict sampleTypeParameter
          (SnapshotWriter.init Heap.empty) 1 .kMessage false = some w'
        ∧ (w'.stream.drop 3).take 3
            = [.Write .uint8_t sampleTypeParameter.base_,
               .Write .uint8_t sampleTypeParameter.index_,
               .Write .uint8_t (16 * sampleTypeParameter.flags_
                 + sampleTypeParameter.nullability_)]
        ∧ SnapshotReader.ReadInlinedObject Target.x64 .kMessage false w'.toReader
            = some (Obj.TypeParameter o', r')
        ∧ o'.base_ = sampleTypeParameter.base_ ∧ o'.index_ = sampleTypeParameter.index_
        ∧ o'.flags_ = sampleTypeParameter.flags_
        ∧ o'.nullability_ = sampleTypeParameter.nullability_) :=
  C29_packed_byte_roundtrip Target.x64 WriterEnv.strict sampleType sampleTypeParameter
    Heap.empty 1 .kMessage false 5 (by decide) (by decide) rfl (by decide) (by decide)
    (by decide) (by decide)

/-! ## Deferred work: postprocessing queues and type-testing stubs -/

theorem Defers_append {α β : Type} {l1 l2 : List ReaderEvent} {x : Rd α} {f : α → Rd β}
    (hx : Defers l1 x) (hf : ∀ a, Defers l2 (f a)) : Defers (l1 ++ l2) (x >>= f) := by
  intro r b r' h
  obtain ⟨a, r1, h1, h2⟩ := Rd_bind_eq_some x f r b r' h
  obtain ⟨⟨e1, he1, hf1⟩, ht1, hm1⟩ := hx r a r1 h1
  obtain ⟨⟨e2, he2, hf2⟩, ht2, hm2⟩ := hf a r1 b r' h2
  refine ⟨⟨e1 ++ e2, by rw [he2, he1, List.append_assoc], by
    rw [List.filter_append, hf1, hf2]⟩, ?_, ?_⟩
  · rw [ht2, ht1, List.filterMap_append, List.append_assoc]
  · rw [hm2, hm1, List.filterMap_append, List.append_assoc]

theorem Defers_skip {α β : Type} {l : List ReaderEvent} {x : Rd α} {f : α → Rd β}
    (hx : Defers [] x) (hf : ∀ a, Defers l (f a)) : Defers l (x >>= f) :=
  Defers_append hx hf

theorem Defers_cons {α β : Type} {e : ReaderEvent} {l : List ReaderEvent} {x : Rd α}
    {f : α → Rd β} (hx : Defers [e] x) (hf : ∀ a, Defers l (f a)) :
    Defers (e :: l) (x >>= f) :=
  Defers_append hx hf

theorem Defers_UNREACHABLE {α : Type} (l : List ReaderEvent) :
    Defers l (UNREACHABLE : Rd α) := by
  intro r b r' h
  exact absurd h (by simp [Dart.UNREACHABLE])

theorem Defers_pure {α : Type} (a : α) : Defers [] (pure a : Rd α) := by
  intro r b r' h
  simp only [Pure.pure, StateT.pure, Option.some.injEq, Prod.mk.injEq] at h
  obtain ⟨-, rfl⟩ := h
  exact ⟨⟨[], by simp, rfl⟩, by simp, by simp⟩

theorem Defers_log (e : ReaderEvent) (he : e.isDeferredWork = false) :
    Defers [] (SnapshotReader.log e) := by
  intro r b r' h
  simp only [SnapshotReader.log, Option.some.injEq, Prod.mk.injEq] at h
  obtain ⟨-, rfl⟩ := h
  exact ⟨⟨[e], rfl, by simp [List.filter_cons, he]⟩, by simp, by simp⟩

theorem Defers_Read (ty : ScalarType) : Defers [] (SnapshotReader.Read ty) := by
  intro r b r' h
  simp only [SnapshotReader.Read] at h
  split at h
  · split_ifs at h with ht
    simp only [Option.some.injEq, Prod.mk.injEq] at h
    obtain ⟨-, rfl⟩ := h
    exact ⟨⟨[.Read ty _], rfl, rfl⟩, by simp, by simp⟩
  · exact absurd h (by simp)

theorem Defers_ReadSmiValue : Defers [] SnapshotReader.ReadSmiValue := Defers_Read _

theorem Defers_ReadDouble : Defers [] SnapshotReader.ReadDouble := Defers_Read _

theorem Defers_New (cid : ClassId) : Defers [] (SnapshotReader.New cid) := Defers_log _ rfl

theorem Defers_Canonicalize (object_id : Int) :
    Defers [] (SnapshotReader.Canonicalize object_id) := Defers_log _ rfl

theorem Defers_Align (a : Nat) : Defers [] (SnapshotReader.Align a) := by
  intro r b r' h
  simp only [SnapshotReader.Align] at h
  split at h
  · split_ifs at h with ht
    simp only [Option.some.injEq, Prod.mk.injEq] at h
    obtain ⟨-, rfl⟩ := h
    exact ⟨⟨[.Align a], rfl, rfl⟩, by simp, by simp⟩
  · exact absurd h (by simp)

theorem Defers_ReadN (ty : ScalarType) (n : Nat) : Defers [] (SnapshotReader.ReadN ty n) := by
  induction n with
  | zero => exact Defers_pure _
  | succ n ih =>
    unfold SnapshotReader.ReadN
    exact Defers_skip (Defers_Read _) (fun _ => Defers_skip ih (fun _ => Defers_pure _))

theorem Defers_ReadBytes (len : Int) : Defers [] (SnapshotReader.ReadBytes len) := by
  unfold SnapshotReader.ReadBytes
  exact Defers_skip (Defers_ReadN _ _) (fun _ => Defers_pure _)

theorem Defers_GetBackRef (object_id : Int) :
    Defers [] (SnapshotReader.GetBackRef object_id) := by
  intro r b r' h
  simp only [SnapshotReader.GetBackRef, Option.some.injEq, Prod.mk.injEq] at h
  obtain ⟨-, rfl⟩ := h
  exact ⟨⟨[.GetBackRef object_id], rfl, rfl⟩, by simp, by simp⟩

theorem Defers_AddBackRef (object_id : Int) (obj : Obj) (st : DeserializeState) :
    Defers [] (SnapshotReader.AddBackRef object_id obj st) := by
  intro r b r' h
  simp only [SnapshotReader.AddBackRef, Option.some.injEq, Prod.mk.injEq] at h
  obtain ⟨-, rfl⟩ := h
  exact ⟨⟨[.AddBackRef object_id st], rfl, rfl⟩, by simp, by simp⟩

theorem Defers_StoreHandle (object_id : Int) (obj : Obj) :
    Defers [] (SnapshotReader.StoreHandle object_id obj) := by
  intro r b r' h
  simp only [SnapshotReader.StoreHandle, Option.some.injEq, Prod.mk.injEq] at h
  obtain ⟨-, rfl⟩ := h
  exact ⟨⟨[], by simp, rfl⟩, by simp, by simp⟩

theorem Defers_Take : Defers [] SnapshotReader.Take := by
  intro r b r' h
  simp only [SnapshotReader.Take] at h
  split at h
  · simp only [Option.some.injEq, Prod.mk.injEq] at h
    obtain ⟨-, rfl⟩ := h
    exact ⟨⟨[.Take], rfl, rfl⟩, by simp, by simp⟩
  · exact absurd h (by simp)

theorem Defers_freshAddr : Defers [] SnapshotReader.freshAddr := by
  intro r b r' h
  simp only [SnapshotReader.freshAddr, Option.some.injEq, Prod.mk.injEq] at h
  obtain ⟨-, rfl⟩ := h
  exact ⟨⟨[], by simp, rfl⟩, by simp, by simp⟩

theorem Defers_EnqueueTypePostprocessing (object_id : Int) :
    Defers [.EnqueueTypePostprocessing object_id]
      (SnapshotReader.EnqueueTypePostprocessing object_id) := by
  intro r b r' h
  simp only [SnapshotReader.EnqueueTypePostprocessing, Option.some.injEq, Prod.mk.injEq] at h
  obtain ⟨-, rfl⟩ := h
  exact ⟨⟨[.EnqueueTypePostprocessing object_id], rfl, rfl⟩, by
    simp [ReaderEvent.typeEntry], by simp [ReaderEvent.mapEntry]⟩

theorem Defers_EnqueueRehashingOfMap (object_id : Int) :
    Defers [.EnqueueRehashingOfMap object_id]
      (SnapshotReader.EnqueueRehashingOfMap object_id) := by
  intro r b r' h
  simp only [SnapshotReader.EnqueueRehashingOfMap, Option.some.injEq, Prod.mk.injEq] at h
  obtain ⟨-, rfl⟩ := h
  exact ⟨⟨[.EnqueueRehashingOfMap object_id], rfl, rfl⟩, by
    simp [ReaderEvent.typeEntry], by simp [ReaderEvent.mapEntry]⟩

theorem Defers_stub_log (e : ReaderEvent) (he : e.isDeferredWork = true)
    (h1 : e.typeEntry = none) (h2 : e.mapEntry = none) :
    Defers [e] (SnapshotReader.log e) := by
  intro r b r' h
  simp only [SnapshotReader.log, Option.some.injEq, Prod.mk.injEq] at h
  obtain ⟨-, rfl⟩ := h
  exact ⟨⟨[e], rfl, by simp [List.filter_cons, he]⟩, by simp [h1], by simp [h2]⟩

theorem Defers_fillInStub {β : Type} (object_id : Int) {l : List ReaderEvent}
    {f : Unit → Rd β} (hf : ∀ a, Defers l (f a)) :
    Defers (.DefaultCodeForType object_id :: .InitializeTypeTestingStubNonAtomic object_id :: l)
      (FillInTypeTestingStub object_id >>= f) := by
  have h : Defers [.DefaultCodeForType object_id,
      .InitializeTypeTestingStubNonAtomic object_id] (FillInTypeTestingStub object_id) := by
    unfold Dart.FillInTypeTestingStub
    exact Defers_cons (Defers_stub_log _ rfl rfl rfl) (fun _ => Defers_stub_log _ rfl rfl rfl)
  exact Defers_append h hf

theorem Defers_fillInStub_last (object_id : Int) :
    Defers [.DefaultCodeForType object_id, .InitializeTypeTestingStubNonAtomic object_id]
      (FillInTypeTestingStub object_id) := by
  unfold Dart.FillInTypeTestingStub
  exact Defers_cons (Defers_stub_log _ rfl rfl rfl) (fun _ => Defers_stub_log _ rfl rfl rfl)

theorem Defers_Mint_New (v : Int) : Defers [] (Mint.New v) := by
  unfold Mint.New
  exact Defers_skip (Defers_log _ rfl) (fun _ => Defers_pure _)

theorem Defers_Mint_NewCanonical (v : Int) : Defers [] (Mint.NewCanonical v) := by
  unfold Mint.NewCanonical
  exact Defers_skip (Defers_log _ rfl) (fun _ => Defers_pure _)

theorem Defers_Double_New (v : Int) : Defers [] (Double.New v) := by
  unfold Double.New
  exact Defers_skip (Defers_log _ rfl) (fun _ => Defers_pure _)

theorem Defers_Double_NewCanonical (v : Int) : Defers [] (Double.NewCanonical v) := by
  unfold Double.NewCanonical
  exact Defers_skip (Defers_log _ rfl) (fun _ => Defers_pure _)

theorem Defers_Array_New (cid : ClassId) (len : Int) : Defers [] (Array.New cid len) := by
  unfold Array.New
  exact Defers_skip (Defers_New _) (fun _ => Defers_pure _)

theorem Defers_ReadObjectImpl (m : Bool) : Defers [] (SnapshotReader.ReadObjectImpl m) := by
  intro r b r' h
  simp only [SnapshotReader.ReadObjectImpl] at h
  split at h
  · simp only [Option.some.injEq, Prod.mk.injEq] at h
    obtain ⟨-, rfl⟩ := h
    exact ⟨⟨[.ReadObjectImpl m _], rfl, rfl⟩, by simp, by simp⟩
  · simp only [Option.some.injEq, Prod.mk.injEq] at h
    obtain ⟨-, rfl⟩ := h
    exact ⟨⟨[.ReadObjectImpl m _], rfl, rfl⟩, by simp, by simp⟩
  · exact absurd h (by simp)

theorem Defers_ReadObjects (m : Bool) (n : Nat) :
    Defers [] (SnapshotReader.ReadObjects m n) := by
  induction n with
  | zero => exact Defers_pure _
  | succ n ih =>
    unfold SnapshotReader.ReadObjects
    exact Defers_skip (Defers_ReadObjectImpl _) (fun _ => Defers_skip ih (fun _ => Defers_pure _))

theorem Defers_READ_OBJECT_FIELDS (n : Int) (m : Bool) : Defers [] (READ_OBJECT_FIELDS n m) :=
  Defers_ReadObjects _ _

theorem Defers_loop (m : Bool) (n i : Nat) (data : List ObjectPtr) :
    Defers [] (LinkedHashMap.ReadFrom.loop m n i data) := by
  induction n generalizing i data with
  | zero => exact Defers_pure _
  | succ n ih =>
    unfold LinkedHashMap.ReadFrom.loop
    exact Defers_skip (Defers_ReadObjectImpl _) (fun _ => ih _ _)

theorem Defers_ArrayReadFrom (object_id : Int) (result : UntaggedArray) (len : Int)
    (tags : Tags) : Defers [] (SnapshotReader.ArrayReadFrom object_id result len tags) := by
  unfold SnapshotReader.ArrayReadFrom
  exact Defers_skip (Defers_ReadObjectImpl _)
    (fun _ => Defers_skip (Defers_ReadObjects _ _) (fun _ => Defers_pure _))

theorem Defers_Class_ReadFrom (object_id : Int) (tags : Tags) (kind : Snapshot.Kind)
    (m : Bool) : Defers [] (Class.ReadFrom object_id tags kind m) := by
  intro r b r' h
  simp only [Class.ReadFrom] at h
  split at h
  · simp only [Option.some.injEq, Prod.mk.injEq] at h
    obtain ⟨-, rfl⟩ := h
    exact ⟨⟨[.ReadClassId _], rfl, rfl⟩, by simp, by simp⟩
  · exact absurd h (by simp)

theorem Defers_String_ReadFromImpl (cid : ClassId) (ty : ScalarType) (len : Int) (tags : Tags)
    (kind : Snapshot.Kind) : Defers [] (String.ReadFromImpl cid ty len tags kind) := by
  unfold String.ReadFromImpl
  repeat' first
    | exact Defers_pure _
    | exact Defers_New _
    | exact Defers_ReadN _ _
    | exact Defers_log _ rfl
    | refine Defers_skip ?_ (fun _ => ?_)
    | split

theorem Defers_prepare (cid : ClassId) (object_id : Int) (m : Bool) (len : Int) :
    Defers [] (Array.ReadFrom.prepare cid object_id m len) := by
  unfold Array.ReadFrom.prepare
  repeat' first
    | exact Defers_UNREACHABLE _
    | exact Defers_pure _
    | exact Defers_GetBackRef _
    | exact Defers_Array_New _ _
    | exact Defers_AddBackRef _ _ _
    | refine Defers_skip ?_ (fun _ => ?_)
    | split
    | dsimp only

/-- The three typed-buffer decoders neither enqueue anything nor call the
    stub generator. -/
theorem typed_decoders_defer (t : Target) (object_id : Int) (tags : Tags)
    (kind : Snapshot.Kind) (m : Bool) :
    Defers [] (TypedData.ReadFrom t object_id tags kind m)
      ∧ Defers [] (ExternalTypedData.ReadFrom t object_id tags kind m)
      ∧ Defers [] (TypedDataView.ReadFrom object_id tags kind m) := by
  refine ⟨?_, ?_, ?_⟩ <;>
  (change Defers _ (_ >>= _)
   repeat' first
     | exact Defers_pure _
     | exact Defers_Read _
     | exact Defers_ReadSmiValue
     | exact Defers_New _
     | exact Defers_Canonicalize _
     | exact Defers_Align _
     | exact Defers_ReadBytes _
     | exact Defers_AddBackRef _ _ _
     | exact Defers_StoreHandle _ _
     | exact Defers_Take
     | exact Defers_ReadObjectImpl _
     | exact Defers_log _ rfl
     | refine Defers_skip ?_ (fun _ => ?_)
     | split)

theorem deferredWorkOf_nil_of_typed (cid : ClassId) (object_id : Int)
    (h : IsTypedDataClassId cid = true ∨ IsExternalTypedDataClassId cid = true
      ∨ IsTypedDataViewClassId cid = true) : deferredWorkOf cid object_id = [] := by
  cases cid <;> first
    | rfl
    | (simp [IsTypedDataClassId, IsExternalTypedDataClassId, IsTypedDataViewClassId,
        UntaggedTypedData.switchCid, UntaggedExternalTypedData.switchCid] at h)

set_option maxHeartbeats 2000000 in
/-- The enqueueings and stub-generator steps of the decoder a kind tag
    selects are those of `deferredWorkOf`, and its queue entries are theirs. -/
theorem ReadFromOf_defers (t : Target) (cid : ClassId) (object_id : Int) (tags : Tags)
    (kind : Snapshot.Kind) (m : Bool) :
    Defers (deferredWorkOf cid object_id) (ReadFromOf t cid object_id tags kind m) := by
  by_cases hT : IsTypedDataClassId cid = true
  · rw [ReadFromOf_typedData t cid hT, deferredWorkOf_nil_of_typed cid object_id (Or.inl hT)]
    exact (typed_decoders_defer t object_id tags kind m).1
  by_cases hE : IsExternalTypedDataClassId cid = true
  · rw [ReadFromOf_externalTypedData t cid hE,
      deferredWorkOf_nil_of_typed cid object_id (Or.inr (Or.inl hE))]
    exact (typed_decoders_defer t object_id tags kind m).2.1
  by_cases hV : IsTypedDataViewClassId cid = true
  · rw [ReadFromOf_view t cid hV, deferredWorkOf_nil_of_typed cid object_id (Or.inr (Or.inr hV))]
    exact (typed_decoders_defer t object_id tags kind m).2.2
  cases cid <;> first
    | exact absurd rfl hT
    | exact absurd rfl hE
    | exact absurd rfl hV
    | exact Defers_UNREACHABLE _
    | exact Defers_Class_ReadFrom object_id tags kind m
    | (change Defers _ (_ >>= _)
       repeat' first
         | exact Defers_UNREACHABLE _
         | exact Defers_fillInStub_last _
         | refine Defers_cons (Defers_EnqueueTypePostprocessing _) (fun _ => ?_)
         | refine Defers_cons (Defers_EnqueueRehashingOfMap _) (fun _ => ?_)
         | refine Defers_fillInStub _ (fun _ => ?_)
         | exact Defers_pure _
         | exact Defers_Read _
         | exact Defers_ReadSmiValue
         | exact Defers_ReadDouble
         | exact Defers_New _
         | exact Defers_Canonicalize _
         | exact Defers_Align _
         | exact Defers_ReadBytes _
         | exact Defers_ReadN _ _
         | exact Defers_GetBackRef _
         | exact Defers_AddBackRef _ _ _
         | exact Defers_StoreHandle _ _
         | exact Defers_Take
         | exact Defers_freshAddr
         | exact Defers_Mint_New _
         | exact Defers_Mint_NewCanonical _
         | exact Defers_Double_New _
         | exact Defers_Double_NewCanonical _
         | exact Defers_Array_New _ _
         | exact Defers_String_ReadFromImpl _ _ _ _ _
         | exact Defers_prepare _ _ _ _
         | exact Defers_ReadObjectImpl _
         | exact Defers_ReadObjects _ _
         | exact Defers_READ_OBJECT_FIELDS _ _
         | exact Defers_loop _ _ _ _
         | exact Defers_ArrayReadFrom _ _ _ _
         | exact Defers_log _ rfl
         | refine Defers_skip ?_ (fun _ => ?_)
         | split)

theorem ReaderEvent.filterMap_typeEntry_filter (l : List ReaderEvent) :
    (l.filter ReaderEvent.isDeferredWork).filterMap ReaderEvent.typeEntry
      = l.filterMap ReaderEvent.typeEntry := by
  induction l with
  | nil => rfl
  | cons e es ih =>
    cases e <;> simp [List.filter_cons, ReaderEvent.isDeferredWork, ReaderEvent.typeEntry, ih]

theorem ReaderEvent.filterMap_mapEntry_filter (l : List ReaderEvent) :
    (l.filter ReaderEvent.isDeferredWork).filterMap ReaderEvent.mapEntry
      = l.filterMap ReaderEvent.mapEntry := by
  induction l with
  | nil => rfl
  | cons e es ih =>
    cases e <;> simp [List.filter_cons, ReaderEvent.isDeferredWork, ReaderEvent.mapEntry, ih]

theorem deferredWorkOf_typeEntry (cid : ClassId) (object_id : Int) :
    (deferredWorkOf cid object_id).filterMap ReaderEvent.typeEntry
      = if cid = kTypeCid ∨ cid = kTypeRefCid ∨ cid = kTypeParameterCid then [object_id]
        else [] := by
  cases cid <;> rfl

theorem deferredWorkOf_mapEntry (cid : ClassId) (object_id : Int) :
    (deferredWorkOf cid object_id).filterMap ReaderEvent.mapEntry
      = if cid = kLinkedHashMapCid then [object_id] else [] := by
  cases cid <;> rfl

/-- C23. Deferred postprocessing is enqueued exactly once per decoded object.
    Whenever the decoder a kind tag selects returns, the type-postprocessing
    queue has grown by exactly the entry of the object decoded if the decoder is
    `Type::ReadFrom`, `TypeRef::ReadFrom` or `TypeParameter::ReadFrom` and is
    unchanged otherwise; the queue of maps to rehash has grown by exactly the
    entry of the map if the decoder is `LinkedHashMap::ReadFrom` and is
    unchanged otherwise; and these are all the enqueueing calls the decoder
    made. -/
theorem C23_enqueued_exactly_once (t : Target) (cid : ClassId) (object_id : Int) (tags : Tags)
    (kind : Snapshot.Kind) (m : Bool) (r : SnapshotReader) (o : Obj) (r' : SnapshotReader)
    (h : ReadFromOf t cid object_id tags kind m r = some (o, r')) :
    r'.types_to_postprocess = r.types_to_postprocess
        ++ (if cid = kTypeCid ∨ cid = kTypeRefCid ∨ cid = kTypeParameterCid then [object_id]
            else [])
      ∧ r'.maps_to_rehash = r.maps_to_rehash
          ++ (if cid = kLinkedHashMapCid then [object_id] else [])
      ∧ ∃ l, r'.events = r.events ++ l
          ∧ l.filterMap ReaderEvent.typeEntry
              = (if cid = kTypeCid ∨ cid = kTypeRefCid ∨ cid = kTypeParameterCid then
                  [object_id] else [])
          ∧ l.filterMap ReaderEvent.mapEntry
              = (if cid = kLinkedHashMapCid then [object_id] else []) := by
  obtain ⟨⟨l, hl, hf⟩, ht, hm⟩ := ReadFromOf_defers t cid object_id tags kind m r o r' h
  rw [deferredWorkOf_typeEntry] at ht
  rw [deferredWorkOf_mapEntry] at hm
  refine ⟨ht, hm, l, hl, ?_, ?_⟩
  · rw [← ReaderEvent.filterMap_typeEntry_filter, hf, deferredWorkOf_typeEntry]
  · rw [← ReaderEvent.filterMap_mapEntry_filter, hf, deferredWorkOf_mapEntry]

theorem C23_enqueued_exactly_once_witness :
    ∃ o r', ReadFromOf Target.x64 kTypeRefCid 1 ⟨kTypeRefCid, false⟩ .kMessage false
        (SnapshotReader.init [.ObjectImpl Object.null true, .ObjectImpl (.heap 9) true,
          .ObjectImpl (.smi 0) true] .empty) = some (o, r')
      ∧ r'.types_to_postprocess = [1] ∧ r'.maps_to_rehash = [] :=
  ⟨_, _, rfl,
    (C23_enqueued_exactly_once Target.x64 kTypeRefCid 1 ⟨kTypeRefCid, false⟩ .kMessage false
      (SnapshotReader.init [.ObjectImpl Object.null true, .ObjectImpl (.heap 9) true,
          .ObjectImpl (.smi 0) true] .empty) _ _ rfl).1,
    rfl⟩

/-- C22, counterexample: `LinkedHashMap::ReadFrom` on the stream of an empty
    map, with the canonical bit set in the tags: the decoder enqueues the map
    for rehashing, and returns it with the sentinel hash mask `0`, no index
    built. -/
theorem C22_counterexample :
    ∃ mp r', LinkedHashMap.ReadFrom Target.x64 1 ⟨kLinkedHashMapCid, true⟩ .kMessage false
        (SnapshotReader.init [.ObjectImpl Object.null false, .Write .ObjectPtr 0] .empty)
        = some (Obj.LinkedHashMap mp, r')
      ∧ r'.maps_to_rehash = [1]
      ∧ r'.events = [.New kLinkedHashMapCid, .AddBackRef 1 .kIsDeserialized,
          .ReadObjectImpl false Object.null, .Read .ObjectPtr 0, .New kArrayCid,
          .EnqueueRehashingOfMap 1]
      ∧ mp.hash_mask = 0 :=
  ⟨_, _, rfl, rfl, rfl, rfl⟩

/-- The map `LinkedHashMap::ReadFrom` returns has the sentinel hash mask `0`
    and no deleted keys. -/
theorem LinkedHashMap.ReadFrom_hash_mask (t : Target) (object_id : Int) (tags : Tags)
    (kind : Snapshot.Kind) (m : Bool) (r : SnapshotReader) (o : Obj) (r' : SnapshotReader)
    (h : LinkedHashMap.ReadFrom t object_id tags kind m r = some (o, r')) :
    ∃ mp, o = Obj.LinkedHashMap mp ∧ mp.hash_mask = 0 ∧ mp.deleted_keys = 0 := by
  unfold LinkedHashMap.ReadFrom at h
  obtain ⟨_, r1, -, h⟩ := Rd_bind_eq_some _ _ _ _ _ h
  obtain ⟨_, r2, -, h⟩ := Rd_bind_eq_some _ _ _ _ _ h
  obtain ⟨_, r3, -, h⟩ := Rd_bind_eq_some _ _ _ _ _ h
  obtain ⟨_, r4, -, h⟩ := Rd_bind_eq_some _ _ _ _ _ h
  obtain ⟨_, r5, -, h⟩ := Rd_bind_eq_some _ _ _ _ _ h
  obtain ⟨_, r6, -, h⟩ := Rd_bind_eq_some _ _ _ _ _ h
  obtain ⟨_, r7, -, h⟩ := Rd_bind_eq_some _ _ _ _ _ h
  obtain ⟨_, r8, -, h⟩ := Rd_bind_eq_some _ _ _ _ _ h
  obtain ⟨_, r9, -, h⟩ := Rd_bind_eq_some _ _ _ _ _ h
  simp only [Pure.pure, StateT.pure, Option.some.injEq, Prod.mk.injEq] at h
  obtain ⟨rfl, -⟩ := h
  exact ⟨_, rfl, rfl, rfl⟩

/-- C22 (amended). `LinkedHashMap::ReadFrom` never rebuilds the hash index
    inline: whenever it returns, whether the canonical bit of the tags is set
    or not, it has enqueued exactly one deferred rehash entry, for the map it
    decodes, and the map returned has the sentinel hash mask `0`. -/
theorem C22_map_rehash_is_always_deferred (t : Target) (object_id : Int) (tags : Tags)
    (kind : Snapshot.Kind) (m : Bool) (r : SnapshotReader) (o : Obj) (r' : SnapshotReader)
    (h : LinkedHashMap.ReadFrom t object_id tags kind m r = some (o, r')) :
    r'.maps_to_rehash = r.maps_to_rehash ++ [object_id]
      ∧ (∃ l, r'.events = r.events ++ l
          ∧ l.filterMap ReaderEvent.mapEntry = [object_id])
      ∧ ∃ mp, o = Obj.LinkedHashMap mp ∧ mp.hash_mask = 0 := by
  obtain ⟨⟨l, hl, hf⟩, -, hm⟩ :=
    ReadFromOf_defers t kLinkedHashMapCid object_id tags kind m r o r' h
  obtain ⟨mp, ho, hmask, -⟩ := LinkedHashMap.ReadFrom_hash_mask t object_id tags kind m r o r' h
  refine ⟨hm, ⟨l, hl, ?_⟩, mp, ho, hmask⟩
  rw [← ReaderEvent.filterMap_mapEntry_filter, hf]
  rfl

theorem C22_map_rehash_is_always_deferred_witness :
    ∃ o r', LinkedHashMap.ReadFrom Target.x64 1 ⟨kLinkedHashMapCid, false⟩ .kMessage false
        (SnapshotReader.init [.ObjectImpl Object.null false, .Write .ObjectPtr 0] .empty)
          = some (o, r')
      ∧ r'.maps_to_rehash = [] ++ [1] :=
  ⟨_, _, rfl,
    (C22_map_rehash_is_always_deferred Target.x64 1 ⟨kLinkedHashMapCid, false⟩ .kMessage false
      (SnapshotReader.init [.ObjectImpl Object.null false, .Write .ObjectPtr 0] .empty)
      _ _ rfl).1⟩

theorem CanonResult_bind {α : Type} {b : Bool} {x : Rd α} {f : α → Rd Obj}
    (hf : ∀ a, CanonResult b (f a)) : CanonResult b (x >>= f) := by
  intro r o r' h
  obtain ⟨a, r1, -, h2⟩ := Rd_bind_eq_some x f r o r' h
  exact hf a r1 o r' h2

theorem CanonResult_pure {b : Bool} (o : Obj) (h : o.IsCanonical = b) :
    CanonResult b (pure o : Rd Obj) := by
  intro r o' r' h'
  simp only [Pure.pure, StateT.pure, Option.some.injEq, Prod.mk.injEq] at h'
  obtain ⟨rfl, -⟩ := h'
  exact h

theorem CanonResult_UNREACHABLE (b : Bool) : CanonResult b (UNREACHABLE : Rd Obj) := by
  intro r o r' h
  exact absurd h (by simp [Dart.UNREACHABLE])

/-- The result of a step is threaded through a binding of the object id. -/
theorem CanonResult_thread {b : Bool} {x : Rd Obj} {y : Obj → Rd Unit}
    (hx : CanonResult b x) : CanonResult b (x >>= fun o => y o >>= fun _ => pure o) := by
  intro r o r' h
  obtain ⟨a, r1, h1, h2⟩ := Rd_bind_eq_some _ _ r o r' h
  obtain ⟨u, r2, -, h3⟩ := Rd_bind_eq_some _ _ r1 o r' h2
  simp only [Pure.pure, StateT.pure, Option.some.injEq, Prod.mk.injEq] at h3
  obtain ⟨rfl, -⟩ := h3
  exact hx r a r1 h1

theorem InternEvents_skip {α β : Type} {b : Bool} {x : Rd α} {f : α → Rd β}
    (hx : InternEvents false x) (hf : ∀ a, InternEvents b (f a)) :
    InternEvents b (x >>= f) := by
  intro r c r' h
  obtain ⟨a, r1, h1, h2⟩ := Rd_bind_eq_some x f r c r' h
  obtain ⟨l1, hl1, hq1⟩ := hx r a r1 h1
  obtain ⟨l2, hl2, hq2⟩ := hf a r1 c r' h2
  refine ⟨l1 ++ l2, by rw [hl2, hl1, List.append_assoc], ?_⟩
  rw [List.any_append, hq1, hq2, Bool.false_or]

theorem InternEvents_here {α β : Type} {x : Rd α} {f : α → Rd β}
    (hx : InternEvents true x) (hf : ∀ a, InternEvents false (f a)) :
    InternEvents true (x >>= f) := by
  intro r c r' h
  obtain ⟨a, r1, h1, h2⟩ := Rd_bind_eq_some x f r c r' h
  obtain ⟨l1, hl1, hq1⟩ := hx r a r1 h1
  obtain ⟨l2, hl2, hq2⟩ := hf a r1 c r' h2
  refine ⟨l1 ++ l2, by rw [hl2, hl1, List.append_assoc], ?_⟩
  rw [List.any_append, hq1, hq2, Bool.true_or]

theorem InternEvents_UNREACHABLE {α : Type} (b : Bool) :
    InternEvents b (UNREACHABLE : Rd α) := by
  intro r c r' h
  exact absurd h (by simp [Dart.UNREACHABLE])

/-- A step that reads no child, or only appends events that are not interning
    steps, has no interning step. -/
theorem InternEvents_of_forall {α : Type} {x : Rd α}
    (h : ∀ r a r', x r = some (a, r') →
      ∃ l, r'.events = r.events ++ l ∧ ∀ e ∈ l, e.isIntern = false) :
    InternEvents false x := by
  intro r a r' hx
  obtain ⟨l, hl, hq⟩ := h r a r' hx
  refine ⟨l, hl, ?_⟩
  rw [Bool.eq_false_iff]
  intro hany
  obtain ⟨e, he, hi⟩ := List.any_eq_true.1 hany
  rw [hq e he] at hi
  exact absurd hi (by simp)

theorem InternEvents_pure {α : Type} (a : α) : InternEvents false (pure a : Rd α) := by
  intro r b r' h
  simp only [Pure.pure, StateT.pure, Option.some.injEq, Prod.mk.injEq] at h
  obtain ⟨-, rfl⟩ := h
  exact ⟨[], by simp, rfl⟩

theorem InternEvents_log (e : ReaderEvent) :
    InternEvents e.isIntern (SnapshotReader.log e) := by
  intro r b r' h
  simp only [SnapshotReader.log, Option.some.injEq, Prod.mk.injEq] at h
  obtain ⟨-, rfl⟩ := h
  exact ⟨[e], rfl, by simp⟩

theorem InternEvents_Read (ty : ScalarType) : InternEvents false (SnapshotReader.Read ty) := by
  intro r b r' h
  simp only [SnapshotReader.Read] at h
  split at h
  · split_ifs at h with ht
    simp only [Option.some.injEq, Prod.mk.injEq] at h
    obtain ⟨-, rfl⟩ := h
    exact ⟨[.Read ty _], rfl, rfl⟩
  · exact absurd h (by simp)

theorem InternEvents_Align (a : Nat) : InternEvents false (SnapshotReader.Align a) := by
  intro r b r' h
  simp only [SnapshotReader.Align] at h
  split at h
  · split_ifs at h with ht
    simp only [Option.some.injEq, Prod.mk.injEq] at h
    obtain ⟨-, rfl⟩ := h
    exact ⟨[.Align a], rfl, rfl⟩
  · exact absurd h (by simp)

theorem InternEvents_ReadN (ty : ScalarType) (n : Nat) :
    InternEvents false (SnapshotReader.ReadN ty n) := by
  induction n with
  | zero => exact InternEvents_pure _
  | succ n ih =>
    unfold SnapshotReader.ReadN
    exact InternEvents_skip (InternEvents_Read _)
      (fun _ => InternEvents_skip ih (fun _ => InternEvents_pure _))

theorem InternEvents_ReadBytes (len : Int) :
    InternEvents false (SnapshotReader.ReadBytes len) := by
  unfold SnapshotReader.ReadBytes
  exact InternEvents_skip (InternEvents_ReadN _ _) (fun _ => InternEvents_pure _)

theorem InternEvents_AddBackRef (object_id : Int) (obj : Obj) (st : DeserializeState) :
    InternEvents false (SnapshotReader.AddBackRef object_id obj st) := by
  intro r b r' h
  simp only [SnapshotReader.AddBackRef, Option.some.injEq, Prod.mk.injEq] at h
  obtain ⟨-, rfl⟩ := h
  exact ⟨[.AddBackRef object_id st], rfl, rfl⟩

theorem InternEvents_GetBackRef (object_id : Int) :
    InternEvents false (SnapshotReader.GetBackRef object_id) := by
  intro r b r' h
  simp only [SnapshotReader.GetBackRef, Option.some.injEq, Prod.mk.injEq] at h
  obtain ⟨-, rfl⟩ := h
  exact ⟨[.GetBackRef object_id], rfl, rfl⟩

theorem InternEvents_StoreHandle (object_id : Int) (obj : Obj) :
    InternEvents false (SnapshotReader.StoreHandle object_id obj) := by
  intro r b r' h
  simp only [SnapshotReader.StoreHandle, Option.some.injEq, Prod.mk.injEq] at h
  obtain ⟨-, rfl⟩ := h
  exact ⟨[], by simp, rfl⟩

theorem InternEvents_EnqueueTypePostprocessing (object_id : Int) :
    InternEvents false (SnapshotReader.EnqueueTypePostprocessing object_id) := by
  intro r b r' h
  simp only [SnapshotReader.EnqueueTypePostprocessing, Option.some.injEq, Prod.mk.injEq] at h
  obtain ⟨-, rfl⟩ := h
  exact ⟨[.EnqueueTypePostprocessing object_id], rfl, rfl⟩

theorem InternEvents_fillInStub (object_id : Int) :
    InternEvents false (FillInTypeTestingStub object_id) := by
  unfold Dart.FillInTypeTestingStub
  exact InternEvents_skip (InternEvents_log _) (fun _ => InternEvents_log _)

theorem InternEvents_ReadObjectImpl (m : Bool) :
    InternEvents false (SnapshotReader.ReadObjectImpl m) := by
  intro r b r' h
  simp only [SnapshotReader.ReadObjectImpl] at h
  split at h
  · simp only [Option.some.injEq, Prod.mk.injEq] at h
    obtain ⟨-, rfl⟩ := h
    exact ⟨[.ReadObjectImpl m _], rfl, rfl⟩
  · simp only [Option.some.injEq, Prod.mk.injEq] at h
    obtain ⟨-, rfl⟩ := h
    exact ⟨[.ReadObjectImpl m _], rfl, rfl⟩
  · exact absurd h (by simp)

theorem InternEvents_ReadObjects (m : Bool) (n : Nat) :
    InternEvents false (SnapshotReader.ReadObjects m n) := by
  induction n with
  | zero => exact InternEvents_pure _
  | succ n ih =>
    unfold SnapshotReader.ReadObjects
    exact InternEvents_skip (InternEvents_ReadObjectImpl _)
      (fun _ => InternEvents_skip ih (fun _ => InternEvents_pure _))

theorem InternEvents_ArrayReadFrom (object_id : Int) (result : UntaggedArray) (len : Int)
    (tags : Tags) :
    InternEvents false (SnapshotReader.ArrayReadFrom object_id result len tags) := by
  unfold SnapshotReader.ArrayReadFrom
  exact InternEvents_skip (InternEvents_ReadObjectImpl _)
    (fun _ => InternEvents_skip (InternEvents_ReadObjects _ _) (fun _ => InternEvents_pure _))

theorem InternEvents_Canonicalize (object_id : Int) :
    InternEvents true (SnapshotReader.Canonicalize object_id) :=
  InternEvents_log (.Canonicalize object_id)

theorem InternEvents_New (cid : ClassId) : InternEvents false (SnapshotReader.New cid) :=
  InternEvents_log (.New cid)

theorem InternEvents_thread {b : Bool} {x : Rd Obj} {y : Obj → Rd Unit}
    (hx : InternEvents b x) (hy : ∀ o, InternEvents false (y o)) :
    InternEvents b (x >>= fun o => y o >>= fun _ => pure o) := by
  cases b
  · exact InternEvents_skip hx (fun o => InternEvents_skip (hy o) (fun _ => InternEvents_pure _))
  · exact InternEvents_here hx (fun o => InternEvents_skip (hy o) (fun _ => InternEvents_pure _))

theorem Mint_New_interns (v : Int) :
    CanonResult false (Mint.New v) ∧ InternEvents false (Mint.New v) := by
  unfold Mint.New
  exact ⟨CanonResult_bind (fun _ => CanonResult_pure _ rfl),
    InternEvents_skip (InternEvents_log (.New kMintCid)) (fun _ => InternEvents_pure _)⟩

theorem Mint_NewCanonical_interns (v : Int) :
    CanonResult true (Mint.NewCanonical v) ∧ InternEvents true (Mint.NewCanonical v) := by
  unfold Mint.NewCanonical
  exact ⟨CanonResult_bind (fun _ => CanonResult_pure _ rfl),
    InternEvents_here (InternEvents_log (.NewCanonical kMintCid))
      (fun _ => InternEvents_pure _)⟩

theorem Double_New_interns (v : Int) :
    CanonResult false (Double.New v) ∧ InternEvents false (Double.New v) := by
  unfold Double.New
  exact ⟨CanonResult_bind (fun _ => CanonResult_pure _ rfl),
    InternEvents_skip (InternEvents_log (.New kDoubleCid)) (fun _ => InternEvents_pure _)⟩

theorem Double_NewCanonical_interns (v : Int) :
    CanonResult true (Double.NewCanonical v) ∧ InternEvents true (Double.NewCanonical v) := by
  unfold Double.NewCanonical
  exact ⟨CanonResult_bind (fun _ => CanonResult_pure _ rfl),
    InternEvents_here (InternEvents_log (.NewCanonical kDoubleCid))
      (fun _ => InternEvents_pure _)⟩

/-- `String::ReadFromImpl` returns a symbol if and only if the canonical bit is
    set. -/
theorem String.ReadFromImpl_interns (cid : ClassId) (ty : ScalarType) (len : Int)
    (tags : Tags) (kind : Snapshot.Kind) (b : Bool)
    (hc : UntaggedObject.IsCanonical tags = b) :
    CanonResult b (String.ReadFromImpl cid ty len tags kind)
      ∧ InternEvents b (String.ReadFromImpl cid ty len tags kind) := by
  subst hc
  unfold String.ReadFromImpl
  cases hc : UntaggedObject.IsCanonical tags
  · simp only [Bool.false_eq_true, if_false]
    constructor
    · repeat' first
        | exact CanonResult_pure _ rfl
        | refine CanonResult_bind (fun _ => ?_)
        | split
    · repeat' first
        | exact InternEvents_pure _
        | exact InternEvents_New _
        | exact InternEvents_ReadN _ _
        | exact InternEvents_log (.SetHash 0)
        | exact InternEvents_log .NoSafepointScope
        | refine InternEvents_skip ?_ (fun _ => ?_)
        | split
  · simp only [if_true]
    constructor
    · exact CanonResult_bind (fun _ => CanonResult_bind (fun _ => CanonResult_pure _ rfl))
    · exact InternEvents_skip (InternEvents_ReadN _ _)
        (fun _ => InternEvents_here (InternEvents_log (.NewSymbol cid))
          (fun _ => InternEvents_pure _))

/-- The part of `Mint::ReadFrom` and `Double::ReadFrom` after the value is
    read: allocation, interning on the canonical bit, and binding. -/
theorem Double_ReadFrom_interns (object_id : Int) (tags : Tags) (kind : Snapshot.Kind)
    (m : Bool) (b : Bool) (hc : UntaggedObject.IsCanonical tags = b) :
    CanonResult b (Double.ReadFrom object_id tags kind m)
      ∧ InternEvents b (Double.ReadFrom object_id tags kind m) := by
  unfold Double.ReadFrom
  cases b <;>
  (refine ⟨CanonResult_bind (fun v => ?_),
     InternEvents_skip (InternEvents_Read _) (fun v => ?_)⟩ <;>
   (dsimp only
    split) <;>
   first
     | (exfalso; rw [hc] at *; contradiction)
     | exact CanonResult_thread (Double_New_interns _).1
     | exact CanonResult_thread (Double_NewCanonical_interns _).1
     | exact InternEvents_thread (Double_New_interns _).2
         (fun _ => InternEvents_AddBackRef _ _ _)
     | exact InternEvents_thread (Double_NewCanonical_interns _).2
         (fun _ => InternEvents_AddBackRef _ _ _))

theorem OneByteString_ReadFrom_interns (object_id : Int) (tags : Tags)
    (kind : Snapshot.Kind) (m : Bool) (b : Bool) (hc : UntaggedObject.IsCanonical tags = b) :
    CanonResult b (OneByteString.ReadFrom object_id tags kind m)
      ∧ InternEvents b (OneByteString.ReadFrom object_id tags kind m) := by
  unfold OneByteString.ReadFrom
  exact ⟨CanonResult_bind (fun len => CanonResult_thread
      ((String.ReadFromImpl_interns _ _ len tags kind b hc).1)),
    InternEvents_skip (InternEvents_Read _)
      (fun len => InternEvents_thread ((String.ReadFromImpl_interns _ _ len tags kind b hc).2)
        (fun _ => InternEvents_AddBackRef _ _ _))⟩

theorem TwoByteString_ReadFrom_interns (object_id : Int) (tags : Tags)
    (kind : Snapshot.Kind) (m : Bool) (b : Bool) (hc : UntaggedObject.IsCanonical tags = b) :
    CanonResult b (TwoByteString.ReadFrom object_id tags kind m)
      ∧ InternEvents b (TwoByteString.ReadFrom object_id tags kind m) := by
  unfold TwoByteString.ReadFrom
  exact ⟨CanonResult_bind (fun len => CanonResult_thread
      ((String.ReadFromImpl_interns _ _ len tags kind b hc).1)),
    InternEvents_skip (InternEvents_Read _)
      (fun len => InternEvents_thread ((String.ReadFromImpl_interns _ _ len tags kind b hc).2)
        (fun _ => InternEvents_AddBackRef _ _ _))⟩

/-- The decoders that build the object themselves and intern it on the
    canonical bit: `Instance`, `TypedData`, `Type`, `TypeParameter` and
    `TypeArguments`. -/
theorem direct_decoders_intern (t : Target) (object_id : Int) (tags : Tags)
    (kind : Snapshot.Kind) (m : Bool) (b : Bool) (hc : UntaggedObject.IsCanonical tags = b) :
    (CanonResult b (Instance.ReadFrom object_id tags kind m)
        ∧ InternEvents b (Instance.ReadFrom object_id tags kind m))
      ∧ (CanonResult b (TypedData.ReadFrom t object_id tags kind m)
        ∧ InternEvents b (TypedData.ReadFrom t object_id tags kind m))
      ∧ (CanonResult b (Type.ReadFrom t object_id tags kind m)
        ∧ InternEvents b (Type.ReadFrom t object_id tags kind m))
      ∧ (CanonResult b (TypeParameter.ReadFrom t object_id tags kind m)
        ∧ InternEvents b (TypeParameter.ReadFrom t object_id tags kind m))
      ∧ (CanonResult b (TypeArguments.ReadFrom object_id tags kind m)
        ∧ InternEvents b (TypeArguments.ReadFrom object_id tags kind m)) := by
  cases b <;>
  (refine ⟨⟨?_, ?_⟩, ⟨?_, ?_⟩, ⟨?_, ?_⟩, ⟨?_, ?_⟩, ⟨?_, ?_⟩⟩ <;>
   (first
     | unfold Instance.ReadFrom
     | unfold TypedData.ReadFrom
     | unfold Type.ReadFrom
     | unfold TypeParameter.ReadFrom
     | unfold TypeArguments.ReadFrom) <;>
   (repeat' first
     | (exfalso; rw [hc] at *; contradiction)
     | exact CanonResult_pure _ rfl
     | refine CanonResult_bind (fun _ => ?_)
     | exact InternEvents_pure _
     | refine InternEvents_here (InternEvents_Canonicalize _) (fun _ => ?_)
     | exact InternEvents_Read _
     | exact InternEvents_New _
     | exact InternEvents_Align _
     | exact InternEvents_ReadBytes _
     | exact InternEvents_AddBackRef _ _ _
     | exact InternEvents_StoreHandle _ _
     | exact InternEvents_EnqueueTypePostprocessing _
     | exact InternEvents_fillInStub _
     | exact InternEvents_ReadObjectImpl _
     | exact InternEvents_ReadObjects _ _
     | exact InternEvents_log .NoSafepointScope
     | refine InternEvents_skip ?_ (fun _ => ?_)
     | split))

theorem SnapshotReader.Read_eq_some (ty : ScalarType) (r : SnapshotReader) (v : Int)
    (r1 : SnapshotReader) (h : SnapshotReader.Read ty r = some (v, r1)) :
    r.stream = .Write ty v :: r1.stream ∧ r1.events = r.events ++ [.Read ty v]
      ∧ r1.backrefs = r.backrefs := by
  simp only [SnapshotReader.Read] at h
  split at h
  · rename_i t' v' rest hs
    split_ifs at h with ht
    simp only [Option.some.injEq, Prod.mk.injEq] at h
    obtain ⟨rfl, rfl⟩ := h
    subst ht
    exact ⟨hs, rfl, rfl⟩
  · exact absurd h (by simp)

/-- `Mint::ReadFrom` on a value outside the small-integer range returns an
    interned boxed integer if and only if the canonical bit is set. -/
theorem Mint_ReadFrom_interns (t : Target) (object_id : Int) (tags : Tags)
    (kind : Snapshot.Kind) (m : Bool) (b : Bool) (r : SnapshotReader) (o : Obj)
    (r' : SnapshotReader) (hc : UntaggedObject.IsCanonical tags = b)
    (hv : ∀ v rest, r.stream = .Write .int64_t v :: rest → Smi.IsValid t.kSmiBits v = false)
    (h : Mint.ReadFrom t object_id tags kind m r = some (o, r')) :
    o.IsCanonical = b ∧ ∃ l, r'.events = r.events ++ l ∧ l.any ReaderEvent.isIntern = b := by
  unfold Mint.ReadFrom at h
  obtain ⟨v, r1, h1, h2⟩ := Rd_bind_eq_some _ _ r o r' h
  obtain ⟨hs, he, -⟩ := SnapshotReader.Read_eq_some _ r v r1 h1
  have hvalid := hv v _ hs
  simp only [hvalid, Bool.false_eq_true, if_false] at h2
  have key : CanonResult b
        ((if UntaggedObject.IsCanonical tags then Mint.NewCanonical v else Mint.New v) >>=
          fun mint => SnapshotReader.AddBackRef object_id mint .kIsDeserialized >>=
            fun _ => pure mint)
      ∧ InternEvents b
        ((if UntaggedObject.IsCanonical tags then Mint.NewCanonical v else Mint.New v) >>=
          fun mint => SnapshotReader.AddBackRef object_id mint .kIsDeserialized >>=
            fun _ => pure mint) := by
    cases b
    · rw [hc]
      simp only [Bool.false_eq_true, if_false]
      exact ⟨CanonResult_thread (Mint_New_interns _).1,
        InternEvents_thread (Mint_New_interns _).2 (fun _ => InternEvents_AddBackRef _ _ _)⟩
    · rw [hc]
      simp only [if_true]
      exact ⟨CanonResult_thread (Mint_NewCanonical_interns _).1,
        InternEvents_thread (Mint_NewCanonical_interns _).2
          (fun _ => InternEvents_AddBackRef _ _ _)⟩
  have h3 : ((if UntaggedObject.IsCanonical tags then Mint.NewCanonical v else Mint.New v) >>=
      fun mint => SnapshotReader.AddBackRef object_id mint .kIsDeserialized >>=
        fun _ => pure mint) r1 = some (o, r') := by
    rw [← h2]
    cases UntaggedObject.IsCanonical tags <;> rfl
  refine ⟨key.1 r1 o r' h3, ?_⟩
  obtain ⟨l, hl, hq⟩ := key.2 r1 o r' h3
  refine ⟨ReaderEvent.Read .int64_t v :: l, by rw [hl, he]; simp, ?_⟩
  simpa [ReaderEvent.isIntern] using hq

theorem InternEvents_prepare (cid : ClassId) (object_id : Int) (m : Bool) (len : Int) :
    InternEvents false (Array.ReadFrom.prepare cid object_id m len) := by
  unfold Array.ReadFrom.prepare
  repeat' first
    | exact InternEvents_UNREACHABLE _
    | exact InternEvents_pure _
    | exact InternEvents_GetBackRef _
    | exact InternEvents_New _
    | exact InternEvents_AddBackRef _ _ _
    | refine InternEvents_skip ?_ (fun _ => ?_)
    | unfold Array.New
    | split
    | dsimp only

/-- `ImmutableArray::ReadFrom` in inline mode with the canonical bit clear
    returns the array it filled, which is not canonical unless the array
    bound to the id already was. -/
theorem ImmutableArray.ReadFrom_fresh (object_id : Int) (tags : Tags)
    (kind : Snapshot.Kind) (r : SnapshotReader) (o : Obj) (r' : SnapshotReader)
    (hc : UntaggedObject.IsCanonical tags = false)
    (harr : ∀ a, r.lookup object_id = some (.Array a) → a.tags.canonical = false)
    (h : ImmutableArray.ReadFrom object_id tags kind false r = some (o, r')) :
    o.IsCanonical = false
      ∧ ∃ l, r'.events = r.events ++ l ∧ l.any ReaderEvent.isIntern = false := by
  have hev : InternEvents false (ImmutableArray.ReadFrom object_id tags kind false) := by
    unfold ImmutableArray.ReadFrom
    repeat' first
      | (exfalso; rw [hc] at *; contradiction)
      | exact InternEvents_pure _
      | exact InternEvents_Read _
      | exact InternEvents_prepare _ _ _ _
      | exact InternEvents_ArrayReadFrom _ _ _ _
      | exact InternEvents_StoreHandle _ _
      | refine InternEvents_skip ?_ (fun _ => ?_)
      | split
  refine ⟨?_, hev r o r' h⟩
  unfold ImmutableArray.ReadFrom at h
  obtain ⟨len, r1, h1, h2⟩ := Rd_bind_eq_some _ _ r o r' h
  obtain ⟨array, r2, h3, h4⟩ := Rd_bind_eq_some _ _ r1 o r' h2
  simp only [Bool.not_false, if_true, hc, Bool.false_eq_true, if_false] at h4
  obtain ⟨-, -, hb1⟩ := SnapshotReader.Read_eq_some _ r len r1 h1
  -- the array to fill is not canonical
  have htags : array.tags.canonical = false := by
    unfold Array.ReadFrom.prepare at h3
    simp only [Bool.not_false, if_true] at h3
    obtain ⟨bound, r3, h5, h6⟩ := Rd_bind_eq_some _ _ r1 array r2 h3
    simp only [SnapshotReader.GetBackRef, Option.some.injEq, Prod.mk.injEq] at h5
    obtain ⟨rfl, rfl⟩ := h5
    cases hlook : r1.lookup object_id with
    | none =>
      rw [hlook] at h6
      simp only at h6
      obtain ⟨a, r4, h7, h8⟩ := Rd_bind_eq_some _ _ _ array r2 h6
      obtain ⟨u, r5, h9, h10⟩ := Rd_bind_eq_some _ _ _ array r2 h8
      simp only [Pure.pure, StateT.pure, Option.some.injEq, Prod.mk.injEq] at h10
      obtain ⟨rfl, -⟩ := h10
      unfold Array.New at h7
      obtain ⟨u', r6, -, h11⟩ := Rd_bind_eq_some _ _ _ a r4 h7
      simp only [Pure.pure, StateT.pure, Option.some.injEq, Prod.mk.injEq] at h11
      obtain ⟨rfl, -⟩ := h11
      rfl
    | some b =>
      rw [hlook] at h6
      cases b with
      | Array a0 =>
        simp only [Pure.pure, StateT.pure, Option.some.injEq, Prod.mk.injEq] at h6
        obtain ⟨rfl, -⟩ := h6
        apply harr
        have : r1.lookup object_id = r.lookup object_id := by
          simp only [SnapshotReader.lookup, hb1]
        rw [← this, hlook]
      | _ => exact absurd h6 (by simp [Dart.UNREACHABLE])
  obtain ⟨array', r3, h5, h6⟩ := Rd_bind_eq_some _ _ r2 o r' h4
  obtain ⟨u, r4, -, h7⟩ := Rd_bind_eq_some _ _ r3 o r' h6
  simp only [Pure.pure, StateT.pure, Option.some.injEq, Prod.mk.injEq] at h7
  obtain ⟨rfl, -⟩ := h7
  unfold SnapshotReader.ArrayReadFrom at h5
  obtain ⟨ta, r5, -, h8⟩ := Rd_bind_eq_some _ _ r2 array' r3 h5
  obtain ⟨els, r6, -, h9⟩ := Rd_bind_eq_some _ _ r5 array' r3 h8
  simp only [Pure.pure, StateT.pure, Option.some.injEq, Prod.mk.injEq] at h9
  obtain ⟨rfl, -⟩ := h9
  simpa [Obj.IsCanonical, Obj.tags, UntaggedObject.IsCanonical] using htags

/-- C21. Interning follows the canonical bit.  Whenever the decoder of a boxed
    integer whose value is outside the small-integer range, a double, a
    one-byte or two-byte string, a regular instance, an internal typed-data
    buffer, a type, a type parameter, a type-argument vector or an immutable
    array in inline mode (filling an array that, if it was already bound to the
    id, is not canonical) returns, the object returned is canonical if and only
    if the canonical bit of the tags argument is set, and the decoder took an
    interning step (`Canonicalize`, `NewCanonical` or the look-up of a symbol)
    if and only if the bit is set: with the bit clear it returns a
    non-canonical object that went through no interning. -/
theorem C21_interning_follows_canonical_bit (t : Target) (cid : ClassId) (object_id : Int)
    (tags : Tags) (kind : Snapshot.Kind) (m : Bool) (r : SnapshotReader) (o : Obj)
    (r' : SnapshotReader)
    (hcid : cid ∈ [kMintCid, kDoubleCid, kOneByteStringCid, kTwoByteStringCid, kInstanceCid,
        kTypeCid, kTypeParameterCid, kTypeArgumentsCid, kImmutableArrayCid]
      ∨ IsTypedDataClassId cid = true)
    (hmint : cid = kMintCid →
      ∀ v rest, r.stream = .Write .int64_t v :: rest → Smi.IsValid t.kSmiBits v = false)
    (harr : cid = kImmutableArrayCid →
      m = false ∧ ∀ a, r.lookup object_id = some (.Array a) → a.tags.canonical = false)
    (h : ReadFromOf t cid object_id tags kind m r = some (o, r')) :
    o.IsCanonical = UntaggedObject.IsCanonical tags
      ∧ ∃ l, r'.events = r.events ++ l
          ∧ l.any ReaderEvent.isIntern = UntaggedObject.IsCanonical tags := by
  have key : ∀ x : Rd Obj,
      CanonResult (UntaggedObject.IsCanonical tags) x
        ∧ InternEvents (UntaggedObject.IsCanonical tags) x →
      x r = some (o, r') →
      o.IsCanonical = UntaggedObject.IsCanonical tags
        ∧ ∃ l, r'.events = r.events ++ l
            ∧ l.any ReaderEvent.isIntern = UntaggedObject.IsCanonical tags :=
    fun x hx hxr => ⟨hx.1 r o r' hxr, hx.2 r o r' hxr⟩
  have hd := direct_decoders_intern t object_id tags kind m _ rfl
  rcases hcid with hmem | htd
  · simp only [List.mem_cons, List.mem_singleton, List.not_mem_nil, or_false] at hmem
    rcases hmem with rfl | rfl | rfl | rfl | rfl | rfl | rfl | rfl | rfl
    · exact Mint_ReadFrom_interns t object_id tags kind m _ r o r' rfl (hmint rfl) h
    · exact key _ (Double_ReadFrom_interns object_id tags kind m _ rfl) h
    · exact key _ (OneByteString_ReadFrom_interns object_id tags kind m _ rfl) h
    · exact key _ (TwoByteString_ReadFrom_interns object_id tags kind m _ rfl) h
    · exact key _ hd.1 h
    · exact key _ hd.2.2.1 h
    · exact key _ hd.2.2.2.1 h
    · exact key _ hd.2.2.2.2 h
    · obtain ⟨rfl, ha⟩ := harr rfl
      cases hc : UntaggedObject.IsCanonical tags
      · exact ImmutableArray.ReadFrom_fresh object_id tags kind r o r' hc ha h
      · obtain ⟨⟨hlk, hcan⟩, hdj⟩ :=
          ImmutableArray_ReadFrom_interns object_id tags kind r o r' hc h
        refine ⟨hcan, ?_⟩
        rcases hdj with ⟨pre, st, mid, hl, -⟩ | ⟨-, l, hl⟩
        · refine ⟨pre ++ ReaderEvent.AddBackRef object_id st :: mid
            ++ [ReaderEvent.Canonicalize object_id], by rw [hl]; simp, ?_⟩
          simp [ReaderEvent.isIntern]
        · refine ⟨l ++ [ReaderEvent.Canonicalize object_id], by rw [hl]; simp, ?_⟩
          simp [ReaderEvent.isIntern]
  · rw [ReadFromOf_typedData t cid htd] at h
    exact key _ hd.2.1 h

theorem C21_interning_follows_canonical_bit_witness :
    ∃ o r', ReadFromOf Target.x64 kMintCid 1 ⟨kMintCid, true⟩ .kMessage false
        (SnapshotReader.init [.Write .int64_t (2 ^ 62)] .empty) = some (o, r')
      ∧ o.IsCanonical = UntaggedObject.IsCanonical ⟨kMintCid, true⟩ := by
  have hvalid : Smi.IsValid Target.x64.kSmiBits (2 ^ 62) = false := by decide
  have hrun : ReadFromOf Target.x64 kMintCid 1 ⟨kMintCid, true⟩ .kMessage false
      (SnapshotReader.init [.Write .int64_t (2 ^ 62)] .empty)
      = some (Obj.Mint { tags := ⟨kMintCid, true⟩, value_ := 2 ^ 62 },
          { stream := [],
            backrefs := [⟨1, Obj.Mint { tags := ⟨kMintCid, true⟩, value_ := 2 ^ 62 },
              .kIsDeserialized⟩],
            finalizable_data := .empty, types_to_postprocess := [], maps_to_rehash := [],
            events := [.Read .int64_t (2 ^ 62), .NewCanonical kMintCid,
              .AddBackRef 1 .kIsDeserialized],
            next_addr := 100 }) := by
    simp only [ReadFromOf, Mint.ReadFrom, SnapshotReader.init, bind, StateT.bind,
      SnapshotReader.Read, if_true, hvalid, Bool.false_eq_true, if_false,
      UntaggedObject.IsCanonical, Mint.NewCanonical, SnapshotReader.log,
      SnapshotReader.AddBackRef, pure, StateT.pure, Option.some_bind, List.nil_append,
      List.cons_append]
  exact ⟨_, _, hrun,
    (C21_interning_follows_canonical_bit Target.x64 kMintCid 1 ⟨kMintCid, true⟩ .kMessage
      false (SnapshotReader.init [.Write .int64_t (2 ^ 62)] .empty) _ _ (by decide)
      (fun _ v rest hs => by
        simp only [SnapshotReader.init, List.cons.injEq, Item.Write.injEq, true_and] at hs
        obtain ⟨rfl, -⟩ := hs
        exact hvalid)
      (fun hne => absurd hne (by decide)) hrun).1⟩

/-! ## Framing of what the encoders write -/

theorem Item.not_isScalar_of_isChild (i : Item) (h : i.isChild = true) : i.isScalar = false := by
  cases i <;> simp [Item.isChild, Item.isScalar] at h ⊢

theorem scalarsFirst_cons (i : Item) (l : List Item) (h : i.isScalar = true) :
    scalarsFirst (i :: l) = scalarsFirst l := by
  simp [scalarsFirst, List.dropWhile_cons, h]

theorem scalarsFirst_children (l : List Item) (h : ∀ i ∈ l, i.isChild = true) :
    scalarsFirst l = true := by
  cases l with
  | nil => rfl
  | cons i l =>
    have hi := Item.not_isScalar_of_isChild i (h i (List.mem_cons_self _ _))
    simp only [scalarsFirst, List.dropWhile_cons, hi, Bool.false_eq_true, if_false,
      List.all_eq_true]
    exact h

theorem scalarsFirst_scalars_append (l l' : List Item) (h : ∀ i ∈ l, i.isScalar = true) :
    scalarsFirst (l ++ l') = scalarsFirst l' := by
  induction l with
  | nil => rfl
  | cons i l ih =>
    rw [List.cons_append, scalarsFirst_cons _ _ (h i (List.mem_cons_self _ _))]
    exact ih (fun j hj => h j (List.mem_cons_of_mem _ hj))

theorem scalarsFirst_scalars (l : List Item) (h : ∀ i ∈ l, i.isScalar = true) :
    scalarsFirst l = true := by
  have := scalarsFirst_scalars_append l [] h
  rw [List.append_nil] at this
  rw [this]
  rfl

theorem scalarsFirst_objects (ps : List ObjectPtr) (m : Bool) :
    scalarsFirst (ps.map (fun p => Item.ObjectImpl p m)) = true :=
  scalarsFirst_children _ (by
    intro i hi
    obtain ⟨p, -, rfl⟩ := List.mem_map.1 hi
    rfl)

theorem scalarsFirst_objects_append (ps : List ObjectPtr) (m : Bool) (l : List Item)
    (h : ∀ i ∈ l, i.isChild = true) :
    scalarsFirst (ps.map (fun p => Item.ObjectImpl p m) ++ l) = true :=
  scalarsFirst_children _ (by
    intro i hi
    rcases List.mem_append.1 hi with hi | hi
    · obtain ⟨p, -, rfl⟩ := List.mem_map.1 hi
      rfl
    · exact h i hi)

theorem scalarsFirst_writes (ty : ScalarType) (vs : List Int) :
    scalarsFirst (vs.map (fun v => Item.Write ty v)) = true :=
  scalarsFirst_scalars _ (by
    intro i hi
    obtain ⟨p, -, rfl⟩ := List.mem_map.1 hi
    rfl)

theorem scalarsFirst_bytes (data : List Nat) (len : Int) :
    scalarsFirst (bytesItems data len) = true :=
  scalarsFirst_scalars _ (by
    intro i hi
    obtain ⟨p, -, rfl⟩ := List.mem_map.1 hi
    rfl)

theorem UntaggedTypeArguments.elementItem_isChild (env : WriterEnv) (m c : Bool)
    (x : ObjectPtr) : (UntaggedTypeArguments.elementItem env m c x).isChild = true := by
  unfold UntaggedTypeArguments.elementItem
  split_ifs <;> rfl

theorem scalarsFirst_cons_Write (ty : ScalarType) (v : Int) (l : List Item) :
    scalarsFirst (Item.Write ty v :: l) = scalarsFirst l :=
  scalarsFirst_cons _ _ rfl

theorem scalarsFirst_cons_Align (a : Nat) (l : List Item) :
    scalarsFirst (Item.Align a :: l) = scalarsFirst l :=
  scalarsFirst_cons _ _ rfl

set_option maxHeartbeats 2000000 in
/-- What an encoder of this file that writes the stream itself appends is
    framed: nothing, or the header with the object id, a kind tag and the
    object's tags, then the leading children of the kind, the scalar fields and
    the child slots. -/
theorem Encoded.WriteTo_framed (env : WriterEnv) (T : Nat) (e : Encoded)
    (w : SnapshotWriter) (object_id : Int) (kind : Snapshot.Kind) (m : Bool)
    (w' : SnapshotWriter) (hself : e.selfWrites = true)
    (h : e.WriteTo env T w object_id kind m = some w') :
    ∃ items, w'.stream = w.stream ++ items ∧ Framed e object_id items := by
  cases e with
  | listed s =>
    cases s with
    | Array o => simp [Encoded.selfWrites] at hself
    | ImmutableArray o => simp [Encoded.selfWrites] at hself
    | TypedData o =>
      simp only [Encoded.WriteTo, Source.WriteTo] at h
      cases hs : UntaggedTypedData.switchCid o.tags.class_id o.length_ with
      | none => simp [UntaggedTypedData.WriteTo, hs] at h
      | some p =>
        obtain ⟨ext, bytes⟩ := p
        by_cases hx : kind = .kMessage ∧ toUint64 bytes ≥ T
        · obtain ⟨hk, hT⟩ := hx
          subst hk
          rw [UntaggedTypedData.WriteTo_external T o w object_id m ext bytes hs hT] at h
          obtain rfl := Option.some.inj h
          exact ⟨_, rfl, Or.inr ⟨_, _, _, rfl, rfl, rfl, rfl, rfl⟩⟩
        · rw [UntaggedTypedData.WriteTo_inline T o w object_id kind m ext bytes hs hx] at h
          obtain rfl := Option.some.inj h
          apply Exists.intro
          apply And.intro
          · simp only [UntaggedTypedData.inlineResult, List.append_assoc, List.cons_append,
              List.nil_append]
            rfl
          · refine Or.inr ⟨_, _, _, rfl, rfl, rfl, rfl, ?_⟩
            simp only [Encoded.leadingChildren, List.drop_zero, scalarsFirst_cons_Write,
              scalarsFirst_cons_Align]
            exact scalarsFirst_bytes _ _
    | ExternalTypedData o =>
      simp only [Encoded.WriteTo, Source.WriteTo] at h
      cases hs : UntaggedExternalTypedData.switchCid o.tags.class_id o.length_ with
      | none => simp [UntaggedExternalTypedData.WriteTo, hs] at h
      | some bytes =>
        rw [UntaggedExternalTypedData.WriteTo_external_eq o w object_id kind m bytes hs] at h
        obtain rfl := Option.some.inj h
        exact ⟨_, rfl, Or.inr ⟨_, _, _, rfl, rfl, rfl, rfl, rfl⟩⟩
    | TransferableTypedData o =>
      simp only [Encoded.WriteTo, Source.WriteTo, UntaggedTransferableTypedData.WriteTo] at h
      cases hp : w.heap.GetPeer o.self with
      | none => simp [hp] at h
      | some tpeer =>
        simp only [hp] at h
        by_cases hd : tpeer.data_ = .nullptr
        · simp only [hd, if_true, Option.some.injEq] at h
          subst h
          exact ⟨[], by simp [SnapshotWriter.SetWriteException], Or.inl rfl⟩
        · simp only [hd, if_false, Option.some.injEq] at h
          subst h
          apply Exists.intro
          apply And.intro
          · simp only [SnapshotWriter.Put, SnapshotWriter.Write, SnapshotWriter.WriteTags,
              SnapshotWriter.WriteIndexedObject, SnapshotWriter.WriteInlinedObjectHeader,
              SnapshotWriter.emit, List.append_assoc, List.cons_append, List.nil_append]
            rfl
          · exact Or.inr ⟨_, _, _, rfl, rfl, rfl, rfl, rfl⟩
    | OneByteString o | TwoByteString o =>
      simp only [Encoded.WriteTo, Source.WriteTo, UntaggedOneByteString.WriteTo,
        UntaggedTwoByteString.WriteTo, StringWriteTo, SnapshotWriter.foldl_Write_eq] at h
      (try split_ifs at h) <;>
        (obtain rfl := Option.some.inj h
         apply Exists.intro
         apply And.intro
         · simp only [SnapshotWriter.WriteBytes, SnapshotWriter.Write, SnapshotWriter.WriteTags,
             SnapshotWriter.WriteIndexedObject, SnapshotWriter.WriteInlinedObjectHeader,
             SnapshotWriter.emit, List.append_assoc, List.cons_append, List.nil_append]
           rfl
         · refine Or.inr ⟨_, _, _, rfl, rfl, rfl, rfl, ?_⟩
           first
             | rfl
             | (simp only [Encoded.leadingChildren, List.drop_zero, scalarsFirst_cons_Write]
                first
                  | exact scalarsFirst_bytes _ _
                  | exact scalarsFirst_writes _ _))
    | LinkedHashMap o =>
      simp only [Encoded.WriteTo, Source.WriteTo, UntaggedLinkedHashMap_WriteTo_stream] at h
      obtain rfl := Option.some.inj h
      refine ⟨_, rfl, Or.inr ⟨_, _, _, rfl, rfl, rfl, rfl, ?_⟩⟩
      simp only [Encoded.leadingChildren, List.drop_succ_cons, List.drop_zero,
        List.cons_append, List.nil_append, scalarsFirst_cons_Write]
      exact scalarsFirst_objects _ _
    | Context o =>
      simp only [Encoded.WriteTo, Source.WriteTo, UntaggedContext.WriteTo,
        SnapshotWriter.VisitPointers_eq] at h
      split_ifs at h <;>
        (obtain rfl := Option.some.inj h
         apply Exists.intro
         apply And.intro
         · simp only [SnapshotWriter.Write, SnapshotWriter.WriteTags,
             SnapshotWriter.WriteVMIsolateObject, SnapshotWriter.WriteInlinedObjectHeader,
             SnapshotWriter.emit, List.append_assoc, List.cons_append, List.nil_append]
           rfl
         · refine Or.inr ⟨_, _, _, rfl, rfl, rfl, rfl, ?_⟩
           first
             | rfl
             | (simp only [Encoded.leadingChildren, List.drop_zero, scalarsFirst_cons_Write]
                exact scalarsFirst_objects _ _))
    | ApiError o | UnhandledException o =>
      simp only [Encoded.WriteTo, Source.WriteTo, UntaggedApiError.WriteTo,
        UntaggedUnhandledException.WriteTo, SnapshotWriter.VisitPointers_eq] at h
      obtain rfl := Option.some.inj h
      apply Exists.intro
      apply And.intro
      · simp only [SnapshotWriter.WriteTags, SnapshotWriter.WriteVMIsolateObject,
          SnapshotWriter.WriteInlinedObjectHeader, SnapshotWriter.emit, List.append_assoc,
          List.cons_append, List.nil_append]
        rfl
      · refine Or.inr ⟨_, _, _, rfl, rfl, rfl, rfl, ?_⟩
        exact scalarsFirst_objects _ _
    | LanguageError o =>
      simp only [Encoded.WriteTo, Source.WriteTo, UntaggedLanguageError.WriteTo,
        SnapshotWriter.VisitPointers_eq] at h
      obtain rfl := Option.some.inj h
      apply Exists.intro
      apply And.intro
      · simp only [SnapshotWriter.Write, SnapshotWriter.WriteTags,
          SnapshotWriter.WriteVMIsolateObject,
          SnapshotWriter.WriteInlinedObjectHeader, SnapshotWriter.emit, List.append_assoc,
          List.cons_append, List.nil_append]
        rfl
      · refine Or.inr ⟨_, _, _, rfl, rfl, rfl, rfl, ?_⟩
        simp only [Encoded.leadingChildren, List.drop_zero, scalarsFirst_cons_Write]
        exact scalarsFirst_objects _ _
    | Mint o | Double o | GrowableObjectArray o | Float32x4 o | Int32x4 o | Float64x2 o
    | Capability o | SendPort o | RegExp o | TypedDataView o =>
      simp only [Encoded.WriteTo, Source.WriteTo, UntaggedMint.WriteTo, UntaggedDouble.WriteTo,
        UntaggedGrowableObjectArray.WriteTo, UntaggedFloat32x4.WriteTo,
        UntaggedInt32x4.WriteTo, UntaggedFloat64x2.WriteTo, UntaggedCapability.WriteTo,
        UntaggedSendPort.WriteTo, UntaggedRegExp.WriteTo, UntaggedTypedDataView.WriteTo] at h
      obtain rfl := Option.some.inj h
      apply Exists.intro
      apply And.intro
      · simp only [SnapshotWriter.WriteObjectImpl, SnapshotWriter.WriteDouble,
          SnapshotWriter.Write, SnapshotWriter.WriteTags,
          SnapshotWriter.WriteIndexedObject, SnapshotWriter.WriteInlinedObjectHeader,
          SnapshotWriter.emit, List.append_assoc, List.cons_append, List.nil_append]
        rfl
      · exact Or.inr ⟨_, _, _, rfl, rfl, rfl, rfl, rfl⟩
  | Class o =>
    simp only [Encoded.WriteTo, UntaggedClass.WriteTo] at h
    split_ifs at h <;>
      (obtain rfl := Option.some.inj h
       apply Exists.intro
       apply And.intro
       · simp only [SnapshotWriter.WriteClassId, SnapshotWriter.SetWriteException,
           SnapshotWriter.WriteTags, SnapshotWriter.WriteVMIsolateObject,
           SnapshotWriter.WriteInlinedObjectHeader, SnapshotWriter.emit, List.append_assoc,
           List.cons_append, List.nil_append]
         rfl
       · exact Or.inr ⟨_, _, _, rfl, rfl, rfl, rfl, rfl⟩)
  | Type_ o =>
    simp only [Encoded.WriteTo] at h
    cases hcls : o.type_class_id with
    | heap a => simp [UntaggedType.WriteTo, hcls] at h
    | smi c =>
      rw [UntaggedType_WriteTo_stream env o w object_id kind m c hcls] at h
      obtain rfl := Option.some.inj h
      apply Exists.intro
      apply And.intro
      · simp only [List.append_assoc, List.cons_append, List.nil_append]
        rfl
      · refine Or.inr ⟨_, _, _, rfl, rfl, rfl, rfl, ?_⟩
        simp only [Encoded.leadingChildren, List.drop_zero, scalarsFirst_cons_Write]
        exact scalarsFirst_objects_append _ _ _ (by simp [Item.isChild])
  | TypeParameter o =>
    simp only [Encoded.WriteTo, UntaggedTypeParameter_WriteTo_stream] at h
    obtain rfl := Option.some.inj h
    apply Exists.intro
    apply And.intro
    · simp only [List.append_assoc, List.cons_append, List.nil_append]
      rfl
    · refine Or.inr ⟨_, _, _, rfl, rfl, rfl, rfl, ?_⟩
      simp only [Encoded.leadingChildren, List.drop_zero, scalarsFirst_cons_Write]
      exact scalarsFirst_objects_append _ _ _ (by simp [Item.isChild])
  | TypeRef o | TypeParameters o | WeakProperty o =>
    simp only [Encoded.WriteTo, UntaggedTypeRef.WriteTo, UntaggedTypeParameters.WriteTo,
      UntaggedWeakProperty.WriteTo, SnapshotWriter.VisitPointers_eq] at h
    obtain rfl := Option.some.inj h
    apply Exists.intro
    apply And.intro
    · simp only [SnapshotWriter.WriteTags, SnapshotWriter.WriteVMIsolateObject,
        SnapshotWriter.WriteIndexedObject,
        SnapshotWriter.WriteInlinedObjectHeader, SnapshotWriter.emit, List.append_assoc,
        List.cons_append, List.nil_append]
      rfl
    · refine Or.inr ⟨_, _, _, rfl, rfl, rfl, rfl, ?_⟩
      exact scalarsFirst_objects _ _
  | TypeArguments o =>
    simp only [Encoded.WriteTo, UntaggedTypeArguments.WriteTo,
      UntaggedTypeArguments.foldl_writeElement] at h
    obtain rfl := Option.some.inj h
    apply Exists.intro
    apply And.intro
    · simp only [SnapshotWriter.Write, SnapshotWriter.WriteTags,
        SnapshotWriter.WriteVMIsolateObject,
        SnapshotWriter.WriteInlinedObjectHeader, SnapshotWriter.emit, List.append_assoc,
        List.cons_append, List.nil_append]
      rfl
    · refine Or.inr ⟨_, _, _, rfl, rfl, rfl, rfl, ?_⟩
      simp only [Encoded.leadingChildren, List.drop_zero, scalarsFirst_cons_Write]
      refine scalarsFirst_children _ ?_
      intro i hi
      obtain ⟨x, -, rfl⟩ := List.mem_map.1 hi
      exact UntaggedTypeArguments.elementItem_isChild _ _ _ _
  | Closure o => simp [Encoded.selfWrites] at hself
  | ContextScope o =>
    simp only [Encoded.WriteTo, UntaggedContextScope.WriteTo] at h
    split_ifs at h
    cases hv : o.vars.head? with
    | none => simp [hv] at h
    | some var =>
      simp only [hv, Option.some.injEq] at h
      subst h
      apply Exists.intro
      apply And.intro
      · simp only [SnapshotWriter.WriteObjectImpl, SnapshotWriter.Write,
          SnapshotWriter.WriteTags, SnapshotWriter.WriteVMIsolateObject,
          SnapshotWriter.WriteInlinedObjectHeader, SnapshotWriter.emit, List.append_assoc,
          List.cons_append, List.nil_append]
        rfl
      · exact Or.inr ⟨_, _, _, rfl, rfl, rfl, rfl, rfl⟩
  | Instance o =>
    simp only [Encoded.WriteTo, UntaggedInstance.WriteTo] at h
    obtain rfl := Option.some.inj h
    apply Exists.intro
    apply And.intro
    · simp only [SnapshotWriter.WriteTags, SnapshotWriter.WriteIndexedObject,
        SnapshotWriter.WriteInlinedObjectHeader, SnapshotWriter.emit, List.append_assoc,
        List.cons_append, List.nil_append]
      rfl
    · exact Or.inr ⟨_, _, _, rfl, rfl, rfl, rfl, rfl⟩
  | ExternalOneByteString o | ExternalTwoByteString o =>
    simp only [Encoded.WriteTo, UntaggedExternalOneByteString.WriteTo,
      UntaggedExternalTwoByteString.WriteTo, StringWriteTo, SnapshotWriter.foldl_Write_eq] at h
    (try split_ifs at h) <;>
      (obtain rfl := Option.some.inj h
       apply Exists.intro
       apply And.intro
       · simp only [SnapshotWriter.WriteBytes, SnapshotWriter.Write, SnapshotWriter.WriteTags,
           SnapshotWriter.WriteIndexedObject, SnapshotWriter.WriteInlinedObjectHeader,
           SnapshotWriter.emit, List.append_assoc, List.cons_append, List.nil_append]
         rfl
       · refine Or.inr ⟨_, _, _, rfl, rfl, rfl, rfl, ?_⟩
         first
           | rfl
           | (simp only [Encoded.leadingChildren, List.drop_zero, scalarsFirst_cons_Write]
              first
                | exact scalarsFirst_bytes _ _
                | exact scalarsFirst_writes _ _))
  | Unreachable type =>
    simp [Encoded.WriteTo, MESSAGE_SNAPSHOT_UNREACHABLE.WriteTo] at h
  | Illegal type =>
    simp only [Encoded.WriteTo, MESSAGE_SNAPSHOT_ILLEGAL.WriteTo, Option.some.injEq] at h
    subst h
    exact ⟨[], by simp [SnapshotWriter.SetWriteException], Or.inl rfl⟩

/-- C27, counterexample: three encoders write a child slot before a scalar
    field.  The encoder of a regular expression writes the capture-name map and
    the pattern before its four scalar fields, and the encoders of a growable
    array and of a map write the type arguments before the length and the pair
    count. -/
theorem C27_counterexample :
    (∃ w', (Encoded.listed (.RegExp ⟨⟨kRegExpCid, false⟩, .heap 10, .heap 11, 1, 2, 3, 4⟩)).WriteTo
          WriterEnv.strict 3 (SnapshotWriter.init Heap.empty) 1 .kMessage false = some w'
        ∧ w'.stream.drop 3
            = [.ObjectImpl (.heap 10) false, .ObjectImpl (.heap 11) false,
               .Write .int32_t 1, .Write .int32_t 2, .Write .int32_t 3, .Write .int8_t 4]
        ∧ scalarsFirst (w'.stream.drop 3) = false)
      ∧ (∃ w', (Encoded.listed (.GrowableObjectArray
            ⟨⟨kGrowableObjectArrayCid, false⟩, .heap 10, 2, .heap 11⟩)).WriteTo
          WriterEnv.strict 3 (SnapshotWriter.init Heap.empty) 1 .kMessage false = some w'
        ∧ w'.stream.drop 3
            = [.ObjectImpl (.heap 10) false, .Write .ObjectPtr 2, .ObjectImpl (.heap 11) true]
        ∧ scalarsFirst (w'.stream.drop 3) = false)
      ∧ (∃ w', (Encoded.listed (.LinkedHashMap selfMap)).WriteTo
          WriterEnv.strict 3 (SnapshotWriter.init Heap.empty) 1 .kMessage false = some w'
        ∧ w'.stream.drop 3
            = [.ObjectImpl Object.null false, .Write .ObjectPtr 2,
               .ObjectImpl (.smi 1) true, .ObjectImpl (.heap 20) true,
               .ObjectImpl (.smi 2) true, .ObjectImpl (.smi 9) true]
        ∧ scalarsFirst (w'.stream.drop 3) = false) :=
  ⟨⟨_, rfl, rfl, rfl⟩, ⟨_, rfl, rfl, rfl⟩, ⟨_, rfl, by decide, by decide⟩⟩

/-- C27, amended.  For every encoder of this file that writes the stream items
    itself (every kind but the two array kinds and closures, whose output is
    written by `vm/snapshot.cc`), every writer state, object id, snapshot kind
    and mode: if the encoder returns and appended anything, then after the
    three header items the payload is laid out as the leading children of the
    kind (the capture-name map and the pattern of a regular expression, the
    type arguments of a growable array and of a map; none for any other kind),
    then all scalar fields, then the remaining child slots: no scalar field
    follows a child slot other than those leading children. -/
theorem C27_scalars_before_children_but_leading (env : WriterEnv) (T : Nat) (e : Encoded)
    (w : SnapshotWriter) (object_id : Int) (kind : Snapshot.Kind) (m : Bool)
    (w' : SnapshotWriter) (hself : e.selfWrites = true)
    (h : e.WriteTo env T w object_id kind m = some w') :
    ∃ items, w'.stream = w.stream ++ items
      ∧ (items = [] ∨ ∃ k tags payload,
          items = Item.InlinedObjectHeader object_id :: k :: Item.WriteTags tags :: payload
            ∧ (payload.take e.leadingChildren).all Item.isChild = true
            ∧ scalarsFirst (payload.drop e.leadingChildren) = true
            ∧ (e.leadingChildren = 0 → scalarsFirst payload = true)) := by
  obtain ⟨items, hs, hf⟩ := Encoded.WriteTo_framed env T e w object_id kind m w' hself h
  refine ⟨items, hs, ?_⟩
  rcases hf with hnil | ⟨k, tags, payload, hitems, -, -, hlead, hrest⟩
  · exact Or.inl hnil
  · refine Or.inr ⟨k, tags, payload, hitems, hlead, hrest, fun h0 => ?_⟩
    rw [h0, List.drop_zero] at hrest
    exact hrest

/-- C27, concrete instances: a regular expression, whose two leading children
    precede the scalars, and a type, whose scalars precede all children. -/
theorem C27_scalars_before_children_but_leading_witness :
    ((Encoded.listed (.RegExp ⟨⟨kRegExpCid, false⟩, .heap 10, .heap 11, 1, 2, 3, 4⟩)).selfWrites
        = true
      ∧ ∃ w', (Encoded.listed (.RegExp ⟨⟨kRegExpCid, false⟩, .heap 10, .heap 11, 1, 2, 3, 4⟩)).WriteTo
            WriterEnv.strict 3 (SnapshotWriter.init Heap.empty) 1 .kMessage false = some w'
        ∧ ∃ items, w'.stream = (SnapshotWriter.init Heap.empty).stream ++ items
          ∧ (items = [] ∨ ∃ k tags payload,
              items = Item.InlinedObjectHeader 1 :: k :: Item.WriteTags tags :: payload
                ∧ (payload.take 2).all Item.isChild = true
                ∧ scalarsFirst (payload.drop 2) = true))
      ∧ ((Encoded.Type_ sampleType).selfWrites = true
        ∧ ∃ w', (Encoded.Type_ sampleType).WriteTo WriterEnv.strict 3
              (SnapshotWriter.init Heap.empty) 1 .kMessage false = some w'
          ∧ ∃ items, w'.stream = (SnapshotWriter.init Heap.empty).stream ++ items
            ∧ (items = [] ∨ ∃ k tags payload,
                items = Item.InlinedObjectHeader 1 :: k :: Item.WriteTags tags :: payload
                  ∧ scalarsFirst payload = true)) :=
  ⟨⟨rfl, _, rfl,
      (C27_scalars_before_children_but_leading WriterEnv.strict 3
        (Encoded.listed (.RegExp ⟨⟨kRegExpCid, false⟩, .heap 10, .heap 11, 1, 2, 3, 4⟩))
        (SnapshotWriter.init Heap.empty) 1 .kMessage false _ rfl rfl).imp
        (fun _ hi => ⟨hi.1, hi.2.imp id (fun ⟨k, tags, payload, h1, h2, h3, _⟩ =>
          ⟨k, tags, payload, h1, h2, h3⟩)⟩)⟩,
   ⟨rfl, _, rfl,
      (C27_scalars_before_children_but_leading WriterEnv.strict 3 (Encoded.Type_ sampleType)
        (SnapshotWriter.init Heap.empty) 1 .kMessage false _ rfl rfl).imp
        (fun _ hi => ⟨hi.1, hi.2.imp id (fun ⟨k, tags, payload, h1, _, _, h4⟩ =>
          ⟨k, tags, payload, h1, h4 rfl⟩)⟩)⟩⟩

/-! ## The mode of collection children -/

theorem SnapshotReader.New_events (cid : ClassId) (r : SnapshotReader) (a : Unit)
    (r' : SnapshotReader) (h : SnapshotReader.New cid r = some (a, r')) :
    r'.events = r.events ++ [.New cid] := by
  simp only [SnapshotReader.New, SnapshotReader.log, Option.some.injEq, Prod.mk.injEq] at h
  obtain ⟨-, rfl⟩ := h
  rfl

theorem SnapshotReader.AddBackRef_events (object_id : Int) (obj : Obj) (st : DeserializeState)
    (r : SnapshotReader) (a : Unit) (r' : SnapshotReader)
    (h : SnapshotReader.AddBackRef object_id obj st r = some (a, r')) :
    r'.events = r.events ++ [.AddBackRef object_id st] := by
  simp only [SnapshotReader.AddBackRef, Option.some.injEq, Prod.mk.injEq] at h
  obtain ⟨-, rfl⟩ := h
  rfl

theorem SnapshotReader.StoreHandle_events (object_id : Int) (obj : Obj)
    (r : SnapshotReader) (a : Unit) (r' : SnapshotReader)
    (h : SnapshotReader.StoreHandle object_id obj r = some (a, r')) :
    r'.events = r.events := by
  simp only [SnapshotReader.StoreHandle, Option.some.injEq, Prod.mk.injEq] at h
  obtain ⟨-, rfl⟩ := h
  rfl

theorem SnapshotReader.freshAddr_events (r : SnapshotReader) (p : ObjectPtr)
    (r' : SnapshotReader) (h : SnapshotReader.freshAddr r = some (p, r')) :
    r'.events = r.events := by
  simp only [SnapshotReader.freshAddr, Option.some.injEq, Prod.mk.injEq] at h
  obtain ⟨-, rfl⟩ := h
  rfl

theorem SnapshotReader.EnqueueRehashingOfMap_events (object_id : Int)
    (r : SnapshotReader) (a : Unit) (r' : SnapshotReader)
    (h : SnapshotReader.EnqueueRehashingOfMap object_id r = some (a, r')) :
    r'.events = r.events ++ [.EnqueueRehashingOfMap object_id] := by
  simp only [SnapshotReader.EnqueueRehashingOfMap, Option.some.injEq, Prod.mk.injEq] at h
  obtain ⟨-, rfl⟩ := h
  rfl

theorem SnapshotReader.ReadObjectImpl_events (m : Bool) (r : SnapshotReader) (p : ObjectPtr)
    (r' : SnapshotReader) (h : SnapshotReader.ReadObjectImpl m r = some (p, r')) :
    r'.events = r.events ++ [.ReadObjectImpl m p] := by
  simp only [SnapshotReader.ReadObjectImpl] at h
  split at h
  · simp only [Option.some.injEq, Prod.mk.injEq] at h
    obtain ⟨rfl, rfl⟩ := h
    rfl
  · simp only [Option.some.injEq, Prod.mk.injEq] at h
    obtain ⟨rfl, rfl⟩ := h
    rfl
  · exact absurd h (by simp)

/-- The slot loop of `LinkedHashMap::ReadFrom` reads each of its `n` children
    in the mode it was given. -/
theorem LinkedHashMap.ReadFrom.loop_events (b : Bool) (n i : Nat) (data : List ObjectPtr)
    (r : SnapshotReader) (d : List ObjectPtr) (r' : SnapshotReader)
    (h : LinkedHashMap.ReadFrom.loop b n i data r = some (d, r')) :
    ∃ ps : List ObjectPtr, ps.length = n
      ∧ r'.events = r.events ++ ps.map (fun p => ReaderEvent.ReadObjectImpl b p) := by
  induction n generalizing i data r with
  | zero =>
    simp only [LinkedHashMap.ReadFrom.loop, pure, StateT.pure, Option.some.injEq,
      Prod.mk.injEq] at h
    obtain ⟨-, rfl⟩ := h
    exact ⟨[], rfl, by simp⟩
  | succ n ih =>
    simp only [LinkedHashMap.ReadFrom.loop] at h
    obtain ⟨p, r1, h1, h⟩ := Rd_bind_eq_some _ _ _ _ _ h
    obtain ⟨ps, hlen, hev⟩ := ih _ _ _ h
    refine ⟨p :: ps, by simp [hlen], ?_⟩
    rw [hev, SnapshotReader.ReadObjectImpl_events b r p r1 h1]
    simp

/-- The events of `LinkedHashMap::ReadFrom`: the type arguments are read
    inline, and each key and value in reference mode unless the canonical bit
    of the tags is set. -/
theorem LinkedHashMap_ReadFrom_events (t : Target) (object_id : Int) (tags : Tags)
    (kind : Snapshot.Kind) (m : Bool) (r : SnapshotReader) (o : Obj) (r' : SnapshotReader)
    (h : LinkedHashMap.ReadFrom t object_id tags kind m r = some (o, r')) :
    ∃ (ta : ObjectPtr) (len : Int) (ps : List ObjectPtr),
      ps.length = (toIntptr (len * 2)).toNat
        ∧ r'.events = r.events ++ [.New kLinkedHashMapCid,
              .AddBackRef object_id .kIsDeserialized, .ReadObjectImpl false ta,
              .Read .ObjectPtr len, .New kArrayCid, .EnqueueRehashingOfMap object_id]
            ++ ps.map (fun p => ReaderEvent.ReadObjectImpl (!tags.canonical) p) := by
  unfold LinkedHashMap.ReadFrom at h
  obtain ⟨_, r1, h1, h⟩ := Rd_bind_eq_some _ _ _ _ _ h
  obtain ⟨_, r2, h2, h⟩ := Rd_bind_eq_some _ _ _ _ _ h
  obtain ⟨ta, r3, h3, h⟩ := Rd_bind_eq_some _ _ _ _ _ h
  obtain ⟨len, r4, h4, h⟩ := Rd_bind_eq_some _ _ _ _ _ h
  obtain ⟨_, r5, h5, h⟩ := Rd_bind_eq_some _ _ _ _ _ h
  obtain ⟨_, r6, h6, h⟩ := Rd_bind_eq_some _ _ _ _ _ h
  obtain ⟨_, r7, h7, h⟩ := Rd_bind_eq_some _ _ _ _ _ h
  obtain ⟨_, r8, h8, h⟩ := Rd_bind_eq_some _ _ _ _ _ h
  obtain ⟨_, r9, h9, h⟩ := Rd_bind_eq_some _ _ _ _ _ h
  simp only [Pure.pure, StateT.pure, Option.some.injEq, Prod.mk.injEq] at h
  obtain ⟨-, rfl⟩ := h
  have e1 := SnapshotReader.New_events _ _ _ _ h1
  have e2 := SnapshotReader.AddBackRef_events _ _ _ _ _ _ h2
  have e3 := SnapshotReader.ReadObjectImpl_events _ _ _ _ h3
  have e4 := (SnapshotReader.Read_eq_some _ _ _ _ h4).2.1
  have e5 := SnapshotReader.New_events _ _ _ _ h5
  have e6 := SnapshotReader.freshAddr_events _ _ _ h6
  have e7 := SnapshotReader.EnqueueRehashingOfMap_events _ _ _ _ h7
  obtain ⟨ps, hlen, e8⟩ := LinkedHashMap.ReadFrom.loop_events _ _ _ _ _ _ _ h8
  have e9 := SnapshotReader.StoreHandle_events _ _ _ _ _ h9
  have hb : (if UntaggedObject.IsCanonical tags = true then false else true)
      = !tags.canonical := by
    cases hc : tags.canonical <;> simp [UntaggedObject.IsCanonical, hc]
  refine ⟨ta, len, ps, hlen, ?_⟩
  rw [e9, e8, e7, e6, e5, e4, e3, e2, e1, hb]
  simp [kAsInlinedObject]

/-- The events of `GrowableObjectArray::ReadFrom`: the type arguments are read
    inline and the backing array in reference mode. -/
theorem GrowableObjectArray_ReadFrom_events (object_id : Int) (tags : Tags)
    (kind : Snapshot.Kind) (m : Bool) (r : SnapshotReader) (o : Obj) (r' : SnapshotReader)
    (h : GrowableObjectArray.ReadFrom object_id tags kind m r = some (o, r')) :
    ∃ (ta : ObjectPtr) (len : Int) (data : ObjectPtr),
      r'.events = r.events ++ [.New kGrowableObjectArrayCid,
        .AddBackRef object_id .kIsDeserialized, .ReadObjectImpl false ta,
        .Read .ObjectPtr len, .ReadObjectImpl true data] := by
  unfold GrowableObjectArray.ReadFrom at h
  obtain ⟨_, r1, h1, h⟩ := Rd_bind_eq_some _ _ _ _ _ h
  obtain ⟨_, r2, h2, h⟩ := Rd_bind_eq_some _ _ _ _ _ h
  obtain ⟨ta, r3, h3, h⟩ := Rd_bind_eq_some _ _ _ _ _ h
  obtain ⟨len, r4, h4, h⟩ := Rd_bind_eq_some _ _ _ _ _ h
  obtain ⟨data, r5, h5, h⟩ := Rd_bind_eq_some _ _ _ _ _ h
  obtain ⟨_, r6, h6, h⟩ := Rd_bind_eq_some _ _ _ _ _ h
  simp only [Pure.pure, StateT.pure, Option.some.injEq, Prod.mk.injEq] at h
  obtain ⟨-, rfl⟩ := h
  have e1 := SnapshotReader.New_events _ _ _ _ h1
  have e2 := SnapshotReader.AddBackRef_events _ _ _ _ _ _ h2
  have e3 := SnapshotReader.ReadObjectImpl_events _ _ _ _ h3
  have e4 := (SnapshotReader.Read_eq_some _ _ _ _ h4).2.1
  have e5 := SnapshotReader.ReadObjectImpl_events _ _ _ _ h5
  have e6 := SnapshotReader.StoreHandle_events _ _ _ _ _ h6
  refine ⟨ta, len, data, ?_⟩
  rw [e6, e5, e4, e3, e2, e1]
  simp [kAsInlinedObject, kAsReference]

theorem Item_filterMap_childMode_map (ps : List ObjectPtr) (b : Bool) :
    (ps.map (fun p => Item.ObjectImpl p b)).filterMap Item.childMode
      = List.replicate ps.length b := by
  induction ps with
  | nil => rfl
  | cons p ps ih => simp [List.replicate_succ, Item.childMode, ih]

theorem ReaderEvent_filterMap_childMode_map (ps : List ObjectPtr) (b : Bool) :
    (ps.map (fun p => ReaderEvent.ReadObjectImpl b p)).filterMap ReaderEvent.childMode
      = List.replicate ps.length b := by
  induction ps with
  | nil => rfl
  | cons p ps ih => simp [List.replicate_succ, ReaderEvent.childMode, ih]

/-- What `UntaggedGrowableObjectArray::WriteTo` appends. -/
theorem UntaggedGrowableObjectArray_WriteTo_stream (g : UntaggedGrowableObjectArray)
    (w : SnapshotWriter) (object_id : Int) (kind : Snapshot.Kind) (m : Bool) :
    UntaggedGrowableObjectArray.WriteTo g w object_id kind m
      = some { w with stream := w.stream ++
          [.InlinedObjectHeader object_id, .IndexedObject kGrowableObjectArrayCid,
           .WriteTags g.tags, .ObjectImpl g.type_arguments false,
           .Write .ObjectPtr g.length_, .ObjectImpl g.data true] } := by
  simp [UntaggedGrowableObjectArray.WriteTo, SnapshotWriter.WriteInlinedObjectHeader,
    SnapshotWriter.WriteIndexedObject, SnapshotWriter.WriteTags, SnapshotWriter.Write,
    SnapshotWriter.WriteObjectImpl, SnapshotWriter.emit, kAsInlinedObject, kAsReference]

/-- Decoding of what `UntaggedGrowableObjectArray::WriteTo` wrote. -/
theorem GrowableObjectArray_ReadFrom_stream (t : Target) (g : UntaggedGrowableObjectArray)
    (object_id : Int) (tags : Tags) (kind : Snapshot.Kind) (m : Bool)
    (fd : MessageFinalizableData) :
    ∃ r', ReadFromOf t kGrowableObjectArrayCid object_id tags kind m
        (SnapshotReader.init [.ObjectImpl g.type_arguments false,
           .Write .ObjectPtr g.length_, .ObjectImpl g.data true] fd)
        = some (Obj.GrowableObjectArray
            { tags := ⟨kGrowableObjectArrayCid, false⟩, type_arguments := g.type_arguments,
              length_ := g.length_, data := g.data }, r')
      ∧ r'.stream = []
      ∧ r'.events.filter ReaderEvent.isStreamRead
          = [.ReadObjectImpl false g.type_arguments, .Read .ObjectPtr g.length_,
             .ReadObjectImpl true g.data] := by
  apply Exists.intro
  refine ⟨?_, ?_, ?_⟩
  · simp only [ReadFromOf, GrowableObjectArray.ReadFrom, SnapshotReader.New, SnapshotReader.log,
      SnapshotReader.AddBackRef, SnapshotReader.ReadObjectImpl, SnapshotReader.ReadSmiValue,
      SnapshotReader.Read, SnapshotReader.StoreHandle, SnapshotReader.init, if_true,
      kAsInlinedObject, kAsReference, bind, StateT.bind, pure, StateT.pure, Option.some_bind]
    rfl
  · rfl
  · rfl

/-- C28. Inline-versus-reference mode of collection children.
    Encoders, for every map `o`, growable array `g` and writer state:
    `UntaggedLinkedHashMap::WriteTo` writes the type arguments inline and then
    every key and value in reference mode when the map is not canonical and
    inline when it is canonical; `UntaggedGrowableObjectArray::WriteTo` writes
    the type arguments inline, the length, and the backing array in reference
    mode.
    Decoders, for every reader state and tags word on which they return:
    `LinkedHashMap::ReadFrom` reads the type arguments inline and then every
    key and value in reference mode when the canonical bit of the tags is
    clear and inline when it is set; `GrowableObjectArray::ReadFrom` reads the
    type arguments inline and the backing array in reference mode.
    Agreement: decoding the stream the encoder wrote for a growable array, and
    for a map whose `used_data` is even and whose `deleted_keys` counts its
    tombstones, returns, and the modes the decoder read the children in are,
    one by one, the modes the encoder wrote them in. -/
theorem C28_collection_child_modes (t : Target) (o : UntaggedLinkedHashMap)
    (g : UntaggedGrowableObjectArray) (w : SnapshotWriter) (h : Heap) (object_id : Int)
    (kind : Snapshot.Kind) (m : Bool) (tags : Tags) (rm rg rm' rg' : SnapshotReader)
    (mo go : Obj)
    (hm : LinkedHashMap.ReadFrom t object_id tags kind m rm = some (mo, rm'))
    (hg : GrowableObjectArray.ReadFrom object_id tags kind m rg = some (go, rg'))
    (hu0 : 0 ≤ o.used_data) (heven : o.used_data % 2 = 0)
    (hdel : o.deleted_keys = (o.tombstones (o.used_data / 2).toNat : Int))
    (hsmall : o.used_data ≤ 2 ^ 61) (hk : t.kInitialIndexSize < 2 ^ 63) :
    (∃ w' items, UntaggedLinkedHashMap.WriteTo o w object_id kind m = some w'
        ∧ w'.stream = w.stream ++ items
        ∧ items.filterMap Item.childMode
            = false :: List.replicate (o.livePairs ((o.used_data + 1) / 2).toNat).length
                (!o.tags.canonical))
      ∧ (∃ w', UntaggedGrowableObjectArray.WriteTo g w object_id kind m = some w'
        ∧ w'.stream = w.stream ++
            [.InlinedObjectHeader object_id, .IndexedObject kGrowableObjectArrayCid,
             .WriteTags g.tags, .ObjectImpl g.type_arguments false,
             .Write .ObjectPtr g.length_, .ObjectImpl g.data true])
      ∧ (∃ l n, rm'.events = rm.events ++ l
        ∧ l.filterMap ReaderEvent.childMode = false :: List.replicate n (!tags.canonical))
      ∧ (∃ l, rg'.events = rg.events ++ l
        ∧ l.filterMap ReaderEvent.childMode = [false, true])
      ∧ (∃ w' o' r', UntaggedLinkedHashMap.WriteTo o (SnapshotWriter.init h) object_id kind m
            = some w'
        ∧ SnapshotReader.ReadInlinedObject t kind m w'.toReader = some (o', r')
        ∧ r'.events.filterMap ReaderEvent.childMode = w'.stream.filterMap Item.childMode)
      ∧ (∃ w' o' r', UntaggedGrowableObjectArray.WriteTo g (SnapshotWriter.init h) object_id
            kind m = some w'
        ∧ SnapshotReader.ReadInlinedObject t kind m w'.toReader = some (o', r')
        ∧ r'.events.filterMap ReaderEvent.childMode = w'.stream.filterMap Item.childMode
        ∧ w'.stream.filterMap Item.childMode = [false, true]) := by
  refine ⟨?_, ?_, ?_, ?_, ?_, ?_⟩
  · refine ⟨_, o.items object_id, UntaggedLinkedHashMap_WriteTo_stream o w object_id kind m,
      rfl, ?_⟩
    simp only [UntaggedLinkedHashMap.items, List.filterMap_append,
      Item_filterMap_childMode_map]
    rfl
  · exact ⟨_, UntaggedGrowableObjectArray_WriteTo_stream g w object_id kind m, rfl⟩
  · obtain ⟨ta, len, ps, -, hev⟩ :=
      LinkedHashMap_ReadFrom_events t object_id tags kind m rm mo rm' hm
    refine ⟨_, ps.length, by rw [hev, List.append_assoc], ?_⟩
    simp only [List.filterMap_append, ReaderEvent_filterMap_childMode_map]
    rfl
  · obtain ⟨ta, len, data, hev⟩ :=
      GrowableObjectArray_ReadFrom_events object_id tags kind m rg go rg' hg
    exact ⟨_, hev, rfl⟩
  · obtain ⟨-, hdel', hsmall'⟩ := o.live_of_tombstones hu0 hdel hsmall
    obtain ⟨w', hw, hr⟩ :=
      linkedhashmap_decode t o h object_id kind m hu0 heven hdel' hsmall' hk
    refine ⟨w', _, _, hw, hr, ?_⟩
    have hn : ((o.used_data + 1) / 2).toNat = (o.used_data / 2).toNat := by omega
    rw [UntaggedLinkedHashMap_WriteTo_stream] at hw
    obtain rfl := Option.some.inj hw
    simp only [LinkedHashMap.readerAfter, SnapshotWriter.init, UntaggedLinkedHashMap.items, hn,
      List.nil_append, List.filterMap_append, ReaderEvent_filterMap_childMode_map,
      Item_filterMap_childMode_map]
    rfl
  · obtain ⟨r', hr, -, hev⟩ := GrowableObjectArray_ReadFrom_stream t g object_id
      (UntaggedObject.ClassIdTag.update kGrowableObjectArrayCid g.tags) kind m
      (SnapshotWriter.init h).finalizable_data
    refine ⟨_, Obj.GrowableObjectArray
      { tags := ⟨kGrowableObjectArrayCid, false⟩, type_arguments := g.type_arguments,
        length_ := g.length_, data := g.data }, r',
      UntaggedGrowableObjectArray_WriteTo_stream g _ object_id kind m, ?_, ?_, ?_⟩
    · rw [SnapshotReader.ReadInlinedObject_indexed t kind m _ object_id
        kGrowableObjectArrayCid g.tags _ rfl]
      exact hr
    · have h2 : r'.events.filterMap ReaderEvent.childMode
          = (r'.events.filter ReaderEvent.isStreamRead).filterMap ReaderEvent.childMode := by
        rw [List.filterMap_filter]
        congr 1
        funext e
        cases e <;> rfl
      rw [h2, hev]
      rfl
    · rfl

/-- C28, concrete instance: the map `selfMap` (not canonical, two live pairs)
    and a growable array of length 2, with decoder runs on the streams of an
    empty map and of that growable array. -/
theorem C28_collection_child_modes_witness :
    ∃ mo rm' go rg',
      LinkedHashMap.ReadFrom Target.x64 1 ⟨kLinkedHashMapCid, false⟩ .kMessage false
          (SnapshotReader.init [.ObjectImpl Object.null false, .Write .ObjectPtr 0] .empty)
        = some (mo, rm')
      ∧ GrowableObjectArray.ReadFrom 1 ⟨kLinkedHashMapCid, false⟩ .kMessage false
          (SnapshotReader.init [.ObjectImpl Object.null false, .Write .ObjectPtr 2,
            .ObjectImpl (.heap 11) true] .empty)
        = some (go, rg')
      ∧ (∃ w' items, UntaggedLinkedHashMap.WriteTo selfMap (SnapshotWriter.init Heap.empty) 1
            .kMessage false = some w'
          ∧ w'.stream = (SnapshotWriter.init Heap.empty).stream ++ items
          ∧ items.filterMap Item.childMode
              = false :: List.replicate
                  (selfMap.livePairs ((selfMap.used_data + 1) / 2).toNat).length
                  (!selfMap.tags.canonical))
      ∧ (∃ l n, rm'.events
            = (SnapshotReader.init [.ObjectImpl Object.null false, .Write .ObjectPtr 0]
                .empty).events ++ l
          ∧ l.filterMap ReaderEvent.childMode = false :: List.replicate n (!false))
      ∧ (∃ l, rg'.events
            = (SnapshotReader.init [.ObjectImpl Object.null false, .Write .ObjectPtr 2,
                .ObjectImpl (.heap 11) true] .empty).events ++ l
          ∧ l.filterMap ReaderEvent.childMode = [false, true]) := by
  have key := C28_collection_child_modes Target.x64 selfMap
    ⟨⟨kGrowableObjectArrayCid, false⟩, Object.null, 2, .heap 11⟩
    (SnapshotWriter.init Heap.empty) Heap.empty 1 .kMessage false ⟨kLinkedHashMapCid, false⟩
    (SnapshotReader.init [.ObjectImpl Object.null false, .Write .ObjectPtr 0] .empty)
    (SnapshotReader.init [.ObjectImpl Object.null false, .Write .ObjectPtr 2,
      .ObjectImpl (.heap 11) true] .empty)
    _ _ _ _ rfl rfl (by decide) (by decide) (by decide) (by decide) (by decide)
  exact ⟨_, _, _, _, rfl, rfl, key.1, key.2.2.1, key.2.2.2.1⟩

/-! ## The reader mirrors the writer -/

theorem mirrors_cons_cons (i : Item) (items : List Item) (e : ReaderEvent)
    (events : List ReaderEvent) :
    mirrors (i :: items) (e :: events) = (i.readBy e && mirrors items events) := rfl

/-- Reading back the elements `UntaggedTypeArguments::WriteTo` wrote: an element
    replaced by the dynamic type reads as the dynamic type. -/
theorem SnapshotReader.ReadObjects_elements (env : WriterEnv) (m m' can_send : Bool)
    (xs : List ObjectPtr) (rest : List Item) (r : SnapshotReader)
    (h : r.stream = xs.map (UntaggedTypeArguments.elementItem env m can_send) ++ rest) :
    ∃ ys : List ObjectPtr,
      SnapshotReader.ReadObjects m' xs.length r
        = some (ys, { r with stream := rest,
                             events := r.events ++ ys.map (fun p => ReaderEvent.ReadObjectImpl m' p) })
      ∧ (m' = m → mirrors (xs.map (UntaggedTypeArguments.elementItem env m can_send))
            (ys.map (fun p => ReaderEvent.ReadObjectImpl m' p)) = true) := by
  induction xs generalizing r with
  | nil =>
    simp only [List.map_nil, List.nil_append] at h
    exact ⟨[], by simp [SnapshotReader.ReadObjects, pure, StateT.pure, ← h], fun _ => rfl⟩
  | cons x xs ih =>
    simp only [List.map_cons, List.cons_append] at h
    cases hx : UntaggedTypeArguments.elementItem env m can_send x with
    | ObjectImpl p b =>
      rw [hx] at h
      obtain ⟨ys, hys, hmir⟩ := ih
        { r with stream := xs.map (UntaggedTypeArguments.elementItem env m can_send) ++ rest,
                 events := r.events ++ [ReaderEvent.ReadObjectImpl m' p] } rfl
      refine ⟨p :: ys, ?_, ?_⟩
      · simp only [List.length_cons, SnapshotReader.ReadObjects, bind, StateT.bind,
          SnapshotReader.ReadObjectImpl, h, pure, StateT.pure, Option.some_bind]
        rw [hys]
        simp
      · intro hm
        subst hm
        have hb : b = m' := by
          unfold UntaggedTypeArguments.elementItem at hx
          split_ifs at hx <;> simp_all
        simp [List.map_cons, mirrors_cons_cons, Item.readBy, hx, hmir rfl, hb]
    | VMIsolateObject cid =>
      rw [hx] at h
      have hcid : cid = kDynamicType := by
        unfold UntaggedTypeArguments.elementItem at hx
        split_ifs at hx <;> simp_all
      subst hcid
      obtain ⟨ys, hys, hmir⟩ := ih
        { r with stream := xs.map (UntaggedTypeArguments.elementItem env m can_send) ++ rest,
                 events := r.events ++ [ReaderEvent.ReadObjectImpl m' Object.dynamic_type] } rfl
      refine ⟨Object.dynamic_type :: ys, ?_, ?_⟩
      · simp only [List.length_cons, SnapshotReader.ReadObjects, bind, StateT.bind,
          SnapshotReader.ReadObjectImpl, h, pure, StateT.pure, Option.some_bind]
        rw [hys]
        simp
      · intro hm
        subst hm
        simp [List.map_cons, mirrors_cons_cons, Item.readBy, hx, hmir rfl]
    | InlinedObjectHeader _ | IndexedObject _ | WriteTags _ | Write _ _ | Align _ | ClassIdOf _
    | StaticImplicitClosure _ _ _ _ =>
      unfold UntaggedTypeArguments.elementItem at hx
      split_ifs at hx

/-- The loop of `n` child reads returns `n` children, each read in the mode
    given. -/
theorem SnapshotReader.ReadObjects_count (m : Bool) (n : Nat) (r : SnapshotReader)
    (fields : List ObjectPtr) (r' : SnapshotReader)
    (h : SnapshotReader.ReadObjects m n r = some (fields, r')) :
    fields.length = n
      ∧ r'.events = r.events ++ fields.map (fun p => ReaderEvent.ReadObjectImpl m p) := by
  induction n generalizing r fields with
  | zero =>
    simp only [SnapshotReader.ReadObjects, pure, StateT.pure, Option.some.injEq,
      Prod.mk.injEq] at h
    obtain ⟨rfl, rfl⟩ := h
    exact ⟨rfl, by simp⟩
  | succ n ih =>
    simp only [SnapshotReader.ReadObjects] at h
    obtain ⟨p, r1, h1, h⟩ := Rd_bind_eq_some _ _ _ _ _ h
    obtain ⟨ps, r2, h2, h⟩ := Rd_bind_eq_some _ _ _ _ _ h
    simp only [pure, StateT.pure, Option.some.injEq, Prod.mk.injEq] at h
    obtain ⟨rfl, rfl⟩ := h
    obtain ⟨hlen, hev⟩ := ih _ _ h2
    refine ⟨by simp [hlen], ?_⟩
    rw [hev, SnapshotReader.ReadObjectImpl_events m r p r1 h1]
    simp

/-- C31. Inline typed-buffer round trip.  For every internal typed buffer of
    one of the 14 element kinds that holds its `bytes` payload bytes and is
    written on the inline path (not a message at or above the threshold),
    provided the decoder's element size for the kind gives the byte count the
    encoder's table gives (`len * ElementSizeInBytes(cid) = bytes`):
    * `UntaggedTypedData::WriteTo` writes the header with the internal class
      id, the element count, one alignment step and then the payload bytes;
    * `TypedData::ReadFrom` on that stream returns, all of it consumed, a buffer
      equal to the source: the same kind, the same element count and the same
      bytes in order;
    * the decoder allocated a buffer of that kind (`New(cid, len)`), and after
      the element count its stream reads are one alignment step of the same
      size as the encoder's, immediately followed by the reads of exactly
      `bytes` payload bytes, which are the source bytes in order. -/
theorem C31_inline_typed_buffer_roundtrip (t : Target) (T : Nat) (o : UntaggedTypedData)
    (h : Heap) (object_id : Int) (kind : Snapshot.Kind) (m : Bool) (ext : ClassId)
    (bytes : Int)
    (hs : UntaggedTypedData.switchCid o.tags.class_id o.length_ = some (ext, bytes))
    (hinl : ¬ (kind = .kMessage ∧ toUint64 bytes ≥ T))
    (hlen : o.data.length = bytes.toNat)
    (hsize : toIntptr (o.length_ * t.ElementSizeInBytes o.tags.class_id) = bytes) :
    ∃ w' r',
      UntaggedTypedData.WriteTo T o (SnapshotWriter.init h) object_id kind m = some w'
        ∧ w'.stream = [.InlinedObjectHeader object_id, .IndexedObject o.tags.class_id,
              .WriteTags o.tags, .Write .ObjectPtr o.length_, .Align Zone.kAlignment]
            ++ o.data.map (fun (b : Nat) => Item.Write .uint8_t (b : Int))
        ∧ SnapshotReader.ReadInlinedObject t kind m w'.toReader = some (Obj.TypedData o, r')
        ∧ r'.stream = []
        ∧ r'.events = [.Read .ObjectPtr o.length_, .New o.tags.class_id,
              .AddBackRef object_id .kIsDeserialized, .NoSafepointScope,
              .Align Zone.kAlignment]
            ++ o.data.map (fun (b : Nat) => ReaderEvent.Read .uint8_t (b : Int))
            ++ (if o.tags.canonical then [.Canonicalize object_id] else [])
        ∧ (o.data.length : Int) = max bytes 0 := by
  have htake : o.data.take bytes.toNat = o.data := by
    rw [← hlen]; exact List.take_length o.data
  have hcid := (UntaggedTypedData.switchCid_external _ _ _ _ hs).2.2
  have hl : bytes.toNat = (o.data.map (fun (c : Nat) => (c : Int))).length := by simp [hlen]
  have hw := UntaggedTypedData.WriteTo_inline T o (SnapshotWriter.init h) object_id kind m ext
    bytes hs hinl
  have hmax : (o.data.length : Int) = max bytes 0 := by
    rw [hlen]
    omega
  obtain ⟨tags, len, data⟩ := o
  obtain ⟨cid, can⟩ := tags
  simp only at hs hlen hsize htake hcid hl hw hmax ⊢
  have hread : ∃ r', SnapshotReader.ReadInlinedObject t kind m
        (UntaggedTypedData.inlineResult ⟨⟨cid, can⟩, len, data⟩ (SnapshotWriter.init h)
          object_id bytes).toReader
        = some (Obj.TypedData ⟨⟨cid, can⟩, len, data⟩, r')
      ∧ r'.stream = []
      ∧ r'.events = [.Read .ObjectPtr len, .New cid,
            .AddBackRef object_id .kIsDeserialized, .NoSafepointScope,
            .Align Zone.kAlignment]
          ++ data.map (fun (b : Nat) => ReaderEvent.Read .uint8_t (b : Int))
          ++ (if can then [.Canonicalize object_id] else []) := by
    simp only [UntaggedTypedData.inlineResult, bytesItems_eq, htake,
      SnapshotWriter.init, SnapshotWriter.toReader, SnapshotReader.init,
      List.nil_append, List.cons_append, List.append_assoc,
      SnapshotReader.ReadInlinedObject, ReadFromOf_typedData t _ hcid, TypedData.ReadFrom,
      UntaggedObject.ClassIdTag.update, UntaggedObject.ClassIdTag.decode,
      SnapshotReader.ReadSmiValue, SnapshotReader.Read, SnapshotReader.Align,
      SnapshotReader.ReadBytes, SnapshotReader.New, SnapshotReader.log,
      SnapshotReader.AddBackRef, bind, StateT.bind, pure,
      StateT.pure, Option.some_bind, if_true, hsize, Zone.kAlignment, hl]
    rw [SnapshotReader.ReadN_map .uint8_t _ []]
    · cases can <;>
        simp [UntaggedObject.IsCanonical, map_toNat_comp_cast,
          SnapshotReader.Canonicalize, SnapshotReader.log, SnapshotReader.StoreHandle,
          bind, StateT.bind, pure, StateT.pure, Function.comp_def]
    · simp
  obtain ⟨r', hr, hst, hev⟩ := hread
  refine ⟨_, r', hw, ?_, hr, hst, hev, hmax⟩
  simp [UntaggedTypedData.inlineResult, SnapshotWriter.init, bytesItems_eq, htake]

/-- C31, concrete instance: three 16-bit elements, six payload bytes, below
    the threshold 7. -/
theorem C31_inline_typed_buffer_roundtrip_witness :
    ∃ w' r',
      UntaggedTypedData.WriteTo 7 ⟨⟨kTypedDataInt16ArrayCid, false⟩, 3, [1, 0, 2, 0, 3, 0]⟩
          (SnapshotWriter.init Heap.empty) 1 .kMessage false = some w'
        ∧ SnapshotReader.ReadInlinedObject Target.x64 .kMessage false w'.toReader
            = some (Obj.TypedData ⟨⟨kTypedDataInt16ArrayCid, false⟩, 3, [1, 0, 2, 0, 3, 0]⟩, r')
        ∧ r'.stream = [] := by
  obtain ⟨w', r', hw, -, hr, hst, -, -⟩ := C31_inline_typed_buffer_roundtrip Target.x64 7
    ⟨⟨kTypedDataInt16ArrayCid, false⟩, 3, [1, 0, 2, 0, 3, 0]⟩ Heap.empty 1 .kMessage false
    kExternalTypedDataInt16ArrayCid 6 (by decide) (by decide) rfl (by decide)
  exact ⟨w', r', hw, hr, hst⟩

/-! ## External strings -/

/-- C32. External strings are encoded as ordinary strings.  For every external
    one-byte (two-byte) string `e`, every internal string `s` with the same
    tags, length and code units, every writer state and object id,
    `UntaggedExternalOneByteString::WriteTo` (`UntaggedExternalTwoByteString::
    WriteTo`) on `e` returns exactly the writer that
    `UntaggedOneByteString::WriteTo` (`UntaggedTwoByteString::WriteTo`) returns
    on `s`: the same stream, with the kind tag of one-byte (two-byte) strings,
    not of the external kind.  For a string that holds `length` code units the
    stream written on a fresh writer decodes, all of it consumed, to an
    internal string: the object returned has the class id of one-byte
    (two-byte) strings, whatever class id the tags of the external string
    carry, and the same length and code units. -/
theorem C32_external_strings_encode_as_internal (t : Target) (e s : UntaggedString)
    (w : SnapshotWriter) (h : Heap) (object_id : Int) (kind : Snapshot.Kind) (m : Bool)
    (htags : s.tags = e.tags) (hlength : s.length_ = e.length_) (hdata : s.data = e.data)
    (h0 : 0 ≤ e.length_) (hlen : e.data.length = e.length_.toNat) :
    UntaggedExternalOneByteString.WriteTo e w object_id kind m
        = UntaggedOneByteString.WriteTo s w object_id kind m
      ∧ UntaggedExternalTwoByteString.WriteTo e w object_id kind m
        = UntaggedTwoByteString.WriteTo s w object_id kind m
      ∧ (∃ w', UntaggedExternalOneByteString.WriteTo e w object_id kind m = some w'
          ∧ (w'.stream.drop w.stream.length).take 2
              = [.InlinedObjectHeader object_id, .IndexedObject kOneByteStringCid])
      ∧ (∃ w', UntaggedExternalTwoByteString.WriteTo e w object_id kind m = some w'
          ∧ (w'.stream.drop w.stream.length).take 2
              = [.InlinedObjectHeader object_id, .IndexedObject kTwoByteStringCid])
      ∧ decodeMessage t kind m
          (UntaggedExternalOneByteString.WriteTo e (SnapshotWriter.init h) object_id kind m)
        = some (Obj.String { tags := ⟨kOneByteStringCid, e.tags.canonical⟩,
                             length_ := e.length_, data := e.data })
      ∧ decodeMessage t kind m
          (UntaggedExternalTwoByteString.WriteTo e (SnapshotWriter.init h) object_id kind m)
        = some (Obj.String { tags := ⟨kTwoByteStringCid, e.tags.canonical⟩,
                             length_ := e.length_, data := e.data }) := by
  have hse : s = e := by
    cases s
    cases e
    simp_all
  subst hse
  refine ⟨rfl, rfl, ?_, ?_, ?_, ?_⟩
  · refine ⟨_, StringWriteTo_eq w object_id kind kOneByteStringCid .uint8_t _ _ _
      (Or.inl ⟨rfl, rfl⟩) h0 hlen, ?_⟩
    simp
  · refine ⟨_, StringWriteTo_eq w object_id kind kTwoByteStringCid .uint16_t _ _ _
      (Or.inr ⟨by decide, rfl⟩) h0 hlen, ?_⟩
    simp
  · exact onebytestring_roundtrip t s h object_id kind m h0 hlen
  · exact twobytestring_roundtrip t s h object_id kind m h0 hlen

/-- C32, concrete instance: the external one-byte string "hi"; the class-id
    field of its tags is not that of one-byte strings, the decoded string has
    the class id of one-byte strings. -/
theorem C32_external_strings_encode_as_internal_witness :
    UntaggedExternalOneByteString.WriteTo ⟨⟨kIllegalCid, false⟩, 2, [104, 105]⟩
        (SnapshotWriter.init Heap.empty) 1 .kMessage false
      = UntaggedOneByteString.WriteTo ⟨⟨kIllegalCid, false⟩, 2, [104, 105]⟩
        (SnapshotWriter.init Heap.empty) 1 .kMessage false
      ∧ decodeMessage Target.x64 .kMessage false
          (UntaggedExternalOneByteString.WriteTo
            ⟨⟨kIllegalCid, false⟩, 2, [104, 105]⟩
            (SnapshotWriter.init Heap.empty) 1 .kMessage false)
        = some (Obj.String { tags := ⟨kOneByteStringCid, false⟩, length_ := 2,
                             data := [104, 105] }) :=
  ⟨(C32_external_strings_encode_as_internal Target.x64
      ⟨⟨kIllegalCid, false⟩, 2, [104, 105]⟩
      ⟨⟨kIllegalCid, false⟩, 2, [104, 105]⟩
      (SnapshotWriter.init Heap.empty) Heap.empty 1 .kMessage false rfl rfl rfl
      (by decide) rfl).1,
   (C32_external_strings_encode_as_internal Target.x64
      ⟨⟨kIllegalCid, false⟩, 2, [104, 105]⟩
      ⟨⟨kIllegalCid, false⟩, 2, [104, 105]⟩
      (SnapshotWriter.init Heap.empty) Heap.empty 1 .kMessage false rfl rfl rfl
      (by decide) rfl).2.2.2.2.1⟩

/-! ## String decoding and the declared length -/

/-- A returning loop of `n` scalar reads consumed `n` items of the type read. -/
theorem SnapshotReader.ReadN_eq_some (ty : ScalarType) (n : Nat) (r : SnapshotReader)
    (vs : List Int) (r' : SnapshotReader)
    (h : SnapshotReader.ReadN ty n r = some (vs, r')) :
    vs.length = n
      ∧ r.stream = vs.map (fun v => Item.Write ty v) ++ r'.stream
      ∧ r'.events = r.events ++ vs.map (fun v => ReaderEvent.Read ty v) := by
  induction n generalizing r vs with
  | zero =>
    simp only [SnapshotReader.ReadN, pure, StateT.pure, Option.some.injEq,
      Prod.mk.injEq] at h
    obtain ⟨rfl, rfl⟩ := h
    exact ⟨rfl, by simp, by simp⟩
  | succ n ih =>
    simp only [SnapshotReader.ReadN] at h
    obtain ⟨v, r1, h1, h⟩ := Rd_bind_eq_some _ _ _ _ _ h
    obtain ⟨ws, r2, h2, h⟩ := Rd_bind_eq_some _ _ _ _ _ h
    simp only [pure, StateT.pure, Option.some.injEq, Prod.mk.injEq] at h
    obtain ⟨rfl, rfl⟩ := h
    obtain ⟨hlen, hst, hev⟩ := ih _ _ h2
    obtain ⟨hs1, he1, -⟩ := SnapshotReader.Read_eq_some ty r v r1 h1
    refine ⟨by simp [hlen], ?_, ?_⟩
    · rw [hs1, hst]
      simp
    · rw [hev, he1]
      simp

/-- What `String::ReadFromImpl` does on a stream that starts with the `len`
    code units `data`. -/
theorem String.ReadFromImpl_run (cid : ClassId) (char_type : ScalarType) (len : Int)
    (tags : Tags) (kind : Snapshot.Kind) (data : List Nat) (rest : List Item)
    (r : SnapshotReader) (hlen : data.length = len.toNat)
    (hs : r.stream
      = (data.map (fun (c : Nat) => (c : Int))).map (fun v => Item.Write char_type v) ++ rest) :
    String.ReadFromImpl cid char_type len tags kind r
      = some (Obj.String { tags := ⟨cid, tags.canonical⟩, length_ := len, data := data },
          { r with
            stream := rest,
            events := r.events ++
              (if tags.canonical then
                (data.map (fun (c : Nat) => (c : Int))).map
                    (fun v => ReaderEvent.Read char_type v) ++ [.NewSymbol cid]
              else
                [.New cid, .SetHash 0] ++
                  (if len = 0 then []
                   else ReaderEvent.NoSafepointScope ::
                     (data.map (fun (c : Nat) => (c : Int))).map
                       (fun v => ReaderEvent.Read char_type v))) }) := by
  have hl : len.toNat = (data.map (fun (c : Nat) => (c : Int))).length := by simp [hlen]
  cases hc : tags.canonical
  · by_cases hz : len = 0
    · have hd : data = [] := by
        apply List.eq_nil_of_length_eq_zero
        rw [hlen, hz]; rfl
      subst hd
      simp only [List.map_nil, List.nil_append] at hs
      simp [String.ReadFromImpl, UntaggedObject.IsCanonical, hc, hz, SnapshotReader.New,
        SnapshotReader.log, bind, StateT.bind, pure, StateT.pure, hs]
    · simp only [String.ReadFromImpl, UntaggedObject.IsCanonical, hc, hz, SnapshotReader.New,
        SnapshotReader.log, bind, StateT.bind, pure, StateT.pure, Option.some_bind, if_false,
        Bool.false_eq_true, hl]
      rw [SnapshotReader.ReadN_map char_type _ rest]
      · simp [map_toNat_comp_cast]
      · simp [hs]
  · simp only [String.ReadFromImpl, UntaggedObject.IsCanonical, hc, SnapshotReader.New,
      SnapshotReader.log, bind, StateT.bind, pure, StateT.pure, Option.some_bind, if_true, hl]
    rw [SnapshotReader.ReadN_map char_type _ rest r hs]
    simp [map_toNat_comp_cast]

/-- Whenever `String::ReadFromImpl` returns it has read exactly `len` code
    units. -/
theorem String.ReadFromImpl_reads (cid : ClassId) (char_type : ScalarType) (len : Int)
    (tags : Tags) (kind : Snapshot.Kind) (r : SnapshotReader) (o : Obj) (r' : SnapshotReader)
    (h : String.ReadFromImpl cid char_type len tags kind r = some (o, r')) :
    ∃ chars : List Int, chars.length = len.toNat
      ∧ r.stream = chars.map (fun v => Item.Write char_type v) ++ r'.stream
      ∧ r'.events.filter ReaderEvent.isStreamRead
          = r.events.filter ReaderEvent.isStreamRead
            ++ chars.map (fun v => ReaderEvent.Read char_type v) := by
  unfold String.ReadFromImpl at h
  cases hc : tags.canonical
  · simp only [UntaggedObject.IsCanonical, hc, Bool.false_eq_true, if_false] at h
    obtain ⟨_, r1, h1, k1⟩ := Rd_bind_eq_some _ _ _ _ _ h
    obtain ⟨_, r2, h2, k2⟩ := Rd_bind_eq_some _ _ _ _ _ k1
    clear h k1
    simp only [SnapshotReader.New, SnapshotReader.log, Option.some.injEq, Prod.mk.injEq] at h1 h2
    obtain ⟨-, rfl⟩ := h1
    obtain ⟨-, rfl⟩ := h2
    by_cases hz : len = 0
    · simp only [hz, if_true, pure, StateT.pure, Option.some.injEq, Prod.mk.injEq] at k2
      obtain ⟨-, rfl⟩ := k2
      exact ⟨[], by simp [hz], by simp, by
        simp [List.filter_append, List.filter_cons, ReaderEvent.isStreamRead]⟩
    · simp only [hz, if_false] at k2
      obtain ⟨_, r3, h3, k3⟩ := Rd_bind_eq_some _ _ _ _ _ k2
      obtain ⟨chars, r4, h4, k4⟩ := Rd_bind_eq_some _ _ _ _ _ k3
      clear k2 k3
      simp only [SnapshotReader.log, Option.some.injEq, Prod.mk.injEq] at h3
      obtain ⟨-, rfl⟩ := h3
      simp only [pure, StateT.pure, Option.some.injEq, Prod.mk.injEq] at k4
      obtain ⟨-, rfl⟩ := k4
      obtain ⟨hlen, hst, hev⟩ := SnapshotReader.ReadN_eq_some _ _ _ _ _ h4
      refine ⟨chars, by simp [hz, hlen], hst, ?_⟩
      rw [hev]
      simp [List.filter_append, List.filter_cons, ReaderEvent.isStreamRead, List.filter_map,
        Function.comp_def]
  · simp only [UntaggedObject.IsCanonical, hc, if_true] at h
    obtain ⟨chars, r1, h1, k1⟩ := Rd_bind_eq_some _ _ _ _ _ h
    obtain ⟨_, r2, h2, k2⟩ := Rd_bind_eq_some _ _ _ _ _ k1
    clear h k1
    simp only [SnapshotReader.log, Option.some.injEq, Prod.mk.injEq] at h2
    obtain ⟨-, rfl⟩ := h2
    simp only [pure, StateT.pure, Option.some.injEq, Prod.mk.injEq] at k2
    obtain ⟨-, rfl⟩ := k2
    obtain ⟨hlen, hst, hev⟩ := SnapshotReader.ReadN_eq_some _ _ _ _ _ h1
    refine ⟨chars, by simp [hlen], hst, ?_⟩
    rw [hev]
    simp [List.filter_append, List.filter_cons, ReaderEvent.isStreamRead, List.filter_map,
      Function.comp_def]

/-- C33. String decoding consumes exactly the declared length.
    * On a stream that starts with the `len` code units `data` (`len >= 0`),
      `String::ReadFromImpl` returns, whether or not the canonical bit of the
      tags is set, having read exactly these `len` code units and nothing of
      what follows them (none when `len` is `0`).  With the bit clear the
      result is a new string (`New`) of length `len` holding the code units
      read, in order, its hash set to `0`; with the bit set it is the symbol
      (`new_symbol`) made of the same `len` code units.
    * Whenever `String::ReadFromImpl` returns, on any reader state, what it
      consumed is `len` code units of its character type and these are all its
      stream reads.
    * `StringWriteTo` writes the header, the length and then exactly the `len`
      code units, as bytes for a one-byte string and as `uint16_t` for a
      two-byte string. -/
theorem C33_string_decoding_consumes_declared_length (cid : ClassId) (char_type : ScalarType)
    (len : Int) (tags : Tags) (kind : Snapshot.Kind) (data : List Nat) (rest : List Item)
    (r : SnapshotReader) (w : SnapshotWriter) (object_id : Int)
    (h0 : 0 ≤ len) (hlen : data.length = len.toNat)
    (hs : r.stream
      = (data.map (fun (c : Nat) => (c : Int))).map (fun v => Item.Write char_type v) ++ rest) :
    String.ReadFromImpl cid char_type len tags kind r
        = some (Obj.String { tags := ⟨cid, tags.canonical⟩, length_ := len, data := data },
            { r with
              stream := rest,
              events := r.events ++
                (if tags.canonical then
                  (data.map (fun (c : Nat) => (c : Int))).map
                      (fun v => ReaderEvent.Read char_type v) ++ [.NewSymbol cid]
                else
                  [.New cid, .SetHash 0] ++
                    (if len = 0 then []
                     else ReaderEvent.NoSafepointScope ::
                       (data.map (fun (c : Nat) => (c : Int))).map
                         (fun v => ReaderEvent.Read char_type v))) })
      ∧ (∀ (r0 : SnapshotReader) (o : Obj) (r' : SnapshotReader),
          String.ReadFromImpl cid char_type len tags kind r0 = some (o, r') →
            ∃ chars : List Int, chars.length = len.toNat
              ∧ r0.stream = chars.map (fun v => Item.Write char_type v) ++ r'.stream
              ∧ r'.events.filter ReaderEvent.isStreamRead
                  = r0.events.filter ReaderEvent.isStreamRead
                    ++ chars.map (fun v => ReaderEvent.Read char_type v))
      ∧ StringWriteTo w object_id kind kOneByteStringCid tags len data
          = some { w with
              stream := w.stream ++ [.InlinedObjectHeader object_id,
                .IndexedObject kOneByteStringCid, .WriteTags tags, .Write .ObjectPtr len]
                ++ (data.map (fun (c : Nat) => (c : Int))).map
                    (fun v => Item.Write .uint8_t v) }
      ∧ StringWriteTo w object_id kind kTwoByteStringCid tags len data
          = some { w with
              stream := w.stream ++ [.InlinedObjectHeader object_id,
                .IndexedObject kTwoByteStringCid, .WriteTags tags, .Write .ObjectPtr len]
                ++ (data.map (fun (c : Nat) => (c : Int))).map
                    (fun v => Item.Write .uint16_t v) }
      ∧ ((data.map (fun (c : Nat) => (c : Int))).length : Int) = len :=
  ⟨String.ReadFromImpl_run cid char_type len tags kind data rest r hlen hs,
    fun r0 o r' h => String.ReadFromImpl_reads cid char_type len tags kind r0 o r' h,
    StringWriteTo_eq w object_id kind kOneByteStringCid .uint8_t tags len data
      (Or.inl ⟨rfl, rfl⟩) h0 hlen,
    StringWriteTo_eq w object_id kind kTwoByteStringCid .uint16_t tags len data
      (Or.inr ⟨by decide, rfl⟩) h0 hlen,
    by rw [List.length_map, hlen]; exact Int.toNat_of_nonneg h0⟩

/-- C33, concrete instance: the two code units of "hi" followed by another
    item, read with the canonical bit clear. -/
theorem C33_string_decoding_consumes_declared_length_witness :
    String.ReadFromImpl kOneByteStringCid .uint8_t 2 ⟨kOneByteStringCid, false⟩ .kMessage
        (SnapshotReader.init
          [.Write .uint8_t 104, .Write .uint8_t 105, .Write .int32_t 7] .empty)
      = some (Obj.String { tags := ⟨kOneByteStringCid, false⟩, length_ := 2,
                           data := [104, 105] },
          { SnapshotReader.init
              [.Write .uint8_t 104, .Write .uint8_t 105, .Write .int32_t 7] .empty with
            stream := [.Write .int32_t 7],
            events := [.New kOneByteStringCid, .SetHash 0, .NoSafepointScope,
              .Read .uint8_t 104, .Read .uint8_t 105] }) :=
  (C33_string_decoding_consumes_declared_length kOneByteStringCid .uint8_t 2
    ⟨kOneByteStringCid, false⟩ .kMessage [104, 105] [.Write .int32_t 7]
    (SnapshotReader.init [.Write .uint8_t 104, .Write .uint8_t 105, .Write .int32_t 7] .empty)
    (SnapshotWriter.init Heap.empty) 1 (by decide) rfl rfl).1

/-! ## Array decode modes -/

/-- `Array::ReadFrom` never interns. -/
theorem Array_ReadFrom_never_interns (object_id : Int) (tags : Tags)
    (kind : Snapshot.Kind) (m : Bool) :
    InternEvents false (Array.ReadFrom object_id tags kind m) := by
  unfold Array.ReadFrom
  repeat' first
    | exact InternEvents_pure _
    | exact InternEvents_Read _
    | exact InternEvents_prepare _ _ _ _
    | exact InternEvents_ArrayReadFrom _ _ _ _
    | exact InternEvents_StoreHandle _ _
    | refine InternEvents_skip ?_ (fun _ => ?_)
    | split

/-- `ImmutableArray::ReadFrom` interns exactly in inline mode on canonical
    tags. -/
theorem ImmutableArray_ReadFrom_interns_iff (object_id : Int) (tags : Tags)
    (kind : Snapshot.Kind) (m : Bool) :
    InternEvents (!m && UntaggedObject.IsCanonical tags)
      (ImmutableArray.ReadFrom object_id tags kind m) := by
  unfold ImmutableArray.ReadFrom
  cases m <;> cases hc : UntaggedObject.IsCanonical tags <;>
    simp only [Bool.not_false, Bool.not_true, Bool.true_and, Bool.false_and, if_true,
      Bool.false_eq_true, if_false] <;>
    repeat' first
      | exact InternEvents_pure _
      | exact InternEvents_Read _
      | exact InternEvents_prepare _ _ _ _
      | exact InternEvents_ArrayReadFrom _ _ _ _
      | exact InternEvents_StoreHandle _ _
      | refine InternEvents_here (InternEvents_Canonicalize _) (fun _ => ?_)
      | refine InternEvents_skip ?_ (fun _ => ?_)

/-- The element loop of `ArrayReadFrom` on a stream holding the type arguments
    and `len` elements. -/
theorem SnapshotReader.ArrayReadFrom_run (object_id : Int) (a : UntaggedArray) (len : Int)
    (tags : Tags) (ta : ObjectPtr) (elems : List ObjectPtr) (b b' : Bool) (rest : List Item)
    (r : SnapshotReader) (hlen : elems.length = len.toNat)
    (hs : r.stream = Item.ObjectImpl ta b
      :: (elems.map (fun p => Item.ObjectImpl p b') ++ rest)) :
    SnapshotReader.ArrayReadFrom object_id a len tags r
      = some ({ a with type_arguments := ta, data := elems },
          { r with stream := rest,
                   events := r.events ++ [.ReadObjectImpl false ta]
                     ++ elems.map (fun p =>
                          ReaderEvent.ReadObjectImpl (!UntaggedObject.IsCanonical tags) p) }) := by
  simp only [SnapshotReader.ArrayReadFrom, SnapshotReader.ReadObjectImpl, hs, bind,
    StateT.bind, pure, StateT.pure, Option.some_bind, kAsInlinedObject, ← hlen]
  rw [SnapshotReader.ReadObjects_map elems b' _ rest]
  · cases hc : UntaggedObject.IsCanonical tags <;> simp
  · rfl

/-- The common prefix of `Array::ReadFrom` and `ImmutableArray::ReadFrom` in
    reference mode: allocate, bind as not yet deserialized. -/
theorem Array.ReadFrom.prepare_reference (cid : ClassId) (object_id : Int) (len : Int)
    (r : SnapshotReader) :
    Array.ReadFrom.prepare cid object_id true len r
      = some (⟨⟨cid, false⟩, len, Object.null, List.replicate len.toNat Object.null⟩,
          { r with
            backrefs := r.backrefs ++ [⟨object_id,
              .Array ⟨⟨cid, false⟩, len, Object.null, List.replicate len.toNat Object.null⟩,
              .kIsNotDeserialized⟩],
            events := r.events ++ [.New cid, .AddBackRef object_id .kIsNotDeserialized] }) := by
  simp [Array.ReadFrom.prepare, Array.New, SnapshotReader.New, SnapshotReader.log,
    SnapshotReader.AddBackRef, bind, StateT.bind, pure, StateT.pure]

/-- The common prefix in inline mode when the id is bound to an array: the
    bound array is reused. -/
theorem Array.ReadFrom.prepare_bound (cid : ClassId) (object_id : Int) (len : Int)
    (r : SnapshotReader) (a : UntaggedArray) (hl : r.lookup object_id = some (.Array a)) :
    Array.ReadFrom.prepare cid object_id false len r
      = some (a, { r with events := r.events ++ [.GetBackRef object_id] }) := by
  simp [Array.ReadFrom.prepare, SnapshotReader.GetBackRef, hl, bind, StateT.bind, pure,
    StateT.pure]

/-- The common prefix in inline mode when the id is not bound: allocate, bind
    as deserialized. -/
theorem Array.ReadFrom.prepare_unbound (cid : ClassId) (object_id : Int) (len : Int)
    (r : SnapshotReader) (hl : r.lookup object_id = none) :
    Array.ReadFrom.prepare cid object_id false len r
      = some (⟨⟨cid, false⟩, len, Object.null, List.replicate len.toNat Object.null⟩,
          { r with
            backrefs := r.backrefs ++ [⟨object_id,
              .Array ⟨⟨cid, false⟩, len, Object.null, List.replicate len.toNat Object.null⟩,
              .kIsDeserialized⟩],
            events := r.events ++ [.GetBackRef object_id, .New cid,
              .AddBackRef object_id .kIsDeserialized] }) := by
  simp [Array.ReadFrom.prepare, SnapshotReader.GetBackRef, hl, Array.New, SnapshotReader.New,
    SnapshotReader.log, SnapshotReader.AddBackRef, bind, StateT.bind, pure, StateT.pure]

/-- `Array::ReadFrom` in inline mode, given what the common prefix did: the
    array to fill is filled through its handle and returned. -/
theorem Array_ReadFrom_inline (object_id : Int) (tags : Tags) (kind : Snapshot.Kind)
    (len : Int) (ta : ObjectPtr) (elems : List ObjectPtr) (b b' : Bool) (rest : List Item)
    (r : SnapshotReader) (a : UntaggedArray) (bk : List BackRef) (pre : List ReaderEvent)
    (hlen : elems.length = len.toNat)
    (hs : r.stream = Item.Write .ObjectPtr len :: Item.ObjectImpl ta b
      :: (elems.map (fun p => Item.ObjectImpl p b') ++ rest))
    (hp : Array.ReadFrom.prepare kArrayCid object_id false len
        { r with stream := Item.ObjectImpl ta b
                   :: (elems.map (fun p => Item.ObjectImpl p b') ++ rest),
                 events := r.events ++ [.Read .ObjectPtr len] }
      = some (a, { r with stream := Item.ObjectImpl ta b
                            :: (elems.map (fun p => Item.ObjectImpl p b') ++ rest),
                          backrefs := bk,
                          events := r.events ++ [.Read .ObjectPtr len] ++ pre })) :
    Array.ReadFrom object_id tags kind false r
      = some (.Array { a with type_arguments := ta, data := elems },
          { r with
            stream := rest,
            backrefs := bk.map (fun x => if x.object_id == object_id
              then { x with obj := .Array { a with type_arguments := ta, data := elems } }
              else x),
            events := r.events ++ [.Read .ObjectPtr len] ++ pre ++ [.ReadObjectImpl false ta]
              ++ elems.map (fun p =>
                   ReaderEvent.ReadObjectImpl (!UntaggedObject.IsCanonical tags) p) }) := by
  simp only [Array.ReadFrom, SnapshotReader.ReadSmiValue, SnapshotReader.Read, hs, if_true,
    bind, StateT.bind, Option.some_bind, Bool.not_false]
  erw [hp]
  simp only [Option.some_bind]
  erw [SnapshotReader.ArrayReadFrom_run object_id a len tags ta elems b b' rest _ hlen rfl]
  simp [SnapshotReader.StoreHandle, pure, StateT.pure]

/-- `ImmutableArray::ReadFrom` in inline mode, given what the common prefix
    did: the array to fill is filled through its handle, interned when the
    canonical bit is set, and returned. -/
theorem ImmutableArray_ReadFrom_inline (object_id : Int) (tags : Tags) (kind : Snapshot.Kind)
    (len : Int) (ta : ObjectPtr) (elems : List ObjectPtr) (b b' : Bool) (rest : List Item)
    (r : SnapshotReader) (a : UntaggedArray) (bk : List BackRef) (pre : List ReaderEvent)
    (hlen : elems.length = len.toNat)
    (hs : r.stream = Item.Write .ObjectPtr len :: Item.ObjectImpl ta b
      :: (elems.map (fun p => Item.ObjectImpl p b') ++ rest))
    (hp : Array.ReadFrom.prepare kImmutableArrayCid object_id false len
        { r with stream := Item.ObjectImpl ta b
                   :: (elems.map (fun p => Item.ObjectImpl p b') ++ rest),
                 events := r.events ++ [.Read .ObjectPtr len] }
      = some (a, { r with stream := Item.ObjectImpl ta b
                            :: (elems.map (fun p => Item.ObjectImpl p b') ++ rest),
                          backrefs := bk,
                          events := r.events ++ [.Read .ObjectPtr len] ++ pre })) :
    ImmutableArray.ReadFrom object_id tags kind false r
      = some (.Array ⟨⟨a.tags.class_id, a.tags.canonical || UntaggedObject.IsCanonical tags⟩,
                      a.length_, ta, elems⟩,
          { r with
            stream := rest,
            backrefs := bk.map (fun x => if x.object_id == object_id
              then ⟨x.object_id, .Array
                ⟨⟨a.tags.class_id, a.tags.canonical || UntaggedObject.IsCanonical tags⟩,
                  a.length_, ta, elems⟩, x.state⟩
              else x),
            events := r.events ++ [.Read .ObjectPtr len] ++ pre ++ [.ReadObjectImpl false ta]
              ++ elems.map (fun p =>
                   ReaderEvent.ReadObjectImpl (!UntaggedObject.IsCanonical tags) p)
              ++ (if UntaggedObject.IsCanonical tags then [ReaderEvent.Canonicalize object_id]
                  else []) }) := by
  simp only [ImmutableArray.ReadFrom, SnapshotReader.ReadSmiValue, SnapshotReader.Read, hs,
    if_true, bind, StateT.bind, Option.some_bind, Bool.not_false]
  erw [hp]
  simp only [Option.some_bind]
  erw [SnapshotReader.ArrayReadFrom_run object_id a len tags ta elems b b' rest _ hlen rfl]
  cases hc : UntaggedObject.IsCanonical tags <;>
    simp [SnapshotReader.StoreHandle, SnapshotReader.Canonicalize, SnapshotReader.log, bind,
      StateT.bind, pure, StateT.pure]

/-- C34. Array decode modes.
    On a stream holding the length `len`, the type arguments and `len`
    elements:
    * in reference mode `Array::ReadFrom` and `ImmutableArray::ReadFrom` read
      the length, allocate an array of `len` null slots, bind it to the object
      id as not yet deserialized and return it, having read no element (the
      items after the length are still unread), whether or not the canonical
      bit is set;
    * in inline mode, when the id is bound to an array, they look the id up,
      allocate nothing and bind nothing, read the type arguments and the
      elements into the bound array and return it; the id stays bound to the
      array returned;
    * in inline mode, when the id is not bound, they allocate an array, bind it
      to the id as deserialized, read the type arguments and the elements into
      it and return it; the id is bound to the array returned;
    * `ImmutableArray::ReadFrom` in inline mode interns the array after the
      elements exactly when the canonical bit is set;
    * whenever `Array::ReadFrom` returns, in either mode and on any reader
      state, it has not interned; whenever `ImmutableArray::ReadFrom` returns,
      it has interned if and only if the mode is inline and the canonical bit
      is set. -/
theorem C34_array_decode_modes (object_id : Int) (tags : Tags) (kind : Snapshot.Kind)
    (len : Int) (ta : ObjectPtr) (elems : List ObjectPtr) (b b' : Bool) (rest : List Item)
    (r : SnapshotReader)
    (hlen : elems.length = len.toNat)
    (hs : r.stream = Item.Write .ObjectPtr len :: Item.ObjectImpl ta b
      :: (elems.map (fun p => Item.ObjectImpl p b') ++ rest)) :
    -- reference mode
    Array.ReadFrom object_id tags kind true r
        = some (.Array ⟨⟨kArrayCid, false⟩, len, Object.null,
                  List.replicate len.toNat Object.null⟩,
            { r with
              stream := Item.ObjectImpl ta b
                :: (elems.map (fun p => Item.ObjectImpl p b') ++ rest),
              backrefs := r.backrefs ++ [⟨object_id,
                .Array ⟨⟨kArrayCid, false⟩, len, Object.null,
                  List.replicate len.toNat Object.null⟩, .kIsNotDeserialized⟩],
              events := r.events ++ [.Read .ObjectPtr len, .New kArrayCid,
                .AddBackRef object_id .kIsNotDeserialized] })
      ∧ ImmutableArray.ReadFrom object_id tags kind true r
        = some (.Array ⟨⟨kImmutableArrayCid, false⟩, len, Object.null,
                  List.replicate len.toNat Object.null⟩,
            { r with
              stream := Item.ObjectImpl ta b
                :: (elems.map (fun p => Item.ObjectImpl p b') ++ rest),
              backrefs := r.backrefs ++ [⟨object_id,
                .Array ⟨⟨kImmutableArrayCid, false⟩, len, Object.null,
                  List.replicate len.toNat Object.null⟩, .kIsNotDeserialized⟩],
              events := r.events ++ [.Read .ObjectPtr len, .New kImmutableArrayCid,
                .AddBackRef object_id .kIsNotDeserialized] })
      -- inline mode, id bound
      ∧ (∀ a : UntaggedArray, r.lookup object_id = some (.Array a) →
          ∃ r', Array.ReadFrom object_id tags kind false r
              = some (.Array ⟨a.tags, a.length_, ta, elems⟩, r')
            ∧ r'.stream = rest
            ∧ r'.events = r.events ++ [.Read .ObjectPtr len, .GetBackRef object_id,
                  .ReadObjectImpl false ta]
                ++ elems.map (fun p =>
                     ReaderEvent.ReadObjectImpl (!UntaggedObject.IsCanonical tags) p)
            ∧ r'.backrefs.length = r.backrefs.length
            ∧ r'.lookup object_id = some (.Array ⟨a.tags, a.length_, ta, elems⟩))
      ∧ (∀ a : UntaggedArray, r.lookup object_id = some (.Array a) →
          ∃ r', ImmutableArray.ReadFrom object_id tags kind false r
              = some (.Array ⟨⟨a.tags.class_id,
                          a.tags.canonical || UntaggedObject.IsCanonical tags⟩,
                        a.length_, ta, elems⟩, r')
            ∧ r'.stream = rest
            ∧ r'.events = r.events ++ [.Read .ObjectPtr len, .GetBackRef object_id,
                  .ReadObjectImpl false ta]
                ++ elems.map (fun p =>
                     ReaderEvent.ReadObjectImpl (!UntaggedObject.IsCanonical tags) p)
                ++ (if UntaggedObject.IsCanonical tags
                    then [ReaderEvent.Canonicalize object_id] else [])
            ∧ r'.backrefs.length = r.backrefs.length
            ∧ r'.lookup object_id = some (.Array ⟨⟨a.tags.class_id,
                          a.tags.canonical || UntaggedObject.IsCanonical tags⟩,
                        a.length_, ta, elems⟩))
      -- inline mode, id not bound
      ∧ (r.lookup object_id = none →
          ∃ r', Array.ReadFrom object_id tags kind false r
              = some (.Array ⟨⟨kArrayCid, false⟩, len, ta, elems⟩, r')
            ∧ r'.stream = rest
            ∧ r'.events = r.events ++ [.Read .ObjectPtr len, .GetBackRef object_id,
                  .New kArrayCid, .AddBackRef object_id .kIsDeserialized,
                  .ReadObjectImpl false ta]
                ++ elems.map (fun p =>
                     ReaderEvent.ReadObjectImpl (!UntaggedObject.IsCanonical tags) p)
            ∧ r'.backrefs.length = r.backrefs.length + 1
            ∧ r'.lookup object_id = some (.Array ⟨⟨kArrayCid, false⟩, len, ta, elems⟩))
      ∧ (r.lookup object_id = none →
          ∃ r', ImmutableArray.ReadFrom object_id tags kind false r
              = some (.Array ⟨⟨kImmutableArrayCid, UntaggedObject.IsCanonical tags⟩,
                        len, ta, elems⟩, r')
            ∧ r'.stream = rest
            ∧ r'.events = r.events ++ [.Read .ObjectPtr len, .GetBackRef object_id,
                  .New kImmutableArrayCid, .AddBackRef object_id .kIsDeserialized,
                  .ReadObjectImpl false ta]
                ++ elems.map (fun p =>
                     ReaderEvent.ReadObjectImpl (!UntaggedObject.IsCanonical tags) p)
                ++ (if UntaggedObject.IsCanonical tags
                    then [ReaderEvent.Canonicalize object_id] else [])
            ∧ r'.backrefs.length = r.backrefs.length + 1
            ∧ r'.lookup object_id
                = some (.Array ⟨⟨kImmutableArrayCid, UntaggedObject.IsCanonical tags⟩,
                        len, ta, elems⟩))
      -- interning
      ∧ (∀ (m : Bool) (r0 : SnapshotReader) (o : Obj) (r' : SnapshotReader),
          Array.ReadFrom object_id tags kind m r0 = some (o, r') →
            ∃ l, r'.events = r0.events ++ l ∧ l.any ReaderEvent.isIntern = false)
      ∧ (∀ (m : Bool) (r0 : SnapshotReader) (o : Obj) (r' : SnapshotReader),
          ImmutableArray.ReadFrom object_id tags kind m r0 = some (o, r') →
            ∃ l, r'.events = r0.events ++ l
              ∧ l.any ReaderEvent.isIntern = (!m && UntaggedObject.IsCanonical tags)) := by
  refine ⟨?_, ?_, ?_, ?_, ?_, ?_,
    fun m r0 o r' h => Array_ReadFrom_never_interns object_id tags kind m r0 o r' h,
    fun m r0 o r' h => ImmutableArray_ReadFrom_interns_iff object_id tags kind m r0 o r' h⟩
  · simp only [Array.ReadFrom, SnapshotReader.ReadSmiValue, SnapshotReader.Read, hs, if_true,
      bind, StateT.bind, Option.some_bind]
    erw [Array.ReadFrom.prepare_reference]
    simp [pure, StateT.pure]
  · simp only [ImmutableArray.ReadFrom, SnapshotReader.ReadSmiValue, SnapshotReader.Read, hs,
      if_true, bind, StateT.bind, Option.some_bind]
    erw [Array.ReadFrom.prepare_reference]
    simp [pure, StateT.pure]
  · intro a hl
    have hsome : ((r.backrefs.find? (fun x => x.object_id == object_id)).map
        (fun x => x.obj)).isSome = true := by
      simp only [SnapshotReader.lookup] at hl
      rw [hl]; rfl
    refine ⟨_, Array_ReadFrom_inline object_id tags kind len ta elems b b' rest r a r.backrefs
      [.GetBackRef object_id] hlen hs
      (Array.ReadFrom.prepare_bound kArrayCid object_id len _ a hl), rfl, by simp, by simp, ?_⟩
    exact SnapshotReader.lookup_store r.backrefs object_id _ hsome
  · intro a hl
    have hsome : ((r.backrefs.find? (fun x => x.object_id == object_id)).map
        (fun x => x.obj)).isSome = true := by
      simp only [SnapshotReader.lookup] at hl
      rw [hl]; rfl
    refine ⟨_, ImmutableArray_ReadFrom_inline object_id tags kind len ta elems b b' rest r a
      r.backrefs [.GetBackRef object_id] hlen hs
      (Array.ReadFrom.prepare_bound kImmutableArrayCid object_id len _ a hl), rfl, by simp,
      by simp, ?_⟩
    exact SnapshotReader.lookup_store r.backrefs object_id _ hsome
  · intro hl
    have key := Array_ReadFrom_inline object_id tags kind len ta elems b b' rest r
      ⟨⟨kArrayCid, false⟩, len, Object.null, List.replicate len.toNat Object.null⟩
      (r.backrefs ++ [⟨object_id,
        .Array ⟨⟨kArrayCid, false⟩, len, Object.null, List.replicate len.toNat Object.null⟩,
        .kIsDeserialized⟩])
      [.GetBackRef object_id, .New kArrayCid, .AddBackRef object_id .kIsDeserialized] hlen hs
      (by
        rw [Array.ReadFrom.prepare_unbound kArrayCid object_id len
          { r with stream := Item.ObjectImpl ta b
                     :: (elems.map (fun p => Item.ObjectImpl p b') ++ rest),
                   events := r.events ++ [.Read .ObjectPtr len] } hl])
    refine ⟨_, key, rfl, by simp, by simp, ?_⟩
    exact SnapshotReader.lookup_store _ object_id _
      (SnapshotReader.lookup_isSome_append r object_id _ _)
  · intro hl
    have key := ImmutableArray_ReadFrom_inline object_id tags kind len ta elems b b' rest r
      ⟨⟨kImmutableArrayCid, false⟩, len, Object.null, List.replicate len.toNat Object.null⟩
      (r.backrefs ++ [⟨object_id,
        .Array ⟨⟨kImmutableArrayCid, false⟩, len, Object.null,
          List.replicate len.toNat Object.null⟩,
        .kIsDeserialized⟩])
      [.GetBackRef object_id, .New kImmutableArrayCid, .AddBackRef object_id .kIsDeserialized]
      hlen hs
      (by
        rw [Array.ReadFrom.prepare_unbound kImmutableArrayCid object_id len
          { r with stream := Item.ObjectImpl ta b
                     :: (elems.map (fun p => Item.ObjectImpl p b') ++ rest),
                   events := r.events ++ [.Read .ObjectPtr len] } hl])
    simp only [Bool.false_or] at key
    refine ⟨_, key, rfl, by simp, by simp, ?_⟩
    exact SnapshotReader.lookup_store _ object_id _
      (SnapshotReader.lookup_isSome_append r object_id _ _)

/-- C34, concrete instance: a one-element canonical immutable array with an
    unbound id. In reference mode the decoder stops after the length; in
    inline mode it allocates, binds, reads the element and interns. -/
theorem C34_array_decode_modes_witness :
    ImmutableArray.ReadFrom 1 ⟨kImmutableArrayCid, true⟩ .kMessage true
        (SnapshotReader.init [.Write .ObjectPtr 1, .ObjectImpl Object.null false,
          .ObjectImpl (.smi 5) false] .empty)
      = some (.Array ⟨⟨kImmutableArrayCid, false⟩, 1, Object.null, [Object.null]⟩,
          { SnapshotReader.init [.Write .ObjectPtr 1, .ObjectImpl Object.null false,
              .ObjectImpl (.smi 5) false] .empty with
            stream := [.ObjectImpl Object.null false, .ObjectImpl (.smi 5) false],
            backrefs := [⟨1, .Array ⟨⟨kImmutableArrayCid, false⟩, 1, Object.null,
              [Object.null]⟩, .kIsNotDeserialized⟩],
            events := [.Read .ObjectPtr 1, .New kImmutableArrayCid,
              .AddBackRef 1 .kIsNotDeserialized] })
    ∧ ∃ r', ImmutableArray.ReadFrom 1 ⟨kImmutableArrayCid, true⟩ .kMessage false
          (SnapshotReader.init [.Write .ObjectPtr 1, .ObjectImpl Object.null false,
            .ObjectImpl (.smi 5) false] .empty)
        = some (.Array ⟨⟨kImmutableArrayCid, true⟩, 1, Object.null, [.smi 5]⟩, r')
      ∧ r'.stream = []
      ∧ r'.events = [.Read .ObjectPtr 1, .GetBackRef 1, .New kImmutableArrayCid,
          .AddBackRef 1 .kIsDeserialized, .ReadObjectImpl false Object.null,
          .ReadObjectImpl false (.smi 5), .Canonicalize 1] := by
  have key := C34_array_decode_modes 1 ⟨kImmutableArrayCid, true⟩ .kMessage 1 Object.null
    [.smi 5] false false []
    (SnapshotReader.init [.Write .ObjectPtr 1, .ObjectImpl Object.null false,
      .ObjectImpl (.smi 5) false] .empty) rfl rfl
  obtain ⟨r', h1, h2, h3, -, -⟩ := key.2.2.2.2.2.1 rfl
  exact ⟨key.2.1, r', h1, h2, h3⟩

/-! ## The empty context -/

/-- A returning `Context::ReadFrom` read the count, and for a non-zero count
    exactly the slots `from() .. to(count)`, in reference mode. -/
theorem Context_ReadFrom_reads (t : Target) (object_id : Int) (tags : Tags)
    (kind : Snapshot.Kind) (m : Bool) (r : SnapshotReader) (o : Obj) (r' : SnapshotReader)
    (h : Context.ReadFrom t object_id tags kind m r = some (o, r')) :
    ∃ (num_vars : Int) (fields : List ObjectPtr),
      r.stream.head? = some (.Write .int32_t num_vars)
        ∧ fields.length
            = (if num_vars = 0 then 0 else (t.context_to_minus_from num_vars + 1).toNat)
        ∧ r'.events = r.events ++ [.Read .int32_t num_vars,
              .AddBackRef object_id .kIsDeserialized]
            ++ (if num_vars = 0 then [] else [ReaderEvent.New kContextCid])
            ++ fields.map (fun p => ReaderEvent.ReadObjectImpl true p)
        ∧ o = (if num_vars = 0 then Obj.Null
               else Obj.Context { tags := ⟨kContextCid, false⟩, num_variables_ := num_vars,
                                  fields := fields }) := by
  unfold Context.ReadFrom at h
  obtain ⟨num_vars, r1, h1, k1⟩ := Rd_bind_eq_some _ _ _ _ _ h
  obtain ⟨_, r2, h2, k2⟩ := Rd_bind_eq_some _ _ _ _ _ k1
  clear h k1
  obtain ⟨hs1, he1, -⟩ := SnapshotReader.Read_eq_some _ _ _ _ h1
  have he2 := SnapshotReader.AddBackRef_events _ _ _ _ _ _ h2
  by_cases hz : num_vars = 0
  · simp only [hz, ne_eq, not_true_eq_false, if_false, pure, StateT.pure, Option.some.injEq,
      Prod.mk.injEq] at k2
    obtain ⟨rfl, rfl⟩ := k2
    refine ⟨num_vars, [], by rw [hs1]; rfl, by simp [hz], ?_, by simp [hz]⟩
    rw [he2, he1]
    simp [hz]
  · simp only [hz, ne_eq, not_false_eq_true, if_true] at k2
    obtain ⟨_, r3, h3, k3⟩ := Rd_bind_eq_some _ _ _ _ _ k2
    obtain ⟨fields, r4, h4, k4⟩ := Rd_bind_eq_some _ _ _ _ _ k3
    obtain ⟨_, r5, h5, k5⟩ := Rd_bind_eq_some _ _ _ _ _ k4
    clear k2 k3 k4
    have he3 := SnapshotReader.New_events _ _ _ _ h3
    obtain ⟨hlen, he4⟩ := SnapshotReader.ReadObjects_count _ _ _ _ _ h4
    have he5 := SnapshotReader.StoreHandle_events _ _ _ _ _ h5
    simp only [pure, StateT.pure, Option.some.injEq, Prod.mk.injEq] at k5
    obtain ⟨rfl, rfl⟩ := k5
    refine ⟨num_vars, fields, by rw [hs1]; rfl, by simp [hz, hlen], ?_, by simp [hz]⟩
    rw [he5, he4, he3, he2, he1]
    simp [hz, kAsReference]

/-- C35. Empty execution context.
    * For a context with zero variables `UntaggedContext::WriteTo` writes the
      header and the count `0` and no child slot, whatever slots the object
      has.
    * On a stream that declares zero variables `Context::ReadFrom` returns the
      null object, having read the count and nothing further, allocated
      nothing, and bound the object id (to the null handle).
    * For a non-zero count `n`, `UntaggedContext::WriteTo` writes the count and
      then every slot `from() .. to(n)` of the context, in reference mode, and
      `Context::ReadFrom` on these items returns a context with `n` variables
      whose slots are the slots written, having read exactly
      `to(n) - from() + 1` children in reference mode.
    * Whenever `Context::ReadFrom` returns, on any reader state, it has read the
      count `n` and then no child if `n` is zero and exactly
      `to(n) - from() + 1` children, in reference mode, otherwise. -/
theorem C35_empty_context (t : Target) (o : UntaggedContext) (w : SnapshotWriter)
    (object_id : Int) (kind : Snapshot.Kind) (m : Bool) (tags : Tags) (rest : List Item)
    (r : SnapshotReader)
    (hlen : o.num_variables_ ≠ 0 →
      o.fields.length = (t.context_to_minus_from o.num_variables_ + 1).toNat)
    (hs : r.stream = Item.Write .int32_t o.num_variables_
      :: ((if o.num_variables_ = 0 then []
           else o.fields.map (fun p => Item.ObjectImpl p true)) ++ rest)) :
    UntaggedContext.WriteTo o w object_id kind m
        = some { w with stream := w.stream ++
            [.InlinedObjectHeader object_id, .VMIsolateObject kContextCid, .WriteTags o.tags,
             .Write .int32_t o.num_variables_]
            ++ (if o.num_variables_ = 0 then []
                else o.fields.map (fun p => Item.ObjectImpl p true)) }
      ∧ (o.num_variables_ = 0 →
          Context.ReadFrom t object_id tags kind m r
            = some (Obj.Null,
                { r with
                  stream := rest,
                  backrefs := r.backrefs ++ [⟨object_id, Obj.Null, .kIsDeserialized⟩],
                  events := r.events ++ [.Read .int32_t 0,
                    .AddBackRef object_id .kIsDeserialized] }))
      ∧ (o.num_variables_ ≠ 0 →
          ∃ r', Context.ReadFrom t object_id tags kind m r
              = some (Obj.Context { tags := ⟨kContextCid, false⟩,
                                    num_variables_ := o.num_variables_,
                                    fields := o.fields }, r')
            ∧ r'.stream = rest
            ∧ r'.events = r.events ++ [.Read .int32_t o.num_variables_,
                  .AddBackRef object_id .kIsDeserialized, .New kContextCid]
                ++ o.fields.map (fun p => ReaderEvent.ReadObjectImpl true p))
      ∧ ∀ (r0 : SnapshotReader) (o' : Obj) (r' : SnapshotReader),
          Context.ReadFrom t object_id tags kind m r0 = some (o', r') →
            ∃ (num_vars : Int) (fields : List ObjectPtr),
              r0.stream.head? = some (.Write .int32_t num_vars)
                ∧ fields.length
                    = (if num_vars = 0 then 0
                       else (t.context_to_minus_from num_vars + 1).toNat)
                ∧ r'.events = r0.events ++ [.Read .int32_t num_vars,
                      .AddBackRef object_id .kIsDeserialized]
                    ++ (if num_vars = 0 then [] else [ReaderEvent.New kContextCid])
                    ++ fields.map (fun p => ReaderEvent.ReadObjectImpl true p)
                ∧ o' = (if num_vars = 0 then Obj.Null
                        else Obj.Context { tags := ⟨kContextCid, false⟩,
                                           num_variables_ := num_vars, fields := fields }) := by
  refine ⟨?_, ?_, ?_, fun r0 o' r' h => Context_ReadFrom_reads t object_id tags kind m r0 o' r' h⟩
  · by_cases hz : o.num_variables_ = 0
    · simp [UntaggedContext.WriteTo, hz, SnapshotWriter.WriteInlinedObjectHeader,
        SnapshotWriter.WriteVMIsolateObject, SnapshotWriter.WriteTags, SnapshotWriter.Write,
        SnapshotWriter.emit]
    · simp [UntaggedContext.WriteTo, hz, SnapshotWriter.VisitPointers_eq,
        SnapshotWriter.WriteInlinedObjectHeader,
        SnapshotWriter.WriteVMIsolateObject, SnapshotWriter.WriteTags, SnapshotWriter.Write,
        SnapshotWriter.emit, kAsReference]
  · intro hz
    simp only [hz, if_true, List.nil_append] at hs
    simp [Context.ReadFrom, SnapshotReader.Read, hs, SnapshotReader.AddBackRef, bind,
      StateT.bind, pure, StateT.pure]
  · intro hz
    simp only [hz, if_false] at hs
    simp only [Context.ReadFrom, SnapshotReader.Read, hs, if_true, hz, ne_eq,
      not_false_eq_true, ← hlen hz, SnapshotReader.New, SnapshotReader.log,
      SnapshotReader.AddBackRef, SnapshotReader.StoreHandle, bind, StateT.bind, pure,
      StateT.pure, Option.some_bind, kAsReference]
    rw [SnapshotReader.ReadObjects_map o.fields true true rest]
    · exact ⟨_, rfl, rfl, by simp⟩
    · rfl

/-- C35, concrete instance: a context with zero variables (and a stale slot),
    and the decoder on the count `0` followed by another item. -/
theorem C35_empty_context_witness :
    UntaggedContext.WriteTo ⟨⟨kContextCid, false⟩, 0, [.heap 9]⟩
        (SnapshotWriter.init Heap.empty) 1 .kMessage false
        = some { SnapshotWriter.init Heap.empty with stream :=
            [.InlinedObjectHeader 1, .VMIsolateObject kContextCid,
             .WriteTags ⟨kContextCid, false⟩, .Write .int32_t 0] }
      ∧ Context.ReadFrom Target.x64 1 ⟨kContextCid, false⟩ .kMessage false
          (SnapshotReader.init [.Write .int32_t 0, .Write .int32_t 7] .empty)
        = some (Obj.Null,
            { SnapshotReader.init [.Write .int32_t 0, .Write .int32_t 7] .empty with
              stream := [.Write .int32_t 7],
              backrefs := [⟨1, Obj.Null, .kIsDeserialized⟩],
              events := [.Read .int32_t 0, .AddBackRef 1 .kIsDeserialized] }) :=
  ⟨(C35_empty_context Target.x64 ⟨⟨kContextCid, false⟩, 0, [.heap 9]⟩
      (SnapshotWriter.init Heap.empty) 1 .kMessage false ⟨kContextCid, false⟩
      [.Write .int32_t 7]
      (SnapshotReader.init [.Write .int32_t 0, .Write .int32_t 7] .empty)
      (fun hne => absurd rfl hne) rfl).1,
   (C35_empty_context Target.x64 ⟨⟨kContextCid, false⟩, 0, [.heap 9]⟩
      (SnapshotWriter.init Heap.empty) 1 .kMessage false ⟨kContextCid, false⟩
      [.Write .int32_t 7]
      (SnapshotReader.init [.Write .int32_t 0, .Write .int32_t 7] .empty)
      (fun hne => absurd rfl hne) rfl).2.1 rfl⟩

/-! ## Type-argument vectors -/

/-- A returning `TypeArguments::ReadFrom` read the length and then exactly that
    many children, and set `instantiations` to `Object::zero_array()`. -/
theorem TypeArguments_ReadFrom_reads (object_id : Int) (tags : Tags)
    (kind : Snapshot.Kind) (m : Bool) (r : SnapshotReader) (o : Obj) (r' : SnapshotReader)
    (h : TypeArguments.ReadFrom object_id tags kind m r = some (o, r')) :
    ∃ (len : Int) (types : List ObjectPtr),
      r.stream.head? = some (.Write .ObjectPtr len)
        ∧ types.length = len.toNat
        ∧ r'.events = r.events ++ [.Read .ObjectPtr len, .New kTypeArgumentsCid,
              .AddBackRef object_id .kIsDeserialized]
            ++ types.map (fun p => ReaderEvent.ReadObjectImpl m p)
            ++ (if UntaggedObject.IsCanonical tags then [ReaderEvent.Canonicalize object_id]
                else [])
        ∧ o = Obj.TypeArguments
              { tags := ⟨kTypeArgumentsCid, UntaggedObject.IsCanonical tags⟩, length_ := len,
                instantiations := Object.zero_array, types := types } := by
  unfold TypeArguments.ReadFrom at h
  obtain ⟨len, r1, h1, k1⟩ := Rd_bind_eq_some _ _ _ _ _ h
  obtain ⟨_, r2, h2, k2⟩ := Rd_bind_eq_some _ _ _ _ _ k1
  obtain ⟨_, r3, h3, k3⟩ := Rd_bind_eq_some _ _ _ _ _ k2
  obtain ⟨types, r4, h4, k4⟩ := Rd_bind_eq_some _ _ _ _ _ k3
  clear h k1 k2 k3
  obtain ⟨hs1, he1, -⟩ := SnapshotReader.Read_eq_some _ _ _ _ h1
  have he2 := SnapshotReader.New_events _ _ _ _ h2
  have he3 := SnapshotReader.AddBackRef_events _ _ _ _ _ _ h3
  obtain ⟨hlen, he4⟩ := SnapshotReader.ReadObjects_count _ _ _ _ _ h4
  cases hc : UntaggedObject.IsCanonical tags
  · simp only [hc, Bool.false_eq_true, if_false] at k4
    obtain ⟨_, r5, h5, k5⟩ := Rd_bind_eq_some _ _ _ _ _ k4
    have he5 := SnapshotReader.StoreHandle_events _ _ _ _ _ h5
    simp only [pure, StateT.pure, Option.some.injEq, Prod.mk.injEq] at k5
    obtain ⟨rfl, rfl⟩ := k5
    refine ⟨len, types, by rw [hs1]; rfl, hlen, ?_, rfl⟩
    rw [he5, he4, he3, he2, he1]
    simp
  · simp only [hc, if_true] at k4
    obtain ⟨_, r5, h5, k5⟩ := Rd_bind_eq_some _ _ _ _ _ k4
    obtain ⟨_, r6, h6, k6⟩ := Rd_bind_eq_some _ _ _ _ _ k5
    have he5 : r5.events = r4.events ++ [.Canonicalize object_id] := by
      simp only [SnapshotReader.Canonicalize, SnapshotReader.log, Option.some.injEq,
        Prod.mk.injEq] at h5
      obtain ⟨-, rfl⟩ := h5
      rfl
    have he6 := SnapshotReader.StoreHandle_events _ _ _ _ _ h6
    simp only [pure, StateT.pure, Option.some.injEq, Prod.mk.injEq] at k6
    obtain ⟨rfl, rfl⟩ := k6
    refine ⟨len, types, by rw [hs1]; rfl, hlen, ?_, rfl⟩
    rw [he6, he5, he4, he3, he2, he1]
    simp

/-- On the items `UntaggedTypeArguments::WriteTo` writes after the tags,
    `TypeArguments::ReadFrom` returns, having consumed exactly these items. -/
theorem TypeArguments_ReadFrom_run (env : WriterEnv) (object_id : Int) (tags : Tags)
    (kind : Snapshot.Kind) (m m' can_send : Bool) (len : Int) (xs : List ObjectPtr)
    (rest : List Item) (r : SnapshotReader) (hlen : xs.length = len.toNat)
    (hs : r.stream = Item.Write .ObjectPtr len
      :: (xs.map (UntaggedTypeArguments.elementItem env m can_send) ++ rest)) :
    ∃ (o : Obj) (r' : SnapshotReader),
      TypeArguments.ReadFrom object_id tags kind m' r = some (o, r') ∧ r'.stream = rest := by
  obtain ⟨ys, hys, -⟩ := SnapshotReader.ReadObjects_elements env m m' can_send xs rest
    { r with
      stream := xs.map (UntaggedTypeArguments.elementItem env m can_send) ++ rest,
      backrefs := r.backrefs ++ [⟨object_id, .TypeArguments
        { tags := ⟨kTypeArgumentsCid, false⟩, length_ := len,
          instantiations := Object.null,
          types := List.replicate len.toNat Object.null }, .kIsDeserialized⟩],
      events := r.events ++ [.Read .ObjectPtr len] ++ [.New kTypeArgumentsCid]
        ++ [.AddBackRef object_id .kIsDeserialized] } rfl
  rw [hlen] at hys
  simp only [TypeArguments.ReadFrom, SnapshotReader.ReadSmiValue, SnapshotReader.Read, hs,
    if_true, SnapshotReader.New, SnapshotReader.log, SnapshotReader.AddBackRef, bind,
    StateT.bind, pure, StateT.pure, Option.some_bind]
  erw [hys]
  cases hc : UntaggedObject.IsCanonical tags <;>
    simp [SnapshotReader.Canonicalize, SnapshotReader.log, SnapshotReader.StoreHandle, bind,
      StateT.bind, pure, StateT.pure] <;>
    exact ⟨_, _, ⟨rfl, rfl⟩, rfl⟩

/-- C36. Type-argument vectors keep their length under substitution.
    For a type-argument vector `o` of length `len` (its `len` elements are
    `o.types`):
    * `UntaggedTypeArguments::WriteTo` appends the header, the class id, the
      tags and the length, followed by one item per element, `len` items in
      all;
    * on a writer that can send any object the item of an element is the
      element itself;
    * on a writer that cannot, the item of an element is the dynamic type when
      the library of the element's type class is not allowed, and the element
      itself otherwise;
    * on the length followed by these items `TypeArguments::ReadFrom` returns
      and has consumed exactly the length and the `len` items;
    * whenever `TypeArguments::ReadFrom` returns, on any reader state, it has
      read the length `n` and then exactly `n` children, and the vector it
      returns has as `instantiations` field `Object::zero_array()`. -/
theorem C36_type_arguments_keep_length (env : WriterEnv) (o : UntaggedTypeArguments)
    (w : SnapshotWriter) (object_id : Int) (kind : Snapshot.Kind) (m m' : Bool) (tags : Tags)
    (rest : List Item) (r : SnapshotReader)
    (hlen : o.types.length = o.length_.toNat)
    (hs : r.stream = Item.Write .ObjectPtr o.length_
      :: (o.types.map (UntaggedTypeArguments.elementItem env m w.can_send_any_object)
          ++ rest)) :
    UntaggedTypeArguments.WriteTo env o w object_id kind m
        = some { w with stream := w.stream ++
            [.InlinedObjectHeader object_id, .VMIsolateObject kTypeArgumentsCid,
             .WriteTags o.tags, .Write .ObjectPtr o.length_]
            ++ o.types.map (UntaggedTypeArguments.elementItem env m w.can_send_any_object) }
      ∧ (o.types.map (UntaggedTypeArguments.elementItem env m
            w.can_send_any_object)).length = o.length_.toNat
      ∧ (∀ x : ObjectPtr, UntaggedTypeArguments.elementItem env m true x = .ObjectImpl x m)
      ∧ (∀ x : ObjectPtr, UntaggedTypeArguments.elementItem env m false x
            = if env.AllowObjectsInDartLibrary (env.library_of (env.class_table_At
                  (match env.type_class_id_of x with
                   | .smi v => v
                   | .heap _ => 0))) = false
              then .VMIsolateObject kDynamicType else .ObjectImpl x m)
      ∧ (∃ (o' : Obj) (r' : SnapshotReader),
          TypeArguments.ReadFrom object_id tags kind m' r = some (o', r') ∧ r'.stream = rest)
      ∧ ∀ (r0 : SnapshotReader) (o' : Obj) (r' : SnapshotReader),
          TypeArguments.ReadFrom object_id tags kind m' r0 = some (o', r') →
            ∃ (n : Int) (types : List ObjectPtr),
              r0.stream.head? = some (.Write .ObjectPtr n)
                ∧ types.length = n.toNat
                ∧ r'.events = r0.events ++ [.Read .ObjectPtr n, .New kTypeArgumentsCid,
                      .AddBackRef object_id .kIsDeserialized]
                    ++ types.map (fun p => ReaderEvent.ReadObjectImpl m' p)
                    ++ (if UntaggedObject.IsCanonical tags
                        then [ReaderEvent.Canonicalize object_id] else [])
                ∧ o' = Obj.TypeArguments
                      { tags := ⟨kTypeArgumentsCid, UntaggedObject.IsCanonical tags⟩,
                        length_ := n, instantiations := Object.zero_array,
                        types := types } := by
  refine ⟨?_, by simp [hlen], ?_, ?_,
    TypeArguments_ReadFrom_run env object_id tags kind m m' w.can_send_any_object o.length_
      o.types rest r hlen hs,
    fun r0 o' r' h => TypeArguments_ReadFrom_reads object_id tags kind m' r0 o' r' h⟩
  · have htake : o.types.take o.length_.toNat = o.types := by
      rw [← hlen]; exact List.take_length _
    simp only [UntaggedTypeArguments.WriteTo, htake, UntaggedTypeArguments.foldl_writeElement,
      SnapshotWriter.WriteInlinedObjectHeader, SnapshotWriter.WriteVMIsolateObject,
      SnapshotWriter.WriteTags, SnapshotWriter.Write, SnapshotWriter.emit, List.append_assoc,
      List.cons_append, List.nil_append]
  · intro x
    simp [UntaggedTypeArguments.elementItem]
  · intro x
    simp only [UntaggedTypeArguments.elementItem]
    cases hA : env.AllowObjectsInDartLibrary (env.library_of (env.class_table_At
        (match env.type_class_id_of x with
         | .smi v => v
         | .heap _ => 0))) <;> simp <;> exact hA

/-- C36, concrete instance: a vector of two elements on a writer that cannot
    send any object, in an environment that allows no library: both elements
    are written as the dynamic type, and the decoder reads two children back. -/
theorem C36_type_arguments_keep_length_witness :
    UntaggedTypeArguments.WriteTo WriterEnv.strict
        ⟨⟨kTypeArgumentsCid, false⟩, 2, Object.null, [.heap 5, .heap 6]⟩
        (SnapshotWriter.init Heap.empty) 1 .kMessage false
      = some { SnapshotWriter.init Heap.empty with stream :=
          [.InlinedObjectHeader 1, .VMIsolateObject kTypeArgumentsCid,
           .WriteTags ⟨kTypeArgumentsCid, false⟩, .Write .ObjectPtr 2,
           .VMIsolateObject kDynamicType, .VMIsolateObject kDynamicType] }
    ∧ ∃ (o' : Obj) (r' : SnapshotReader),
        TypeArguments.ReadFrom 1 ⟨kTypeArgumentsCid, false⟩ .kMessage false
          (SnapshotReader.init [.Write .ObjectPtr 2, .VMIsolateObject kDynamicType,
            .VMIsolateObject kDynamicType] .empty) = some (o', r') ∧ r'.stream = [] := by
  have key := C36_type_arguments_keep_length WriterEnv.strict
    ⟨⟨kTypeArgumentsCid, false⟩, 2, Object.null, [.heap 5, .heap 6]⟩
    (SnapshotWriter.init Heap.empty) 1 .kMessage false false ⟨kTypeArgumentsCid, false⟩ []
    (SnapshotReader.init [.Write .ObjectPtr 2, .VMIsolateObject kDynamicType,
      .VMIsolateObject kDynamicType] .empty)
    rfl rfl
  exact ⟨key.1, key.2.2.2.2.1⟩

/-! ## Bounds of the map decoder -/

/-- The doubling loop stops at the first of `p, 2 p, ...` that reaches `x`: it
    does not pass a bound `p * 2 ^ k` that lies at or above `x`. -/
theorem Utils.RoundUpToPowerOfTwo.loop_le_pow (fuel p x k : Nat) (hk : k ≤ fuel)
    (hx : x ≤ p * 2 ^ k) : Utils.RoundUpToPowerOfTwo.loop fuel p x ≤ p * 2 ^ k := by
  induction fuel generalizing p k with
  | zero =>
    simp only [Utils.RoundUpToPowerOfTwo.loop]
    exact Nat.le_mul_of_pos_right p (by positivity)
  | succ f ih =>
    simp only [Utils.RoundUpToPowerOfTwo.loop]
    split_ifs with h
    · exact Nat.le_mul_of_pos_right p (by positivity)
    · cases k with
      | zero => simp only [pow_zero, mul_one] at hx; omega
      | succ j =>
        have h2 : p * 2 ^ (j + 1) = 2 * p * 2 ^ j := by rw [pow_succ]; ring
        rw [h2] at hx ⊢
        exact ih (2 * p) j (by omega) hx

/-- Up to `2 ^ 62` the rounded value is at least its argument and at most
    `2 ^ 62`. -/
theorem Utils.RoundUpToPowerOfTwo_le_pow62 (x : Nat) (hx : x ≤ 2 ^ 62) :
    x ≤ Utils.RoundUpToPowerOfTwo x ∧ Utils.RoundUpToPowerOfTwo x ≤ 2 ^ 62 := by
  unfold Utils.RoundUpToPowerOfTwo
  split_ifs with h0
  · subst h0; simp
  · have hb := Utils.RoundUpToPowerOfTwo.loop_bounds kBitsPerWord 1 x (by
      unfold kBitsPerWord
      norm_num at hx ⊢
      omega)
    have hle : Utils.RoundUpToPowerOfTwo.loop kBitsPerWord 1 x ≤ 2 ^ 62 := by
      have := Utils.RoundUpToPowerOfTwo.loop_le_pow kBitsPerWord 1 x 62
        (by unfold kBitsPerWord; omega) (by simpa using hx)
      simpa using this
    have hmod : Utils.RoundUpToPowerOfTwo.loop kBitsPerWord 1 x % 2 ^ kBitsPerWord
        = Utils.RoundUpToPowerOfTwo.loop kBitsPerWord 1 x := by
      apply Nat.mod_eq_of_lt
      refine lt_of_le_of_lt hle ?_
      unfold kBitsPerWord
      norm_num
    rw [hmod]
    exact ⟨hb.1, hle⟩

/-- For a declared count `len` with `0 ≤ len ≤ 2 ^ 61` nothing wraps:
    `used_data` is `2 * len` and the data size is the maximum of the rounded
    `used_data` and the initial index size, which is at least `used_data`. -/
theorem LinkedHashMap.dataSize_room (t : Target) (len : Int) (h0 : 0 ≤ len)
    (hle : len ≤ 2 ^ 61) (hk : t.kInitialIndexSize < 2 ^ 63) :
    toIntptr (len * 2) = 2 * len
      ∧ LinkedHashMap.dataSize t (toIntptr (len * 2))
          = ((max (Utils.RoundUpToPowerOfTwo (2 * len).toNat) t.kInitialIndexSize : Nat) : Int)
      ∧ 2 * len ≤ LinkedHashMap.dataSize t (toIntptr (len * 2)) := by
  have hU : toIntptr (len * 2) = 2 * len := by
    rw [toIntptr_of_fits]
    · ring
    · norm_num
      omega
    · norm_num at hle ⊢
      omega
  have h64 : toUint64 (2 * len) = (2 * len).toNat := by
    have := toUint64_of_nonneg (2 * len) (by omega) (by
      norm_num at hle ⊢
      omega)
    omega
  have hx : (2 * len).toNat ≤ 2 ^ 62 := by
    norm_num at hle ⊢
    omega
  obtain ⟨h1, h2⟩ := Utils.RoundUpToPowerOfTwo_le_pow62 _ hx
  have hmax : (max (Utils.RoundUpToPowerOfTwo (2 * len).toNat) t.kInitialIndexSize : Nat)
      < 2 ^ 63 := by
    apply max_lt
    · norm_num at h2 ⊢
      omega
    · exact hk
  have hD : LinkedHashMap.dataSize t (2 * len)
      = ((max (Utils.RoundUpToPowerOfTwo (2 * len).toNat) t.kInitialIndexSize : Nat) : Int) := by
    unfold LinkedHashMap.dataSize
    rw [h64]
    exact toIntptr_of_fits _ (by
      have : (0 : Int) < (2 : Int) ^ 63 := by positivity
      omega) (by exact_mod_cast hmax)
  rw [hU]
  refine ⟨rfl, hD, ?_⟩
  rw [hD]
  have h3 : (2 * len).toNat ≤ max (Utils.RoundUpToPowerOfTwo (2 * len).toNat)
      t.kInitialIndexSize := le_trans h1 (le_max_left _ _)
  omega

/-- The slot loop of `LinkedHashMap::ReadFrom` keeps the length of the data
    array. -/
theorem LinkedHashMap.ReadFrom.loop_length (b : Bool) (n i : Nat) (data : List ObjectPtr)
    (r : SnapshotReader) (d : List ObjectPtr) (r' : SnapshotReader)
    (h : LinkedHashMap.ReadFrom.loop b n i data r = some (d, r')) :
    d.length = data.length := by
  induction n generalizing i data r with
  | zero =>
    simp only [LinkedHashMap.ReadFrom.loop, pure, StateT.pure, Option.some.injEq,
      Prod.mk.injEq] at h
    obtain ⟨rfl, -⟩ := h
    rfl
  | succ n ih =>
    simp only [LinkedHashMap.ReadFrom.loop] at h
    obtain ⟨p, r1, -, h⟩ := Rd_bind_eq_some _ _ _ _ _ h
    rw [ih _ _ _ h, List.length_set]

/-- Whenever `LinkedHashMap::ReadFrom` returns, the map has `used_data` equal
    to twice the count read (as an `intptr_t`), a data array of the size
    computed from `used_data`, no deleted keys and hash mask `0`. -/
theorem LinkedHashMap.ReadFrom_sizes (t : Target) (object_id : Int) (tags : Tags)
    (kind : Snapshot.Kind) (m : Bool) (r : SnapshotReader) (o : Obj) (r' : SnapshotReader)
    (h : LinkedHashMap.ReadFrom t object_id tags kind m r = some (o, r')) :
    ∃ (len : Int) (mp : UntaggedLinkedHashMap),
      o = Obj.LinkedHashMap mp
        ∧ ReaderEvent.Read .ObjectPtr len ∈ r'.events
        ∧ mp.used_data = toIntptr (len * 2)
        ∧ mp.data_length = LinkedHashMap.dataSize t mp.used_data
        ∧ mp.data_elements.length = mp.data_length.toNat
        ∧ mp.deleted_keys = 0 ∧ mp.hash_mask = 0 := by
  obtain ⟨ta, len', ps, -, hev⟩ :=
    LinkedHashMap_ReadFrom_events t object_id tags kind m r o r' h
  unfold LinkedHashMap.ReadFrom at h
  obtain ⟨_, r1, h1, k1⟩ := Rd_bind_eq_some _ _ _ _ _ h
  obtain ⟨_, r2, h2, k2⟩ := Rd_bind_eq_some _ _ _ _ _ k1
  obtain ⟨ta, r3, h3, k3⟩ := Rd_bind_eq_some _ _ _ _ _ k2
  obtain ⟨len, r4, h4, k4⟩ := Rd_bind_eq_some _ _ _ _ _ k3
  obtain ⟨_, r5, h5, k5⟩ := Rd_bind_eq_some _ _ _ _ _ k4
  obtain ⟨_, r6, h6, k6⟩ := Rd_bind_eq_some _ _ _ _ _ k5
  obtain ⟨_, r7, h7, k7⟩ := Rd_bind_eq_some _ _ _ _ _ k6
  obtain ⟨d, r8, h8, k8⟩ := Rd_bind_eq_some _ _ _ _ _ k7
  obtain ⟨_, r9, h9, k9⟩ := Rd_bind_eq_some _ _ _ _ _ k8
  clear h k1 k2 k3 k4 k5 k6 k7 k8
  simp only [Pure.pure, StateT.pure, Option.some.injEq, Prod.mk.injEq] at k9
  obtain ⟨rfl, rfl⟩ := k9
  have hd := LinkedHashMap.ReadFrom.loop_length _ _ _ _ _ _ _ h8
  have e4 := (SnapshotReader.Read_eq_some _ _ _ _ h4).2.1
  have e5 := SnapshotReader.New_events _ _ _ _ h5
  have e6 := SnapshotReader.freshAddr_events _ _ _ h6
  have e7 := SnapshotReader.EnqueueRehashingOfMap_events _ _ _ _ h7
  obtain ⟨ps', -, e8⟩ := LinkedHashMap.ReadFrom.loop_events _ _ _ _ _ _ _ h8
  have e9 := SnapshotReader.StoreHandle_events _ _ _ _ _ h9
  refine ⟨len, _, rfl, ?_, rfl, rfl, ?_, rfl, rfl⟩
  · rw [e9, e8, e7, e6, e5, e4]
    simp
  · simpa using hd

/-- On a stream holding the type arguments, a count `len` with
    `0 ≤ len ≤ 2 ^ 61` and `2 * len` keys and values, `LinkedHashMap::ReadFrom`
    returns; every store landed in the data array. -/
theorem LinkedHashMap.ReadFrom_in_bounds (t : Target) (object_id : Int) (tags : Tags)
    (kind : Snapshot.Kind) (m : Bool) (len : Int) (ta : ObjectPtr) (ps : List ObjectPtr)
    (b b' : Bool) (rest : List Item) (r : SnapshotReader)
    (h0 : 0 ≤ len) (hle : len ≤ 2 ^ 61) (hk : t.kInitialIndexSize < 2 ^ 63)
    (hn : ps.length = (2 * len).toNat)
    (hs : r.stream = Item.ObjectImpl ta b :: Item.Write .ObjectPtr len
      :: (ps.map (fun p => Item.ObjectImpl p b') ++ rest)) :
    ∃ (mp : UntaggedLinkedHashMap) (r' : SnapshotReader),
      LinkedHashMap.ReadFrom t object_id tags kind m r = some (.LinkedHashMap mp, r')
        ∧ r'.stream = rest
        ∧ mp.used_data = 2 * len
        ∧ mp.data_length = LinkedHashMap.dataSize t (2 * len)
        ∧ mp.data_elements
            = ps ++ List.replicate ((LinkedHashMap.dataSize t (2 * len)).toNat - ps.length)
                Object.null
        ∧ mp.deleted_keys = 0 ∧ mp.hash_mask = 0 := by
  obtain ⟨hU, hD, hroom⟩ := LinkedHashMap.dataSize_room t len h0 hle hk
  rw [hU] at hroom
  have hb : 0 + ps.length
      ≤ (List.replicate (LinkedHashMap.dataSize t (2 * len)).toNat Object.null).length := by
    rw [List.length_replicate, hn]
    omega
  have hloop := LinkedHashMap.ReadFrom.loop_eq b'
    (if UntaggedObject.IsCanonical tags then false else true) ps 0
    (List.replicate (LinkedHashMap.dataSize t (2 * len)).toNat Object.null) rest
    { stream := ps.map (fun p => Item.ObjectImpl p b') ++ rest,
      backrefs := r.backrefs ++ [⟨object_id, .LinkedHashMap
        { tags := ⟨kLinkedHashMapCid, false⟩, type_arguments := Object.null, hash_mask := 0,
          data := Object.null, data_length := 0, data_elements := [], used_data := 0,
          deleted_keys := 0 }, .kIsDeserialized⟩],
      finalizable_data := r.finalizable_data,
      types_to_postprocess := r.types_to_postprocess,
      maps_to_rehash := r.maps_to_rehash ++ [object_id],
      events := r.events ++ [.New kLinkedHashMapCid] ++ [.AddBackRef object_id .kIsDeserialized]
        ++ [.ReadObjectImpl false ta] ++ [.Read .ObjectPtr len] ++ [.New kArrayCid]
        ++ [.EnqueueRehashingOfMap object_id],
      next_addr := r.next_addr + 1 } rfl hb
  rw [hn] at hloop
  simp only [LinkedHashMap.ReadFrom, SnapshotReader.ReadSmiValue, SnapshotReader.Read,
    SnapshotReader.ReadObjectImpl, hs, SnapshotReader.New, SnapshotReader.log,
    SnapshotReader.freshAddr, SnapshotReader.EnqueueRehashingOfMap, SnapshotReader.AddBackRef,
    bind, StateT.bind, pure, StateT.pure, Option.some_bind, kAsInlinedObject, if_true, hU]
  erw [hloop]
  simp only [Option.some_bind, SnapshotReader.StoreHandle]
  refine ⟨_, _, rfl, rfl, rfl, rfl, ?_, rfl, rfl⟩
  simp [hn]

/-- C37 (amended). Map decode stays in bounds for declared pair counts up to
    `2 ^ 61`, on a target whose initial index size is below `2 ^ 63`.
    * On a stream holding the type arguments, a count `len` with
      `0 ≤ len ≤ 2 ^ 61` and `2 * len` keys and values,
      `LinkedHashMap::ReadFrom` returns a map with `used_data = 2 * len` and a
      data array of size `max(RoundUpToPowerOfTwo(2 * len), kInitialIndexSize)`,
      which is at least `used_data`; every store to the slots
      `0 .. used_data - 1` landed in the array (these slots hold the keys and
      values read, in order); the map has no deleted keys and hash mask `0`.
    * Whenever `LinkedHashMap::ReadFrom` returns, on any reader state and for
      any count `n` read, the map has `used_data = (intptr_t)(n << 1)`, a data
      array of the size computed from `used_data`, no deleted keys and hash
      mask `0`; and when `0 ≤ n ≤ 2 ^ 61`, `used_data` is `2 * n` and does not
      exceed the size of the data array. -/
theorem C37_map_decode_in_bounds (t : Target) (object_id : Int) (tags : Tags)
    (kind : Snapshot.Kind) (m : Bool) (len : Int) (ta : ObjectPtr) (ps : List ObjectPtr)
    (b b' : Bool) (rest : List Item) (r : SnapshotReader)
    (h0 : 0 ≤ len) (hle : len ≤ 2 ^ 61) (hk : t.kInitialIndexSize < 2 ^ 63)
    (hn : ps.length = (2 * len).toNat)
    (hs : r.stream = Item.ObjectImpl ta b :: Item.Write .ObjectPtr len
      :: (ps.map (fun p => Item.ObjectImpl p b') ++ rest)) :
    (∃ (mp : UntaggedLinkedHashMap) (r' : SnapshotReader),
      LinkedHashMap.ReadFrom t object_id tags kind m r = some (.LinkedHashMap mp, r')
        ∧ r'.stream = rest
        ∧ mp.used_data = 2 * len
        ∧ mp.data_length
            = ((max (Utils.RoundUpToPowerOfTwo (2 * len).toNat) t.kInitialIndexSize : Nat) : Int)
        ∧ mp.used_data ≤ mp.data_length
        ∧ mp.data_elements.length = mp.data_length.toNat
        ∧ mp.data_elements.take mp.used_data.toNat = ps
        ∧ mp.deleted_keys = 0 ∧ mp.hash_mask = 0)
      ∧ ∀ (r0 : SnapshotReader) (o : Obj) (r' : SnapshotReader),
          LinkedHashMap.ReadFrom t object_id tags kind m r0 = some (o, r') →
            ∃ (n : Int) (mp : UntaggedLinkedHashMap),
              o = Obj.LinkedHashMap mp
                ∧ ReaderEvent.Read .ObjectPtr n ∈ r'.events
                ∧ mp.used_data = toIntptr (n * 2)
                ∧ mp.data_length = LinkedHashMap.dataSize t mp.used_data
                ∧ mp.data_elements.length = mp.data_length.toNat
                ∧ mp.deleted_keys = 0 ∧ mp.hash_mask = 0
                ∧ (0 ≤ n → n ≤ 2 ^ 61 →
                    mp.used_data = 2 * n ∧ mp.used_data ≤ mp.data_length
                      ∧ mp.used_data.toNat ≤ mp.data_elements.length) := by
  obtain ⟨hU, hD, hroom⟩ := LinkedHashMap.dataSize_room t len h0 hle hk
  rw [hU] at hD hroom
  constructor
  · obtain ⟨mp, r', hr, hst, hu, hdl, hde, hdk, hhm⟩ :=
      LinkedHashMap.ReadFrom_in_bounds t object_id tags kind m len ta ps b b' rest r h0 hle hk
        hn hs
    refine ⟨mp, r', hr, hst, hu, by rw [hdl, hD], by rw [hu, hdl]; exact hroom, ?_, ?_,
      hdk, hhm⟩
    · rw [hde, hdl, List.length_append, List.length_replicate, hn]
      clear hD hk hle hr hde hdl
      omega
    · rw [hde, hu, ← hn]
      exact List.take_left' rfl
  · intro r0 o r' h
    obtain ⟨n, mp, ho, hev, hu, hdl, hde, hdk, hhm⟩ :=
      LinkedHashMap.ReadFrom_sizes t object_id tags kind m r0 o r' h
    refine ⟨n, mp, ho, hev, hu, hdl, hde, hdk, hhm, fun hn0 hnle => ?_⟩
    obtain ⟨hU', -, hroom'⟩ := LinkedHashMap.dataSize_room t n hn0 hnle hk
    rw [← hu] at hU' hroom'
    rw [← hdl] at hroom'
    have hroom2 : mp.used_data ≤ mp.data_length := by rw [hU']; exact hroom'
    refine ⟨hU', hroom2, ?_⟩
    rw [hde]
    exact Int.toNat_le_toNat hroom2

/-- C37 (amended), concrete instance: a map of one pair on the 64-bit target
    (initial index size 8). -/
theorem C37_map_decode_in_bounds_witness :
    ∃ (mp : UntaggedLinkedHashMap) (r' : SnapshotReader),
      LinkedHashMap.ReadFrom Target.x64 1 ⟨kLinkedHashMapCid, false⟩ .kMessage false
          (SnapshotReader.init [.ObjectImpl Object.null false, .Write .ObjectPtr 1,
            .ObjectImpl (.smi 3) true, .ObjectImpl (.smi 4) true] .empty)
        = some (.LinkedHashMap mp, r')
        ∧ r'.stream = []
        ∧ mp.used_data = 2 * 1
        ∧ mp.used_data ≤ mp.data_length
        ∧ mp.data_elements.take mp.used_data.toNat = [.smi 3, .smi 4]
        ∧ mp.deleted_keys = 0 ∧ mp.hash_mask = 0 := by
  obtain ⟨mp, r', h1, h2, h3, -, h5, -, h7, h8, h9⟩ :=
    (C37_map_decode_in_bounds Target.x64 1 ⟨kLinkedHashMapCid, false⟩ .kMessage false 1
      Object.null [.smi 3, .smi 4] false true []
      (SnapshotReader.init [.ObjectImpl Object.null false, .Write .ObjectPtr 1,
        .ObjectImpl (.smi 3) true, .ObjectImpl (.smi 4) true] .empty)
      (by decide) (by decide) (by decide) rfl rfl).1
  exact ⟨mp, r', h1, h2, h3, h5, h7, h8, h9⟩

/-- C37, counterexample: the declared pair count `2 ^ 61 + 1`, a valid small
    integer of the 64-bit target. `used_data = len << 1` is `2 ^ 62 + 2`
    (nothing wraps yet); `RoundUpToPowerOfTwo(used_data)` is `2 ^ 63`, and so is
    its maximum with the initial index size, as a `uintptr_t`; assigned to the
    `intptr_t data_size` this is `-2 ^ 63`, which is less than `used_data`. -/
theorem C37_counterexample :
    Smi.IsValid Target.x64.kSmiBits (2 ^ 61 + 1) = true
      ∧ toIntptr ((2 ^ 61 + 1) * 2) = 2 ^ 62 + 2
      ∧ Utils.RoundUpToPowerOfTwo (toUint64 (toIntptr ((2 ^ 61 + 1) * 2))) = 2 ^ 63
      ∧ max (Utils.RoundUpToPowerOfTwo (toUint64 (toIntptr ((2 ^ 61 + 1) * 2))))
          Target.x64.kInitialIndexSize = 2 ^ 63
      ∧ LinkedHashMap.dataSize Target.x64 (toIntptr ((2 ^ 61 + 1) * 2)) = -2 ^ 63
      ∧ LinkedHashMap.dataSize Target.x64 (toIntptr ((2 ^ 61 + 1) * 2))
          < toIntptr ((2 ^ 61 + 1) * 2) := by
  have h1 : toIntptr ((2 ^ 61 + 1) * 2) = 2 ^ 62 + 2 := by
    unfold toIntptr kBitsPerWord
    norm_num
  have h2 : toUint64 (2 ^ 62 + 2) = 2 ^ 62 + 2 := by
    unfold toUint64
    norm_num
    rfl
  have h3 : Utils.RoundUpToPowerOfTwo (2 ^ 62 + 2) = 2 ^ 63 := by
    norm_num [Utils.RoundUpToPowerOfTwo, Utils.RoundUpToPowerOfTwo.loop, kBitsPerWord]
  have h4 : LinkedHashMap.dataSize Target.x64 (2 ^ 62 + 2) = -2 ^ 63 := by
    unfold LinkedHashMap.dataSize
    rw [h2, h3]
    unfold toIntptr kBitsPerWord
    norm_num [Target.x64]
  rw [h1, h2, h3, h4]
  refine ⟨by simp [Smi.IsValid, Target.x64], rfl, rfl, by norm_num [Target.x64], rfl,
    by norm_num⟩

end Dart
